import Mathlib

/-!
# BasicRayTracer: a shallow embedding and its verified properties

The C++ sources (`Vector3`, `BoundingBox`, `Material`, `Primitive`, `KDTree`,
`Scene`, `Renderer`, `BSSRDF`, `ThinLensCamera`, `FrameBuffer`, the tile loops
of `main`) are translated function by function.

Modelling conventions:

* `float` is an arbitrary linearly ordered field `F` (exact arithmetic, no
  rounding, no infinities, no NaN).  Concrete evaluations use `ℚ`.  A decimal
  literal such as `0.01f` stands for its decimal value; `FLT_EPSILON` and
  `FLT_MAX` have their IEEE values.  A quotient of field numbers has no float
  meaning when the divisor is zero; a statement whose content depends on such
  a quotient assumes the divisor non-zero.
* Where the code divides by zero a float is a `FloatValue F`: a number of `F`,
  an infinity or NaN, with the products and comparisons of IEEE 754 and
  `std::min`, `std::max` as in `<algorithm>`; the zero of `F` stands for `+0`
  (for a direction other than the zero vector the slab test answers the same
  with `-0`, `BoundingBox.intersects_sign`).
  This is the inverse direction `1.0f / direction.x` of the slab test
  (`KDTree.invDirection`, `BoundingBox.intersects`) and the quotient
  `-b / (2.0f * a)` of the sphere test (`Sphere.intersectsFloat`).
  `Sphere.intersects` itself is in field arithmetic and agrees with the float
  values for every direction other than the zero vector
  (`Sphere.intersectsFloat_eq`).
* The C library functions the code calls (`sqrt`, `atan2`, `asin`, `pow`) and
  the constant `M_PI` are a parameter `L : MathFns F`.
* A pointer is the pointee together with its address (`addr`); pointer
  comparison is comparison of addresses.  A possibly-null `KDNode*` is the
  constructor `KDNode.null`.
* A `bool`-returning function with a `HitData&` out-parameter returns
  `Option (HitData F)`: `some h` for `true` with the data written, `none` for
  `false`.
* Undefined behaviour (dereferencing a null node, indexing out of range) is an
  `Except.error` carrying a `Fault`.
* The `int` values of the tile loops of `main.cpp` and of `FrameBuffer.h` are
  natural numbers; an `int` expression whose value exceeds `INT_MAX` is an
  `Except.error` carrying `TileFault.signedOverflow`.
* Recursion that the C++ code bounds by its data is either structural, or
  well-founded (`traceRay`, on the bounce count), or fuelled with a budget
  proved sufficient (`makeNode`, on the length of the list).
-/

namespace RayTracer

/-! ## Constants of `<cfloat>` and of the headers -/

/-- The constant `FLT_EPSILON` of `<cfloat>`, which is `2^-23`. -/
def FLT_EPSILON {F : Type} [LinearOrderedField F] : F := 1 / 2 ^ 23

/-- The constant `FLT_MAX` of `<cfloat>`, which is `(2 - 2^-23) * 2^127`. -/
def FLT_MAX {F : Type} [LinearOrderedField F] : F := (2 - 1 / 2 ^ 23) * 2 ^ 127

/-- The macro `MIN_SHADOW_INTERSECT 0.0001f` of `KDTree.h`. -/
def MIN_SHADOW_INTERSECT {F : Type} [LinearOrderedField F] : F := 1 / 10000

/-- The macro `FULLY_OPAQUE_THRESHOLD 0.01f` of `Scene.h`; `KDTree.cpp` writes the
literal `0.01f`. -/
def FULLY_OPAQUE_THRESHOLD {F : Type} [LinearOrderedField F] : F := 1 / 100

/-- The C library functions used by the sources, and `M_PI`. -/
structure MathFns (F : Type) where
  sqrt : F → F
  atan2 : F → F → F
  asin : F → F
  pow : F → F → F
  pi : F

/-! ## Vector3.h / Vector3.cpp -/

/-- The class `Vector3`: three floats. -/
structure Vector3 (F : Type) where
  x : F
  y : F
  z : F
deriving DecidableEq

namespace Vector3

variable {F : Type} [LinearOrderedField F]

/-- The default constructor `Vector3()`: all components zero. -/
def zero : Vector3 F := ⟨0, 0, 0⟩

/-- Addition of a scalar, `operator+(float)`. -/
def addScalar (a : Vector3 F) (s : F) : Vector3 F := ⟨a.x + s, a.y + s, a.z + s⟩

/-- Componentwise sum, `operator+(const Vector3&)`. -/
def add (a b : Vector3 F) : Vector3 F := ⟨a.x + b.x, a.y + b.y, a.z + b.z⟩

/-- Subtraction of a scalar, `operator-(float)`. -/
def subScalar (a : Vector3 F) (s : F) : Vector3 F := ⟨a.x - s, a.y - s, a.z - s⟩

/-- Componentwise difference, `operator-(const Vector3&)`. -/
def sub (a b : Vector3 F) : Vector3 F := ⟨a.x - b.x, a.y - b.y, a.z - b.z⟩

/-- Multiplication by a scalar, `operator*(float)`. -/
def scale (a : Vector3 F) (s : F) : Vector3 F := ⟨a.x * s, a.y * s, a.z * s⟩

/-- Componentwise product, `operator*(const Vector3&)`. -/
def mul (a b : Vector3 F) : Vector3 F := ⟨a.x * b.x, a.y * b.y, a.z * b.z⟩

/-- Division by a scalar, `operator/(float)`. -/
def divScalar (a : Vector3 F) (s : F) : Vector3 F := ⟨a.x / s, a.y / s, a.z / s⟩

/-- Componentwise quotient, `operator/(const Vector3&)`. -/
def div (a b : Vector3 F) : Vector3 F := ⟨a.x / b.x, a.y / b.y, a.z / b.z⟩

/-- Unary minus, `operator-()`. -/
def neg (a : Vector3 F) : Vector3 F := ⟨-a.x, -a.y, -a.z⟩

/-- The method `Vector3::cross`. -/
def cross (a o : Vector3 F) : Vector3 F :=
  ⟨a.y * o.z - a.z * o.y, -a.x * o.z + a.z * o.x, a.x * o.y - a.y * o.x⟩

/-- The method `Vector3::dot`. -/
def dot (a o : Vector3 F) : F := a.x * o.x + a.y * o.y + a.z * o.z

/-- The method `Vector3::reflect`: `normal * (normal.dot(*this)) * 2 - *this`. -/
def reflect (a normal : Vector3 F) : Vector3 F :=
  sub (scale (scale normal (dot normal a)) 2) a

/-- The method `Vector3::MaxComponent`. -/
def MaxComponent (a : Vector3 F) : F := max a.x (max a.y a.z)

/-- The method `Vector3::Get`: component by axis index. -/
def Get (a : Vector3 F) (axis : Int) : F :=
  if axis = 0 then a.x else if axis = 1 then a.y else a.z

/-- The method `Vector3::length`. -/
def length (L : MathFns F) (a : Vector3 F) : F := L.sqrt (a.x * a.x + a.y * a.y + a.z * a.z)

/-- The method `Vector3::normalize`: `*this / length()`. -/
def normalize (L : MathFns F) (a : Vector3 F) : Vector3 F := divScalar a (length L a)

/-- The method `Vector3::refract`.  The C++ function returns `true` on total internal
reflection and otherwise `false` with the refracted vector written to `refractDir`; here
`none` stands for `true` and `some refractDir` for `false`. -/
def refract (L : MathFns F) (a normal : Vector3 F) (n : F) : Option (Vector3 F) :=
  let cosi0 := dot a normal
  let flip : Bool := decide (cosi0 < 0)
  let cosi := if flip then -cosi0 else cosi0
  let ni : F := if flip then 1 else n
  let nt : F := if flip then n else 1
  let norm := if flip then normal else neg normal
  let eta := ni / nt
  let k := 1 - eta * eta * (1 - cosi * cosi)
  if k < 0 then none
  else some (add (scale a eta) (scale norm (eta * cosi - L.sqrt k)))

end Vector3

/-! ## Values of the type `float` that are not numbers -/

/-- A value of the type `float` where the code divides by zero: a number of the field, an
infinity, or NaN. -/
inductive FloatValue (F : Type) where
  | num (x : F)
  | posInf
  | negInf
  | nan
deriving DecidableEq

/-- The quotient `x / y` of two numbers in IEEE 754 arithmetic, the zero of the field standing
for `+0`: `0 / 0` is NaN and a non-zero `x` over zero is the infinity of the sign of `x`. -/
def FloatValue.div {F : Type} [LinearOrderedField F] (x y : F) : FloatValue F :=
  if y = 0 then (if x = 0 then FloatValue.nan else if 0 < x then FloatValue.posInf
    else FloatValue.negInf)
  else FloatValue.num (x / y)

/-- The product `a * v` of a number and a float value: an infinity takes the sign of the
product, and `0 * inf` is NaN. -/
def FloatValue.scale {F : Type} [LinearOrderedField F] (a : F) : FloatValue F → FloatValue F
  | FloatValue.num x => FloatValue.num (a * x)
  | FloatValue.posInf =>
    if 0 < a then FloatValue.posInf else if a < 0 then FloatValue.negInf else FloatValue.nan
  | FloatValue.negInf =>
    if 0 < a then FloatValue.negInf else if a < 0 then FloatValue.posInf else FloatValue.nan
  | FloatValue.nan => FloatValue.nan

/-- The comparison `a < b` of float values: false whenever an operand is NaN. -/
def FloatValue.lt {F : Type} [LinearOrderedField F] : FloatValue F → FloatValue F → Bool
  | FloatValue.num x, FloatValue.num y => decide (x < y)
  | FloatValue.num _, FloatValue.posInf => true
  | FloatValue.negInf, FloatValue.num _ => true
  | FloatValue.negInf, FloatValue.posInf => true
  | _, _ => false

/-- The comparison `a <= b` of float values: false whenever an operand is NaN. -/
def FloatValue.le {F : Type} [LinearOrderedField F] : FloatValue F → FloatValue F → Bool
  | FloatValue.num x, FloatValue.num y => decide (x ≤ y)
  | FloatValue.nan, _ => false
  | _, FloatValue.nan => false
  | FloatValue.negInf, _ => true
  | _, FloatValue.posInf => true
  | _, _ => false

/-- The comparison `a >= b` of float values: `b <= a`. -/
def FloatValue.ge {F : Type} [LinearOrderedField F] (a b : FloatValue F) : Bool :=
  FloatValue.le b a

/-- The function `std::min(a, b)`, which is `(b < a) ? b : a`. -/
def FloatValue.min {F : Type} [LinearOrderedField F] (a b : FloatValue F) : FloatValue F :=
  if FloatValue.lt b a then b else a

/-- The function `std::max(a, b)`, which is `(a < b) ? b : a`. -/
def FloatValue.max {F : Type} [LinearOrderedField F] (a b : FloatValue F) : FloatValue F :=
  if FloatValue.lt a b then b else a

/-- Componentwise product `operator*(const Vector3&)` of a vector of numbers with a vector of
float values. -/
def Vector3.mulValue {F : Type} [LinearOrderedField F] (a : Vector3 F)
    (b : Vector3 (FloatValue F)) : Vector3 (FloatValue F) :=
  ⟨FloatValue.scale a.x b.x, FloatValue.scale a.y b.y, FloatValue.scale a.z b.z⟩

/-! ## BoundingBox.h -/

/-- The class `BoundingBox`: an axis-aligned box given by two corners. -/
structure BoundingBox (F : Type) where
  minCorner : Vector3 F
  maxCorner : Vector3 F
deriving DecidableEq

namespace BoundingBox

variable {F : Type} [LinearOrderedField F]

/-- The method `BoundingBox::Expand`; the mutated receiver is the result. -/
def Expand (a bounds : BoundingBox F) : BoundingBox F :=
  { minCorner := ⟨min a.minCorner.x bounds.minCorner.x, min a.minCorner.y bounds.minCorner.y,
      min a.minCorner.z bounds.minCorner.z⟩
    maxCorner := ⟨max a.maxCorner.x bounds.maxCorner.x, max a.maxCorner.y bounds.maxCorner.y,
      max a.maxCorner.z bounds.maxCorner.z⟩ }

/-- The method `BoundingBox::intersects`: the slab test against a ray given by its origin and
the componentwise inverse of its direction, whose components are infinite where the direction
component is zero.  The products, `std::min`, `std::max` and the two comparisons are those of
float values. -/
def intersects (a : BoundingBox F) (origin : Vector3 F) (invDirection : Vector3 (FloatValue F)) :
    Bool :=
  let T1 := Vector3.mulValue (Vector3.sub a.minCorner origin) invDirection
  let T2 := Vector3.mulValue (Vector3.sub a.maxCorner origin) invDirection
  let tmin0 := FloatValue.min T1.x T2.x
  let tmin1 := FloatValue.max tmin0 (FloatValue.min T1.y T2.y)
  let tmin := FloatValue.max tmin1 (FloatValue.min T1.z T2.z)
  let tmax0 := FloatValue.max T1.x T2.x
  let tmax1 := FloatValue.min tmax0 (FloatValue.max T1.y T2.y)
  let tmax := FloatValue.min tmax1 (FloatValue.max T1.z T2.z)
  FloatValue.ge tmax tmin && FloatValue.ge tmax (FloatValue.num 0)

/-- The method `BoundingBox::LongestAxis`. -/
def LongestAxis (a : BoundingBox F) : Int :=
  let delta := Vector3.sub a.maxCorner a.minCorner
  let maxLength0 := delta.x
  let axis0 : Int := 0
  let maxLength1 := if delta.y > maxLength0 then delta.y else maxLength0
  let axis1 : Int := if delta.y > maxLength0 then 1 else axis0
  if delta.z > maxLength1 then 2 else axis1

/-- The method `BoundingBox::GetMidpoint`; `0.5f` is exact. -/
def GetMidpoint (a : BoundingBox F) : Vector3 F :=
  Vector3.scale (Vector3.add a.maxCorner a.minCorner) (1 / 2)

end BoundingBox

/-! ## Material.h -/

/-- The class `Material`.  The pointer `bssrdf` is the address of the profile, `none` for
`NULL`. -/
structure Material (F : Type) where
  diffColor : Vector3 F
  ambColor : Vector3 F
  specColor : Vector3 F
  emissColor : Vector3 F
  shininess : F
  ktran : F
  bssrdf : Option Nat
deriving DecidableEq

namespace Material

variable {F : Type} [LinearOrderedField F]

/-- The operator `Material::operator*(float)`; the profile pointer is kept. -/
def scale (m : Material F) (s : F) : Material F :=
  { diffColor := Vector3.scale m.diffColor s
    ambColor := Vector3.scale m.ambColor s
    specColor := Vector3.scale m.specColor s
    emissColor := Vector3.scale m.emissColor s
    shininess := m.shininess * s
    ktran := m.ktran * s
    bssrdf := m.bssrdf }

/-- The operator `Material::operator+`; the profile pointer of the left operand is kept. -/
def add (m other : Material F) : Material F :=
  { diffColor := Vector3.add m.diffColor other.diffColor
    ambColor := Vector3.add m.ambColor other.ambColor
    specColor := Vector3.add m.specColor other.specColor
    emissColor := Vector3.add m.emissColor other.emissColor
    shininess := m.shininess + other.shininess
    ktran := m.ktran + other.ktran
    bssrdf := m.bssrdf }

end Material

/-- The struct `HitData`. -/
structure HitData (F : Type) where
  t : F
  position : Vector3 F
  normal : Vector3 F
  material : Material F
  u : F
  v : F
deriving DecidableEq

/-! ## Object.h and Shader.h -/

/-- The class `Object` as far as rendering reads it: its address, its index of refraction and
its two optional shaders (`none` for `NULL`).  `ColorShader::Shade(hitData, out)` is called with
`out` aliasing `hitData.material` and every shader of `Shader.h` writes `out` only; the function
gives the material after the call. -/
structure Object (F : Type) where
  addr : Nat
  indexOfRefraction : F
  colorShader : Option (HitData F → Material F)
  intersectionShader : Option (HitData F → Bool)

/-- The test `parent->intersectionShader != NULL && !parent->intersectionShader->Shade(hitData)`
shared by all intersection routines. -/
def Object.rejects {F : Type} (parent : Object F) (hitData : HitData F) : Bool :=
  match parent.intersectionShader with
  | none => false
  | some shade => !shade hitData

/-! ## Primitive.h / Primitive.cpp -/

/-- The class `Sphere` (fields of the derived class). -/
structure Sphere (F : Type) where
  material : Material F
  center : Vector3 F
  radius : F

/-- The class `Triangle` (fields of the derived class): vertex positions `v[3]`, normals
`n[3]`, materials `m[3]` and texture coordinates `tex[3]`. -/
structure Triangle (F : Type) where
  v0 : Vector3 F
  v1 : Vector3 F
  v2 : Vector3 F
  n0 : Vector3 F
  n1 : Vector3 F
  n2 : Vector3 F
  m0 : Material F
  m1 : Material F
  m2 : Material F
  tex0 : Vector3 F
  tex1 : Vector3 F
  tex2 : Vector3 F

/-- The two concrete subclasses of `Primitive`. -/
inductive Shape (F : Type) where
  | sphere (s : Sphere F)
  | triangle (t : Triangle F)

/-- A `Primitive*`: the address of the primitive, its `parent` object and the derived
object. -/
structure Primitive (F : Type) where
  addr : Nat
  parent : Object F
  shape : Shape F

namespace Sphere

variable {F : Type} [LinearOrderedField F]

/-- The block of `Sphere::intersects` that fills `hitData` for a root `t`.  The flag
`mirrored` selects `u = 1 - (0.5 + atan2(..)/(2 pi))` of the two-root branch over
`u = 0.5 + atan2(..)/(2 pi)` of the one-root branch. -/
def hitAt (L : MathFns F) (s : Sphere F) (origin direction : Vector3 F) (t : F)
    (mirrored : Bool) : HitData F :=
  let position := Vector3.add origin (Vector3.scale direction t)
  let normal := Vector3.normalize L (Vector3.sub position s.center)
  let u0 := 1 / 2 + L.atan2 normal.z normal.x / (2 * L.pi)
  { t := t
    position := position
    normal := normal
    material := s.material
    u := if mirrored then 1 - u0 else u0
    v := 1 / 2 - L.asin normal.y / L.pi }

/-- The value `a` of `Sphere::intersects`: `direction.dot(direction)`. -/
def coeffA (direction : Vector3 F) : F := Vector3.dot direction direction

/-- The value `b` of `Sphere::intersects`: `direction.dot(offset) * 2.0f`. -/
def coeffB (s : Sphere F) (origin direction : Vector3 F) : F :=
  Vector3.dot direction (Vector3.sub origin s.center) * 2

/-- The value `c` of `Sphere::intersects`: `offset.dot(offset) - radius * radius`. -/
def coeffC (s : Sphere F) (origin : Vector3 F) : F :=
  Vector3.dot (Vector3.sub origin s.center) (Vector3.sub origin s.center) - s.radius * s.radius

/-- The value `determinant` of `Sphere::intersects`: `b*b - 4*a*c`. -/
def determinant (s : Sphere F) (origin direction : Vector3 F) : F :=
  coeffB s origin direction * coeffB s origin direction
    - 4 * coeffA direction * coeffC s origin

/-- The block under `//get closest greater than 0` of `Sphere::intersects`: the value of `t`
chosen from the two roots. -/
def selectRoot (t1 t2 : F) : F :=
  if t1 ≥ 0 then (if t2 ≥ 0 then min t1 t2 else t1) else t2

/-- The method `Sphere::intersects`. -/
def intersects (L : MathFns F) (parent : Object F) (s : Sphere F)
    (origin direction : Vector3 F) : Option (HitData F) :=
  let a := coeffA direction
  let b := coeffB s origin direction
  let determinant := determinant s origin direction
  if determinant < FLT_EPSILON ∧ determinant > -FLT_EPSILON then
    let t := -b / (2 * a)
    if t ≤ 0 then none
    else
      let hitData := hitAt L s origin direction t false
      if parent.rejects hitData then none else some hitData
  else if determinant > FLT_EPSILON then
    let t1 := (-b + L.sqrt determinant) / (2 * a)
    let t2 := (-b - L.sqrt determinant) / (2 * a)
    let further := max t1 t2
    let t := selectRoot t1 t2
    if t ≤ 0 then none
    else
      let hitData := hitAt L s origin direction t true
      if parent.rejects hitData then
        let hitData2 := hitAt L s origin direction further true
        if parent.rejects hitData2 then none else some hitData2
      else some hitData
  else none

/-- The method `Sphere::GetBounds`. -/
def GetBounds (s : Sphere F) : BoundingBox F :=
  { minCorner := Vector3.subScalar s.center s.radius
    maxCorner := Vector3.addScalar s.center s.radius }

/-- The method `Sphere::GetMidpoint`. -/
def GetMidpoint (s : Sphere F) : Vector3 F := s.center

end Sphere

/-- The method `Sphere::intersects` for an object without intersection shader, with the
quotients by `2.0f * a` as float values: `some t` when the method returns `true` with
`hitData.t = t`, and `none` when it returns `false`.  For the zero direction vector `a` and `b`
are zero and the quotient `-b / (2.0f * a)` of the one-root branch is `0 / 0`, which is NaN;
the test `t <= 0` is false for NaN. -/
def Sphere.intersectsFloat {F : Type} [LinearOrderedField F] (L : MathFns F) (s : Sphere F)
    (origin direction : Vector3 F) : Option (FloatValue F) :=
  let a := Sphere.coeffA direction
  let b := Sphere.coeffB s origin direction
  let determinant := Sphere.determinant s origin direction
  if determinant < FLT_EPSILON ∧ determinant > -FLT_EPSILON then
    let t := FloatValue.div (-b) (2 * a)
    if FloatValue.le t (FloatValue.num 0) then none else some t
  else if determinant > FLT_EPSILON then
    let t1 := FloatValue.div (-b + L.sqrt determinant) (2 * a)
    let t2 := FloatValue.div (-b - L.sqrt determinant) (2 * a)
    let t := if FloatValue.ge t1 (FloatValue.num 0) then
        (if FloatValue.ge t2 (FloatValue.num 0) then FloatValue.min t1 t2 else t1)
      else t2
    if FloatValue.le t (FloatValue.num 0) then none else some t
  else none

namespace Triangle

variable {F : Type} [LinearOrderedField F]

/-- The value `det` of `Triangle::intersects`: `edge1.dot(direction.cross(edge2))`. -/
def det (tr : Triangle F) (direction : Vector3 F) : F :=
  Vector3.dot (Vector3.sub tr.v1 tr.v0) (Vector3.cross direction (Vector3.sub tr.v2 tr.v0))

/-- The value `u` of `Triangle::intersects`: `T.dot(P) * inv_det`. -/
def baryU (tr : Triangle F) (origin direction : Vector3 F) : F :=
  let edge2 := Vector3.sub tr.v2 tr.v0
  let P := Vector3.cross direction edge2
  let inv_det := 1 / det tr direction
  let T := Vector3.sub origin tr.v0
  Vector3.dot T P * inv_det

/-- The value `v` of `Triangle::intersects`: `direction.dot(Q) * inv_det`. -/
def baryV (tr : Triangle F) (origin direction : Vector3 F) : F :=
  let edge1 := Vector3.sub tr.v1 tr.v0
  let inv_det := 1 / det tr direction
  let T := Vector3.sub origin tr.v0
  let Q := Vector3.cross T edge1
  Vector3.dot direction Q * inv_det

/-- The value `t` of `Triangle::intersects`: `edge2.dot(Q) * inv_det`. -/
def rayT (tr : Triangle F) (origin direction : Vector3 F) : F :=
  let edge1 := Vector3.sub tr.v1 tr.v0
  let edge2 := Vector3.sub tr.v2 tr.v0
  let inv_det := 1 / det tr direction
  let T := Vector3.sub origin tr.v0
  let Q := Vector3.cross T edge1
  Vector3.dot edge2 Q * inv_det

/-- The block of `Triangle::intersects` that fills `hitData` from `t`, `u` and `v`. -/
def hitAt (L : MathFns F) (tr : Triangle F) (origin direction : Vector3 F) (t u v : F) :
    HitData F :=
  let w := 1 - (u + v)
  { t := t
    position := Vector3.add origin (Vector3.scale direction t)
    normal := Vector3.normalize L
      (Vector3.add (Vector3.add (Vector3.scale tr.n0 w) (Vector3.scale tr.n1 u))
        (Vector3.scale tr.n2 v))
    material := Material.add (Material.add (Material.scale tr.m0 w) (Material.scale tr.m1 u))
      (Material.scale tr.m2 v)
    u := tr.tex0.x * w + tr.tex1.x * u + tr.tex2.x * v
    v := tr.tex0.y * w + tr.tex1.y * u + tr.tex2.y * v }

/-- The method `Triangle::intersects` (Moller-Trumbore). -/
def intersects (L : MathFns F) (parent : Object F) (tr : Triangle F)
    (origin direction : Vector3 F) : Option (HitData F) :=
  let det := det tr direction
  if det > -FLT_EPSILON ∧ det < FLT_EPSILON then none
  else
    let u := baryU tr origin direction
    if u < 0 ∨ u > 1 then none
    else
      let v := baryV tr origin direction
      if v < 0 ∨ u + v > 1 then none
      else
        let t := rayT tr origin direction
        if t > FLT_EPSILON then
          let hitData := hitAt L tr origin direction t u v
          if parent.rejects hitData then none else some hitData
        else none

/-- The method `Triangle::GetBounds`. -/
def GetBounds (tr : Triangle F) : BoundingBox F :=
  { minCorner := ⟨min tr.v0.x (min tr.v1.x tr.v2.x), min tr.v0.y (min tr.v1.y tr.v2.y),
      min tr.v0.z (min tr.v1.z tr.v2.z)⟩
    maxCorner := ⟨max tr.v0.x (max tr.v1.x tr.v2.x), max tr.v0.y (max tr.v1.y tr.v2.y),
      max tr.v0.z (max tr.v1.z tr.v2.z)⟩ }

/-- The method `Triangle::GetMidpoint`: `(v[0] + v[1] + v[2]) * (1.0f / 3.0f)`. -/
def GetMidpoint (tr : Triangle F) : Vector3 F :=
  Vector3.scale (Vector3.add (Vector3.add tr.v0 tr.v1) tr.v2) (1 / 3)

end Triangle

namespace Primitive

variable {F : Type} [LinearOrderedField F]

/-- The virtual method `Primitive::intersects`. -/
def intersects (L : MathFns F) (p : Primitive F) (origin direction : Vector3 F) :
    Option (HitData F) :=
  match p.shape with
  | .sphere s => Sphere.intersects L p.parent s origin direction
  | .triangle t => Triangle.intersects L p.parent t origin direction

/-- The virtual method `Primitive::GetBounds`. -/
def GetBounds (p : Primitive F) : BoundingBox F :=
  match p.shape with
  | .sphere s => Sphere.GetBounds s
  | .triangle t => Triangle.GetBounds t

/-- The virtual method `Primitive::GetMidpoint`. -/
def GetMidpoint (p : Primitive F) : Vector3 F :=
  match p.shape with
  | .sphere s => Sphere.GetMidpoint s
  | .triangle t => Triangle.GetMidpoint t

end Primitive

/-! ## KDTree.h / KDTree.cpp -/

/-- The ways in which the C++ code can leave defined behaviour, plus the exhaustion of the
recursion budget of the embedding. -/
inductive Fault where
  | nullDereference
  | indexOutOfRange
  | outOfFuel
deriving DecidableEq

/-- A `KDNode*`: either `NULL` or a node with its two children, its bounds and its index into
`KDTree::nodePrimitives`. -/
inductive KDNode (F : Type) where
  | null
  | node (left right : KDNode F) (bounds : BoundingBox F) (primitivesIndex : Nat)

/-- The test `node == NULL`. -/
def KDNode.isNull {F : Type} : KDNode F → Bool
  | .null => true
  | .node _ _ _ _ => false

/-- The class `KDTree`: the root pointer and the vector `nodePrimitives`. -/
structure KDTree (F : Type) where
  root : KDNode F
  nodePrimitives : List (List (Primitive F))

/-- The out-parameters `hitData`, `*hitObject` and `*tMax` threaded through
`KDTree::intersectsNode`; `out = none` while the caller's variables are unwritten. -/
structure Closest (F : Type) where
  tMax : F
  out : Option (HitData F × Object F)

namespace KDTree

variable {F : Type} [LinearOrderedField F]

/-- The member `STOP_PERCENT = 0.6f`. -/
def STOP_PERCENT : F := 3 / 5

/-- The bounds loop of `makeNode`: `primitives[0]->GetBounds()` expanded by the bounds of
`primitives[1..]`. -/
def boundsOf (first : Primitive F) (rest : List (Primitive F)) : BoundingBox F :=
  rest.foldl (fun b p => BoundingBox.Expand b (Primitive.GetBounds p)) (Primitive.GetBounds first)

/-- The value `mid` of `makeNode`: the mean of the midpoints along `axis`. -/
def splitValue (primitives : List (Primitive F)) (axis : Int) : F :=
  primitives.foldl (fun m p => m + Vector3.Get (Primitive.GetMidpoint p) axis) 0
    / (primitives.length : F)

/-- The double loop of `makeNode` that counts the pairs `left[i] == right[j]` (pointer
equality). -/
def sharedCount (left right : List (Primitive F)) : Nat :=
  left.foldl
    (fun count l => right.foldl (fun count r => if l.addr = r.addr then count + 1 else count) count)
    0

/-- The test `primitives[i]->GetMidpoint().Get(axis) >= mid` of the partition loop of
`makeNode`. -/
def onRightSide (axis : Int) (mid : F) (p : Primitive F) : Bool :=
  decide (Vector3.Get (Primitive.GetMidpoint p) axis ≥ mid)

/-- The partition step of `makeNode` at recursion depth `depth`: the vectors `left` and `right`
after the loop that separates the primitives at `mid` along `axis = depth % 3` and after the
two `//was this split trivial` assignments. -/
def splitSides (primitives : List (Primitive F)) (depth : Nat) :
    List (Primitive F) × List (Primitive F) :=
  let axis : Int := ((depth % 3 : Nat) : Int)
  let mid := splitValue primitives axis
  let right0 := primitives.filter (onRightSide axis mid)
  let left0 := primitives.filter (fun p => !onRightSide axis mid p)
  let left := if left0.length = 0 then right0 else left0
  let right := if right0.length = 0 then left else right0
  (left, right)

/-- The test `sharedCount < STOP_PERCENT * left.size() && sharedCount < STOP_PERCENT *
right.size()` of `makeNode` (`//do we need to keep going?`). -/
def keepDividing (left right : List (Primitive F)) : Bool :=
  decide (((sharedCount left right : Nat) : F) < STOP_PERCENT * (left.length : F)
    ∧ ((sharedCount left right : Nat) : F) < STOP_PERCENT * (right.length : F))

/-- The method `KDTree::makeNode`, threading `nodePrimitives`.  The budget `fuel` bounds the
recursion depth; `KDTree.makeNode` supplies the length of the list. -/
def makeNodeFuel : Nat → List (List (Primitive F)) → List (Primitive F) → Nat →
    Except Fault (KDNode F × List (List (Primitive F)))
  | _, nodePrimitives, [], _ => .ok (KDNode.null, nodePrimitives)
  | 0, _, _ :: _, _ => .error Fault.outOfFuel
  | fuel + 1, nodePrimitives, first :: rest, depth =>
    let primitives := first :: rest
    let nodePrimitives1 := nodePrimitives ++ [primitives]
    let primitivesIndex := nodePrimitives1.length - 1
    if primitives.length = 1 then
      .ok (KDNode.node KDNode.null KDNode.null (boundsOf first rest) primitivesIndex,
        nodePrimitives1)
    else
      let sides := splitSides primitives depth
      if keepDividing sides.1 sides.2 then
        match makeNodeFuel fuel nodePrimitives1 sides.1 (depth + 1) with
        | .error e => .error e
        | .ok (leftNode, nodePrimitives2) =>
          match makeNodeFuel fuel nodePrimitives2 sides.2 (depth + 1) with
          | .error e => .error e
          | .ok (rightNode, nodePrimitives3) =>
            match leftNode, rightNode with
            | KDNode.node _ _ leftBounds _, KDNode.node _ _ rightBounds _ =>
              .ok (KDNode.node leftNode rightNode (BoundingBox.Expand leftBounds rightBounds)
                primitivesIndex, nodePrimitives3)
            | _, _ => .error Fault.nullDereference
      else
        .ok (KDNode.node KDNode.null KDNode.null (boundsOf first rest) primitivesIndex,
          nodePrimitives1)

/-- The method `KDTree::makeNode` on the registry built so far. -/
def makeNode (nodePrimitives : List (List (Primitive F))) (primitives : List (Primitive F))
    (depth : Nat) : Except Fault (KDNode F × List (List (Primitive F))) :=
  makeNodeFuel primitives.length nodePrimitives primitives depth

/-- The constructor `KDTree::KDTree(primitives)`: `root = makeNode(primitives, 0)` on an empty
`nodePrimitives`. -/
def build (primitives : List (Primitive F)) : Except Fault (KDTree F) :=
  match makeNode [] primitives 0 with
  | .error e => .error e
  | .ok (root, nodePrimitives) => .ok { root := root, nodePrimitives := nodePrimitives }

/-- The leaf loop of `KDTree::intersectsNode`: the local flag `hit` and the out-parameters
after testing the primitives in order. -/
def leafScan (L : MathFns F) (origin direction : Vector3 F) :
    List (Primitive F) → Bool × Closest F → Bool × Closest F
  | [], acc => acc
  | p :: ps, (hit, c) =>
    match Primitive.intersects L p origin direction with
    | some thisHitData =>
      if thisHitData.t < c.tMax then
        leafScan L origin direction ps (true, { tMax := thisHitData.t, out := some (thisHitData, p.parent) })
      else leafScan L origin direction ps (hit, c)
    | none => leafScan L origin direction ps (hit, c)

/-- The method `KDTree::intersectsNode`: the returned flag and the out-parameters after the
call. -/
def intersectsNode (L : MathFns F) (nodePrimitives : List (List (Primitive F)))
    (origin direction : Vector3 F) (invDirection : Vector3 (FloatValue F)) :
    KDNode F → Closest F → Except Fault (Bool × Closest F)
  | .null, _ => .error Fault.nullDereference
  | .node left right bounds primitivesIndex, c =>
    if BoundingBox.intersects bounds origin invDirection then
      if left.isNull && right.isNull then
        match nodePrimitives[primitivesIndex]? with
        | none => .error Fault.indexOutOfRange
        | some primitives => .ok (leafScan L origin direction primitives (false, c))
      else
        match (if left.isNull then .ok (false, c)
            else intersectsNode L nodePrimitives origin direction invDirection left c) with
        | .error e => .error e
        | .ok (hitLeft, c1) =>
          match (if right.isNull then .ok (false, c1)
              else intersectsNode L nodePrimitives origin direction invDirection right c1) with
          | .error e => .error e
          | .ok (hitRight, c2) => .ok (hitLeft || hitRight, c2)
    else .ok (false, c)

/-- The inverse direction computed by both query methods:
`Vector3(1.0f / direction.x, 1.0f / direction.y, 1.0f / direction.z)`, a vector of float
values: a component is `+inf` where the direction component is zero. -/
def invDirection (direction : Vector3 F) : Vector3 (FloatValue F) :=
  ⟨FloatValue.div 1 direction.x, FloatValue.div 1 direction.y, FloatValue.div 1 direction.z⟩

/-- The method `KDTree::GetClosestIntersection`: the returned flag and the out-parameters
`hitData`, `*hitObject` (`none` if never written). -/
def GetClosestIntersection (L : MathFns F) (tree : KDTree F) (origin direction : Vector3 F) :
    Except Fault (Bool × Option (HitData F × Object F)) :=
  match intersectsNode L tree.nodePrimitives origin direction (invDirection direction) tree.root
      { tMax := FLT_MAX, out := none } with
  | .error e => .error e
  | .ok (hit, c) => .ok (hit, c.out)

/-- The value `normalizedDiffuse` of `traceShadowNode`: the diffuse colour divided by its largest
channel `normFactor`, or `(1,1,1)` when `normFactor > FLT_EPSILON` fails (`//prevent div by
0`). -/
def normalizedDiffuse (material : Material F) : Vector3 F :=
  if Vector3.MaxComponent material.diffColor > FLT_EPSILON then
    Vector3.divScalar material.diffColor (Vector3.MaxComponent material.diffColor)
  else ⟨1, 1, 1⟩

/-- The attenuation step of `traceShadowNode` for one accepted hit:
`shadowFactor * thisHitData.material.ktran * normalizedDiffuse`. -/
def attenuate (shadowFactor : Vector3 F) (material : Material F) : Vector3 F :=
  Vector3.mul (Vector3.scale shadowFactor material.ktran) (normalizedDiffuse material)

/-- The leaf loop of `KDTree::traceShadowNode`: the value of `shadowFactor` when the loop is
left, by running off the list or by the `return` at a blocking hit. -/
def shadowScan (L : MathFns F) (origin direction : Vector3 F) (maxDist : F) :
    List (Primitive F) → Vector3 F → Vector3 F
  | [], shadowFactor => shadowFactor
  | p :: ps, shadowFactor =>
    match Primitive.intersects L p origin direction with
    | some thisHitData =>
      if thisHitData.t < maxDist ∧ thisHitData.t ≥ MIN_SHADOW_INTERSECT then
        if thisHitData.material.ktran < 1 / 100 then ⟨0, 0, 0⟩
        else shadowScan L origin direction maxDist ps (attenuate shadowFactor thisHitData.material)
      else shadowScan L origin direction maxDist ps shadowFactor
    | none => shadowScan L origin direction maxDist ps shadowFactor

/-- The method `KDTree::traceShadowNode`: the value of `shadowFactor` after the call. -/
def traceShadowNode (L : MathFns F) (nodePrimitives : List (List (Primitive F)))
    (origin direction : Vector3 F) (invDirection : Vector3 (FloatValue F)) (maxDist : F) :
    KDNode F → Vector3 F → Except Fault (Vector3 F)
  | .null, _ => .error Fault.nullDereference
  | .node left right bounds primitivesIndex, shadowFactor =>
    if BoundingBox.intersects bounds origin invDirection then
      if left.isNull && right.isNull then
        match nodePrimitives[primitivesIndex]? with
        | none => .error Fault.indexOutOfRange
        | some primitives => .ok (shadowScan L origin direction maxDist primitives shadowFactor)
      else
        match (if left.isNull then .ok shadowFactor
            else traceShadowNode L nodePrimitives origin direction invDirection maxDist left
              shadowFactor) with
        | .error e => .error e
        | .ok shadowFactor1 =>
          if right.isNull then .ok shadowFactor1
          else traceShadowNode L nodePrimitives origin direction invDirection maxDist right
            shadowFactor1
    else .ok shadowFactor

/-- The method `KDTree::TraceShadowRay`: the value written to `shadowFactor`. -/
def TraceShadowRay (L : MathFns F) (tree : KDTree F) (origin direction : Vector3 F)
    (maxDist : F) : Except Fault (Vector3 F) :=
  traceShadowNode L tree.nodePrimitives origin direction (invDirection direction) maxDist
    tree.root ⟨1, 1, 1⟩

end KDTree

/-! ## Scene.h -/

namespace Scene

variable {F : Type} [LinearOrderedField F]

/-- The loop of `Scene::GetClosestIntersection` compiled without `ACCELERATION`: the locals
`closest`, `hit` and the out-parameters after testing the primitives in order. -/
def linearScan (L : MathFns F) (origin direction : Vector3 F) :
    List (Primitive F) → Bool × Closest F → Bool × Closest F
  | [], acc => acc
  | p :: ps, (hit, c) =>
    match Primitive.intersects L p origin direction with
    | some thisHitData =>
      if thisHitData.t < c.tMax then
        linearScan L origin direction ps (true, { tMax := thisHitData.t, out := some (thisHitData, p.parent) })
      else linearScan L origin direction ps (hit, c)
    | none => linearScan L origin direction ps (hit, c)

/-- The method `Scene::GetClosestIntersection` compiled without `ACCELERATION` (the `#else`
branch): the brute-force scan over `primitives`. -/
def GetClosestIntersectionLinear (L : MathFns F) (primitives : List (Primitive F))
    (origin direction : Vector3 F) : Bool × Option (HitData F × Object F) :=
  let r := linearScan L origin direction primitives (false, { tMax := FLT_MAX, out := none })
  (r.1, r.2.out)

end Scene

/-! ## LightSource.h -/

/-- The two concrete subclasses of `LightSource`, each with the inherited `color`. -/
inductive LightSource (F : Type) where
  | point (color position : Vector3 F)
  | directional (color direction : Vector3 F)

namespace LightSource

variable {F : Type} [LinearOrderedField F]

/-- The member `LightSource::color`. -/
def color : LightSource F → Vector3 F
  | .point c _ => c
  | .directional c _ => c

/-- The virtual method `getDirection`: the value written to `lightDirection`. -/
def getDirection (L : MathFns F) (light : LightSource F) (position : Vector3 F) : Vector3 F :=
  match light with
  | .point _ lightPosition => Vector3.normalize L (Vector3.sub lightPosition position)
  | .directional _ direction => Vector3.neg (Vector3.normalize L direction)

/-- The virtual method `getDistance`. -/
def getDistance (L : MathFns F) (light : LightSource F) (position : Vector3 F) : F :=
  match light with
  | .point _ lightPosition => Vector3.length L (Vector3.sub lightPosition position)
  | .directional _ _ => FLT_MAX

/-- The virtual method `getAttenuation`. -/
def getAttenuation (light : LightSource F) (distance : F) : F :=
  match light with
  | .point _ _ => min 1 (1 / (1 / 4 + 1 / 10 * distance + 1 / 100 * distance * distance))
  | .directional _ _ => 1

end LightSource

/-! ## Scene.h, compiled with `ACCELERATION` -/

/-- The class `Scene` as far as rendering and `RemoveObject` read it: the flattened primitive
list, the lights, the tree, and the vector `objects`, each object with its vector `primitives`
of `Primitive*` (the addresses of its primitives). -/
structure Scene (F : Type) where
  primitives : List (Primitive F)
  lights : List (LightSource F)
  kdtree : KDTree F
  objects : List (Object F × List Nat) := []

/-- The method `Scene::GetClosestIntersection` with `ACCELERATION` defined. -/
def Scene.GetClosestIntersection {F : Type} [LinearOrderedField F] (L : MathFns F)
    (scene : Scene F) (origin direction : Vector3 F) :
    Except Fault (Bool × Option (HitData F × Object F)) :=
  KDTree.GetClosestIntersection L scene.kdtree origin direction

/-- The method `Scene::TraceShadowRay` with `ACCELERATION` defined. -/
def Scene.TraceShadowRay {F : Type} [LinearOrderedField F] (L : MathFns F) (scene : Scene F)
    (origin direction : Vector3 F) (maxDist : F) : Except Fault (Vector3 F) :=
  KDTree.TraceShadowRay L scene.kdtree origin direction maxDist

/-! ## Renderer.h / Renderer.cpp -/

/-- The class `Renderer` as far as `traceRay` reads it: the scene, and the value returned by
`getSubsurfaceRadiance`, which draws on `rand()` and is taken as a parameter. -/
structure Renderer (F : Type) where
  scene : Scene F
  getSubsurfaceRadiance : Vector3 F → HitData F → Except Fault (Vector3 F)

namespace Renderer

variable {F : Type} [LinearOrderedField F]

/-- The member `MAX_BOUNCES = 10`. -/
def MAX_BOUNCES : Int := 10

/-- The member `MIN_SHININESS = 0.01f`. -/
def MIN_SHININESS : F := 1 / 100

/-- The member `MIN_TRANSPARENCY = 0.01f`. -/
def MIN_TRANSPARENCY : F := 1 / 100

/-- The member `PUSH_SPAWNED_RAYS = 0.0001f`. -/
def PUSH_SPAWNED_RAYS : F := 1 / 10000

/-- The test `std::find(insideStack.begin(), insideStack.end(), hitObject) != insideStack.end()`
(pointer comparison). -/
def onStack (insideStack : List (Object F)) (hitObject : Object F) : Bool :=
  insideStack.any (fun o => decide (o.addr = hitObject.addr))

/-- The two normal flips of `traceRay`: the flip when the hit object is on the inside stack, then
the flip when `direction.dot(hitData.normal) > 0`. -/
def orientNormal (direction : Vector3 F) (insideStack : List (Object F)) (hitObject : Object F)
    (hitData : HitData F) : HitData F :=
  let hitData1 :=
    if !insideStack.isEmpty && onStack insideStack hitObject then
      { hitData with normal := Vector3.neg hitData.normal }
    else hitData
  if Vector3.dot direction hitData1.normal > 0 then
    { hitData1 with normal := Vector3.neg hitData1.normal }
  else hitData1

/-- The statement `if (hitObject->colorShader != NULL) hitObject->colorShader->Shade(hitData,
hitData.material)`. -/
def applyColorShader (hitObject : Object F) (hitData : HitData F) : HitData F :=
  match hitObject.colorShader with
  | none => hitData
  | some shade => { hitData with material := shade hitData }

/-- The method `Renderer::getLightRadiance`. -/
def getLightRadiance (L : MathFns F) (R : Renderer F) (direction : Vector3 F)
    (light : LightSource F) (hitData : HitData F) : Except Fault (Vector3 F) :=
  let lightDir := LightSource.getDirection L light hitData.position
  let lightDist := LightSource.getDistance L light hitData.position
  let shadowOrigin := Vector3.add hitData.position (Vector3.scale hitData.normal PUSH_SPAWNED_RAYS)
  match Scene.TraceShadowRay L R.scene shadowOrigin lightDir lightDist with
  | .error e => .error e
  | .ok shadowFactor =>
    let attenuation := LightSource.getAttenuation light lightDist
    let radianceDiffuse :=
      Vector3.scale
        (Vector3.scale hitData.material.diffColor (max (Vector3.dot lightDir hitData.normal) 0))
        (1 - hitData.material.ktran)
    let reflectDir := Vector3.normalize L (Vector3.reflect lightDir hitData.normal)
    let viewDir := Vector3.normalize L (Vector3.neg direction)
    let radianceSpecular :=
      Vector3.scale hitData.material.specColor
        (L.pow (max (Vector3.dot reflectDir viewDir) 0) (hitData.material.shininess * 128))
    .ok (Vector3.scale
      (Vector3.mul (Vector3.mul (Vector3.add radianceDiffuse radianceSpecular) shadowFactor)
        (LightSource.color light))
      attenuation)

/-- The ambient term and the loop over the light sources of `traceRay`: the value of `radiance`
after the loop. -/
def directRadiance (L : MathFns F) (R : Renderer F) (direction : Vector3 F)
    (hitData : HitData F) : Except Fault (Vector3 F) :=
  R.scene.lights.foldl
    (fun acc light =>
      match acc with
      | .error e => .error e
      | .ok radiance =>
        match getLightRadiance L R direction light hitData with
        | .error e => .error e
        | .ok r => .ok (Vector3.add radiance r))
    (Except.ok (Vector3.scale (Vector3.mul hitData.material.ambColor hitData.material.diffColor)
      (1 - hitData.material.ktran)))

/-- The entry/exit bookkeeping of the refraction branch of `traceRay`: the values of `n1`, `n2`
and of `insideStack` when `refract` and the recursive call are reached. -/
def refractionMedia (insideStack : List (Object F)) (hitObject : Object F) :
    F × F × List (Object F) :=
  if insideStack.isEmpty || !onStack insideStack hitObject then
    let n1 : F :=
      match insideStack.getLast? with
      | none => 1
      | some back => back.indexOfRefraction
    let insideStack1 := insideStack ++ [hitObject]
    let n2 := hitObject.indexOfRefraction
    (n1, n2, insideStack1)
  else
    let n1 := hitObject.indexOfRefraction
    let insideStack1 := insideStack.eraseP (fun o => decide (o.addr = hitObject.addr))
    let n2 : F :=
      match insideStack1.getLast? with
      | none => 1
      | some back => back.indexOfRefraction
    (n1, n2, insideStack1)

/-- The method `Renderer::traceRay`: the value of `outputColor` after the call, given its value
before.  The debugging parameter `record` and the file it feeds are left out. -/
def traceRay (L : MathFns F) (R : Renderer F) (origin direction outputColor : Vector3 F)
    (numBounces : Int) (insideStack : List (Object F)) : Except Fault (Vector3 F) :=
  if _hstop : numBounces > MAX_BOUNCES then .ok outputColor
  else
    match Scene.GetClosestIntersection L R.scene origin direction with
    | .error e => .error e
    | .ok (true, some (hitData0, hitObject)) =>
      let hitData := applyColorShader hitObject
        (orientNormal direction insideStack hitObject hitData0)
      if hitData.material.bssrdf ≠ none then R.getSubsurfaceRadiance direction hitData
      else
        match directRadiance L R direction hitData with
        | .error e => .error e
        | .ok radiance =>
          match (if Vector3.MaxComponent hitData.material.specColor > MIN_SHININESS then
              traceRay L R
                (Vector3.add hitData.position (Vector3.scale hitData.normal PUSH_SPAWNED_RAYS))
                (Vector3.neg (Vector3.normalize L (Vector3.reflect direction hitData.normal)))
                Vector3.zero (numBounces + 1) insideStack
            else Except.ok Vector3.zero : Except Fault (Vector3 F)) with
          | .error e => .error e
          | .ok radianceReflection =>
            match (if hitData.material.ktran > MIN_TRANSPARENCY then
                match Vector3.refract L (Vector3.neg direction) hitData.normal
                    ((refractionMedia insideStack hitObject).1
                      / (refractionMedia insideStack hitObject).2.1) with
                | none => Except.ok Vector3.zero
                | some refractDir =>
                  traceRay L R
                    (Vector3.sub hitData.position
                      (Vector3.scale hitData.normal PUSH_SPAWNED_RAYS))
                    (Vector3.neg refractDir) Vector3.zero (numBounces + 1)
                    (refractionMedia insideStack hitObject).2.2
              else Except.ok Vector3.zero : Except Fault (Vector3 F)) with
            | .error e => .error e
            | .ok radianceRefraction =>
              .ok (Vector3.add
                (Vector3.add radiance
                  (Vector3.mul radianceReflection hitData.material.specColor))
                (Vector3.scale radianceRefraction hitData.material.ktran))
    | .ok _ => .ok outputColor
termination_by (MAX_BOUNCES + 1 - numBounces).toNat
decreasing_by
  all_goals simp_wf
  all_goals unfold MAX_BOUNCES at *
  all_goals omega

end Renderer

/-- The method `Renderer::traceRay` once more, with the depth of the call stack bounded by
`fuel`: each call consumes one unit and hands the rest to the calls it makes, and a call made
without fuel gives `Fault.outOfFuel`. -/
def Renderer.traceRayFuel {F : Type} [LinearOrderedField F] (L : MathFns F) (R : Renderer F) :
    Nat → Vector3 F → Vector3 F → Vector3 F → Int → List (Object F) →
      Except Fault (Vector3 F)
  | 0, _, _, _, _, _ => .error Fault.outOfFuel
  | fuel + 1, origin, direction, outputColor, numBounces, insideStack =>
    if numBounces > Renderer.MAX_BOUNCES then .ok outputColor
    else
      match Scene.GetClosestIntersection L R.scene origin direction with
      | .error e => .error e
      | .ok (true, some (hitData0, hitObject)) =>
        let hitData := Renderer.applyColorShader hitObject
          (Renderer.orientNormal direction insideStack hitObject hitData0)
        if hitData.material.bssrdf ≠ none then R.getSubsurfaceRadiance direction hitData
        else
          match Renderer.directRadiance L R direction hitData with
          | .error e => .error e
          | .ok radiance =>
            match (if Vector3.MaxComponent hitData.material.specColor > Renderer.MIN_SHININESS
                then
                  Renderer.traceRayFuel L R fuel
                    (Vector3.add hitData.position
                      (Vector3.scale hitData.normal Renderer.PUSH_SPAWNED_RAYS))
                    (Vector3.neg (Vector3.normalize L (Vector3.reflect direction hitData.normal)))
                    Vector3.zero (numBounces + 1) insideStack
                else Except.ok Vector3.zero : Except Fault (Vector3 F)) with
            | .error e => .error e
            | .ok radianceReflection =>
              match (if hitData.material.ktran > Renderer.MIN_TRANSPARENCY then
                  match Vector3.refract L (Vector3.neg direction) hitData.normal
                      ((Renderer.refractionMedia insideStack hitObject).1
                        / (Renderer.refractionMedia insideStack hitObject).2.1) with
                  | none => Except.ok Vector3.zero
                  | some refractDir =>
                    Renderer.traceRayFuel L R fuel
                      (Vector3.sub hitData.position
                        (Vector3.scale hitData.normal Renderer.PUSH_SPAWNED_RAYS))
                      (Vector3.neg refractDir) Vector3.zero (numBounces + 1)
                      (Renderer.refractionMedia insideStack hitObject).2.2
                else Except.ok Vector3.zero : Except Fault (Vector3 F)) with
              | .error e => .error e
              | .ok radianceRefraction =>
                .ok (Vector3.add
                  (Vector3.add radiance
                    (Vector3.mul radianceReflection hitData.material.specColor))
                  (Vector3.scale radianceRefraction hitData.material.ktran))
      | .ok _ => .ok outputColor

/-! ## BSSRDF.h, with `Vector3::SquareRoot`, `Vector3::Exp` and `Vector3::Luminance` -/

/-- The functions `exp`, `log`, `cos` and `sin` of `<cmath>` that `BSSRDF.h` and `Vector3::Exp`
call; like `MathFns`, a parameter of the embedding. -/
structure ExpFns (F : Type) where
  exp : F → F
  log : F → F
  cos : F → F
  sin : F → F

/-- The method `Vector3::SquareRoot`. -/
def Vector3.SquareRoot {F : Type} (L : MathFns F) (a : Vector3 F) : Vector3 F :=
  ⟨L.sqrt a.x, L.sqrt a.y, L.sqrt a.z⟩

/-- The method `Vector3::Exp`. -/
def Vector3.Exp {F : Type} (E : ExpFns F) (a : Vector3 F) : Vector3 F :=
  ⟨E.exp a.x, E.exp a.y, E.exp a.z⟩

/-- The method `Vector3::Luminance`: `0.2126f * x + 0.7152f * y + 0.0722 * z`. -/
def Vector3.Luminance {F : Type} [LinearOrderedField F] (a : Vector3 F) : F :=
  2126 / 10000 * a.x + 7152 / 10000 * a.y + 722 / 10000 * a.z

/-- The class `BSSRDF`: its data members, in the order of the header. -/
structure BSSRDF (F : Type) where
  sigmaA : Vector3 F
  sigmaTPrime : Vector3 F
  alphaPrime : Vector3 F
  D : Vector3 F
  A : F
  zr : Vector3 F
  zv : Vector3 F
  Rmax : F
  g : F
  eta : F
  sigmaT : Vector3 F
  sigmaS : Vector3 F
  sigmaSPrime : Vector3 F
  sigmaTr : Vector3 F

/-- The method `BSSRDF::FresnelDiffuseReflectance`. -/
def BSSRDF.FresnelDiffuseReflectance {F : Type} [LinearOrderedField F] (eta : F) : F :=
  if eta > 1 then
    -(14399 / 10000) / (eta * eta) + 7099 / 10000 / eta + 6681 / 10000 + 636 / 10000 * eta
  else
    -(4399 / 10000) + 7099 / 10000 / eta - 3319 / 10000 / (eta * eta)
      + 636 / 10000 / (eta * eta * eta)

/-- The constructor `BSSRDF::BSSRDF(sigmaA, sigmaSPrime, g, eta)`. -/
def BSSRDF.new {F : Type} [LinearOrderedField F] (L : MathFns F) (E : ExpFns F)
    (sigmaA sigmaSPrime : Vector3 F) (g eta : F) : BSSRDF F :=
  let sigmaS := Vector3.divScalar sigmaSPrime (1 - g)
  let sigmaTPrime := Vector3.add sigmaA sigmaSPrime
  let sigmaTr := Vector3.SquareRoot L (Vector3.scale (Vector3.mul sigmaA sigmaTPrime) 3)
  let sigmaT := Vector3.add sigmaA sigmaS
  let alphaPrime := Vector3.div sigmaSPrime sigmaTPrime
  let Fdr := BSSRDF.FresnelDiffuseReflectance eta
  let A := (1 + Fdr) / (1 - Fdr)
  let D := Vector3.div ⟨1, 1, 1⟩ (Vector3.scale sigmaTPrime 3)
  let zr := Vector3.div ⟨1, 1, 1⟩ sigmaTPrime
  let zv := Vector3.scale zr (1 + 4 / 3 * A)
  let Rmax := L.sqrt (E.log (1 / 100) / -Vector3.Luminance sigmaTr)
  { sigmaA := sigmaA, sigmaTPrime := sigmaTPrime, alphaPrime := alphaPrime, D := D, A := A
    zr := zr, zv := zv, Rmax := Rmax, g := g, eta := eta, sigmaT := sigmaT, sigmaS := sigmaS
    sigmaSPrime := sigmaSPrime, sigmaTr := sigmaTr }

/-- The method `BSSRDF::DiffuseReflectance`. -/
def BSSRDF.DiffuseReflectance {F : Type} [LinearOrderedField F] (L : MathFns F) (E : ExpFns F)
    (b : BSSRDF F) (r : F) : Vector3 F :=
  let dr := Vector3.SquareRoot L (Vector3.addScalar (Vector3.mul b.zr b.zr) (r * r))
  let dv := Vector3.SquareRoot L (Vector3.addScalar (Vector3.mul b.zv b.zv) (r * r))
  let sigmaTrDr := Vector3.mul b.sigmaTr dr
  let pos := Vector3.div
    (Vector3.mul (Vector3.mul b.zr (Vector3.addScalar sigmaTrDr 1))
      (Vector3.Exp E (Vector3.neg sigmaTrDr)))
    (Vector3.mul (Vector3.mul dr dr) dr)
  let sigmaTrDv := Vector3.mul b.sigmaTr dv
  let neg := Vector3.div
    (Vector3.mul (Vector3.mul b.zv (Vector3.addScalar sigmaTrDv 1))
      (Vector3.Exp E (Vector3.neg sigmaTrDv)))
    (Vector3.mul (Vector3.mul dv dv) dv)
  let Rd := Vector3.mul (Vector3.divScalar b.alphaPrime (4 * L.pi)) (Vector3.add pos neg)
  ⟨min (max Rd.x 0) 1, min (max Rd.y 0) 1, min (max Rd.z 0) 1⟩

/-- The method `BSSRDF::ImportanceSampleSingleScatter`. -/
def BSSRDF.ImportanceSampleSingleScatter {F : Type} [LinearOrderedField F] (E : ExpFns F)
    (b : BSSRDF F) (u : F) : F :=
  -E.log u / Vector3.Luminance b.sigmaT

/-- The method `BSSRDF::SampleSingleScatterPDF`. -/
def BSSRDF.SampleSingleScatterPDF {F : Type} [LinearOrderedField F] (E : ExpFns F)
    (b : BSSRDF F) (x : F) : F :=
  Vector3.Luminance b.sigmaT * E.exp (-Vector3.Luminance b.sigmaT * x)

/-- The method `BSSRDF::ImportanceSampleDiffusion`. -/
def BSSRDF.ImportanceSampleDiffusion {F : Type} [LinearOrderedField F] (L : MathFns F)
    (E : ExpFns F) (b : BSSRDF F) (u1 u2 : F) : Vector3 F :=
  let sigmaTrLuminance := Vector3.Luminance b.sigmaTr
  let theta := 2 * L.pi * u1
  let r := L.sqrt
    (E.log (1 - u2 * (1 - E.exp (-sigmaTrLuminance * b.Rmax * b.Rmax))) / -sigmaTrLuminance)
  ⟨r * E.cos theta, r * E.sin theta, 0⟩

/-- The method `BSSRDF::SampleDiffusionPDF`. -/
def BSSRDF.SampleDiffusionPDF {F : Type} [LinearOrderedField F] (L : MathFns F)
    (E : ExpFns F) (b : BSSRDF F) (x y : F) : F :=
  let sigmaTrLuminance := Vector3.Luminance b.sigmaTr
  let pdf := 1 / L.pi * sigmaTrLuminance * E.exp (-sigmaTrLuminance * (x * x + y * y))
  pdf / (1 - E.exp (-sigmaTrLuminance * b.Rmax * b.Rmax))

/-- The method `BSSRDF::FresnelReflectance` (Schlick's approximation). -/
def BSSRDF.FresnelReflectance {F : Type} [LinearOrderedField F] (cosi eta : F) : F :=
  let cosi1 := max cosi 0
  let R0 := (eta - 1) * (eta - 1) / ((eta + 1) * (eta + 1))
  R0 + (1 - cosi1) * (1 - cosi1) * (1 - cosi1) * (1 - cosi1) * (1 - cosi1) * (1 - R0)

/-- The method `BSSRDF::TrueRefractedDistance`. -/
def BSSRDF.TrueRefractedDistance {F : Type} [LinearOrderedField F] (L : MathFns F)
    (b : BSSRDF F) (si cosIncident cosExitant : F) : F :=
  si * cosIncident / L.sqrt (1 - 1 / (b.eta * b.eta) * (1 - cosExitant))

/-- The method `BSSRDF::Phase`: `(1.0f / 4 * M_PI) * (1 - g*g) / (pow(1 + 2 * g * cosTheta +
g * g, 1.5f))`; the first factor parses as `(1.0f / 4) * M_PI`. -/
def BSSRDF.Phase {F : Type} [LinearOrderedField F] (L : MathFns F) (b : BSSRDF F)
    (cosTheta : F) : F :=
  1 / 4 * L.pi * (1 - b.g * b.g) / L.pow (1 + 2 * b.g * cosTheta + b.g * b.g) (3 / 2)

/-! ## Renderer.cpp: the sampling patterns and `ColorPixel`; the clamp of `renderTile` -/

/-- The struct `SamplePoint`. -/
structure SamplePoint (F : Type) where
  x : F
  y : F

/-- The part of `ThinLensCamera` that `ColorPixel` uses: the member `imageWidth`, a float that
holds the integer width, and the method `GetRay(x, y, u, v, origin, direction)`, given as the
function from its four inputs to the pair of its outputs `(origin, direction)`. -/
structure ThinLensCamera (F : Type) where
  imageWidth : Nat
  GetRay : F → F → F → F → Vector3 F × Vector3 F

/-- The constant `NUM_SAMPLING_PATTERNS`. -/
def Renderer.NUM_SAMPLING_PATTERNS : Nat := 64

/-- The body of the innermost loop of `createSamplingPatterns`: the jittered point of the cell
`(x, y)` of a `size` by `size` grid; `r` is the pair of values `(float)rand() / RAND_MAX` drawn
for `p.x` and `p.y`. -/
def Renderer.jitteredPoint {F : Type} [LinearOrderedField F] (size x y : Nat) (r : F × F) :
    SamplePoint F :=
  let xMin := (x : F) / (size : F)
  let yMin := (y : F) / (size : F)
  let xMax := ((x + 1 : Nat) : F) / (size : F)
  let yMax := ((y + 1 : Nat) : F) / (size : F)
  { x := r.1 * (xMax - xMin) + xMin, y := r.2 * (yMax - yMin) + yMin }

/-- The method `Renderer::createSamplingPatterns` for a non-negative `samplesPerPixel`: the
value of `samplePatterns` after the call, `none` if the method calls `exit(0)`.  The value
`rnd i x y` is the pair of random numbers drawn for the cell `(x, y)` of pattern `i`, and
`(int)sqrt(samplesPerPixel)` is the integer square root. -/
def Renderer.createSamplingPatterns {F : Type} [LinearOrderedField F]
    (rnd : Nat → Nat → Nat → F × F) (samplesPerPixel : Nat) :
    Option (List (List (SamplePoint F))) :=
  if samplesPerPixel = 1 then some [[{ x := 1 / 2, y := 1 / 2 }]]
  else if samplesPerPixel &&& (samplesPerPixel - 1) ≠ 0 then none
  else
    let size := Nat.sqrt samplesPerPixel
    some ((List.range Renderer.NUM_SAMPLING_PATTERNS).map fun i =>
      ((List.range size).map fun x =>
        (List.range size).map fun y => Renderer.jitteredPoint size x y (rnd i x y)).flatten)

/-- One pass of the sampling loop of `ColorPixel` for pixel `(i, j)`, both non-negative: the
value of `sampleColors[n]` after the pass.  A read outside `samplePatterns` or outside the
chosen pattern is a fault; `rnd n` is the pair `(u, v)` of random numbers drawn in pass `n`.
The element `sampleColors[n]` and the inside stack start out as the zero vector and the empty
stack. -/
def Renderer.sampleRadiance {F : Type} [LinearOrderedField F] (L : MathFns F) (R : Renderer F)
    (camera : ThinLensCamera F) (samplePatterns : List (List (SamplePoint F)))
    (rnd : Nat → F × F) (i j n : Nat) : Except Fault (Vector3 F) :=
  let whichSamplePattern := (j * camera.imageWidth + i) % samplePatterns.length
  match samplePatterns[whichSamplePattern]? with
  | none => .error Fault.indexOutOfRange
  | some pattern =>
    match pattern[n]? with
    | none => .error Fault.indexOutOfRange
    | some p =>
      let x := (i : F) + p.x
      let y := (j : F) + p.y
      let ray := camera.GetRay x y (rnd n).1 (rnd n).2
      Renderer.traceRay L R ray.1 ray.2 Vector3.zero 0 []

/-- The sampling loop of `ColorPixel` over the sample numbers of a list: the vector
`sampleColors`, or the first fault. -/
def Renderer.takeSamples {F : Type} [LinearOrderedField F] (L : MathFns F) (R : Renderer F)
    (camera : ThinLensCamera F) (samplePatterns : List (List (SamplePoint F)))
    (rnd : Nat → F × F) (i j : Nat) : List Nat → Except Fault (List (Vector3 F))
  | [] => .ok []
  | n :: rest =>
    match Renderer.sampleRadiance L R camera samplePatterns rnd i j n with
    | .error e => .error e
    | .ok color =>
      match Renderer.takeSamples L R camera samplePatterns rnd i j rest with
      | .error e => .error e
      | .ok colors => .ok (color :: colors)

/-- The method `Renderer::ColorPixel`: the value of `outputColor` after the call.  The camera
`scene->camera` and the members `samplesPerPixel` and `samplePatterns` are passed as
parameters; the recording of rays for debugging is left out. -/
def Renderer.ColorPixel {F : Type} [LinearOrderedField F] (L : MathFns F) (R : Renderer F)
    (camera : ThinLensCamera F) (samplesPerPixel : Nat)
    (samplePatterns : List (List (SamplePoint F))) (rnd : Nat → F × F) (i j : Nat) :
    Except Fault (Vector3 F) :=
  match Renderer.takeSamples L R camera samplePatterns rnd i j (List.range samplesPerPixel) with
  | .error e => .error e
  | .ok sampleColors =>
    .ok (Vector3.divScalar (sampleColors.foldl Vector3.add Vector3.zero) (samplesPerPixel : F))

/-- The operand of the quantisation in `renderTile` of `main.cpp`:
`max(min(color.x, 1.0f), 0.0f)`. -/
def renderTileClamp {F : Type} [LinearOrderedField F] (c : F) : F := max (min c 1) 0

/-! ## Scene.cpp: `RemoveObject` -/

/-- The statements `it = std::find(primitives.begin(), primitives.end(), ptr)`, `delete (*it)`
and `primitives.erase(it)` for a pointer `ptr`: the list without the first primitive whose
address is `ptr`, or `none` when there is no such primitive and `it` is the end iterator. -/
def Scene.eraseFound {F : Type} (ptr : Nat) : List (Primitive F) → Option (List (Primitive F))
  | [] => none
  | p :: rest =>
    if p.addr = ptr then some rest else (Scene.eraseFound ptr rest).map (fun ps => p :: ps)

/-- The loop of `Scene::RemoveObject` over the pointers of the removed object; the dereference
of the end iterator is a fault. -/
def Scene.removePrimitives {F : Type} :
    List Nat → List (Primitive F) → Except Fault (List (Primitive F))
  | [], primitives => .ok primitives
  | ptr :: rest, primitives =>
    match Scene.eraseFound ptr primitives with
    | none => .error Fault.indexOutOfRange
    | some primitives1 => Scene.removePrimitives rest primitives1

/-- The method `Scene::RemoveObject`: the scene after the call.  An index outside `objects` is a
fault. -/
def Scene.RemoveObject {F : Type} [LinearOrderedField F] (scene : Scene F) (index : Int) :
    Except Fault (Scene F) :=
  if index < 0 then .error Fault.indexOutOfRange
  else
    match scene.objects[index.toNat]? with
    | none => .error Fault.indexOutOfRange
    | some object =>
      match Scene.removePrimitives object.2 scene.primitives with
      | .error e => .error e
      | .ok primitives =>
        match KDTree.build primitives with
        | .error e => .error e
        | .ok kdtree =>
          .ok { primitives := primitives, lights := scene.lights, kdtree := kdtree
                objects := scene.objects.eraseIdx index.toNat }

/-! ## main.cpp: the tiles; FrameBuffer.h -/

/-- The largest value of the type `int`, `2^31 - 1`. -/
def INT_MAX : Nat := 2147483647

/-- The struct `Tile` of `main.cpp`. -/
structure Tile where
  min_x : Nat
  max_x : Nat
  min_y : Nat
  max_y : Nat

/-- The ways in which the integer code of `main.cpp` and `FrameBuffer.h` can fail to produce a
value: the overflow of an `int` expression, which is undefined behaviour, or the exhaustion of
the iteration budget of the embedding. -/
inductive TileFault where
  | signedOverflow
  | outOfFuel
deriving DecidableEq

/-- The inner loop `for (int y = 0; y < IMAGE_HEIGHT; y += TILE_SIZE)` of `main` at a fixed
`x`, entered with the value `y`: the tiles it pushes.  The expressions `x + TILE_SIZE` and
`y + TILE_SIZE` are evaluated in the type `int`; `fuel` bounds the number of passes. -/
def mainTileColumn (IMAGE_WIDTH IMAGE_HEIGHT TILE_SIZE x : Nat) :
    Nat → Nat → Except TileFault (List Tile)
  | 0, y => if y < IMAGE_HEIGHT then .error TileFault.outOfFuel else .ok []
  | fuel + 1, y =>
    if y < IMAGE_HEIGHT then
      if x + TILE_SIZE > INT_MAX ∨ y + TILE_SIZE > INT_MAX then .error TileFault.signedOverflow
      else
        match mainTileColumn IMAGE_WIDTH IMAGE_HEIGHT TILE_SIZE x fuel (y + TILE_SIZE) with
        | .error e => .error e
        | .ok rest =>
          .ok ({ min_x := x, max_x := min (x + TILE_SIZE) IMAGE_WIDTH, min_y := y
                 max_y := min (y + TILE_SIZE) IMAGE_HEIGHT } :: rest)
    else .ok []

/-- The outer loop `for (int x = 0; x < IMAGE_WIDTH; x += TILE_SIZE)` of `main`, entered with
the value `x`: the tiles pushed, column after column. -/
def mainTileRows (IMAGE_WIDTH IMAGE_HEIGHT TILE_SIZE : Nat) :
    Nat → Nat → Except TileFault (List Tile)
  | 0, x => if x < IMAGE_WIDTH then .error TileFault.outOfFuel else .ok []
  | fuel + 1, x =>
    if x < IMAGE_WIDTH then
      match mainTileColumn IMAGE_WIDTH IMAGE_HEIGHT TILE_SIZE x IMAGE_HEIGHT 0 with
      | .error e => .error e
      | .ok column =>
        if x + TILE_SIZE > INT_MAX then .error TileFault.signedOverflow
        else
          match mainTileRows IMAGE_WIDTH IMAGE_HEIGHT TILE_SIZE fuel (x + TILE_SIZE) with
          | .error e => .error e
          | .ok rest => .ok (column ++ rest)
    else .ok []

/-- The vector `tiles` of `main` after the two loops, for non-negative `IMAGE_WIDTH`,
`IMAGE_HEIGHT` and `TILE_SIZE`. -/
def mainTiles (IMAGE_WIDTH IMAGE_HEIGHT TILE_SIZE : Nat) : Except TileFault (List Tile) :=
  mainTileRows IMAGE_WIDTH IMAGE_HEIGHT TILE_SIZE IMAGE_WIDTH 0

/-- The constructor `FrameBuffer(width, height)`: the number of bytes `width * height * 3`
of the array `image`, an `int` expression. -/
def FrameBuffer.new (width height : Nat) : Except TileFault Nat :=
  if width * height > INT_MAX ∨ width * height * 3 > INT_MAX then
    .error TileFault.signedOverflow
  else .ok (width * height * 3)

/-- The method `FrameBuffer::getPixelPtr`: the offset `(y * width + x) * 3` of the returned
pointer from `image`. -/
def FrameBuffer.getPixelPtr (width x y : Nat) : Nat := (y * width + x) * 3

/-! ## Specification predicates -/

/-- Specification predicate: `t` is a root of the quadratic `|O + t D - C|^2 = r^2` of a sphere
and a ray, that is, the point `origin + t * direction` lies on the sphere. -/
def Sphere.IsRoot {F : Type} [LinearOrderedField F] (s : Sphere F) (origin direction : Vector3 F)
    (t : F) : Prop :=
  Vector3.dot (Vector3.sub (Vector3.add origin (Vector3.scale direction t)) s.center)
      (Vector3.sub (Vector3.add origin (Vector3.scale direction t)) s.center)
    = s.radius * s.radius

/-- Specification predicate: the point `pt` lies in the box `b`, bounds included. -/
def BoundingBox.Contains {F : Type} [LinearOrderedField F] (b : BoundingBox F) (pt : Vector3 F) :
    Prop :=
  b.minCorner.x ≤ pt.x ∧ pt.x ≤ b.maxCorner.x ∧ b.minCorner.y ≤ pt.y ∧ pt.y ≤ b.maxCorner.y
    ∧ b.minCorner.z ≤ pt.z ∧ pt.z ≤ b.maxCorner.z

/-- Specification predicate: the box `b` encloses the box `inner` (componentwise
`b.min <= inner.min` and `inner.max <= b.max`). -/
def BoundingBox.Encloses {F : Type} [LinearOrderedField F] (b inner : BoundingBox F) : Prop :=
  b.minCorner.x ≤ inner.minCorner.x ∧ inner.maxCorner.x ≤ b.maxCorner.x
    ∧ b.minCorner.y ≤ inner.minCorner.y ∧ inner.maxCorner.y ≤ b.maxCorner.y
    ∧ b.minCorner.z ≤ inner.minCorner.z ∧ inner.maxCorner.z ≤ b.maxCorner.z

/-- The primitives stored in the leaves beneath a node, in traversal order (left subtree first).
A leaf is a node whose two children are null. -/
def KDNode.leafPrimitives {F : Type} (nodePrimitives : List (List (Primitive F))) :
    KDNode F → List (Primitive F)
  | .null => []
  | .node left right _ primitivesIndex =>
    if left.isNull && right.isNull then (nodePrimitives[primitivesIndex]?).getD []
    else KDNode.leafPrimitives nodePrimitives left ++ KDNode.leafPrimitives nodePrimitives right

/-- Specification predicate: every leaf beneath the node has a valid index into
`nodePrimitives`, and the bounds of every node enclose `GetBounds()` of every primitive stored
in a leaf beneath it. -/
def KDNode.WellFormed {F : Type} [LinearOrderedField F]
    (nodePrimitives : List (List (Primitive F))) : KDNode F → Prop
  | .null => True
  | .node left right bounds primitivesIndex =>
    (∀ p ∈ KDNode.leafPrimitives nodePrimitives (.node left right bounds primitivesIndex),
        BoundingBox.Encloses bounds (Primitive.GetBounds p))
      ∧ (if left.isNull && right.isNull then primitivesIndex < nodePrimitives.length
         else KDNode.WellFormed nodePrimitives left ∧ KDNode.WellFormed nodePrimitives right)

/-- The slab test of `BoundingBox::intersects` in the arithmetic of the field: the value of the
method when the three components of the inverse direction are numbers
(`BoundingBox.intersects_num`). -/
def BoundingBox.slabTest {F : Type} [LinearOrderedField F] (a : BoundingBox F)
    (origin invDirection : Vector3 F) : Bool :=
  let T1 := Vector3.mul (Vector3.sub a.minCorner origin) invDirection
  let T2 := Vector3.mul (Vector3.sub a.maxCorner origin) invDirection
  let tmin0 := min T1.x T2.x
  let tmin1 := max tmin0 (min T1.y T2.y)
  let tmin := max tmin1 (min T1.z T2.z)
  let tmax0 := max T1.x T2.x
  let tmax1 := min tmax0 (max T1.y T2.y)
  let tmax := min tmax1 (max T1.z T2.z)
  decide (tmax ≥ tmin ∧ tmax ≥ 0)

/-- Specification predicate: a float value that is `-inf` or a number not above `t`. -/
def FloatValue.Below {F : Type} [LinearOrderedField F] (v : FloatValue F) (t : F) : Prop :=
  v = FloatValue.negInf ∨ ∃ x, v = FloatValue.num x ∧ x ≤ t

/-- Specification predicate: a float value that is `+inf` or a number not below `t`. -/
def FloatValue.Above {F : Type} [LinearOrderedField F] (v : FloatValue F) (t : F) : Prop :=
  v = FloatValue.posInf ∨ ∃ x, v = FloatValue.num x ∧ t ≤ x

/-- Specification predicate: the ray reaches the box at the parameter `t`, away from the faces
it runs along.  The point `origin + direction * t` lies in the box; where the `x` component of
the direction is zero the origin lies strictly between the two `x` faces; where the `y` or the
`z` component is zero the origin lies strictly below the upper face of that axis. -/
def BoundingBox.Reached {F : Type} [LinearOrderedField F] (b : BoundingBox F)
    (origin direction : Vector3 F) (t : F) : Prop :=
  BoundingBox.Contains b (Vector3.add origin (Vector3.scale direction t))
    ∧ (direction.x = 0 → b.minCorner.x < origin.x ∧ origin.x < b.maxCorner.x)
    ∧ (direction.y = 0 → origin.y < b.maxCorner.y)
    ∧ (direction.z = 0 → origin.z < b.maxCorner.z)

/-- Specification: the quotient `1.0f / d` when a zero `d` carries a sign, `-inf` for `-0` and
`+inf` for `+0`. -/
def FloatValue.invSigned {F : Type} [LinearOrderedField F] (negative : Bool) (d : F) :
    FloatValue F :=
  if d = 0 then (if negative then FloatValue.negInf else FloatValue.posInf)
  else FloatValue.num (1 / d)

/-- Specification: the answer of the slab test as a function of the nearer and the farther
plane parameter of each axis. -/
def FloatValue.slabAnswer {F : Type} [LinearOrderedField F]
    (lx hx ly hy lz hz : FloatValue F) : Bool :=
  FloatValue.ge (FloatValue.min (FloatValue.min hx hy) hz)
      (FloatValue.max (FloatValue.max lx ly) lz)
    && FloatValue.ge (FloatValue.min (FloatValue.min hx hy) hz) (FloatValue.num 0)

/-- Specification predicate for one stretch of a closest-hit traversal that tests the
primitives `ps`, entered with out-parameters `c` and left with flag `flag` and out-parameters
`c1`: the running minimum never grows; if it is unchanged the flag is clear and nothing was
written; if it dropped the flag is set and the outputs are the hit and the parent of a
primitive of `ps` at the new minimum; and no hit of a primitive of `ps` that lies in that
primitive's own bounding box is closer than the result. -/
def ClosestStep {F : Type} [LinearOrderedField F] (L : MathFns F)
    (origin direction : Vector3 F) (ps : List (Primitive F)) (c : Closest F) (flag : Bool)
    (c1 : Closest F) : Prop :=
  c1.tMax ≤ c.tMax
    ∧ (c1.tMax = c.tMax → flag = false ∧ c1 = c)
    ∧ (c1.tMax < c.tMax →
        flag = true ∧ ∃ p ∈ ps, ∃ h : HitData F, Primitive.intersects L p origin direction = some h
          ∧ c1.out = some (h, p.parent) ∧ h.t = c1.tMax)
    ∧ (∀ p ∈ ps, ∀ h : HitData F, Primitive.intersects L p origin direction = some h →
        0 ≤ h.t →
        BoundingBox.Reached (Primitive.GetBounds p) origin direction h.t →
        c1.tMax ≤ h.t)

/-- The acceptance test of the leaf loop of `traceShadowNode`,
`intersects(..) && thisHitData.t < maxDist && thisHitData.t >= MIN_SHADOW_INTERSECT`:
the hit data when the test passes. -/
def Primitive.shadowHit {F : Type} [LinearOrderedField F] (L : MathFns F)
    (origin direction : Vector3 F) (maxDist : F) (p : Primitive F) : Option (HitData F) :=
  match Primitive.intersects L p origin direction with
  | some h => if h.t < maxDist ∧ h.t ≥ MIN_SHADOW_INTERSECT then some h else none
  | none => none

/-- The effect of the leaf loop of `traceShadowNode` on `shadowFactor`, as a function of the
accepted hits in the order met: a hit with `ktran < 0.01` ends the loop with `(0,0,0)`, any
other hit attenuates. -/
def KDTree.shadowOutcome {F : Type} [LinearOrderedField F] :
    List (HitData F) → Vector3 F → Vector3 F
  | [], shadowFactor => shadowFactor
  | h :: hs, shadowFactor =>
    if h.material.ktran < 1 / 100 then ⟨0, 0, 0⟩
    else KDTree.shadowOutcome hs (KDTree.attenuate shadowFactor h.material)

/-- The primitives stored in the leaves a traversal reaches, in traversal order: the leaves all
of whose ancestors, and which themselves, pass the bounds test. -/
def KDNode.visitedPrimitives {F : Type} [LinearOrderedField F]
    (nodePrimitives : List (List (Primitive F))) (origin : Vector3 F)
    (invDirection : Vector3 (FloatValue F)) :
    KDNode F → List (Primitive F)
  | .null => []
  | .node left right bounds primitivesIndex =>
    if BoundingBox.intersects bounds origin invDirection then
      if left.isNull && right.isNull then (nodePrimitives[primitivesIndex]?).getD []
      else KDNode.visitedPrimitives nodePrimitives origin invDirection left
        ++ KDNode.visitedPrimitives nodePrimitives origin invDirection right
    else []

/-- The primitives of a leaf on which the loop of `traceShadowNode` calls `intersects`: all up
to and including the first accepted hit with `ktran < 0.01`, where the loop returns. -/
def KDTree.shadowScanTested {F : Type} [LinearOrderedField F] (L : MathFns F)
    (origin direction : Vector3 F) (maxDist : F) : List (Primitive F) → List (Primitive F)
  | [] => []
  | p :: ps =>
    match Primitive.shadowHit L origin direction maxDist p with
    | some h =>
      if h.material.ktran < 1 / 100 then [p]
      else p :: KDTree.shadowScanTested L origin direction maxDist ps
    | none => p :: KDTree.shadowScanTested L origin direction maxDist ps

/-- The primitives on which `traceShadowNode` calls `intersects` beneath a node, in order. -/
def KDNode.shadowTested {F : Type} [LinearOrderedField F] (L : MathFns F)
    (nodePrimitives : List (List (Primitive F))) (origin direction : Vector3 F)
    (invDirection : Vector3 (FloatValue F))
    (maxDist : F) : KDNode F → List (Primitive F)
  | .null => []
  | .node left right bounds primitivesIndex =>
    if BoundingBox.intersects bounds origin invDirection then
      if left.isNull && right.isNull then
        KDTree.shadowScanTested L origin direction maxDist
          ((nodePrimitives[primitivesIndex]?).getD [])
      else KDNode.shadowTested L nodePrimitives origin direction invDirection maxDist left
        ++ KDNode.shadowTested L nodePrimitives origin direction invDirection maxDist right
    else []

/-- The primitives on which `KDTree::TraceShadowRay` calls `intersects`, in order. -/
def KDTree.shadowTested {F : Type} [LinearOrderedField F] (L : MathFns F) (tree : KDTree F)
    (origin direction : Vector3 F) (maxDist : F) : List (Primitive F) :=
  KDNode.shadowTested L tree.nodePrimitives origin direction (KDTree.invDirection direction)
    maxDist tree.root

/-- The accepted hits of a shadow ray among the primitives of the leaves the traversal of
`KDTree::TraceShadowRay` reaches, in traversal order. -/
def KDTree.shadowHits {F : Type} [LinearOrderedField F] (L : MathFns F) (tree : KDTree F)
    (origin direction : Vector3 F) (maxDist : F) : List (HitData F) :=
  (KDNode.visitedPrimitives tree.nodePrimitives origin (KDTree.invDirection direction)
    tree.root).filterMap (Primitive.shadowHit L origin direction maxDist)

/-- The last statement of `traceRay`, `outputColor = radiance + radianceReflection *
hitData.material.specColor + radianceRefraction * hitData.material.ktran`, as a function of the
three radiances and the material. -/
def Renderer.renderingEquation {F : Type} [LinearOrderedField F]
    (radiance radianceReflection radianceRefraction : Vector3 F) (material : Material F) :
    Vector3 F :=
  Vector3.add
    (Vector3.add radiance (Vector3.mul radianceReflection material.specColor))
    (Vector3.scale radianceRefraction material.ktran)

/-- The refraction ray of `traceRay` for given media and stack: `refract` is called on
`-direction` with the ratio `n1 / n2`; on total internal reflection the refraction radiance
stays zero, otherwise it is the result of the recursive call from `refractOrigin` along
`-refractDir` with `numBounces + 1` and the stack `stack`. -/
def Renderer.refractedRadiance {F : Type} [LinearOrderedField F] (L : MathFns F)
    (R : Renderer F) (direction : Vector3 F) (hitData : HitData F) (numBounces : Int)
    (n1 n2 : F) (stack : List (Object F)) : Except Fault (Vector3 F) :=
  match Vector3.refract L (Vector3.neg direction) hitData.normal (n1 / n2) with
  | none => .ok Vector3.zero
  | some refractDir =>
    Renderer.traceRay L R
      (Vector3.sub hitData.position (Vector3.scale hitData.normal Renderer.PUSH_SPAWNED_RAYS))
      (Vector3.neg refractDir) Vector3.zero (numBounces + 1) stack

/-- Specification-side definition: the componentwise minimum of two vectors. -/
def Vector3.componentMin {F : Type} [LinearOrderedField F] (a b : Vector3 F) : Vector3 F :=
  ⟨min a.x b.x, min a.y b.y, min a.z b.z⟩

/-- Specification-side definition: the componentwise maximum of two vectors. -/
def Vector3.componentMax {F : Type} [LinearOrderedField F] (a b : Vector3 F) : Vector3 F :=
  ⟨max a.x b.x, max a.y b.y, max a.z b.z⟩

/-- Specification predicate: the invariant `minCorner <= maxCorner`, componentwise. -/
def BoundingBox.Ordered {F : Type} [LinearOrderedField F] (b : BoundingBox F) : Prop :=
  b.minCorner.x ≤ b.maxCorner.x ∧ b.minCorner.y ≤ b.maxCorner.y ∧ b.minCorner.z ≤ b.maxCorner.z

/-- The nodes of the tree beneath a node, the node itself included, in preorder; null pointers
are not nodes. -/
def KDNode.subnodes {F : Type} : KDNode F → List (KDNode F)
  | .null => []
  | .node left right bounds primitivesIndex =>
    KDNode.node left right bounds primitivesIndex
      :: (KDNode.subnodes left ++ KDNode.subnodes right)

/-- Specification-side definition: the component of `v` perpendicular to the unit vector `n`,
`v - (v . n) n`. -/
def Vector3.perpendicular {F : Type} [LinearOrderedField F] (v n : Vector3 F) : Vector3 F :=
  Vector3.sub v (Vector3.scale n (Vector3.dot v n))

/-- Specification-side definition: the quantity `1 - eta^2 (1 - (v . n)^2)` whose sign decides
total internal reflection; its square root is the cosine of the refracted angle. -/
def Vector3.refractK {F : Type} [LinearOrderedField F] (v n : Vector3 F) (eta : F) : F :=
  1 - eta ^ 2 * (1 - (Vector3.dot v n) ^ 2)

/-- The vector `(*this) * eta + norm * (eta * cosi - s)` that `refract` writes in its `else`
branch (`norm = -normal`, `cosi = v . n`), as a function of the value `s` of the square
root. -/
def Vector3.refractedDir {F : Type} [LinearOrderedField F] (v n : Vector3 F) (eta s : F) :
    Vector3 F :=
  Vector3.add (Vector3.scale v eta)
    (Vector3.scale (Vector3.neg n) (eta * Vector3.dot v n - s))

/-- Specification-side definition: the sum of a list of vectors. -/
def Vector3.sum {F : Type} [LinearOrderedField F] : List (Vector3 F) → Vector3 F
  | [] => Vector3.zero
  | v :: vs => Vector3.add v (Vector3.sum vs)

/-- Specification-side definition: the values of `getLightRadiance` for the lights of a list,
in order; the first fault, if any, is the outcome. -/
def Renderer.lightRadiances {F : Type} [LinearOrderedField F] (L : MathFns F) (R : Renderer F)
    (direction : Vector3 F) (hitData : HitData F) :
    List (LightSource F) → Except Fault (List (Vector3 F))
  | [] => .ok []
  | light :: rest =>
    match Renderer.getLightRadiance L R direction light hitData with
    | .error e => .error e
    | .ok r =>
      match Renderer.lightRadiances L R direction hitData rest with
      | .error e => .error e
      | .ok rs => .ok (r :: rs)

/-- Specification-side definition of `R`: the recursively traced reflection radiance if the
largest specular channel exceeds `0.01`, and zero otherwise. -/
def Renderer.reflectedRadiance {F : Type} [LinearOrderedField F] (L : MathFns F)
    (R : Renderer F) (direction : Vector3 F) (hitData : HitData F) (numBounces : Int)
    (insideStack : List (Object F)) : Except Fault (Vector3 F) :=
  if Vector3.MaxComponent hitData.material.specColor > 1 / 100 then
    Renderer.traceRay L R
      (Vector3.add hitData.position (Vector3.scale hitData.normal Renderer.PUSH_SPAWNED_RAYS))
      (Vector3.neg (Vector3.normalize L (Vector3.reflect direction hitData.normal)))
      Vector3.zero (numBounces + 1) insideStack
  else .ok Vector3.zero

/-- Specification-side definition of `T`: the recursively traced refraction radiance if `ktran`
exceeds `0.01` and `refract` did not report total internal reflection, and zero otherwise. -/
def Renderer.transmittedRadiance {F : Type} [LinearOrderedField F] (L : MathFns F)
    (R : Renderer F) (direction : Vector3 F) (hitData : HitData F) (numBounces : Int)
    (insideStack : List (Object F)) (hitObject : Object F) : Except Fault (Vector3 F) :=
  if hitData.material.ktran > 1 / 100 then
    Renderer.refractedRadiance L R direction hitData numBounces
      (Renderer.refractionMedia insideStack hitObject).1
      (Renderer.refractionMedia insideStack hitObject).2.1
      (Renderer.refractionMedia insideStack hitObject).2.2
  else .ok Vector3.zero

/-- Specification-side definition of the shaded colour of a hit without subsurface profile:
`ambColor * diffColor * (1 - ktran) + (sum over the lights of getLightRadiance)
+ R * specColor + T * ktran`; a fault in one of the parts is the outcome. -/
def Renderer.shadedRadiance {F : Type} [LinearOrderedField F] (L : MathFns F) (R : Renderer F)
    (direction : Vector3 F) (hitData : HitData F) (numBounces : Int)
    (insideStack : List (Object F)) (hitObject : Object F) : Except Fault (Vector3 F) :=
  match Renderer.lightRadiances L R direction hitData R.scene.lights with
  | .error e => .error e
  | .ok rs =>
    match Renderer.reflectedRadiance L R direction hitData numBounces insideStack with
    | .error e => .error e
    | .ok radianceR =>
      match Renderer.transmittedRadiance L R direction hitData numBounces insideStack
          hitObject with
      | .error e => .error e
      | .ok radianceT =>
        .ok (Vector3.add
          (Vector3.add
            (Vector3.add
              (Vector3.scale (Vector3.mul hitData.material.ambColor hitData.material.diffColor)
                (1 - hitData.material.ktran))
              (Vector3.sum rs))
            (Vector3.mul radianceR hitData.material.specColor))
          (Vector3.scale radianceT hitData.material.ktran))

/-- Specification-side definition: the mean along `axis` of the midpoints of the primitives. -/
def KDTree.meanMidpoint {F : Type} [LinearOrderedField F] (primitives : List (Primitive F))
    (axis : Int) : F :=
  (primitives.map (fun p => Vector3.Get (Primitive.GetMidpoint p) axis)).sum
    / (primitives.length : F)

/-- Specification-side definition of the split at depth `depth`: along the axis `depth mod 3`,
the primitives whose midpoint is strictly smaller than the mean go left and the rest go right;
an empty side is replaced by a copy of the other. -/
def KDTree.specSides {F : Type} [LinearOrderedField F] (primitives : List (Primitive F))
    (depth : Nat) : List (Primitive F) × List (Primitive F) :=
  let axis : Int := ((depth % 3 : Nat) : Int)
  let lower := primitives.filter
    (fun p => decide (Vector3.Get (Primitive.GetMidpoint p) axis
      < KDTree.meanMidpoint primitives axis))
  let rest := primitives.filter
    (fun p => !decide (Vector3.Get (Primitive.GetMidpoint p) axis
      < KDTree.meanMidpoint primitives axis))
  (if lower.isEmpty then rest else lower, if rest.isEmpty then lower else rest)

/-- Specification-side definition: the number of pairs `(l, r)`, `l` from `left` and `r` from
`right`, that are the same primitive (same address). -/
def KDTree.sharedPairs {F : Type} (left right : List (Primitive F)) : Nat :=
  ((left.product right).filter (fun pr => decide (pr.1.addr = pr.2.addr))).length

/-- Specification predicate: `b` is the union of the boxes of the list, the smallest box that
encloses each of them. -/
def BoundingBox.IsUnion {F : Type} [LinearOrderedField F] (b : BoundingBox F)
    (boxes : List (BoundingBox F)) : Prop :=
  (∀ c ∈ boxes, BoundingBox.Encloses b c)
    ∧ ∀ d : BoundingBox F, (∀ c ∈ boxes, BoundingBox.Encloses d c) → BoundingBox.Encloses d b

/-- Specification-side definition of the direct term of one light at a hit, for a given shadow
factor: `(diffColor * max(L.N, 0) * (1 - ktran) + specColor * max(R.V, 0)^(128 * shininess))`
multiplied componentwise by the shadow factor and the light colour, and by the distance
attenuation, with `L` the light direction at the hit, `R = normalize(reflect(L, N))` and
`V = normalize(-direction)`. -/
def Renderer.lightTerm {F : Type} [LinearOrderedField F] (L : MathFns F)
    (direction : Vector3 F) (light : LightSource F) (hitData : HitData F)
    (shadowFactor : Vector3 F) : Vector3 F :=
  Vector3.scale
    (Vector3.mul
      (Vector3.mul
        (Vector3.add
          (Vector3.scale
            (Vector3.scale hitData.material.diffColor
              (max (Vector3.dot (LightSource.getDirection L light hitData.position)
                hitData.normal) 0))
            (1 - hitData.material.ktran))
          (Vector3.scale hitData.material.specColor
            (L.pow
              (max (Vector3.dot
                (Vector3.normalize L
                  (Vector3.reflect (LightSource.getDirection L light hitData.position)
                    hitData.normal))
                (Vector3.normalize L (Vector3.neg direction))) 0)
              (128 * hitData.material.shininess))))
        shadowFactor)
      (LightSource.color light))
    (LightSource.getAttenuation light (LightSource.getDistance L light hitData.position))

/-- Specification-side definition: the shadow ray of `getLightRadiance`, from
`position + N * 0.0001` along the light direction with `maxDist` the light distance. -/
def Renderer.shadowQuery {F : Type} [LinearOrderedField F] (L : MathFns F) (R : Renderer F)
    (light : LightSource F) (hitData : HitData F) : Except Fault (Vector3 F) :=
  Scene.TraceShadowRay L R.scene
    (Vector3.add hitData.position (Vector3.scale hitData.normal (1 / 10000)))
    (LightSource.getDirection L light hitData.position)
    (LightSource.getDistance L light hitData.position)

/-- Specification-side definition: the point `w0 v0 + w1 v1 + w2 v2` of a triangle. -/
def Triangle.combination {F : Type} [LinearOrderedField F] (tr : Triangle F) (w0 w1 w2 : F) :
    Vector3 F :=
  Vector3.add (Vector3.add (Vector3.scale tr.v0 w0) (Vector3.scale tr.v1 w1))
    (Vector3.scale tr.v2 w2)

/-- Specification predicate: the point `p` is within distance `radius` of the centre of the
sphere, stated on the squares. -/
def Sphere.Within {F : Type} [LinearOrderedField F] (s : Sphere F) (p : Vector3 F) : Prop :=
  Vector3.dot (Vector3.sub p s.center) (Vector3.sub p s.center) ≤ s.radius * s.radius

/-- The method `Vector3::normalize` with the one division it performs made visible: `none`
when the divisor `length()` is zero (the float quotient is then a NaN or an infinity), and the
quotient otherwise. -/
def Vector3.normalizeChecked {F : Type} [LinearOrderedField F] (L : MathFns F)
    (a : Vector3 F) : Option (Vector3 F) :=
  if Vector3.length L a = 0 then none else some (Vector3.divScalar a (Vector3.length L a))

/-- Specification predicate: the library square root is exact on the non-negative numbers. -/
def MathFns.ExactSqrt {F : Type} [LinearOrderedField F] (L : MathFns F) : Prop :=
  ∀ x : F, 0 ≤ x → 0 ≤ L.sqrt x ∧ L.sqrt x * L.sqrt x = x

/-- Specification predicate: `exp` is the exponential function, characterised by
`exp (a + b) = exp a * exp b` and `1 + x <= exp x`. -/
def ExpFns.ExactExp {F : Type} [LinearOrderedField F] (E : ExpFns F) : Prop :=
  (∀ a b : F, E.exp (a + b) = E.exp a * E.exp b) ∧ ∀ x : F, 1 + x ≤ E.exp x

/-- Specification predicate: `log` inverts `exp` on the positive numbers. -/
def ExpFns.ExactLog {F : Type} [LinearOrderedField F] (E : ExpFns F) : Prop :=
  ∀ x : F, 0 < x → E.exp (E.log x) = x

/-- Specification predicate: `cos^2 + sin^2 = 1`. -/
def ExpFns.ExactTrig {F : Type} [LinearOrderedField F] (E : ExpFns F) : Prop :=
  ∀ x : F, E.cos x * E.cos x + E.sin x * E.sin x = 1

/-- Specification predicate: every channel of the vector is positive. -/
def Vector3.Positive {F : Type} [LinearOrderedField F] (a : Vector3 F) : Prop :=
  0 < a.x ∧ 0 < a.y ∧ 0 < a.z

/-- Specification-side definition: the Henyey-Greenstein phase function
`(1 / (4 pi)) * (1 - g^2) / (1 + 2 g cosTheta + g^2)^(3/2)`. -/
def BSSRDF.henyeyGreenstein {F : Type} [LinearOrderedField F] (L : MathFns F) (g cosTheta : F) :
    F :=
  1 / (4 * L.pi) * (1 - g ^ 2) / L.pow (1 + 2 * g * cosTheta + g ^ 2) (3 / 2)

/-- Specification predicate: every channel of the vector lies in `[0, 1]`. -/
def Vector3.InUnit {F : Type} [LinearOrderedField F] (a : Vector3 F) : Prop :=
  (0 ≤ a.x ∧ a.x ≤ 1) ∧ (0 ≤ a.y ∧ a.y ≤ 1) ∧ (0 ≤ a.z ∧ a.z ≤ 1)

/-- Specification predicate: no channel of `a` exceeds the channel of `b`. -/
def Vector3.Le {F : Type} [LinearOrderedField F] (a b : Vector3 F) : Prop :=
  a.x ≤ b.x ∧ a.y ≤ b.y ∧ a.z ≤ b.z

/-- Specification predicate: the pointers in the scene's primitive list are pairwise distinct,
and the pointers `ptrs` of an object are pairwise distinct and all occur in that list. -/
def Scene.Owns {F : Type} (primitives : List (Primitive F)) (ptrs : List Nat) : Prop :=
  (primitives.map Primitive.addr).Nodup ∧ ptrs.Nodup
    ∧ ∀ a ∈ ptrs, a ∈ primitives.map Primitive.addr

/-- The vector `left` of `makeNode` after the partition loop, before the two
`//was this split trivial` assignments. -/
def KDTree.lowerSide {F : Type} [LinearOrderedField F] (primitives : List (Primitive F))
    (depth : Nat) : List (Primitive F) :=
  primitives.filter (fun p => !KDTree.onRightSide ((depth % 3 : Nat) : Int)
    (KDTree.splitValue primitives ((depth % 3 : Nat) : Int)) p)

/-- The vector `right` of `makeNode` after the partition loop, before the two
`//was this split trivial` assignments. -/
def KDTree.upperSide {F : Type} [LinearOrderedField F] (primitives : List (Primitive F))
    (depth : Nat) : List (Primitive F) :=
  primitives.filter (KDTree.onRightSide ((depth % 3 : Nat) : Int)
    (KDTree.splitValue primitives ((depth % 3 : Nat) : Int)))

/-- Specification predicate: the midpoints of the primitives along the axis `depth mod 3` are
all equal. -/
def KDTree.SameMidpoints {F : Type} [LinearOrderedField F] (primitives : List (Primitive F))
    (depth : Nat) : Prop :=
  ∀ p ∈ primitives, ∀ q ∈ primitives,
    Vector3.Get (Primitive.GetMidpoint p) ((depth % 3 : Nat) : Int)
      = Vector3.Get (Primitive.GetMidpoint q) ((depth % 3 : Nat) : Int)

/-- Specification predicate: two entries of the list with the same address are the same
primitive (a pointer determines its pointee). -/
def KDTree.PointerIdentity {F : Type} (primitives : List (Primitive F)) : Prop :=
  ∀ p ∈ primitives, ∀ q ∈ primitives, p.addr = q.addr → p = q

/-- Specification predicate: every node beneath the pointer has either two non-null children
or none. -/
def KDNode.TwoOrNone {F : Type} : KDNode F → Prop
  | .null => True
  | .node left right _ _ =>
    ((left.isNull = true ∧ right.isNull = true) ∨ (left.isNull = false ∧ right.isNull = false))
      ∧ KDNode.TwoOrNone left ∧ KDNode.TwoOrNone right

/-- Specification predicate: no object pointer occurs twice on the inside stack. -/
def Renderer.DuplicateFree {F : Type} (insideStack : List (Object F)) : Prop :=
  (insideStack.map Object.addr).Nodup

/-- The arguments of a call of `traceRay` that its recursion depends on. -/
structure Renderer.Call (F : Type) where
  origin : Vector3 F
  direction : Vector3 F
  numBounces : Int
  insideStack : List (Object F)

/-- The two recursive call sites of `traceRay`: `Spawns L R c c1` holds when the call `c`
finds a closest hit whose shaded material has no subsurface profile and reaches the recursive
call for the reflection ray (largest specular channel above `MIN_SHININESS`, same stack) or the
one for the refraction ray (`ktran` above `MIN_TRANSPARENCY`, no total internal reflection,
stack after the entry/exit bookkeeping), and `c1` holds the arguments of that call. -/
inductive Renderer.Spawns {F : Type} [LinearOrderedField F] (L : MathFns F) (R : Renderer F) :
    Renderer.Call F → Renderer.Call F → Prop
  | reflection (c : Renderer.Call F) (hitData0 : HitData F) (hitObject : Object F)
      (hn : c.numBounces ≤ Renderer.MAX_BOUNCES)
      (hhit : Scene.GetClosestIntersection L R.scene c.origin c.direction
        = .ok (true, some (hitData0, hitObject)))
      (hprofile : (Renderer.applyColorShader hitObject
        (Renderer.orientNormal c.direction c.insideStack hitObject hitData0)).material.bssrdf
          = none)
      (hspec : Vector3.MaxComponent (Renderer.applyColorShader hitObject
        (Renderer.orientNormal c.direction c.insideStack hitObject
          hitData0)).material.specColor > Renderer.MIN_SHININESS) :
      Renderer.Spawns L R c
        { origin := Vector3.add
            (Renderer.applyColorShader hitObject
              (Renderer.orientNormal c.direction c.insideStack hitObject hitData0)).position
            (Vector3.scale
              (Renderer.applyColorShader hitObject
                (Renderer.orientNormal c.direction c.insideStack hitObject hitData0)).normal
              Renderer.PUSH_SPAWNED_RAYS)
          direction := Vector3.neg (Vector3.normalize L (Vector3.reflect c.direction
            (Renderer.applyColorShader hitObject
              (Renderer.orientNormal c.direction c.insideStack hitObject hitData0)).normal))
          numBounces := c.numBounces + 1
          insideStack := c.insideStack }
  | refraction (c : Renderer.Call F) (hitData0 : HitData F) (hitObject : Object F)
      (refractDir : Vector3 F)
      (hn : c.numBounces ≤ Renderer.MAX_BOUNCES)
      (hhit : Scene.GetClosestIntersection L R.scene c.origin c.direction
        = .ok (true, some (hitData0, hitObject)))
      (hprofile : (Renderer.applyColorShader hitObject
        (Renderer.orientNormal c.direction c.insideStack hitObject hitData0)).material.bssrdf
          = none)
      (hk : (Renderer.applyColorShader hitObject
        (Renderer.orientNormal c.direction c.insideStack hitObject hitData0)).material.ktran
          > Renderer.MIN_TRANSPARENCY)
      (hr : Vector3.refract L (Vector3.neg c.direction)
          (Renderer.applyColorShader hitObject
            (Renderer.orientNormal c.direction c.insideStack hitObject hitData0)).normal
          ((Renderer.refractionMedia c.insideStack hitObject).1
            / (Renderer.refractionMedia c.insideStack hitObject).2.1) = some refractDir) :
      Renderer.Spawns L R c
        { origin := Vector3.sub
            (Renderer.applyColorShader hitObject
              (Renderer.orientNormal c.direction c.insideStack hitObject hitData0)).position
            (Vector3.scale
              (Renderer.applyColorShader hitObject
                (Renderer.orientNormal c.direction c.insideStack hitObject hitData0)).normal
              Renderer.PUSH_SPAWNED_RAYS)
          direction := Vector3.neg refractDir
          numBounces := c.numBounces + 1
          insideStack := (Renderer.refractionMedia c.insideStack hitObject).2.2 }

/-- Specification predicate: the loops of `renderTile` over the tile visit the pixel `(i, j)`,
that is, `min_x <= i < max_x` and `min_y <= j < max_y`. -/
def Tile.covers (t : Tile) (i j : Nat) : Bool :=
  decide (t.min_x ≤ i ∧ i < t.max_x ∧ t.min_y ≤ j ∧ j < t.max_y)

/-! ## Sample data over `ℚ` for concrete evaluations -/

/-- An instance of the library parameter over `ℚ`: `sqrt` is the rational square root, exact on
squares; the values chosen for the other functions enter no statement below. -/
def exactFns : MathFns ℚ :=
  { sqrt := Rat.sqrt, atan2 := fun _ _ => 0, asin := fun _ => 0, pow := fun x _ => x,
    pi := 22 / 7 }

/-- A white diffuse material of transparency `k`. -/
def whiteMaterial (k : ℚ) : Material ℚ :=
  { diffColor := ⟨1, 1, 1⟩, ambColor := ⟨1, 1, 1⟩, specColor := ⟨0, 0, 0⟩,
    emissColor := ⟨0, 0, 0⟩, shininess := 0, ktran := k, bssrdf := none }

/-- An object without shaders, as the `Object` constructor leaves it, at address `a`. -/
def plainObject (a : Nat) : Object ℚ :=
  { addr := a, indexOfRefraction := 3 / 2, colorShader := none, intersectionShader := none }

/-- The triangle `(0,0,0)`, `(1,0,0)`, `(0,1,0)` in the plane `z = 0`, normals `(0,0,1)`. -/
def unitTriangle : Triangle ℚ :=
  { v0 := ⟨0, 0, 0⟩, v1 := ⟨1, 0, 0⟩, v2 := ⟨0, 1, 0⟩
    n0 := ⟨0, 0, 1⟩, n1 := ⟨0, 0, 1⟩, n2 := ⟨0, 0, 1⟩
    m0 := whiteMaterial 0, m1 := whiteMaterial 0, m2 := whiteMaterial 0
    tex0 := ⟨0, 0, 0⟩, tex1 := ⟨1, 0, 0⟩, tex2 := ⟨0, 1, 0⟩ }

/-- The unit sphere centred at the origin. -/
def unitSphere : Sphere ℚ :=
  { material := whiteMaterial 0, center := ⟨0, 0, 0⟩, radius := 1 }

/-- A triangle in the plane `z = 0` with vertices `a`, `b`, `c`, normals `(0,0,1)`. -/
def flatTriangle (a b c : Vector3 ℚ) : Triangle ℚ :=
  { v0 := a, v1 := b, v2 := c
    n0 := ⟨0, 0, 1⟩, n1 := ⟨0, 0, 1⟩, n2 := ⟨0, 0, 1⟩
    m0 := whiteMaterial 0, m1 := whiteMaterial 0, m2 := whiteMaterial 0
    tex0 := ⟨0, 0, 0⟩, tex1 := ⟨0, 0, 0⟩, tex2 := ⟨0, 0, 0⟩ }

/-- First of two overlapping coplanar triangles: `(0,0,0)`, `(4,0,0)`, `(0,4,0)`, the only
primitive of the object at address 1. -/
def overlapA : Primitive ℚ :=
  { addr := 1, parent := plainObject 1
    shape := Shape.triangle (flatTriangle ⟨0, 0, 0⟩ ⟨4, 0, 0⟩ ⟨0, 4, 0⟩) }

/-- Second of two overlapping coplanar triangles: `(1,1,0)`, `(-3,1,0)`, `(1,-3,0)`, the only
primitive of the object at address 2. -/
def overlapB : Primitive ℚ :=
  { addr := 2, parent := plainObject 2
    shape := Shape.triangle (flatTriangle ⟨1, 1, 0⟩ ⟨-3, 1, 0⟩ ⟨1, -3, 0⟩) }

/-- The tree the constructor builds from `[overlapA, overlapB]`: the root splits on `x` at the
mean `1/2` of the centroids `4/3` and `-1/3`, so the second triangle goes left. -/
def overlapTree : KDTree ℚ :=
  { root := KDNode.node
      (KDNode.node KDNode.null KDNode.null (Primitive.GetBounds overlapB) 1)
      (KDNode.node KDNode.null KDNode.null (Primitive.GetBounds overlapA) 2)
      (BoundingBox.Expand (Primitive.GetBounds overlapB) (Primitive.GetBounds overlapA)) 0
    nodePrimitives := [[overlapA, overlapB], [overlapB], [overlapA]] }

/-- A material of transparency `k` and diffuse colour `d`. -/
def tintedMaterial (k : ℚ) (d : Vector3 ℚ) : Material ℚ :=
  { diffColor := d, ambColor := ⟨1, 1, 1⟩, specColor := ⟨0, 0, 0⟩, emissColor := ⟨0, 0, 0⟩,
    shininess := 0, ktran := k, bssrdf := none }

/-- The triangle `(0,0,z)`, `(4,0,z)`, `(0,4,z)` with material `m` at its three vertices. -/
def paneTriangle (m : Material ℚ) (z : ℚ) : Triangle ℚ :=
  { v0 := ⟨0, 0, z⟩, v1 := ⟨4, 0, z⟩, v2 := ⟨0, 4, z⟩
    n0 := ⟨0, 0, 1⟩, n1 := ⟨0, 0, 1⟩, n2 := ⟨0, 0, 1⟩
    m0 := m, m1 := m, m2 := m
    tex0 := ⟨0, 0, 0⟩, tex1 := ⟨0, 0, 0⟩, tex2 := ⟨0, 0, 0⟩ }

/-- A pane: `paneTriangle m z` as the only primitive of the object at address `a`. -/
def pane (a : Nat) (m : Material ℚ) (z : ℚ) : Primitive ℚ :=
  { addr := a, parent := plainObject a, shape := Shape.triangle (paneTriangle m z) }

/-- A half-transparent pane at `z = 0` whose diffuse colour `(2^-24, 0, 0)` has its largest
channel below `FLT_EPSILON`. -/
def dimPane : Primitive ℚ := pane 1 (tintedMaterial (1 / 2) ⟨1 / 2 ^ 24, 0, 0⟩) 0

/-- A half-transparent white pane at `z = -1`. -/
def whitePane : Primitive ℚ := pane 2 (tintedMaterial (1 / 2) ⟨1, 1, 1⟩) (-1)

/-- A white pane of transparency `0` at `z = -1`. -/
def solidPane : Primitive ℚ := pane 3 (tintedMaterial 0 ⟨1, 1, 1⟩) (-1)

/-- The tree the constructor builds from two panes `[p, q]` over the same footprint: both
centroids have `x = 4/3`, the split is degenerate and the root is a leaf holding both. -/
def paneTree (p q : Primitive ℚ) : KDTree ℚ :=
  { root := KDNode.node KDNode.null KDNode.null (KDTree.boundsOf p [q]) 0
    nodePrimitives := [[p, q]] }

/-- The hit of the ray from `(1,1,1)` along `(-1/8,-1/8,-1)` on `dimPane`. -/
def dimHit : HitData ℚ :=
  Triangle.hitAt exactFns (paneTriangle (tintedMaterial (1 / 2) ⟨1 / 2 ^ 24, 0, 0⟩) 0) ⟨1, 1, 1⟩
    ⟨-1 / 8, -1 / 8, -1⟩ 1 (7 / 32) (7 / 32)

/-- A renderer over the scene of `dimPane` in front of `whitePane`, without lights. -/
def paneRenderer : Renderer ℚ :=
  { scene := { primitives := [dimPane, whitePane], lights := []
               kdtree := paneTree dimPane whitePane }
    getSubsurfaceRadiance := fun _ _ => .ok Vector3.zero }

/-- The hit data `traceRay` shades for the ray from `(1,1,1)` along `(-1/8,-1/8,-1)` entering
from the empty stack. -/
def dimShaded : HitData ℚ :=
  Renderer.applyColorShader (plainObject 1)
    (Renderer.orientNormal ⟨-1 / 8, -1 / 8, -1⟩ [] (plainObject 1) dimHit)

/-- The unit sphere at the origin as the only primitive of the object at address 1. -/
def unitBall : Primitive ℚ :=
  { addr := 1, parent := plainObject 1, shape := Shape.sphere unitSphere }

/-- The tree the constructor builds from `[unitBall]`: one leaf. -/
def ballTree : KDTree ℚ :=
  { root := KDNode.node KDNode.null KDNode.null (KDTree.boundsOf unitBall []) 0
    nodePrimitives := [[unitBall]] }

/-- A box with `minCorner <= maxCorner`. -/
def orderedBox : BoundingBox ℚ := { minCorner := ⟨0, 0, 0⟩, maxCorner := ⟨1, 2, 3⟩ }

/-- A box that violates `minCorner <= maxCorner` on every axis. -/
def invertedBox : BoundingBox ℚ := { minCorner := ⟨5, 5, 5⟩, maxCorner := ⟨-1, -1, -1⟩ }

/-- A directional light of colour `c` shining along `(-1,-2,-2)`: the direction to the light is
`(1/3, 2/3, 2/3)` everywhere. -/
def slantLight (c : Vector3 ℚ) : LightSource ℚ := LightSource.directional c ⟨-1, -2, -2⟩

/-- Hit data at the point `(1,1,0)` of `dimPane`, with normal `n` and material `m`. -/
def lambertHit (m : Material ℚ) (n : Vector3 ℚ) : HitData ℚ :=
  { t := 1, position := ⟨1, 1, 0⟩, normal := n, material := m, u := 0, v := 0 }

/-- An instance of `ExpFns` over `ℚ` for evaluations in which no value of these functions
matters. -/
def stubExp : ExpFns ℚ :=
  { exp := fun _ => 1, log := fun _ => 0, cos := fun _ => 1, sin := fun _ => 0 }

/-- A white pane of transparency `0` at `z = 0`. -/
def brightPane : Primitive ℚ := pane 1 (tintedMaterial 0 ⟨1, 1, 1⟩) 0

/-- A renderer over the scene of `brightPane` in front of `whitePane`, lit by a white
directional light from the direction `(1/3, 2/3, 2/3)`. -/
def litRenderer : Renderer ℚ :=
  { scene := { primitives := [brightPane, whitePane], lights := [slantLight ⟨1, 1, 1⟩]
               kdtree := paneTree brightPane whitePane }
    getSubsurfaceRadiance := fun _ _ => .ok Vector3.zero }

/-- A camera of image width 4 whose rays all start at `(1, 2, 2/3)` and run along the unit
vector `(-1/3, -2/3, -2/3)`. -/
def fixedCamera : ThinLensCamera ℚ :=
  { imageWidth := 4, GetRay := fun _ _ _ _ => (⟨1, 2, 2 / 3⟩, ⟨-1 / 3, -2 / 3, -2 / 3⟩) }

/-- The hit of the rays of `fixedCamera` on `brightPane`. -/
def litHit : HitData ℚ :=
  { t := 1, position := ⟨2 / 3, 4 / 3, 0⟩, normal := ⟨0, 0, 1⟩
    material := tintedMaterial 0 ⟨1, 1, 1⟩, u := 0, v := 0 }

/-- The scene of `dimPane` (object 1) and `whitePane` (object 2) with its object vector. -/
def paneScene : Scene ℚ :=
  { primitives := [dimPane, whitePane], lights := [], kdtree := paneTree dimPane whitePane
    objects := [(plainObject 1, [1]), (plainObject 2, [2])] }

/-- The scene of the single object 1 with the primitive `dimPane` and the tree the constructor
builds from it, a single leaf. -/
def loneScene : Scene ℚ :=
  { primitives := [dimPane], lights := []
    kdtree := { root := KDNode.node KDNode.null KDNode.null (KDTree.boundsOf dimPane []) 0
                nodePrimitives := [[dimPane]] }
    objects := [(plainObject 1, [1])] }

/-- A sphere of radius `2^-10` centred at the origin. -/
def smallSphere : Sphere ℚ :=
  { material := whiteMaterial 0, center := ⟨0, 0, 0⟩, radius := 1 / 2 ^ 10 }

/-- The small sphere as the only primitive of the object at address 1. -/
def smallBall : Primitive ℚ :=
  { addr := 1, parent := plainObject 1, shape := Shape.sphere smallSphere }

/-- The tree the constructor builds from `[smallBall]`: one leaf. -/
def smallTree : KDTree ℚ :=
  { root := KDNode.node KDNode.null KDNode.null (KDTree.boundsOf smallBall []) 0
    nodePrimitives := [[smallBall]] }

/-- The origin `(-5, 2^-10 (1 + 2^-23), 0)` of a ray that grazes the small sphere: its `y` is
the `float` next above the radius `2^-10`. -/
def grazingOrigin : Vector3 ℚ := ⟨-5, 1 / 2 ^ 10 * (1 + 1 / 2 ^ 23), 0⟩

/-! # Theorems -/

section Triangles

variable {F : Type} [LinearOrderedField F]

theorem FLT_EPSILON_pos : (0 : F) < FLT_EPSILON := by
  unfold FLT_EPSILON
  positivity

/-- Cramer's rule for the Moller-Trumbore system: a solution `(t, u, v)` of
`origin + t * direction = v0 + u * edge1 + v * edge2` is the triple the code computes. -/
theorem Triangle.solve_unique (tr : Triangle F) (origin direction : Vector3 F) (t u v : F)
    (hdet : Triangle.det tr direction ≠ 0)
    (heq : Vector3.add origin (Vector3.scale direction t)
      = Vector3.add (Vector3.add tr.v0 (Vector3.scale (Vector3.sub tr.v1 tr.v0) u))
          (Vector3.scale (Vector3.sub tr.v2 tr.v0) v)) :
    Triangle.baryU tr origin direction = u ∧ Triangle.baryV tr origin direction = v
      ∧ Triangle.rayT tr origin direction = t := by
  simp only [Vector3.add, Vector3.scale, Vector3.sub, Vector3.mk.injEq] at heq
  obtain ⟨hx, hy, hz⟩ := heq
  refine ⟨?_, ?_, ?_⟩
  · unfold Triangle.baryU
    simp only [mul_one_div]
    rw [div_eq_iff hdet]
    simp only [Triangle.det, Vector3.dot, Vector3.cross, Vector3.sub]
    linear_combination
      (direction.y * (tr.v2.z - tr.v0.z) - direction.z * (tr.v2.y - tr.v0.y)) * hx
      + (-direction.x * (tr.v2.z - tr.v0.z) + direction.z * (tr.v2.x - tr.v0.x)) * hy
      + (direction.x * (tr.v2.y - tr.v0.y) - direction.y * (tr.v2.x - tr.v0.x)) * hz
  · unfold Triangle.baryV
    simp only [mul_one_div]
    rw [div_eq_iff hdet]
    simp only [Triangle.det, Vector3.dot, Vector3.cross, Vector3.sub]
    linear_combination
      ((tr.v1.y - tr.v0.y) * direction.z - (tr.v1.z - tr.v0.z) * direction.y) * hx
      + ((tr.v1.z - tr.v0.z) * direction.x - (tr.v1.x - tr.v0.x) * direction.z) * hy
      + ((tr.v1.x - tr.v0.x) * direction.y - (tr.v1.y - tr.v0.y) * direction.x) * hz
  · unfold Triangle.rayT
    simp only [mul_one_div]
    rw [div_eq_iff hdet]
    simp only [Triangle.det, Vector3.dot, Vector3.cross, Vector3.sub]
    linear_combination
      ((tr.v1.y - tr.v0.y) * (tr.v2.z - tr.v0.z) - (tr.v1.z - tr.v0.z) * (tr.v2.y - tr.v0.y)) * hx
      + ((tr.v1.z - tr.v0.z) * (tr.v2.x - tr.v0.x) - (tr.v1.x - tr.v0.x) * (tr.v2.z - tr.v0.z)) * hy
      + ((tr.v1.x - tr.v0.x) * (tr.v2.y - tr.v0.y) - (tr.v1.y - tr.v0.y) * (tr.v2.x - tr.v0.x)) * hz

/-- One coordinate of Cramer's rule, with the determinant and the numerators abstracted. -/
theorem cramer_component (D Nt Nu Nv o d v0 e1 e2 : F) (hD : D ≠ 0)
    (key : D * (o - v0) + Nt * d = Nu * e1 + Nv * e2) :
    o + d * (Nt * (1 / D)) = v0 + e1 * (Nu * (1 / D)) + e2 * (Nv * (1 / D)) := by
  field_simp
  linear_combination key

/-- The triple the code computes solves the Moller-Trumbore system whenever `det` is not
zero. -/
theorem Triangle.solve_exists (tr : Triangle F) (origin direction : Vector3 F)
    (hdet : Triangle.det tr direction ≠ 0) :
    Vector3.add origin (Vector3.scale direction (Triangle.rayT tr origin direction))
      = Vector3.add (Vector3.add tr.v0
            (Vector3.scale (Vector3.sub tr.v1 tr.v0) (Triangle.baryU tr origin direction)))
          (Vector3.scale (Vector3.sub tr.v2 tr.v0) (Triangle.baryV tr origin direction)) := by
  simp only [Vector3.add, Vector3.scale, Vector3.sub, Vector3.mk.injEq, Triangle.rayT,
    Triangle.baryU, Triangle.baryV]
  refine ⟨?_, ?_, ?_⟩
  · apply cramer_component _ _ _ _ _ _ _ _ _ hdet
    simp only [Triangle.det, Vector3.dot, Vector3.cross, Vector3.sub]
    ring
  · apply cramer_component _ _ _ _ _ _ _ _ _ hdet
    simp only [Triangle.det, Vector3.dot, Vector3.cross, Vector3.sub]
    ring
  · apply cramer_component _ _ _ _ _ _ _ _ _ hdet
    simp only [Triangle.det, Vector3.dot, Vector3.cross, Vector3.sub]
    ring

/-- The vertex-weight form `(1-u-v) v0 + u v1 + v v2` is the edge form
`v0 + u (v1 - v0) + v (v2 - v0)`. -/
theorem Triangle.weights_eq_edges (tr : Triangle F) (u v : F) :
    Vector3.add (Vector3.add (Vector3.scale tr.v0 (1 - u - v)) (Vector3.scale tr.v1 u))
        (Vector3.scale tr.v2 v)
      = Vector3.add (Vector3.add tr.v0 (Vector3.scale (Vector3.sub tr.v1 tr.v0) u))
          (Vector3.scale (Vector3.sub tr.v2 tr.v0) v) := by
  simp only [Vector3.add, Vector3.scale, Vector3.sub, Vector3.mk.injEq]
  refine ⟨?_, ?_, ?_⟩ <;> ring

/-- A determinant outside the rejection band of `Triangle::intersects` is not zero. -/
theorem Triangle.det_ne_zero_of_band (tr : Triangle F) (direction : Vector3 F)
    (h : ¬ (Triangle.det tr direction > -FLT_EPSILON ∧ Triangle.det tr direction < FLT_EPSILON)) :
    Triangle.det tr direction ≠ 0 := by
  intro h0
  apply h
  rw [h0]
  have := FLT_EPSILON_pos (F := F)
  constructor <;> linarith

/-- Everything `Triangle::intersects` guarantees about an accepted hit. -/
theorem Triangle.intersects_some (L : MathFns F) (parent : Object F) (tr : Triangle F)
    (origin direction : Vector3 F) (hd : HitData F)
    (h : Triangle.intersects L parent tr origin direction = some hd) :
    ¬ (Triangle.det tr direction > -FLT_EPSILON ∧ Triangle.det tr direction < FLT_EPSILON)
      ∧ 0 ≤ Triangle.baryU tr origin direction ∧ 0 ≤ Triangle.baryV tr origin direction
      ∧ Triangle.baryU tr origin direction + Triangle.baryV tr origin direction ≤ 1
      ∧ FLT_EPSILON < Triangle.rayT tr origin direction
      ∧ hd = Triangle.hitAt L tr origin direction (Triangle.rayT tr origin direction)
          (Triangle.baryU tr origin direction) (Triangle.baryV tr origin direction) := by
  unfold Triangle.intersects at h
  simp only at h
  split_ifs at h with h1 h2 h3 h4 h5
  · simp only [Option.some.injEq] at h
    push_neg at h2 h3
    exact ⟨h1, h2.1, h3.1, h3.2, h4, h.symm⟩

/-- C2. Whenever `Triangle::intersects` returns true (with or without an intersection shader),
the barycentric values `u`, `v` it computed satisfy `u >= 0`, `v >= 0`, `u + v <= 1`, the
reported `t` exceeds `FLT_EPSILON`, and `hitData.position = origin + t * direction
= (1-u-v) * v0 + u * v1 + v * v2`; and a ray whose point in the triangle's plane has
`u < 0`, `v < 0` or `u + v > 1` is rejected. -/
theorem Triangle.intersects_barycentric (L : MathFns F) (parent : Object F) (tr : Triangle F)
    (origin direction : Vector3 F) :
    (∀ hd : HitData F, Triangle.intersects L parent tr origin direction = some hd →
      0 ≤ Triangle.baryU tr origin direction ∧ 0 ≤ Triangle.baryV tr origin direction
      ∧ Triangle.baryU tr origin direction + Triangle.baryV tr origin direction ≤ 1
      ∧ FLT_EPSILON < hd.t
      ∧ hd.position = Vector3.add origin (Vector3.scale direction hd.t)
      ∧ hd.position = Vector3.add
          (Vector3.add
            (Vector3.scale tr.v0
              (1 - Triangle.baryU tr origin direction - Triangle.baryV tr origin direction))
            (Vector3.scale tr.v1 (Triangle.baryU tr origin direction)))
          (Vector3.scale tr.v2 (Triangle.baryV tr origin direction)))
    ∧ (∀ t u v : F,
        Vector3.add origin (Vector3.scale direction t)
          = Vector3.add (Vector3.add (Vector3.scale tr.v0 (1 - u - v)) (Vector3.scale tr.v1 u))
              (Vector3.scale tr.v2 v) →
        (u < 0 ∨ v < 0 ∨ u + v > 1) →
        Triangle.intersects L parent tr origin direction = none) := by
  constructor
  · intro hd h
    obtain ⟨hband, hu, hv, huv, ht, rfl⟩ := Triangle.intersects_some L parent tr origin direction hd h
    refine ⟨hu, hv, huv, ht, rfl, ?_⟩
    rw [Triangle.weights_eq_edges]
    exact Triangle.solve_exists tr origin direction (Triangle.det_ne_zero_of_band tr direction hband)
  · intro t u v heq hout
    rw [Triangle.weights_eq_edges] at heq
    by_cases hband :
        Triangle.det tr direction > -FLT_EPSILON ∧ Triangle.det tr direction < FLT_EPSILON
    · unfold Triangle.intersects
      simp only [hband, and_self, if_true]
    · obtain ⟨hU, hV, -⟩ := Triangle.solve_unique tr origin direction t u v
        (Triangle.det_ne_zero_of_band tr direction hband) heq
      unfold Triangle.intersects
      simp only [hband, if_false, hU, hV]
      split_ifs with h2 h3 h4 h5
      · rfl
      · rfl
      · exfalso
        push_neg at h2 h3
        rcases hout with h | h | h
        · exact absurd h2.1 (not_le.mpr h)
        · exact absurd h3.1 (not_le.mpr h)
        · exact absurd h3.2 (not_le.mpr h)
      · exfalso
        push_neg at h2 h3
        rcases hout with h | h | h
        · exact absurd h2.1 (not_le.mpr h)
        · exact absurd h3.1 (not_le.mpr h)
        · exact absurd h3.2 (not_le.mpr h)
      · rfl

/-- Evaluation of `Triangle::intersects` on the unit triangle for the ray from
`(1/4, 1/4, 1)` along `(0, 0, -1)`: a hit with `t = 1`, `u = v = 1/4`. -/
theorem unitTriangle_hit :
    Triangle.intersects exactFns (plainObject 0) unitTriangle ⟨1 / 4, 1 / 4, 1⟩ ⟨0, 0, -1⟩
      = some (Triangle.hitAt exactFns unitTriangle ⟨1 / 4, 1 / 4, 1⟩ ⟨0, 0, -1⟩ 1 (1 / 4) (1 / 4)) := by
  norm_num [Triangle.intersects, Triangle.det, Triangle.baryU, Triangle.baryV, Triangle.rayT,
    unitTriangle, Vector3.dot, Vector3.cross, Vector3.sub, FLT_EPSILON, Object.rejects,
    plainObject]

/-- Witness for C2 on the unit triangle: the ray from `(1/4, 1/4, 1)` along `(0, 0, -1)` hits
with the hand-computed `u = v = 1/4`, and the ray from `(2, 2, 1)` along `(0, 0, -1)`, whose
plane point has `u = v = 2`, is rejected. -/
theorem Triangle.intersects_barycentric_witness :
    (0 ≤ Triangle.baryU unitTriangle ⟨1 / 4, 1 / 4, 1⟩ ⟨0, 0, -1⟩
      ∧ 0 ≤ Triangle.baryV unitTriangle ⟨1 / 4, 1 / 4, 1⟩ ⟨0, 0, -1⟩
      ∧ Triangle.baryU unitTriangle ⟨1 / 4, 1 / 4, 1⟩ ⟨0, 0, -1⟩
          + Triangle.baryV unitTriangle ⟨1 / 4, 1 / 4, 1⟩ ⟨0, 0, -1⟩ ≤ 1
      ∧ FLT_EPSILON
          < (Triangle.hitAt exactFns unitTriangle ⟨1 / 4, 1 / 4, 1⟩ ⟨0, 0, -1⟩ 1 (1 / 4) (1 / 4)).t
      ∧ (Triangle.hitAt exactFns unitTriangle ⟨1 / 4, 1 / 4, 1⟩ ⟨0, 0, -1⟩ 1 (1 / 4) (1 / 4)).position
          = Vector3.add ⟨1 / 4, 1 / 4, 1⟩ (Vector3.scale ⟨0, 0, -1⟩
              (Triangle.hitAt exactFns unitTriangle ⟨1 / 4, 1 / 4, 1⟩ ⟨0, 0, -1⟩ 1 (1 / 4) (1 / 4)).t)
      ∧ (Triangle.hitAt exactFns unitTriangle ⟨1 / 4, 1 / 4, 1⟩ ⟨0, 0, -1⟩ 1 (1 / 4) (1 / 4)).position
          = Vector3.add
              (Vector3.add
                (Vector3.scale unitTriangle.v0
                  (1 - Triangle.baryU unitTriangle ⟨1 / 4, 1 / 4, 1⟩ ⟨0, 0, -1⟩
                    - Triangle.baryV unitTriangle ⟨1 / 4, 1 / 4, 1⟩ ⟨0, 0, -1⟩))
                (Vector3.scale unitTriangle.v1
                  (Triangle.baryU unitTriangle ⟨1 / 4, 1 / 4, 1⟩ ⟨0, 0, -1⟩)))
              (Vector3.scale unitTriangle.v2
                (Triangle.baryV unitTriangle ⟨1 / 4, 1 / 4, 1⟩ ⟨0, 0, -1⟩)))
    ∧ Triangle.intersects exactFns (plainObject 0) unitTriangle ⟨2, 2, 1⟩ ⟨0, 0, -1⟩ = none :=
  ⟨(Triangle.intersects_barycentric exactFns (plainObject 0) unitTriangle
      ⟨1 / 4, 1 / 4, 1⟩ ⟨0, 0, -1⟩).1 _ unitTriangle_hit,
   (Triangle.intersects_barycentric exactFns (plainObject 0) unitTriangle
      ⟨2, 2, 1⟩ ⟨0, 0, -1⟩).2 1 2 2
      (by norm_num [Vector3.add, Vector3.scale, unitTriangle]) (by norm_num)⟩

/-- C3. For a triangle and ray with `|det| >= FLT_EPSILON` and no intersection shader: if
`origin + t * direction = v0 + u * (v1 - v0) + v * (v2 - v0)` for some `t > FLT_EPSILON` and
weights `u >= 0`, `v >= 0`, `u + v <= 1`, then `Triangle::intersects` returns true and reports
exactly that `t`. -/
theorem Triangle.intersects_complete (L : MathFns F) (parent : Object F) (tr : Triangle F)
    (origin direction : Vector3 F) (t u v : F)
    (hshader : parent.intersectionShader = none)
    (hdet : FLT_EPSILON ≤ |Triangle.det tr direction|)
    (ht : FLT_EPSILON < t) (hu : 0 ≤ u) (hv : 0 ≤ v) (huv : u + v ≤ 1)
    (heq : Vector3.add origin (Vector3.scale direction t)
      = Vector3.add (Vector3.add tr.v0 (Vector3.scale (Vector3.sub tr.v1 tr.v0) u))
          (Vector3.scale (Vector3.sub tr.v2 tr.v0) v)) :
    ∃ hd : HitData F, Triangle.intersects L parent tr origin direction = some hd ∧ hd.t = t := by
  have hband :
      ¬ (Triangle.det tr direction > -FLT_EPSILON ∧ Triangle.det tr direction < FLT_EPSILON) := by
    intro hb
    have : |Triangle.det tr direction| < FLT_EPSILON := abs_lt.mpr hb
    exact absurd hdet (not_le.mpr this)
  obtain ⟨hU, hV, hT⟩ := Triangle.solve_unique tr origin direction t u v
    (Triangle.det_ne_zero_of_band tr direction hband) heq
  refine ⟨Triangle.hitAt L tr origin direction t u v, ?_, rfl⟩
  unfold Triangle.intersects
  have hu1 : ¬ (u < 0 ∨ u > 1) := by
    push_neg
    exact ⟨hu, by linarith⟩
  have hv1 : ¬ (v < 0 ∨ u + v > 1) := by
    push_neg
    exact ⟨hv, huv⟩
  simp only [hband, if_false, hU, hV, hT, hu1, hv1, ht, gt_iff_lt, if_true, Object.rejects,
    hshader]
  simp

/-- Witness for C3: the unit triangle and the ray from `(1/4, 1/4, 1)` along `(0, 0, -1)`, which
meets the plane at `t = 1` with `u = v = 1/4`. -/
theorem Triangle.intersects_complete_witness :
    ∃ hd : HitData ℚ,
      Triangle.intersects exactFns (plainObject 0) unitTriangle ⟨1 / 4, 1 / 4, 1⟩ ⟨0, 0, -1⟩
        = some hd ∧ hd.t = 1 :=
  Triangle.intersects_complete exactFns (plainObject 0) unitTriangle ⟨1 / 4, 1 / 4, 1⟩ ⟨0, 0, -1⟩
    1 (1 / 4) (1 / 4) rfl
    (by norm_num [Triangle.det, unitTriangle, Vector3.dot, Vector3.cross, Vector3.sub,
      FLT_EPSILON])
    (by norm_num [FLT_EPSILON]) (by norm_num) (by norm_num) (by norm_num)
    (by norm_num [Vector3.add, Vector3.scale, Vector3.sub, unitTriangle])

end Triangles

section Spheres

variable {F : Type} [LinearOrderedField F]

/-- The quadratic of `Sphere::intersects` in the coefficients `a`, `b`, `c` of the code. -/
theorem Sphere.isRoot_iff (s : Sphere F) (origin direction : Vector3 F) (t : F) :
    Sphere.IsRoot s origin direction t ↔
      Sphere.coeffA direction * t * t + Sphere.coeffB s origin direction * t
        + Sphere.coeffC s origin = 0 := by
  unfold Sphere.IsRoot Sphere.coeffA Sphere.coeffB Sphere.coeffC
  simp only [Vector3.dot, Vector3.sub, Vector3.add, Vector3.scale]
  constructor
  · intro h
    linear_combination h
  · intro h
    linear_combination h

/-- The length is the library square root of the dot product with itself. -/
theorem Vector3.length_eq (L : MathFns F) (v : Vector3 F) :
    Vector3.length L v = L.sqrt (Vector3.dot v v) := rfl

theorem Vector3.dot_self_nonneg (d : Vector3 F) : 0 ≤ Vector3.dot d d := by
  simp only [Vector3.dot]
  nlinarith [mul_self_nonneg d.x, mul_self_nonneg d.y, mul_self_nonneg d.z]

/-- A vector whose dot product with itself vanishes is the zero vector. -/
theorem Vector3.eq_zero_of_dot_self (d : Vector3 F) (h : Vector3.dot d d = 0) :
    d = Vector3.zero := by
  simp only [Vector3.dot] at h
  have hx : d.x = 0 := by
    nlinarith [mul_self_nonneg d.x, mul_self_nonneg d.y, mul_self_nonneg d.z]
  have hy : d.y = 0 := by
    nlinarith [mul_self_nonneg d.x, mul_self_nonneg d.y, mul_self_nonneg d.z]
  have hz : d.z = 0 := by
    nlinarith [mul_self_nonneg d.x, mul_self_nonneg d.y, mul_self_nonneg d.z]
  cases d
  simp only [Vector3.zero, Vector3.mk.injEq]
  exact ⟨hx, hy, hz⟩

/-- A direction with `a = direction . direction = 0` has `b = 0`, hence determinant `0`. -/
theorem Sphere.determinant_eq_zero_of_a (s : Sphere F) (origin direction : Vector3 F)
    (ha : Sphere.coeffA direction = 0) : Sphere.determinant s origin direction = 0 := by
  have hz := Vector3.eq_zero_of_dot_self direction ha
  subst hz
  simp only [Sphere.determinant, Sphere.coeffA, Sphere.coeffB, Vector3.dot, Vector3.zero]
  ring

/-- A quadratic `a t^2 + b t + c` with `a > 0` and discriminant `sq * sq`, `sq >= 0`: its roots
are `(-b - sq) / (2a) <= (-b + sq) / (2a)` and nothing else. -/
theorem quadratic_roots (a b c sq : F) (ha : 0 < a) (hsq0 : 0 ≤ sq)
    (hsq : sq * sq = b * b - 4 * a * c) :
    (a * ((-b - sq) / (2 * a)) * ((-b - sq) / (2 * a)) + b * ((-b - sq) / (2 * a)) + c = 0)
    ∧ (a * ((-b + sq) / (2 * a)) * ((-b + sq) / (2 * a)) + b * ((-b + sq) / (2 * a)) + c = 0)
    ∧ (-b - sq) / (2 * a) ≤ (-b + sq) / (2 * a)
    ∧ ∀ t : F, a * t * t + b * t + c = 0 → t = (-b - sq) / (2 * a) ∨ t = (-b + sq) / (2 * a) := by
  have ha0 : a ≠ 0 := ne_of_gt ha
  have h2a : (0 : F) < 2 * a := by linarith
  have h4a : (4 : F) * a ≠ 0 := by
    have : (0 : F) < 4 * a := by linarith
    exact ne_of_gt this
  refine ⟨?_, ?_, ?_, ?_⟩
  · have h : 2 * a * ((-b - sq) / (2 * a)) = -b - sq := by field_simp
    have h4 : 4 * a * (a * ((-b - sq) / (2 * a)) * ((-b - sq) / (2 * a))
        + b * ((-b - sq) / (2 * a)) + c) = 0 := by
      linear_combination (2 * a * ((-b - sq) / (2 * a)) + b - sq) * h + hsq
    rcases mul_eq_zero.mp h4 with h0 | h0
    · exact absurd h0 h4a
    · exact h0
  · have h : 2 * a * ((-b + sq) / (2 * a)) = -b + sq := by field_simp
    have h4 : 4 * a * (a * ((-b + sq) / (2 * a)) * ((-b + sq) / (2 * a))
        + b * ((-b + sq) / (2 * a)) + c) = 0 := by
      linear_combination (2 * a * ((-b + sq) / (2 * a)) + b + sq) * h + hsq
    rcases mul_eq_zero.mp h4 with h0 | h0
    · exact absurd h0 h4a
    · exact h0
  · apply div_le_div_of_nonneg_right _ (le_of_lt h2a)
    linarith
  · intro t ht
    have hfac : (2 * a * t + b - sq) * (2 * a * t + b + sq) = 0 := by
      linear_combination (4 * a) * ht - hsq
    rcases mul_eq_zero.mp hfac with h | h
    · right
      field_simp
      linear_combination h
    · left
      field_simp
      linear_combination h

/-- A library square root that is exact on squares is non-negative at every value whose square
it returns. -/
theorem sqrt_nonneg_of_exact (L : MathFns F) (hsqrt : ∀ x : F, 0 ≤ x → L.sqrt (x * x) = x)
    (d : F) (hsq : L.sqrt d * L.sqrt d = d) : 0 ≤ L.sqrt d := by
  have h1 : L.sqrt (|L.sqrt d| * |L.sqrt d|) = |L.sqrt d| := hsqrt _ (abs_nonneg _)
  rw [abs_mul_abs_self, hsq] at h1
  rw [h1]
  exact abs_nonneg _

/-- The root chosen by the code is never larger than `further = max(t1, t2)`. -/
theorem Sphere.selectRoot_le_max (t1 t2 : F) : Sphere.selectRoot t1 t2 ≤ max t1 t2 := by
  unfold Sphere.selectRoot
  split_ifs
  · exact le_trans (min_le_left _ _) (le_max_left _ _)
  · exact le_max_left _ _
  · exact le_max_right _ _

/-- The two-root branch of `Sphere::intersects` without shader, in closed form. -/
theorem Sphere.intersects_two_roots (L : MathFns F) (parent : Object F) (s : Sphere F)
    (origin direction : Vector3 F) (hshader : parent.intersectionShader = none)
    (hdet : FLT_EPSILON < Sphere.determinant s origin direction) :
    Sphere.intersects L parent s origin direction
      = if Sphere.selectRoot
            ((-Sphere.coeffB s origin direction + L.sqrt (Sphere.determinant s origin direction))
              / (2 * Sphere.coeffA direction))
            ((-Sphere.coeffB s origin direction - L.sqrt (Sphere.determinant s origin direction))
              / (2 * Sphere.coeffA direction)) ≤ 0 then none
        else some (Sphere.hitAt L s origin direction
          (Sphere.selectRoot
            ((-Sphere.coeffB s origin direction + L.sqrt (Sphere.determinant s origin direction))
              / (2 * Sphere.coeffA direction))
            ((-Sphere.coeffB s origin direction - L.sqrt (Sphere.determinant s origin direction))
              / (2 * Sphere.coeffA direction))) true) := by
  have hneg : ¬ (Sphere.determinant s origin direction < FLT_EPSILON
      ∧ Sphere.determinant s origin direction > -FLT_EPSILON) := by
    intro h
    exact absurd h.1 (not_lt.mpr (le_of_lt hdet))
  have hrej : ∀ h : HitData F, parent.rejects h = false := by
    intro h
    simp only [Object.rejects, hshader]
  unfold Sphere.intersects
  simp only
  rw [if_neg hneg, if_pos hdet]
  simp only [hrej, Bool.false_eq_true, if_false]

/-- C4. For a sphere of radius `r > 0` and a ray whose origin lies strictly outside it, whose
discriminant exceeds `FLT_EPSILON` and whose roots are all positive, `Sphere::intersects`
without intersection shader returns true with `t` the smaller root,
`hitData.position = origin + t * direction` at distance exactly `r` from the centre, and
`hitData.normal = (position - C) / r`.  The library `sqrt` is assumed exact on squares and at
the discriminant. -/
theorem Sphere.intersects_outside (L : MathFns F) (parent : Object F) (s : Sphere F)
    (origin direction : Vector3 F)
    (hshader : parent.intersectionShader = none)
    (hr : 0 < s.radius)
    (hout : s.radius * s.radius
      < Vector3.dot (Vector3.sub origin s.center) (Vector3.sub origin s.center))
    (hdet : FLT_EPSILON < Sphere.determinant s origin direction)
    (hsqrt : ∀ x : F, 0 ≤ x → L.sqrt (x * x) = x)
    (hsq : L.sqrt (Sphere.determinant s origin direction)
      * L.sqrt (Sphere.determinant s origin direction) = Sphere.determinant s origin direction)
    (hpos : ∀ t : F, Sphere.IsRoot s origin direction t → 0 < t) :
    ∃ hd : HitData F, Sphere.intersects L parent s origin direction = some hd
      ∧ Sphere.IsRoot s origin direction hd.t
      ∧ (∀ t : F, Sphere.IsRoot s origin direction t → hd.t ≤ t)
      ∧ hd.position = Vector3.add origin (Vector3.scale direction hd.t)
      ∧ Vector3.dot (Vector3.sub hd.position s.center) (Vector3.sub hd.position s.center)
          = s.radius * s.radius
      ∧ hd.normal = Vector3.divScalar (Vector3.sub hd.position s.center) s.radius := by
  have _ := hout
  have heps := FLT_EPSILON_pos (F := F)
  have ha : 0 < Sphere.coeffA direction := by
    rcases lt_or_eq_of_le (Vector3.dot_self_nonneg direction) with h | h
    · exact h
    · have := Sphere.determinant_eq_zero_of_a s origin direction h.symm
      rw [this] at hdet
      exact absurd hdet (not_lt.mpr (le_of_lt heps))
  have hsq0 := sqrt_nonneg_of_exact L hsqrt _ hsq
  obtain ⟨hroot2, hroot1, hle, hall⟩ := quadratic_roots (Sphere.coeffA direction)
    (Sphere.coeffB s origin direction) (Sphere.coeffC s origin)
    (L.sqrt (Sphere.determinant s origin direction)) ha hsq0 hsq
  rw [← Sphere.isRoot_iff] at hroot1 hroot2
  have h1 := hpos _ hroot1
  have h2 := hpos _ hroot2
  have hres := Sphere.intersects_two_roots L parent s origin direction hshader hdet
  have hsel : Sphere.selectRoot
      ((-Sphere.coeffB s origin direction + L.sqrt (Sphere.determinant s origin direction))
        / (2 * Sphere.coeffA direction))
      ((-Sphere.coeffB s origin direction - L.sqrt (Sphere.determinant s origin direction))
        / (2 * Sphere.coeffA direction))
      = (-Sphere.coeffB s origin direction - L.sqrt (Sphere.determinant s origin direction))
        / (2 * Sphere.coeffA direction) := by
    unfold Sphere.selectRoot
    rw [if_pos (le_of_lt h1), if_pos (le_of_lt h2), min_eq_right hle]
  rw [hsel, if_neg (not_le.mpr h2)] at hres
  refine ⟨_, hres, hroot2, ?_, rfl, ?_, ?_⟩
  · intro t ht
    rcases hall t ((Sphere.isRoot_iff s origin direction t).mp ht) with h | h
    · exact le_of_eq h.symm
    · rw [h]
      exact hle
  · exact hroot2
  · have hlen : Vector3.length L (Vector3.sub
        (Vector3.add origin (Vector3.scale direction
          ((-Sphere.coeffB s origin direction - L.sqrt (Sphere.determinant s origin direction))
              / (2 * Sphere.coeffA direction)))) s.center) = s.radius := by
      have hr2 := hroot2
      unfold Sphere.IsRoot at hr2
      rw [Vector3.length_eq, hr2]
      exact hsqrt _ (le_of_lt hr)
    simp only [Sphere.hitAt, Vector3.normalize, hlen]

/-- The rational square root is exact on squares. -/
theorem exactFns_sqrt (x : ℚ) (hx : 0 ≤ x) : exactFns.sqrt (x * x) = x := by
  show Rat.sqrt (x * x) = x
  rw [Rat.sqrt_eq, abs_of_nonneg hx]

/-- Witness for C4, the example of the claim: the unit sphere at the origin and the ray from
`(0,0,5)` along `(0,0,-1)` give `t = 4`, position `(0,0,1)` and normal `(0,0,1)`. -/
theorem Sphere.intersects_outside_witness :
    ∃ hd : HitData ℚ,
      Sphere.intersects exactFns (plainObject 0) unitSphere ⟨0, 0, 5⟩ ⟨0, 0, -1⟩ = some hd
        ∧ hd.t = 4 ∧ hd.position = ⟨0, 0, 1⟩ ∧ hd.normal = ⟨0, 0, 1⟩ := by
  have hdetv : Sphere.determinant unitSphere ⟨0, 0, 5⟩ ⟨0, 0, -1⟩ = 2 * 2 := by
    norm_num [Sphere.determinant, Sphere.coeffA, Sphere.coeffB, Sphere.coeffC, unitSphere,
      Vector3.dot, Vector3.sub]
  obtain ⟨hd, h, hroot, hmin, hpos, -, hnorm⟩ :=
    Sphere.intersects_outside exactFns (plainObject 0) unitSphere ⟨0, 0, 5⟩ ⟨0, 0, -1⟩ rfl
      (by norm_num [unitSphere])
      (by norm_num [unitSphere, Vector3.dot, Vector3.sub])
      (by rw [hdetv]; norm_num [FLT_EPSILON])
      exactFns_sqrt
      (by rw [hdetv, exactFns_sqrt 2 (by norm_num)])
      (by
        intro t ht
        simp only [Sphere.IsRoot, unitSphere, Vector3.dot, Vector3.sub, Vector3.add,
          Vector3.scale] at ht
        nlinarith)
  have h4 : Sphere.IsRoot unitSphere ⟨0, 0, 5⟩ ⟨0, 0, -1⟩ 4 := by
    norm_num [Sphere.IsRoot, unitSphere, Vector3.dot, Vector3.sub, Vector3.add, Vector3.scale]
  have hle := hmin 4 h4
  have ht : hd.t = 4 := by
    simp only [Sphere.IsRoot, unitSphere, Vector3.dot, Vector3.sub, Vector3.add,
      Vector3.scale] at hroot
    have hfac : (hd.t - 4) * (hd.t - 6) = 0 := by linear_combination hroot
    rcases mul_eq_zero.mp hfac with h0 | h0
    · linarith
    · linarith
  have hp : hd.position = ⟨0, 0, 1⟩ := by
    rw [hpos, ht]
    norm_num [Vector3.add, Vector3.scale]
  refine ⟨hd, h, ht, hp, ?_⟩
  rw [hnorm, hp]
  norm_num [Vector3.divScalar, Vector3.sub, unitSphere]

/-- C5 (failing input). Evaluation of `Sphere::intersects` at a ray that starts on the sphere
and points inwards:
unit sphere at the origin, ray from `(0,0,1)` along `(0,0,-1)`.  The discriminant is `4`, the
roots are `0` and `2`, so the smallest positive root is `2`; the code picks `min(t1, t2) = 0`
on its `t2 >= 0` test and then rejects it, reporting no hit. -/
theorem Sphere.intersects_from_surface :
    Sphere.determinant unitSphere ⟨0, 0, 1⟩ ⟨0, 0, -1⟩ = 4
      ∧ Sphere.IsRoot unitSphere ⟨0, 0, 1⟩ ⟨0, 0, -1⟩ 2
      ∧ (∀ t : ℚ, 0 < t → Sphere.IsRoot unitSphere ⟨0, 0, 1⟩ ⟨0, 0, -1⟩ t → t = 2)
      ∧ Sphere.intersects exactFns (plainObject 0) unitSphere ⟨0, 0, 1⟩ ⟨0, 0, -1⟩ = none := by
  have hdetv : Sphere.determinant unitSphere ⟨0, 0, 1⟩ ⟨0, 0, -1⟩ = 2 * 2 := by
    norm_num [Sphere.determinant, Sphere.coeffA, Sphere.coeffB, Sphere.coeffC, unitSphere,
      Vector3.dot, Vector3.sub]
  refine ⟨by rw [hdetv]; norm_num, ?_, ?_, ?_⟩
  · norm_num [Sphere.IsRoot, unitSphere, Vector3.dot, Vector3.sub, Vector3.add, Vector3.scale]
  · intro t ht h
    simp only [Sphere.IsRoot, unitSphere, Vector3.dot, Vector3.sub, Vector3.add,
      Vector3.scale] at h
    have hfac : t * (t - 2) = 0 := by linear_combination h
    rcases mul_eq_zero.mp hfac with h0 | h0
    · linarith
    · linarith
  · rw [Sphere.intersects_two_roots exactFns (plainObject 0) unitSphere _ _ rfl
      (by rw [hdetv]; norm_num [FLT_EPSILON])]
    rw [hdetv, exactFns_sqrt 2 (by norm_num)]
    norm_num [Sphere.selectRoot, Sphere.coeffA, Sphere.coeffB, unitSphere, Vector3.dot,
      Vector3.sub]

/-- The sphere part of C6: an accepted sphere hit has `t > 0`, on all three accepting
paths. -/
theorem Sphere.hit_t_pos (L : MathFns F) (parent : Object F) (s : Sphere F)
    (origin direction : Vector3 F) (hd : HitData F)
    (h : Sphere.intersects L parent s origin direction = some hd) : 0 < hd.t := by
  unfold Sphere.intersects at h
  simp only at h
  split_ifs at h with h1 h2 h3 h4 h5 h6 h7
  · simp only [Option.some.injEq] at h
    rw [← h]
    exact not_le.mp h2
  · simp only [Option.some.injEq] at h
    rw [← h]
    exact lt_of_lt_of_le (not_le.mp h5) (Sphere.selectRoot_le_max _ _)
  · simp only [Option.some.injEq] at h
    rw [← h]
    exact not_le.mp h5

theorem FloatValue.div_num (x y : F) (hy : y ≠ 0) :
    FloatValue.div x y = FloatValue.num (x / y) := by
  unfold FloatValue.div
  rw [if_neg hy]

theorem FloatValue.min_num (x y : F) :
    FloatValue.min (FloatValue.num x) (FloatValue.num y) = FloatValue.num (Min.min x y) := by
  unfold FloatValue.min FloatValue.lt
  by_cases h : y < x
  · rw [if_pos (decide_eq_true h), min_eq_right (le_of_lt h)]
  · rw [if_neg (by simpa using h), min_eq_left (not_lt.mp h)]

theorem FloatValue.max_num (x y : F) :
    FloatValue.max (FloatValue.num x) (FloatValue.num y) = FloatValue.num (Max.max x y) := by
  unfold FloatValue.max FloatValue.lt
  by_cases h : x < y
  · rw [if_pos (decide_eq_true h), max_eq_right (le_of_lt h)]
  · rw [if_neg (by simpa using h), max_eq_left (not_lt.mp h)]

theorem FloatValue.ge_num (x y : F) :
    FloatValue.ge (FloatValue.num x) (FloatValue.num y) = decide (x ≥ y) := rfl

theorem FloatValue.le_num (x y : F) :
    FloatValue.le (FloatValue.num x) (FloatValue.num y) = decide (x ≤ y) := rfl

/-- The block under `//get closest greater than 0` on numbers, in float values. -/
theorem FloatValue.selectRoot_num (t1 t2 : F) :
    (if FloatValue.ge (FloatValue.num t1) (FloatValue.num 0) then
        (if FloatValue.ge (FloatValue.num t2) (FloatValue.num 0) then
          FloatValue.min (FloatValue.num t1) (FloatValue.num t2)
        else FloatValue.num t1)
      else FloatValue.num t2) = FloatValue.num (Sphere.selectRoot t1 t2) := by
  rw [FloatValue.ge_num, FloatValue.ge_num, FloatValue.min_num]
  unfold Sphere.selectRoot
  by_cases h1 : t1 ≥ 0
  · rw [if_pos (decide_eq_true h1), if_pos h1]
    by_cases h2 : t2 ≥ 0
    · rw [if_pos (decide_eq_true h2), if_pos h2]
    · rw [if_neg (by simpa using h2), if_neg h2]
  · rw [if_neg (by simpa using h1), if_neg h1]

/-- For the zero direction vector the method returns `true` with `hitData.t` NaN, for every
sphere and every origin. -/
theorem Sphere.intersectsFloat_zero (L : MathFns F) (s : Sphere F) (origin : Vector3 F) :
    Sphere.intersectsFloat L s origin Vector3.zero = some FloatValue.nan := by
  have hA : Sphere.coeffA (Vector3.zero : Vector3 F) = 0 := by
    simp [Sphere.coeffA, Vector3.dot, Vector3.zero]
  have hB : Sphere.coeffB s origin Vector3.zero = 0 := by
    simp [Sphere.coeffB, Vector3.dot, Vector3.zero]
  have hdet := Sphere.determinant_eq_zero_of_a s origin Vector3.zero hA
  have he : (0 : F) < FLT_EPSILON := FLT_EPSILON_pos
  unfold Sphere.intersectsFloat
  simp only
  rw [hdet, hA, hB, if_pos ⟨he, by linarith⟩]
  have hq : FloatValue.div (-(0 : F)) (2 * 0) = FloatValue.nan := by
    unfold FloatValue.div
    rw [if_pos (mul_zero _), if_pos neg_zero]
  rw [hq]
  rfl

/-- Away from the zero direction vector the float values of `Sphere::intersects` are numbers:
the method in float values reports what the method in the arithmetic of the field reports. -/
theorem Sphere.intersectsFloat_eq (L : MathFns F) (parent : Object F) (s : Sphere F)
    (origin direction : Vector3 F) (hdir : direction ≠ Vector3.zero)
    (hsh : parent.intersectionShader = none) :
    Sphere.intersectsFloat L s origin direction
      = (Sphere.intersects L parent s origin direction).map (fun h => FloatValue.num h.t) := by
  have ha : 2 * Sphere.coeffA direction ≠ 0 := by
    intro h
    apply hdir
    apply Vector3.eq_zero_of_dot_self
    have h2 : (2 : F) ≠ 0 := two_ne_zero
    exact (mul_eq_zero.mp h).resolve_left h2
  have hrej : ∀ h : HitData F, parent.rejects h = false := by
    intro h
    unfold Object.rejects
    rw [hsh]
  unfold Sphere.intersectsFloat Sphere.intersects
  simp only
  by_cases h1 : Sphere.determinant s origin direction < FLT_EPSILON
      ∧ Sphere.determinant s origin direction > -FLT_EPSILON
  · rw [if_pos h1, if_pos h1, FloatValue.div_num _ _ ha, FloatValue.le_num]
    by_cases h2 : -Sphere.coeffB s origin direction / (2 * Sphere.coeffA direction) ≤ 0
    · rw [if_pos (decide_eq_true h2), if_pos h2]
      rfl
    · rw [if_neg (by simpa using h2), if_neg h2, hrej]
      rfl
  · rw [if_neg h1, if_neg h1]
    by_cases h3 : Sphere.determinant s origin direction > FLT_EPSILON
    · rw [if_pos h3, if_pos h3, FloatValue.div_num _ _ ha, FloatValue.div_num _ _ ha,
        FloatValue.selectRoot_num, FloatValue.le_num]
      by_cases h5 : Sphere.selectRoot
          ((-Sphere.coeffB s origin direction + L.sqrt (Sphere.determinant s origin direction))
            / (2 * Sphere.coeffA direction))
          ((-Sphere.coeffB s origin direction - L.sqrt (Sphere.determinant s origin direction))
            / (2 * Sphere.coeffA direction)) ≤ 0
      · rw [if_pos (decide_eq_true h5), if_pos h5]
        rfl
      · rw [if_neg (by simpa using h5), if_neg h5, hrej]
        rfl
    · rw [if_neg h3, if_neg h3]
      rfl

/-- C6 (amended). For every triangle and every ray, and for every sphere and every ray whose
direction is not the zero vector, with any intersection shader: whenever `intersects` returns
true the reported `hitData.t` is strictly positive; for a triangle it even exceeds
`FLT_EPSILON`; and for a sphere of an object without intersection shader the float value the
method assigns to `hitData.t` is that positive number. -/
theorem Primitive.intersects_t_pos (L : MathFns F) (p : Primitive F)
    (origin direction : Vector3 F) (hd : HitData F)
    (hdir : direction = Vector3.zero → ∃ tr : Triangle F, p.shape = Shape.triangle tr)
    (h : Primitive.intersects L p origin direction = some hd) :
    0 < hd.t ∧ (∀ tr : Triangle F, p.shape = Shape.triangle tr → FLT_EPSILON < hd.t)
      ∧ (∀ s : Sphere F, p.shape = Shape.sphere s → p.parent.intersectionShader = none →
          Sphere.intersectsFloat L s origin direction = some (FloatValue.num hd.t)) := by
  unfold Primitive.intersects at h
  cases hs : p.shape with
  | sphere s =>
    rw [hs] at h
    refine ⟨Sphere.hit_t_pos L p.parent s origin direction hd h, ?_, ?_⟩
    · intro tr htr
      cases htr
    · intro s1 hs1 hsh
      cases hs1
      have hne : direction ≠ Vector3.zero := by
        intro h0
        obtain ⟨tr, htr⟩ := hdir h0
        rw [hs] at htr
        cases htr
      simp only at h
      rw [Sphere.intersectsFloat_eq L p.parent s origin direction hne hsh, h]
      rfl
  | triangle t =>
    rw [hs] at h
    obtain ⟨-, -, -, -, ht, rfl⟩ := Triangle.intersects_some L p.parent t origin direction hd h
    refine ⟨lt_trans FLT_EPSILON_pos ht, ?_, ?_⟩
    · intro tr _
      exact ht
    · intro s hs1
      cases hs1

end Spheres

section Scans

variable {F : Type} [LinearOrderedField F]

/-- The leaf loop of the tree and the loop of the brute-force scan are the same function. -/
theorem KDTree.leafScan_eq_linearScan (L : MathFns F) (origin direction : Vector3 F)
    (ps : List (Primitive F)) (acc : Bool × Closest F) :
    KDTree.leafScan L origin direction ps acc = Scene.linearScan L origin direction ps acc := by
  induction ps generalizing acc with
  | nil =>
    obtain ⟨hit, c⟩ := acc
    rfl
  | cons p ps ih =>
    obtain ⟨hit, c⟩ := acc
    simp only [KDTree.leafScan, Scene.linearScan]
    cases Primitive.intersects L p origin direction with
    | none => exact ih _
    | some h =>
      simp only
      split_ifs
      · exact ih _
      · exact ih _

/-- What the scan loop computes: the running minimum never grows; if it is unchanged nothing
was written; if it dropped, the flag is set and the outputs are the hit and the parent of a
scanned primitive at the new minimum; and no scanned hit is closer than the result. -/
theorem Scene.linearScan_spec (L : MathFns F) (origin direction : Vector3 F)
    (ps : List (Primitive F)) (hit : Bool) (c : Closest F) :
    (Scene.linearScan L origin direction ps (hit, c)).2.tMax ≤ c.tMax
    ∧ ((Scene.linearScan L origin direction ps (hit, c)).2.tMax = c.tMax →
        Scene.linearScan L origin direction ps (hit, c) = (hit, c))
    ∧ ((Scene.linearScan L origin direction ps (hit, c)).2.tMax < c.tMax →
        (Scene.linearScan L origin direction ps (hit, c)).1 = true
        ∧ ∃ p ∈ ps, ∃ h : HitData F, Primitive.intersects L p origin direction = some h
            ∧ (Scene.linearScan L origin direction ps (hit, c)).2.out = some (h, p.parent)
            ∧ h.t = (Scene.linearScan L origin direction ps (hit, c)).2.tMax)
    ∧ (∀ p ∈ ps, ∀ h : HitData F, Primitive.intersects L p origin direction = some h →
        (Scene.linearScan L origin direction ps (hit, c)).2.tMax ≤ h.t) := by
  induction ps generalizing hit c with
  | nil =>
    simp only [Scene.linearScan]
    refine ⟨le_refl _, fun _ => trivial, fun h => absurd h (lt_irrefl _), ?_⟩
    intro p hp
    cases hp
  | cons p ps ih =>
    simp only [Scene.linearScan]
    cases hp : Primitive.intersects L p origin direction with
    | none =>
      simp only
      obtain ⟨i1, i2, i3, i4⟩ := ih hit c
      refine ⟨i1, i2, ?_, ?_⟩
      · intro hlt
        obtain ⟨hf, q, hq, h, hh, ho, ht⟩ := i3 hlt
        exact ⟨hf, q, List.mem_cons_of_mem _ hq, h, hh, ho, ht⟩
      · intro q hq h hh
        rcases List.mem_cons.mp hq with rfl | hq
        · rw [hp] at hh
          cases hh
        · exact i4 q hq h hh
    | some h0 =>
      simp only
      by_cases hlt0 : h0.t < c.tMax
      · simp only [hlt0, if_true]
        obtain ⟨i1, i2, i3, i4⟩ := ih true { tMax := h0.t, out := some (h0, p.parent) }
        simp only at i1 i2 i3 i4
        refine ⟨le_of_lt (lt_of_le_of_lt i1 hlt0), ?_, ?_, ?_⟩
        · intro heq
          rw [heq] at i1
          exact absurd hlt0 (not_lt.mpr i1)
        · intro _
          rcases lt_or_eq_of_le i1 with hlt | heq
          · obtain ⟨hf, q, hq, h, hh, ho, ht⟩ := i3 hlt
            exact ⟨hf, q, List.mem_cons_of_mem _ hq, h, hh, ho, ht⟩
          · have hres := i2 heq
            rw [hres]
            exact ⟨rfl, p, List.mem_cons_self _ _, h0, hp, rfl, rfl⟩
        · intro q hq h hh
          rcases List.mem_cons.mp hq with rfl | hq
          · rw [hp] at hh
            cases hh
            exact i1
          · exact i4 q hq h hh
      · simp only [hlt0, if_false]
        obtain ⟨i1, i2, i3, i4⟩ := ih hit c
        refine ⟨i1, i2, ?_, ?_⟩
        · intro hlt
          obtain ⟨hf, q, hq, h, hh, ho, ht⟩ := i3 hlt
          exact ⟨hf, q, List.mem_cons_of_mem _ hq, h, hh, ho, ht⟩
        · intro q hq h hh
          rcases List.mem_cons.mp hq with rfl | hq
          · rw [hp] at hh
            cases hh
            exact le_trans i1 (not_lt.mp hlt0)
          · exact i4 q hq h hh

end Scans

section Traversal

variable {F : Type} [LinearOrderedField F]

/-- One axis of the slab test: a parameter `t` whose point lies between the two planes lies
between the two plane parameters. -/
theorem slab_axis (lo hi o d t : F) (hd : d ≠ 0) (h1 : lo ≤ o + d * t) (h2 : o + d * t ≤ hi) :
    min ((lo - o) * (1 / d)) ((hi - o) * (1 / d)) ≤ t
      ∧ t ≤ max ((lo - o) * (1 / d)) ((hi - o) * (1 / d)) := by
  simp only [mul_one_div]
  rcases lt_or_gt_of_ne hd with hneg | hpos
  · constructor
    · apply le_trans (min_le_right _ _)
      rw [div_le_iff_of_neg hneg]
      linarith
    · apply le_trans _ (le_max_left _ _)
      rw [le_div_iff_of_neg hneg]
      linarith
  · constructor
    · apply le_trans (min_le_left _ _)
      rw [div_le_iff₀ hpos]
      linarith
    · apply le_trans _ (le_max_right _ _)
      rw [le_div_iff₀ hpos]
      linarith

/-- The inverse direction of a ray with no zero direction component consists of numbers. -/
theorem KDTree.invDirection_num (direction : Vector3 F) (hx : direction.x ≠ 0)
    (hy : direction.y ≠ 0) (hz : direction.z ≠ 0) :
    KDTree.invDirection direction
      = ⟨FloatValue.num (1 / direction.x), FloatValue.num (1 / direction.y),
          FloatValue.num (1 / direction.z)⟩ := by
  unfold KDTree.invDirection
  rw [FloatValue.div_num _ _ hx, FloatValue.div_num _ _ hy, FloatValue.div_num _ _ hz]

/-- On an inverse direction of numbers the slab test is the test in the arithmetic of the
field. -/
theorem BoundingBox.intersects_num (b : BoundingBox F) (origin : Vector3 F) (ix iy iz : F) :
    BoundingBox.intersects b origin ⟨FloatValue.num ix, FloatValue.num iy, FloatValue.num iz⟩
      = BoundingBox.slabTest b origin ⟨ix, iy, iz⟩ := by
  simp only [BoundingBox.intersects, BoundingBox.slabTest, Vector3.mulValue, Vector3.mul,
    FloatValue.scale, FloatValue.min_num, FloatValue.max_num, FloatValue.ge_num,
    Bool.decide_and]

/-- For a ray with no zero direction component the slab test of the queries is the test in the
arithmetic of the field at the componentwise inverse. -/
theorem BoundingBox.intersects_finite (b : BoundingBox F) (origin direction : Vector3 F)
    (hx : direction.x ≠ 0) (hy : direction.y ≠ 0) (hz : direction.z ≠ 0) :
    BoundingBox.intersects b origin (KDTree.invDirection direction)
      = BoundingBox.slabTest b origin ⟨1 / direction.x, 1 / direction.y, 1 / direction.z⟩ := by
  rw [KDTree.invDirection_num direction hx hy hz, BoundingBox.intersects_num]

theorem FloatValue.below_max (a b : FloatValue F) (t : F) (ha : FloatValue.Below a t)
    (hb : b = FloatValue.nan ∨ FloatValue.Below b t) :
    FloatValue.Below (FloatValue.max a b) t := by
  unfold FloatValue.max
  rcases hb with rfl | hb
  · rcases ha with rfl | ⟨x, rfl, hx⟩
    · exact Or.inl rfl
    · exact Or.inr ⟨x, rfl, hx⟩
  · split_ifs
    · exact hb
    · exact ha

theorem FloatValue.above_min (a b : FloatValue F) (t : F) (ha : FloatValue.Above a t)
    (hb : b = FloatValue.nan ∨ FloatValue.Above b t) :
    FloatValue.Above (FloatValue.min a b) t := by
  unfold FloatValue.min
  rcases hb with rfl | hb
  · rcases ha with rfl | ⟨x, rfl, hx⟩
    · exact Or.inl rfl
    · exact Or.inr ⟨x, rfl, hx⟩
  · split_ifs
    · exact hb
    · exact ha

theorem FloatValue.ge_of_above_below (a b : FloatValue F) (t : F) (ha : FloatValue.Above a t)
    (hb : FloatValue.Below b t) : FloatValue.ge a b = true := by
  rcases ha with rfl | ⟨x, rfl, hx⟩ <;> rcases hb with rfl | ⟨y, rfl, hy⟩
  · rfl
  · rfl
  · rfl
  · exact decide_eq_true (le_trans hy hx)

/-- One axis of the slab test in float values, for a ray that reaches the slab at `t`: the
nearer plane parameter is `-inf` or a number not above `t`, the farther one `+inf` or a number
not below `t`; where the direction component is zero this needs the origin strictly between
the planes. -/
theorem slab_axis_value (lo hi o d t : F) (h1 : lo ≤ o + d * t) (h2 : o + d * t ≤ hi)
    (h0 : d = 0 → lo < o ∧ o < hi) :
    FloatValue.Below (FloatValue.min (FloatValue.scale (lo - o) (FloatValue.div 1 d))
        (FloatValue.scale (hi - o) (FloatValue.div 1 d))) t
      ∧ FloatValue.Above (FloatValue.max (FloatValue.scale (lo - o) (FloatValue.div 1 d))
          (FloatValue.scale (hi - o) (FloatValue.div 1 d))) t := by
  by_cases hd : d = 0
  · obtain ⟨a1, a2⟩ := h0 hd
    have e1 : FloatValue.scale (lo - o) (FloatValue.div 1 d) = FloatValue.negInf := by
      unfold FloatValue.div
      rw [if_pos hd, if_neg one_ne_zero, if_pos one_pos]
      unfold FloatValue.scale
      rw [if_neg (by linarith), if_pos (by linarith)]
    have e2 : FloatValue.scale (hi - o) (FloatValue.div 1 d) = FloatValue.posInf := by
      unfold FloatValue.div
      rw [if_pos hd, if_neg one_ne_zero, if_pos one_pos]
      unfold FloatValue.scale
      rw [if_pos (by linarith)]
    rw [e1, e2]
    exact ⟨Or.inl rfl, Or.inl rfl⟩
  · obtain ⟨s1, s2⟩ := slab_axis lo hi o d t hd h1 h2
    rw [FloatValue.div_num _ _ hd]
    simp only [FloatValue.scale, FloatValue.min_num, FloatValue.max_num]
    exact ⟨Or.inr ⟨_, rfl, s1⟩, Or.inr ⟨_, rfl, s2⟩⟩

/-- One of the later axes of the slab test in float values: as `slab_axis_value`, but the origin
may lie on the lower plane when the direction component is zero; both plane parameters are
then NaN, which `std::max` and `std::min` drop as a second argument. -/
theorem slab_axis_later (lo hi o d t : F) (h1 : lo ≤ o + d * t) (h2 : o + d * t ≤ hi)
    (h0 : d = 0 → o < hi) :
    (FloatValue.min (FloatValue.scale (lo - o) (FloatValue.div 1 d))
          (FloatValue.scale (hi - o) (FloatValue.div 1 d)) = FloatValue.nan
        ∨ FloatValue.Below (FloatValue.min (FloatValue.scale (lo - o) (FloatValue.div 1 d))
          (FloatValue.scale (hi - o) (FloatValue.div 1 d))) t)
      ∧ (FloatValue.max (FloatValue.scale (lo - o) (FloatValue.div 1 d))
          (FloatValue.scale (hi - o) (FloatValue.div 1 d)) = FloatValue.nan
        ∨ FloatValue.Above (FloatValue.max (FloatValue.scale (lo - o) (FloatValue.div 1 d))
          (FloatValue.scale (hi - o) (FloatValue.div 1 d))) t) := by
  by_cases hd : d = 0
  · have a2 := h0 hd
    have a1 : lo ≤ o := by
      rw [hd, zero_mul, add_zero] at h1
      exact h1
    rcases lt_or_eq_of_le a1 with hlt | heq
    · obtain ⟨s1, s2⟩ := slab_axis_value lo hi o d t h1 h2 (fun _ => ⟨hlt, a2⟩)
      exact ⟨Or.inr s1, Or.inr s2⟩
    · have e1 : FloatValue.scale (lo - o) (FloatValue.div 1 d) = FloatValue.nan := by
        unfold FloatValue.div
        rw [if_pos hd, if_neg one_ne_zero, if_pos one_pos]
        unfold FloatValue.scale
        rw [heq, sub_self, if_neg (lt_irrefl _), if_neg (lt_irrefl _)]
      have e2 : FloatValue.scale (hi - o) (FloatValue.div 1 d) = FloatValue.posInf := by
        unfold FloatValue.div
        rw [if_pos hd, if_neg one_ne_zero, if_pos one_pos]
        unfold FloatValue.scale
        rw [if_pos (by linarith)]
      rw [e1, e2]
      exact ⟨Or.inl rfl, Or.inl rfl⟩
  · obtain ⟨s1, s2⟩ := slab_axis_value lo hi o d t h1 h2 (fun h => absurd h hd)
    exact ⟨Or.inr s1, Or.inr s2⟩

/-- The slab test accepts every ray that reaches the box at a parameter `t >= 0`. -/
theorem BoundingBox.intersects_of_reached (b : BoundingBox F) (origin direction : Vector3 F)
    (t : F) (ht : 0 ≤ t) (hc : BoundingBox.Reached b origin direction t) :
    BoundingBox.intersects b origin (KDTree.invDirection direction) = true := by
  obtain ⟨⟨x1, x2, y1, y2, z1, z2⟩, hx, hy, hz⟩ := hc
  simp only [Vector3.add, Vector3.scale] at x1 x2 y1 y2 z1 z2
  obtain ⟨ax1, ax2⟩ := slab_axis_value _ _ _ _ t x1 x2 hx
  obtain ⟨ay1, ay2⟩ := slab_axis_later _ _ _ _ t y1 y2 hy
  obtain ⟨az1, az2⟩ := slab_axis_later _ _ _ _ t z1 z2 hz
  have hlo := FloatValue.below_max _ _ t (FloatValue.below_max _ _ t ax1 ay1) az1
  have hhi := FloatValue.above_min _ _ t (FloatValue.above_min _ _ t ax2 ay2) az2
  simp only [BoundingBox.intersects, KDTree.invDirection, Vector3.mulValue, Vector3.sub,
    Bool.and_eq_true]
  refine ⟨FloatValue.ge_of_above_below _ _ t hhi hlo, ?_⟩
  exact FloatValue.ge_of_above_below _ _ 0
    (by
      rcases hhi with h | ⟨x, h, hx⟩
      · exact Or.inl h
      · exact Or.inr ⟨x, h, le_trans ht hx⟩)
    (Or.inr ⟨0, rfl, le_refl _⟩)

/-- The two plane parameters of an axis along which the ray runs: with `-inf` for the inverse
they are what they are with `+inf`, or both pairs consist of two equal infinities. -/
theorem slab_axis_sign (a1 a2 : F) :
    (FloatValue.min (FloatValue.scale a1 FloatValue.negInf)
          (FloatValue.scale a2 FloatValue.negInf)
        = FloatValue.min (FloatValue.scale a1 FloatValue.posInf)
          (FloatValue.scale a2 FloatValue.posInf)
      ∧ FloatValue.max (FloatValue.scale a1 FloatValue.negInf)
          (FloatValue.scale a2 FloatValue.negInf)
        = FloatValue.max (FloatValue.scale a1 FloatValue.posInf)
          (FloatValue.scale a2 FloatValue.posInf))
    ∨ (((FloatValue.max (FloatValue.scale a1 FloatValue.negInf)
            (FloatValue.scale a2 FloatValue.negInf) = FloatValue.negInf)
          ∨ (FloatValue.min (FloatValue.scale a1 FloatValue.negInf)
            (FloatValue.scale a2 FloatValue.negInf) = FloatValue.posInf))
        ∧ ((FloatValue.max (FloatValue.scale a1 FloatValue.posInf)
            (FloatValue.scale a2 FloatValue.posInf) = FloatValue.negInf)
          ∨ (FloatValue.min (FloatValue.scale a1 FloatValue.posInf)
            (FloatValue.scale a2 FloatValue.posInf) = FloatValue.posInf))) := by
  have key : ∀ a : F, (a < 0 ∧ ¬ 0 < a) ∨ (¬ a < 0 ∧ ¬ 0 < a) ∨ (¬ a < 0 ∧ 0 < a) := by
    intro a
    rcases lt_trichotomy a 0 with h | h | h
    · exact Or.inl ⟨h, not_lt_of_gt h⟩
    · exact Or.inr (Or.inl ⟨by rw [h]; exact lt_irrefl _, by rw [h]; exact lt_irrefl _⟩)
    · exact Or.inr (Or.inr ⟨not_lt_of_gt h, h⟩)
  rcases key a1 with ⟨p1, q1⟩ | ⟨p1, q1⟩ | ⟨p1, q1⟩ <;>
    rcases key a2 with ⟨p2, q2⟩ | ⟨p2, q2⟩ | ⟨p2, q2⟩ <;>
    simp [FloatValue.scale, FloatValue.min, FloatValue.max, FloatValue.lt, p1, q1, p2, q2]

theorem FloatValue.min_right_negInf (a : FloatValue F) :
    FloatValue.min a FloatValue.negInf = FloatValue.negInf
      ∨ FloatValue.min a FloatValue.negInf = FloatValue.nan := by
  cases a <;> simp [FloatValue.min, FloatValue.lt]

theorem FloatValue.min_left_low (a b : FloatValue F)
    (ha : a = FloatValue.negInf ∨ a = FloatValue.nan) :
    FloatValue.min a b = FloatValue.negInf ∨ FloatValue.min a b = FloatValue.nan := by
  rcases ha with rfl | rfl <;> cases b <;> simp [FloatValue.min, FloatValue.lt]

theorem FloatValue.max_right_posInf (a : FloatValue F) :
    FloatValue.max a FloatValue.posInf = FloatValue.posInf
      ∨ FloatValue.max a FloatValue.posInf = FloatValue.nan := by
  cases a <;> simp [FloatValue.max, FloatValue.lt]

theorem FloatValue.max_left_high (a b : FloatValue F)
    (ha : a = FloatValue.posInf ∨ a = FloatValue.nan) :
    FloatValue.max a b = FloatValue.posInf ∨ FloatValue.max a b = FloatValue.nan := by
  rcases ha with rfl | rfl <;> cases b <;> simp [FloatValue.max, FloatValue.lt]

theorem FloatValue.min_right_num (a : FloatValue F) (u : F) :
    FloatValue.min a (FloatValue.num u) ≠ FloatValue.posInf := by
  cases a <;> simp [FloatValue.min, FloatValue.lt]
  split_ifs <;> simp

theorem FloatValue.min_left_finite (a b : FloatValue F) (ha : a ≠ FloatValue.posInf) :
    FloatValue.min a b ≠ FloatValue.posInf := by
  unfold FloatValue.min
  split_ifs with h
  · intro hb
    rw [hb] at h
    cases a <;> simp [FloatValue.lt] at h
  · exact ha

/-- The slab test fails when the farther plane parameter of some axis is `-inf`. -/
theorem FloatValue.slabAnswer_low (lx hx ly hy lz hz : FloatValue F)
    (h : hx = FloatValue.negInf ∨ hy = FloatValue.negInf ∨ hz = FloatValue.negInf) :
    FloatValue.slabAnswer lx hx ly hy lz hz = false := by
  have hq : FloatValue.min (FloatValue.min hx hy) hz = FloatValue.negInf
      ∨ FloatValue.min (FloatValue.min hx hy) hz = FloatValue.nan := by
    rcases h with rfl | rfl | rfl
    · exact FloatValue.min_left_low _ _ (FloatValue.min_left_low _ _ (Or.inl rfl))
    · exact FloatValue.min_left_low _ _ (FloatValue.min_right_negInf _)
    · exact FloatValue.min_right_negInf _
  unfold FloatValue.slabAnswer
  rcases hq with hq | hq <;> rw [hq] <;> simp [FloatValue.ge, FloatValue.le]

/-- The slab test fails when the nearer plane parameter of some axis is `+inf` and the two
plane parameters of some axis are numbers. -/
theorem FloatValue.slabAnswer_high (lx hx ly hy lz hz : FloatValue F)
    (h : lx = FloatValue.posInf ∨ ly = FloatValue.posInf ∨ lz = FloatValue.posInf)
    (hf : (∃ u, hx = FloatValue.num u) ∨ (∃ u, hy = FloatValue.num u)
      ∨ (∃ u, hz = FloatValue.num u)) :
    FloatValue.slabAnswer lx hx ly hy lz hz = false := by
  have hq : FloatValue.max (FloatValue.max lx ly) lz = FloatValue.posInf
      ∨ FloatValue.max (FloatValue.max lx ly) lz = FloatValue.nan := by
    rcases h with rfl | rfl | rfl
    · exact FloatValue.max_left_high _ _ (FloatValue.max_left_high _ _ (Or.inl rfl))
    · exact FloatValue.max_left_high _ _ (FloatValue.max_right_posInf _)
    · exact FloatValue.max_right_posInf _
  have hn : FloatValue.min (FloatValue.min hx hy) hz ≠ FloatValue.posInf := by
    rcases hf with ⟨u, rfl⟩ | ⟨u, rfl⟩ | ⟨u, rfl⟩
    · exact FloatValue.min_left_finite _ _ (FloatValue.min_left_finite _ _ (by simp))
    · exact FloatValue.min_left_finite _ _ (FloatValue.min_right_num _ _)
    · exact FloatValue.min_right_num _ _
  unfold FloatValue.slabAnswer
  rcases hq with hq | hq
  · rw [hq]
    generalize FloatValue.min (FloatValue.min hx hy) hz = v at hn
    cases v <;> simp [FloatValue.ge, FloatValue.le] at hn ⊢
  · rw [hq]
    generalize FloatValue.min (FloatValue.min hx hy) hz = v
    cases v <;> simp [FloatValue.ge, FloatValue.le]

/-- The slab test fails when some axis has the farther plane parameter `-inf` or the nearer
one `+inf`, and the two plane parameters of some axis are numbers. -/
theorem FloatValue.slabAnswer_degenerate (lx hx ly hy lz hz : FloatValue F)
    (h : (hx = FloatValue.negInf ∨ lx = FloatValue.posInf)
      ∨ (hy = FloatValue.negInf ∨ ly = FloatValue.posInf)
      ∨ (hz = FloatValue.negInf ∨ lz = FloatValue.posInf))
    (hf : (∃ u, hx = FloatValue.num u) ∨ (∃ u, hy = FloatValue.num u)
      ∨ (∃ u, hz = FloatValue.num u)) :
    FloatValue.slabAnswer lx hx ly hy lz hz = false := by
  rcases h with (h | h) | (h | h) | (h | h)
  · exact FloatValue.slabAnswer_low _ _ _ _ _ _ (Or.inl h)
  · exact FloatValue.slabAnswer_high _ _ _ _ _ _ (Or.inl h) hf
  · exact FloatValue.slabAnswer_low _ _ _ _ _ _ (Or.inr (Or.inl h))
  · exact FloatValue.slabAnswer_high _ _ _ _ _ _ (Or.inr (Or.inl h)) hf
  · exact FloatValue.slabAnswer_low _ _ _ _ _ _ (Or.inr (Or.inr h))
  · exact FloatValue.slabAnswer_high _ _ _ _ _ _ (Or.inr (Or.inr h)) hf

/-- One axis of the slab test with a signed zero in the direction: the plane parameters are
those of the test with `+0`, or the direction component is zero and both tests have two equal
infinities on this axis. -/
theorem slab_axis_signed (a1 a2 d : F) (n : Bool) :
    (FloatValue.min (FloatValue.scale a1 (FloatValue.invSigned n d))
          (FloatValue.scale a2 (FloatValue.invSigned n d))
        = FloatValue.min (FloatValue.scale a1 (FloatValue.div 1 d))
          (FloatValue.scale a2 (FloatValue.div 1 d))
      ∧ FloatValue.max (FloatValue.scale a1 (FloatValue.invSigned n d))
          (FloatValue.scale a2 (FloatValue.invSigned n d))
        = FloatValue.max (FloatValue.scale a1 (FloatValue.div 1 d))
          (FloatValue.scale a2 (FloatValue.div 1 d)))
    ∨ (((FloatValue.max (FloatValue.scale a1 (FloatValue.invSigned n d))
            (FloatValue.scale a2 (FloatValue.invSigned n d)) = FloatValue.negInf)
          ∨ (FloatValue.min (FloatValue.scale a1 (FloatValue.invSigned n d))
            (FloatValue.scale a2 (FloatValue.invSigned n d)) = FloatValue.posInf))
        ∧ ((FloatValue.max (FloatValue.scale a1 (FloatValue.div 1 d))
            (FloatValue.scale a2 (FloatValue.div 1 d)) = FloatValue.negInf)
          ∨ (FloatValue.min (FloatValue.scale a1 (FloatValue.div 1 d))
            (FloatValue.scale a2 (FloatValue.div 1 d)) = FloatValue.posInf))) := by
  by_cases hd : d = 0
  · have e0 : FloatValue.div 1 d = FloatValue.posInf := by
      unfold FloatValue.div
      rw [if_pos hd, if_neg one_ne_zero, if_pos one_pos]
    cases n
    · have e1 : FloatValue.invSigned false d = FloatValue.posInf := by
        unfold FloatValue.invSigned
        rw [if_pos hd]
        rfl
      rw [e0, e1]
      exact Or.inl ⟨rfl, rfl⟩
    · have e1 : FloatValue.invSigned true d = FloatValue.negInf := by
        unfold FloatValue.invSigned
        rw [if_pos hd]
        rfl
      rw [e0, e1]
      exact slab_axis_sign a1 a2
  · have e1 : FloatValue.invSigned n d = FloatValue.div 1 d := by
      unfold FloatValue.invSigned FloatValue.div
      rw [if_neg hd, if_neg hd]
    rw [e1]
    exact Or.inl ⟨rfl, rfl⟩

/-- On an axis with a non-zero direction component the farther plane parameter is a number,
whatever sign a zero would carry. -/
theorem slab_axis_number (a1 a2 d : F) (n : Bool) (hd : d ≠ 0) :
    (∃ u, FloatValue.max (FloatValue.scale a1 (FloatValue.invSigned n d))
        (FloatValue.scale a2 (FloatValue.invSigned n d)) = FloatValue.num u)
      ∧ ∃ u, FloatValue.max (FloatValue.scale a1 (FloatValue.div 1 d))
        (FloatValue.scale a2 (FloatValue.div 1 d)) = FloatValue.num u := by
  have e1 : FloatValue.invSigned n d = FloatValue.num (1 / d) := by
    unfold FloatValue.invSigned
    rw [if_neg hd]
  rw [e1, FloatValue.div_num _ _ hd]
  simp only [FloatValue.scale, FloatValue.max_num]
  exact ⟨⟨_, rfl⟩, ⟨_, rfl⟩⟩

/-- For a direction other than the zero vector the answer of the slab test does not depend on
the sign of the zero components of the direction: with `-inf` in place of `+inf` in any
component of the inverse direction the test answers the same. -/
theorem BoundingBox.intersects_sign (b : BoundingBox F) (origin direction : Vector3 F)
    (nx ny nz : Bool) (hdir : direction ≠ Vector3.zero) :
    BoundingBox.intersects b origin
        ⟨FloatValue.invSigned nx direction.x, FloatValue.invSigned ny direction.y,
          FloatValue.invSigned nz direction.z⟩
      = BoundingBox.intersects b origin (KDTree.invDirection direction) := by
  have hsx := slab_axis_signed (b.minCorner.x - origin.x) (b.maxCorner.x - origin.x)
    direction.x nx
  have hsy := slab_axis_signed (b.minCorner.y - origin.y) (b.maxCorner.y - origin.y)
    direction.y ny
  have hsz := slab_axis_signed (b.minCorner.z - origin.z) (b.maxCorner.z - origin.z)
    direction.z nz
  have hfin : ((∃ u, FloatValue.max
          (FloatValue.scale (b.minCorner.x - origin.x) (FloatValue.invSigned nx direction.x))
          (FloatValue.scale (b.maxCorner.x - origin.x) (FloatValue.invSigned nx direction.x))
            = FloatValue.num u)
        ∨ (∃ u, FloatValue.max
          (FloatValue.scale (b.minCorner.y - origin.y) (FloatValue.invSigned ny direction.y))
          (FloatValue.scale (b.maxCorner.y - origin.y) (FloatValue.invSigned ny direction.y))
            = FloatValue.num u)
        ∨ (∃ u, FloatValue.max
          (FloatValue.scale (b.minCorner.z - origin.z) (FloatValue.invSigned nz direction.z))
          (FloatValue.scale (b.maxCorner.z - origin.z) (FloatValue.invSigned nz direction.z))
            = FloatValue.num u))
      ∧ ((∃ u, FloatValue.max
          (FloatValue.scale (b.minCorner.x - origin.x) (FloatValue.div 1 direction.x))
          (FloatValue.scale (b.maxCorner.x - origin.x) (FloatValue.div 1 direction.x))
            = FloatValue.num u)
        ∨ (∃ u, FloatValue.max
          (FloatValue.scale (b.minCorner.y - origin.y) (FloatValue.div 1 direction.y))
          (FloatValue.scale (b.maxCorner.y - origin.y) (FloatValue.div 1 direction.y))
            = FloatValue.num u)
        ∨ (∃ u, FloatValue.max
          (FloatValue.scale (b.minCorner.z - origin.z) (FloatValue.div 1 direction.z))
          (FloatValue.scale (b.maxCorner.z - origin.z) (FloatValue.div 1 direction.z))
            = FloatValue.num u)) := by
    by_cases hx : direction.x = 0
    · by_cases hy : direction.y = 0
      · by_cases hz : direction.z = 0
        · exfalso
          apply hdir
          cases direction
          simp only [Vector3.zero, Vector3.mk.injEq]
          exact ⟨hx, hy, hz⟩
        · obtain ⟨f1, f2⟩ := slab_axis_number (b.minCorner.z - origin.z)
            (b.maxCorner.z - origin.z) direction.z nz hz
          exact ⟨Or.inr (Or.inr f1), Or.inr (Or.inr f2)⟩
      · obtain ⟨f1, f2⟩ := slab_axis_number (b.minCorner.y - origin.y)
          (b.maxCorner.y - origin.y) direction.y ny hy
        exact ⟨Or.inr (Or.inl f1), Or.inr (Or.inl f2)⟩
    · obtain ⟨f1, f2⟩ := slab_axis_number (b.minCorner.x - origin.x)
        (b.maxCorner.x - origin.x) direction.x nx hx
      exact ⟨Or.inl f1, Or.inl f2⟩
  obtain ⟨hf1, hf2⟩ := hfin
  show FloatValue.slabAnswer _ _ _ _ _ _ = FloatValue.slabAnswer _ _ _ _ _ _
  simp only [Vector3.mulValue, Vector3.sub, KDTree.invDirection]
  rcases hsx with ⟨ex1, ex2⟩ | ⟨dx1, dx2⟩
  · rcases hsy with ⟨ey1, ey2⟩ | ⟨dy1, dy2⟩
    · rcases hsz with ⟨ez1, ez2⟩ | ⟨dz1, dz2⟩
      · rw [ex1, ex2, ey1, ey2, ez1, ez2]
      · rw [FloatValue.slabAnswer_degenerate _ _ _ _ _ _ (Or.inr (Or.inr dz1)) hf1,
          FloatValue.slabAnswer_degenerate _ _ _ _ _ _ (Or.inr (Or.inr dz2)) hf2]
    · rw [FloatValue.slabAnswer_degenerate _ _ _ _ _ _ (Or.inr (Or.inl dy1)) hf1,
        FloatValue.slabAnswer_degenerate _ _ _ _ _ _ (Or.inr (Or.inl dy2)) hf2]
  · rw [FloatValue.slabAnswer_degenerate _ _ _ _ _ _ (Or.inl dx1) hf1,
      FloatValue.slabAnswer_degenerate _ _ _ _ _ _ (Or.inl dx2) hf2]

/-- The slab test accepts every ray that reaches a point of the box at a parameter `t >= 0`,
when no component of the direction is zero. -/
theorem BoundingBox.intersects_of_contains (b : BoundingBox F) (origin direction : Vector3 F)
    (t : F) (hx : direction.x ≠ 0) (hy : direction.y ≠ 0) (hz : direction.z ≠ 0) (ht : 0 ≤ t)
    (hc : BoundingBox.Contains b (Vector3.add origin (Vector3.scale direction t))) :
    BoundingBox.intersects b origin (KDTree.invDirection direction) = true := by
  obtain ⟨x1, x2, y1, y2, z1, z2⟩ := hc
  simp only [Vector3.add, Vector3.scale] at x1 x2 y1 y2 z1 z2
  obtain ⟨ax1, ax2⟩ := slab_axis _ _ _ _ t hx x1 x2
  obtain ⟨ay1, ay2⟩ := slab_axis _ _ _ _ t hy y1 y2
  obtain ⟨az1, az2⟩ := slab_axis _ _ _ _ t hz z1 z2
  rw [BoundingBox.intersects_finite b origin direction hx hy hz]
  simp only [BoundingBox.slabTest, Vector3.mul, Vector3.sub, decide_eq_true_eq]
  have hlo := max_le (max_le ax1 ay1) az1
  have hhi := le_min (le_min ax2 ay2) az2
  exact ⟨le_trans hlo hhi, le_trans ht hhi⟩

/-- A point of an enclosed box is a point of the enclosing box. -/
theorem BoundingBox.Contains.of_encloses {b inner : BoundingBox F} {pt : Vector3 F}
    (he : BoundingBox.Encloses b inner) (hc : BoundingBox.Contains inner pt) :
    BoundingBox.Contains b pt := by
  obtain ⟨e1, e2, e3, e4, e5, e6⟩ := he
  obtain ⟨c1, c2, c3, c4, c5, c6⟩ := hc
  exact ⟨le_trans e1 c1, le_trans c2 e2, le_trans e3 c3, le_trans c4 e4, le_trans e5 c5,
    le_trans c6 e6⟩

/-- A ray that reaches an enclosed box reaches the enclosing box. -/
theorem BoundingBox.reached_of_encloses {b inner : BoundingBox F} {origin direction : Vector3 F}
    {t : F} (he : BoundingBox.Encloses b inner)
    (hc : BoundingBox.Reached inner origin direction t) :
    BoundingBox.Reached b origin direction t := by
  obtain ⟨hcon, hx, hy, hz⟩ := hc
  obtain ⟨e1, e2, e3, e4, e5, e6⟩ := he
  refine ⟨BoundingBox.Contains.of_encloses ⟨e1, e2, e3, e4, e5, e6⟩ hcon, ?_, ?_, ?_⟩
  · intro h
    exact ⟨lt_of_le_of_lt e1 (hx h).1, lt_of_lt_of_le (hx h).2 e2⟩
  · intro h
    exact lt_of_lt_of_le (hy h) e4
  · intro h
    exact lt_of_lt_of_le (hz h) e6

/-- A ray without zero direction component reaches a box at every parameter whose point lies
in the box. -/
theorem BoundingBox.reached_of_contains (b : BoundingBox F) (origin direction : Vector3 F)
    (t : F) (hx : direction.x ≠ 0) (hy : direction.y ≠ 0) (hz : direction.z ≠ 0)
    (hc : BoundingBox.Contains b (Vector3.add origin (Vector3.scale direction t))) :
    BoundingBox.Reached b origin direction t :=
  ⟨hc, fun h => absurd h hx, fun h => absurd h hy, fun h => absurd h hz⟩

theorem ClosestStep.nil (L : MathFns F) (origin direction : Vector3 F) (c : Closest F) :
    ClosestStep L origin direction [] c false c := by
  refine ⟨le_refl _, fun _ => ⟨rfl, rfl⟩, fun h => absurd h (lt_irrefl _), ?_⟩
  intro p hp
  cases hp

/-- A stretch that tests nothing because no hit of `ps` can lie in its primitive's box. -/
theorem ClosestStep.skip (L : MathFns F) (origin direction : Vector3 F)
    (ps : List (Primitive F)) (c : Closest F)
    (hnone : ∀ p ∈ ps, ∀ h : HitData F, Primitive.intersects L p origin direction = some h →
      0 ≤ h.t →
      BoundingBox.Reached (Primitive.GetBounds p) origin direction h.t → False) :
    ClosestStep L origin direction ps c false c := by
  refine ⟨le_refl _, fun _ => ⟨rfl, rfl⟩, fun h => absurd h (lt_irrefl _), ?_⟩
  intro p hp h hh ht hc
  exact absurd (hnone p hp h hh ht hc) id

/-- The scan loop started with a clear flag is a stretch over the scanned list. -/
theorem ClosestStep.scan (L : MathFns F) (origin direction : Vector3 F)
    (ps : List (Primitive F)) (c : Closest F) :
    ClosestStep L origin direction ps c
      (Scene.linearScan L origin direction ps (false, c)).1
      (Scene.linearScan L origin direction ps (false, c)).2 := by
  obtain ⟨i1, i2, i3, i4⟩ := Scene.linearScan_spec L origin direction ps false c
  refine ⟨i1, ?_, i3, ?_⟩
  · intro heq
    rw [i2 heq]
    exact ⟨rfl, rfl⟩
  · intro p hp h hh _ _
    exact i4 p hp h hh

/-- Two consecutive stretches make one stretch over the concatenated lists, with the flags
combined by `||`. -/
theorem ClosestStep.append {L : MathFns F} {origin direction : Vector3 F}
    {ps1 ps2 : List (Primitive F)} {c c1 c2 : Closest F} {f1 f2 : Bool}
    (h1 : ClosestStep L origin direction ps1 c f1 c1)
    (h2 : ClosestStep L origin direction ps2 c1 f2 c2) :
    ClosestStep L origin direction (ps1 ++ ps2) c (f1 || f2) c2 := by
  obtain ⟨a1, a2, a3, a4⟩ := h1
  obtain ⟨b1, b2, b3, b4⟩ := h2
  refine ⟨le_trans b1 a1, ?_, ?_, ?_⟩
  · intro heq
    have hc1 : c1.tMax = c.tMax := le_antisymm a1 (by rw [← heq]; exact b1)
    obtain ⟨hf1, hc1eq⟩ := a2 hc1
    obtain ⟨hf2, hc2eq⟩ := b2 (by rw [heq, hc1])
    rw [hf1, hf2, hc2eq, hc1eq]
    exact ⟨rfl, rfl⟩
  · intro hlt
    rcases lt_or_eq_of_le b1 with hlt2 | heq2
    · obtain ⟨hf2, p, hp, h, hh, ho, ht⟩ := b3 hlt2
      refine ⟨by rw [hf2, Bool.or_true], p, List.mem_append_right _ hp, h, hh, ho, ht⟩
    · obtain ⟨-, hc2eq⟩ := b2 heq2
      rw [heq2] at hlt
      obtain ⟨hf1, p, hp, h, hh, ho, ht⟩ := a3 hlt
      rw [hc2eq]
      refine ⟨by rw [hf1, Bool.true_or], p, List.mem_append_left _ hp, h, hh, ho, ht⟩
  · intro p hp h hh ht hc
    rcases List.mem_append.mp hp with hp1 | hp2
    · exact le_trans b1 (a4 p hp1 h hh ht hc)
    · exact b4 p hp2 h hh ht hc

/-- The closest-hit traversal of a well-formed, non-null node returns without fault and is a
stretch over the primitives of the leaves beneath the node. -/
theorem KDTree.intersectsNode_spec (L : MathFns F) (reg : List (List (Primitive F)))
    (origin direction : Vector3 F)
    (node : KDNode F) (hnn : node.isNull = false) (hwf : KDNode.WellFormed reg node)
    (c : Closest F) :
    ∃ flag c1, KDTree.intersectsNode L reg origin direction (KDTree.invDirection direction) node c
        = .ok (flag, c1)
      ∧ ClosestStep L origin direction (KDNode.leafPrimitives reg node) c flag c1 := by
  induction node generalizing c with
  | null => cases hnn
  | node left right bounds idx ihl ihr =>
    obtain ⟨hbounds, hrest⟩ := hwf
    unfold KDTree.intersectsNode
    by_cases hb : BoundingBox.intersects bounds origin (KDTree.invDirection direction) = true
    · rw [if_pos hb]
      by_cases hleaf : (left.isNull && right.isNull) = true
      · rw [if_pos hleaf] at hrest
        rw [if_pos hleaf]
        have hget : reg[idx]? = some (reg.get ⟨idx, hrest⟩) := List.getElem?_eq_getElem hrest
        have hlp : KDNode.leafPrimitives reg (KDNode.node left right bounds idx)
            = reg.get ⟨idx, hrest⟩ := by
          simp only [KDNode.leafPrimitives, hleaf, if_true, hget, Option.getD_some]
        rw [hlp, hget]
        simp only
        rw [KDTree.leafScan_eq_linearScan]
        exact ⟨_, _, rfl, ClosestStep.scan L origin direction _ c⟩
      · rw [if_neg hleaf] at hrest
        rw [if_neg hleaf]
        obtain ⟨hwl, hwr⟩ := hrest
        have hlp : KDNode.leafPrimitives reg (KDNode.node left right bounds idx)
            = KDNode.leafPrimitives reg left ++ KDNode.leafPrimitives reg right := by
          simp only [KDNode.leafPrimitives, hleaf, Bool.false_eq_true, if_false]
        rw [hlp]
        have hL : ∃ f1 c1, (if left.isNull = true then Except.ok (false, c)
              else KDTree.intersectsNode L reg origin direction (KDTree.invDirection direction)
                left c) = (Except.ok (f1, c1) : Except Fault (Bool × Closest F))
            ∧ ClosestStep L origin direction (KDNode.leafPrimitives reg left) c f1 c1 := by
          by_cases hln : left.isNull = true
          · rw [if_pos hln]
            cases left with
            | null => exact ⟨false, c, rfl, ClosestStep.nil L origin direction c⟩
            | node _ _ _ _ => cases hln
          · rw [if_neg hln]
            exact ihl (by simpa using hln) hwl c
        obtain ⟨f1, c1, e1, s1⟩ := hL
        rw [e1]
        simp only
        have hR : ∃ f2 c2, (if right.isNull = true then Except.ok (false, c1)
              else KDTree.intersectsNode L reg origin direction (KDTree.invDirection direction)
                right c1) = (Except.ok (f2, c2) : Except Fault (Bool × Closest F))
            ∧ ClosestStep L origin direction (KDNode.leafPrimitives reg right) c1 f2 c2 := by
          by_cases hrn : right.isNull = true
          · rw [if_pos hrn]
            cases right with
            | null => exact ⟨false, c1, rfl, ClosestStep.nil L origin direction c1⟩
            | node _ _ _ _ => cases hrn
          · rw [if_neg hrn]
            exact ihr (by simpa using hrn) hwr c1
        obtain ⟨f2, c2, e2, s2⟩ := hR
        rw [e2]
        exact ⟨_, _, rfl, ClosestStep.append s1 s2⟩
    · rw [if_neg hb]
      refine ⟨false, c, rfl, ClosestStep.skip L origin direction _ c ?_⟩
      intro p hp h _ ht hc
      exact hb (BoundingBox.intersects_of_reached bounds origin direction h.t ht
        (BoundingBox.reached_of_encloses (hbounds p hp) hc))

end Traversal

section Build

variable {F : Type} [LinearOrderedField F]

theorem BoundingBox.Encloses.refl (b : BoundingBox F) : BoundingBox.Encloses b b :=
  ⟨le_refl _, le_refl _, le_refl _, le_refl _, le_refl _, le_refl _⟩

theorem BoundingBox.Encloses.trans {a b c : BoundingBox F} (h1 : BoundingBox.Encloses a b)
    (h2 : BoundingBox.Encloses b c) : BoundingBox.Encloses a c := by
  obtain ⟨e1, e2, e3, e4, e5, e6⟩ := h1
  obtain ⟨c1, c2, c3, c4, c5, c6⟩ := h2
  exact ⟨le_trans e1 c1, le_trans c2 e2, le_trans e3 c3, le_trans c4 e4, le_trans e5 c5,
    le_trans c6 e6⟩

theorem BoundingBox.Expand_encloses_left (a b : BoundingBox F) :
    BoundingBox.Encloses (BoundingBox.Expand a b) a :=
  ⟨min_le_left _ _, le_max_left _ _, min_le_left _ _, le_max_left _ _, min_le_left _ _,
    le_max_left _ _⟩

theorem BoundingBox.Expand_encloses_right (a b : BoundingBox F) :
    BoundingBox.Encloses (BoundingBox.Expand a b) b :=
  ⟨min_le_right _ _, le_max_right _ _, min_le_right _ _, le_max_right _ _, min_le_right _ _,
    le_max_right _ _⟩

/-- The bounds loop only grows the box and takes in every primitive it visits. -/
theorem KDTree.foldl_Expand_encloses (ps : List (Primitive F)) (b : BoundingBox F) :
    BoundingBox.Encloses
        (ps.foldl (fun b p => BoundingBox.Expand b (Primitive.GetBounds p)) b) b
      ∧ ∀ p ∈ ps, BoundingBox.Encloses
          (ps.foldl (fun b p => BoundingBox.Expand b (Primitive.GetBounds p)) b)
          (Primitive.GetBounds p) := by
  induction ps generalizing b with
  | nil =>
    refine ⟨BoundingBox.Encloses.refl b, ?_⟩
    intro p hp
    cases hp
  | cons q qs ih =>
    simp only [List.foldl_cons]
    obtain ⟨i1, i2⟩ := ih (BoundingBox.Expand b (Primitive.GetBounds q))
    refine ⟨i1.trans (BoundingBox.Expand_encloses_left _ _), ?_⟩
    intro p hp
    rcases List.mem_cons.mp hp with rfl | hp
    · exact i1.trans (BoundingBox.Expand_encloses_right _ _)
    · exact i2 p hp

/-- The bounds computed for a leaf enclose the bounds of each of its primitives. -/
theorem KDTree.boundsOf_encloses (first : Primitive F) (rest : List (Primitive F)) :
    ∀ p ∈ first :: rest,
      BoundingBox.Encloses (KDTree.boundsOf first rest) (Primitive.GetBounds p) := by
  intro p hp
  obtain ⟨i1, i2⟩ := KDTree.foldl_Expand_encloses rest (Primitive.GetBounds first)
  rcases List.mem_cons.mp hp with rfl | hp
  · exact i1
  · exact i2 p hp

omit [LinearOrderedField F] in
/-- The inner counting loop never lowers the counter, and raises it when the list holds a
primitive with the address looked for. -/
theorem KDTree.inner_count (l : Primitive F) (right : List (Primitive F)) (count : Nat) :
    count ≤ right.foldl (fun count r => if l.addr = r.addr then count + 1 else count) count
      ∧ (l ∈ right →
        count + 1 ≤ right.foldl (fun count r => if l.addr = r.addr then count + 1 else count)
          count) := by
  induction right generalizing count with
  | nil =>
    refine ⟨le_refl _, ?_⟩
    intro h
    cases h
  | cons r rs ih =>
    simp only [List.foldl_cons]
    by_cases hr : l.addr = r.addr
    · rw [if_pos hr]
      obtain ⟨i1, -⟩ := ih (count + 1)
      exact ⟨le_trans (Nat.le_succ _) i1, fun _ => i1⟩
    · rw [if_neg hr]
      obtain ⟨i1, i2⟩ := ih count
      refine ⟨i1, ?_⟩
      intro hmem
      rcases List.mem_cons.mp hmem with rfl | hmem
      · exact absurd rfl hr
      · exact i2 hmem

omit [LinearOrderedField F] in
/-- The double counting loop counts at least one pair for every primitive of `left` that also
occurs in `right`. -/
theorem KDTree.outer_count (left right : List (Primitive F)) (count : Nat)
    (hsub : ∀ l ∈ left, l ∈ right) :
    count + left.length ≤ left.foldl
      (fun count l =>
        right.foldl (fun count r => if l.addr = r.addr then count + 1 else count) count)
      count := by
  induction left generalizing count with
  | nil => exact le_refl _
  | cons l ls ih =>
    simp only [List.foldl_cons, List.length_cons]
    have h1 := (KDTree.inner_count l right count).2 (hsub l (List.mem_cons_self _ _))
    have h2 := ih
      (right.foldl (fun count r => if l.addr = r.addr then count + 1 else count) count)
      (fun x hx => hsub x (List.mem_cons_of_mem _ hx))
    omega

omit [LinearOrderedField F] in
/-- A list shares at least its length in pairs with itself. -/
theorem KDTree.sharedCount_self (ps : List (Primitive F)) :
    ps.length ≤ KDTree.sharedCount ps ps := by
  have h := KDTree.outer_count ps ps 0 (fun _ h => h)
  unfold KDTree.sharedCount
  omega

/-- The test `keepDividing` fails on two equal lists. -/
theorem KDTree.keepDividing_self (ps : List (Primitive F)) :
    KDTree.keepDividing ps ps = false := by
  unfold KDTree.keepDividing
  simp only [decide_eq_false_iff_not, and_self, not_lt]
  have h : ((ps.length : Nat) : F) ≤ ((KDTree.sharedCount ps ps : Nat) : F) :=
    Nat.cast_le.mpr (KDTree.sharedCount_self ps)
  have h0 : (0 : F) ≤ ((ps.length : Nat) : F) := Nat.cast_nonneg _
  unfold KDTree.STOP_PERCENT
  linarith

/-- The two sides of the partition loop together have the length of the list. -/
theorem KDTree.filter_lengths {α : Type} (P : α → Bool) (ps : List α) :
    (ps.filter (fun p => !P p)).length + (ps.filter P).length = ps.length := by
  induction ps with
  | nil => rfl
  | cons q qs ih =>
    simp only [List.filter_cons]
    cases hq : P q
    · simp only [Bool.not_false, if_true, Bool.false_eq_true, if_false, List.length_cons]
      omega
    · simp only [Bool.not_true, Bool.false_eq_true, if_false, if_true, List.length_cons]
      omega

/-- Whenever `makeNode` decides to keep dividing, both sides are non-empty, strictly shorter
than the list, and together hold exactly its primitives. -/
theorem KDTree.splitSides_spec (primitives : List (Primitive F)) (depth : Nat)
    (hk : KDTree.keepDividing (KDTree.splitSides primitives depth).1
      (KDTree.splitSides primitives depth).2 = true) :
    (KDTree.splitSides primitives depth).1 ≠ []
      ∧ (KDTree.splitSides primitives depth).2 ≠ []
      ∧ (KDTree.splitSides primitives depth).1.length < primitives.length
      ∧ (KDTree.splitSides primitives depth).2.length < primitives.length
      ∧ ∀ p, p ∈ primitives ↔
          (p ∈ (KDTree.splitSides primitives depth).1
            ∨ p ∈ (KDTree.splitSides primitives depth).2) := by
  unfold KDTree.splitSides at hk ⊢
  simp only at hk ⊢
  generalize KDTree.onRightSide ((depth % 3 : Nat) : Int)
    (KDTree.splitValue primitives ((depth % 3 : Nat) : Int)) = P at hk ⊢
  have hlen := KDTree.filter_lengths P primitives
  by_cases hl0 : (primitives.filter (fun p => !P p)).length = 0
  · rw [if_pos hl0, ite_self, KDTree.keepDividing_self] at hk
    cases hk
  · rw [if_neg hl0] at hk ⊢
    by_cases hr0 : (primitives.filter P).length = 0
    · rw [if_pos hr0, KDTree.keepDividing_self] at hk
      cases hk
    · rw [if_neg hr0]
      refine ⟨?_, ?_, by omega, by omega, ?_⟩
      · intro h
        rw [h] at hl0
        exact hl0 rfl
      · intro h
        rw [h] at hr0
        exact hr0 rfl
      · intro p
        simp only [List.mem_filter]
        constructor
        · intro hp
          cases hPp : P p
          · exact Or.inl ⟨hp, by simp [hPp]⟩
          · exact Or.inr ⟨hp, rfl⟩
        · rintro (h | h)
          · exact h.1
          · exact h.1

/-- Appending to `nodePrimitives` changes neither the leaf primitives nor the well-formedness
of a node built before. -/
theorem KDNode.wellFormed_append (reg ext : List (List (Primitive F))) (node : KDNode F)
    (hwf : KDNode.WellFormed reg node) :
    KDNode.leafPrimitives (reg ++ ext) node = KDNode.leafPrimitives reg node
      ∧ KDNode.WellFormed (reg ++ ext) node := by
  induction node with
  | null => exact ⟨rfl, trivial⟩
  | node left right bounds idx ihl ihr =>
    obtain ⟨hb, hrest⟩ := hwf
    by_cases hleaf : (left.isNull && right.isNull) = true
    · rw [if_pos hleaf] at hrest
      have hget : (reg ++ ext)[idx]? = reg[idx]? := List.getElem?_append_left hrest
      have hlp : KDNode.leafPrimitives (reg ++ ext) (KDNode.node left right bounds idx)
          = KDNode.leafPrimitives reg (KDNode.node left right bounds idx) := by
        simp only [KDNode.leafPrimitives, hleaf, if_true, hget]
      refine ⟨hlp, ?_⟩
      unfold KDNode.WellFormed
      rw [hlp, if_pos hleaf]
      refine ⟨hb, ?_⟩
      rw [List.length_append]
      omega
    · rw [if_neg hleaf] at hrest
      obtain ⟨il1, il2⟩ := ihl hrest.1
      obtain ⟨ir1, ir2⟩ := ihr hrest.2
      have hlp : KDNode.leafPrimitives (reg ++ ext) (KDNode.node left right bounds idx)
          = KDNode.leafPrimitives reg (KDNode.node left right bounds idx) := by
        simp only [KDNode.leafPrimitives, hleaf, Bool.false_eq_true, if_false, il1, ir1]
      refine ⟨hlp, ?_⟩
      unfold KDNode.WellFormed
      rw [hlp, if_neg hleaf]
      exact ⟨hb, il2, ir2⟩

/-- The node `makeNode` creates when it stops dividing: a well-formed leaf holding the whole
list. -/
theorem KDTree.leaf_spec (reg : List (List (Primitive F))) (first : Primitive F)
    (rest : List (Primitive F)) :
    KDNode.WellFormed (reg ++ [first :: rest])
        (KDNode.node KDNode.null KDNode.null (KDTree.boundsOf first rest)
          ((reg ++ [first :: rest]).length - 1))
      ∧ KDNode.leafPrimitives (reg ++ [first :: rest])
          (KDNode.node KDNode.null KDNode.null (KDTree.boundsOf first rest)
            ((reg ++ [first :: rest]).length - 1)) = first :: rest := by
  have hidx : (reg ++ [first :: rest]).length - 1 = reg.length := by
    rw [List.length_append, List.length_singleton]
    omega
  have hget : (reg ++ [first :: rest])[reg.length]? = some (first :: rest) := by
    rw [List.getElem?_append_right (le_refl _)]
    simp
  have hlp : KDNode.leafPrimitives (reg ++ [first :: rest])
      (KDNode.node KDNode.null KDNode.null (KDTree.boundsOf first rest)
        ((reg ++ [first :: rest]).length - 1)) = first :: rest := by
    rw [hidx]
    simp only [KDNode.leafPrimitives, KDNode.isNull, Bool.and_self, if_true, hget,
      Option.getD_some]
  refine ⟨?_, hlp⟩
  unfold KDNode.WellFormed
  rw [hlp]
  refine ⟨KDTree.boundsOf_encloses first rest, ?_⟩
  simp only [KDNode.isNull, Bool.and_self, if_true]
  rw [hidx, List.length_append, List.length_singleton]
  omega

/-- The method `makeNode` on a non-empty list, with a budget of at least the length of the
list: it returns a non-null, well-formed node, only appends to `nodePrimitives`, and the
leaves beneath the node hold exactly the primitives of the list. -/
theorem KDTree.makeNodeFuel_spec (fuel : Nat) :
    ∀ (reg : List (List (Primitive F))) (primitives : List (Primitive F)) (depth : Nat),
      primitives ≠ [] → primitives.length ≤ fuel →
      ∃ node reg1 ext, KDTree.makeNodeFuel fuel reg primitives depth = .ok (node, reg1)
        ∧ reg1 = reg ++ ext ∧ node.isNull = false ∧ KDNode.WellFormed reg1 node
        ∧ ∀ p, p ∈ KDNode.leafPrimitives reg1 node ↔ p ∈ primitives := by
  induction fuel with
  | zero =>
    intro reg primitives depth hne hlen
    cases primitives with
    | nil => exact absurd rfl hne
    | cons first rest => simp at hlen
  | succ fuel ih =>
    intro reg primitives depth hne hlen
    cases primitives with
    | nil => exact absurd rfl hne
    | cons first rest =>
      unfold KDTree.makeNodeFuel
      simp only
      obtain ⟨hleafwf, hleaflp⟩ := KDTree.leaf_spec reg first rest
      by_cases h1 : (first :: rest).length = 1
      · rw [if_pos h1]
        refine ⟨_, _, [first :: rest], rfl, rfl, rfl, hleafwf, ?_⟩
        intro p
        rw [hleaflp]
      · rw [if_neg h1]
        by_cases hk : KDTree.keepDividing (KDTree.splitSides (first :: rest) depth).1
            (KDTree.splitSides (first :: rest) depth).2 = true
        · rw [if_pos hk]
          obtain ⟨hl, hr, hll, hrl, hmem⟩ := KDTree.splitSides_spec (first :: rest) depth hk
          obtain ⟨ln, reg2, ext1, e1, hreg2, hlnn, hlwf, hlmem⟩ :=
            ih (reg ++ [first :: rest]) _ (depth + 1) hl (by omega)
          obtain ⟨rn, reg3, ext2, e2, hreg3, hrnn, hrwf, hrmem⟩ :=
            ih reg2 _ (depth + 1) hr (by omega)
          rw [e1]
          simp only
          rw [e2]
          simp only
          cases ln with
          | null => cases hlnn
          | node ll lr lb li =>
            cases rn with
            | null => cases hrnn
            | node rl rr rb ri =>
              simp only
              obtain ⟨hl3lp, hl3wf⟩ := KDNode.wellFormed_append reg2 ext2 _ hlwf
              rw [← hreg3] at hl3lp hl3wf
              have hlp : KDNode.leafPrimitives reg3
                  (KDNode.node (KDNode.node ll lr lb li) (KDNode.node rl rr rb ri)
                    (BoundingBox.Expand lb rb) ((reg ++ [first :: rest]).length - 1))
                  = KDNode.leafPrimitives reg3 (KDNode.node ll lr lb li)
                    ++ KDNode.leafPrimitives reg3 (KDNode.node rl rr rb ri) := by
                rw [KDNode.leafPrimitives]
                simp only [KDNode.isNull, Bool.and_self, Bool.false_eq_true, if_false]
              refine ⟨_, reg3, [first :: rest] ++ ext1 ++ ext2, rfl, ?_, rfl, ?_, ?_⟩
              · rw [hreg3, hreg2]
                simp only [List.append_assoc]
              · unfold KDNode.WellFormed
                rw [hlp]
                simp only [KDNode.isNull, Bool.and_self, Bool.false_eq_true, if_false]
                refine ⟨?_, hl3wf, hrwf⟩
                intro p hp
                rcases List.mem_append.mp hp with hp | hp
                · have := hl3wf
                  unfold KDNode.WellFormed at this
                  exact (BoundingBox.Expand_encloses_left lb rb).trans (this.1 p hp)
                · have := hrwf
                  unfold KDNode.WellFormed at this
                  exact (BoundingBox.Expand_encloses_right lb rb).trans (this.1 p hp)
              · intro p
                rw [hlp, List.mem_append, hl3lp, hlmem, hrmem, hmem]
        · rw [if_neg hk]
          refine ⟨_, _, [first :: rest], rfl, rfl, rfl, hleafwf, ?_⟩
          intro p
          rw [hleaflp]

/-- The constructor `KDTree::KDTree` on a non-empty list returns a tree with a non-null,
well-formed root whose leaves hold exactly the primitives of the list. -/
theorem KDTree.build_spec (primitives : List (Primitive F)) (hne : primitives ≠ []) :
    ∃ tree : KDTree F, KDTree.build primitives = .ok tree
      ∧ tree.root.isNull = false ∧ KDNode.WellFormed tree.nodePrimitives tree.root
      ∧ ∀ p, p ∈ KDNode.leafPrimitives tree.nodePrimitives tree.root ↔ p ∈ primitives := by
  obtain ⟨node, reg1, ext, e, -, hnn, hwf, hmem⟩ :=
    KDTree.makeNodeFuel_spec primitives.length [] primitives 0 hne (le_refl _)
  refine ⟨{ root := node, nodePrimitives := reg1 }, ?_, hnn, hwf, hmem⟩
  unfold KDTree.build KDTree.makeNode
  rw [e]

end Build

section Refinement

variable {F : Type} [LinearOrderedField F]

/-- Every accepted hit reports `position = origin + direction * t` for its own `t`, and a
positive `t`. -/
theorem Primitive.intersects_position (L : MathFns F) (p : Primitive F)
    (origin direction : Vector3 F) (hd : HitData F)
    (h : Primitive.intersects L p origin direction = some hd) :
    hd.position = Vector3.add origin (Vector3.scale direction hd.t) ∧ 0 < hd.t := by
  unfold Primitive.intersects at h
  cases hs : p.shape with
  | sphere s =>
    rw [hs] at h
    refine ⟨?_, Sphere.hit_t_pos L p.parent s origin direction hd h⟩
    unfold Sphere.intersects at h
    simp only at h
    split_ifs at h <;> simp only [Option.some.injEq] at h <;> rw [← h] <;> rfl
  | triangle t =>
    rw [hs] at h
    obtain ⟨-, -, -, -, ht, rfl⟩ := Triangle.intersects_some L p.parent t origin direction hd h
    exact ⟨rfl, lt_trans FLT_EPSILON_pos ht⟩

/-- A convex combination of three numbers lies between their minimum and their maximum. -/
theorem convex_between (a b c u v : F) (hu : 0 ≤ u) (hv : 0 ≤ v) (huv : u + v ≤ 1) :
    min a (min b c) ≤ a * (1 - u - v) + b * u + c * v
      ∧ a * (1 - u - v) + b * u + c * v ≤ max a (max b c) := by
  have hw : 0 ≤ 1 - u - v := by linarith
  constructor
  · have ha : min a (min b c) ≤ a := min_le_left _ _
    have hb : min a (min b c) ≤ b := le_trans (min_le_right _ _) (min_le_left _ _)
    have hc : min a (min b c) ≤ c := le_trans (min_le_right _ _) (min_le_right _ _)
    nlinarith [mul_nonneg hw (sub_nonneg.mpr ha), mul_nonneg hu (sub_nonneg.mpr hb),
      mul_nonneg hv (sub_nonneg.mpr hc)]
  · have ha : a ≤ max a (max b c) := le_max_left _ _
    have hb : b ≤ max a (max b c) := le_trans (le_max_left _ _) (le_max_right _ _)
    have hc : c ≤ max a (max b c) := le_trans (le_max_right _ _) (le_max_right _ _)
    nlinarith [mul_nonneg hw (sub_nonneg.mpr ha), mul_nonneg hu (sub_nonneg.mpr hb),
      mul_nonneg hv (sub_nonneg.mpr hc)]

/-- C1 (amended). For every non-empty primitive list and every ray, if every hit a primitive
of the list reports lies in that primitive's own bounding box and, where a component of the
direction is zero, the origin lies strictly between the two faces of that box (axis `x`) or
strictly below its upper face (axes `y`, `z`), then the tree built from the list answers
`GetClosestIntersection` without fault, with the same hit flag as the brute-force scan of
`Scene::GetClosestIntersection` and, on a hit, the same distance `t`, which is the least
distance of any reported hit; the hit data and the owning Object each of the two returns are
those of a primitive of the list hit at that distance (not necessarily of the same primitive
when several are hit at that distance). -/
theorem KDTree.GetClosestIntersection_refines (L : MathFns F) (primitives : List (Primitive F))
    (origin direction : Vector3 F) (hne : primitives ≠ [])
    (hbox : ∀ p ∈ primitives, ∀ h : HitData F,
      Primitive.intersects L p origin direction = some h →
      BoundingBox.Reached (Primitive.GetBounds p) origin direction h.t) :
    ∃ (tree : KDTree F) (flag : Bool) (outT outL : Option (HitData F × Object F)),
      KDTree.build primitives = .ok tree
      ∧ KDTree.GetClosestIntersection L tree origin direction = .ok (flag, outT)
      ∧ Scene.GetClosestIntersectionLinear L primitives origin direction = (flag, outL)
      ∧ (flag = false → outT = none ∧ outL = none)
      ∧ (flag = true →
          ∃ pT ∈ primitives, ∃ pL ∈ primitives, ∃ hT hL : HitData F,
            outT = some (hT, pT.parent) ∧ outL = some (hL, pL.parent)
            ∧ Primitive.intersects L pT origin direction = some hT
            ∧ Primitive.intersects L pL origin direction = some hL
            ∧ hT.t = hL.t
            ∧ ∀ p ∈ primitives, ∀ h : HitData F,
                Primitive.intersects L p origin direction = some h → hL.t ≤ h.t) := by
  obtain ⟨tree, hb, hnn, hwf, hmem⟩ := KDTree.build_spec primitives hne
  obtain ⟨flag, c1, hq, a1, a2, a3, a4⟩ := KDTree.intersectsNode_spec L tree.nodePrimitives
    origin direction tree.root hnn hwf { tMax := FLT_MAX, out := none }
  obtain ⟨b1, b2, b3, b4⟩ := ClosestStep.scan L origin direction primitives
    { tMax := FLT_MAX, out := none }
  have hgeo : ∀ p ∈ primitives, ∀ h : HitData F,
      Primitive.intersects L p origin direction = some h →
      0 ≤ h.t ∧ BoundingBox.Reached (Primitive.GetBounds p) origin direction h.t := by
    intro p hp h hh
    obtain ⟨-, ht⟩ := Primitive.intersects_position L p origin direction h hh
    exact ⟨le_of_lt ht, hbox p hp h hh⟩
  have hT : KDTree.GetClosestIntersection L tree origin direction = .ok (flag, c1.out) := by
    unfold KDTree.GetClosestIntersection
    rw [hq]
  simp only at a1 a2 a3 a4 b1 b2 b3 b4
  rcases lt_or_eq_of_le a1 with hlt | heq
  · obtain ⟨hflag, pT, hpT, hT0, hhT, hoT, htT⟩ := a3 hlt
    have hpT1 := (hmem pT).mp hpT
    obtain ⟨g1, g2⟩ := hgeo pT hpT1 hT0 hhT
    have hlin := b4 pT hpT1 hT0 hhT g1 g2
    have hlinlt : (Scene.linearScan L origin direction primitives
        (false, { tMax := FLT_MAX, out := none })).2.tMax < FLT_MAX := by
      rw [htT] at hlin
      exact lt_of_le_of_lt hlin hlt
    obtain ⟨hflagL, pL, hpL, hL0, hhL, hoL, htL⟩ := b3 hlinlt
    obtain ⟨g3, g4⟩ := hgeo pL hpL hL0 hhL
    have htree := a4 pL ((hmem pL).mpr hpL) hL0 hhL g3 g4
    refine ⟨tree, flag, c1.out, (Scene.linearScan L origin direction primitives
      (false, { tMax := FLT_MAX, out := none })).2.out, hb, hT, ?_, ?_, ?_⟩
    · unfold Scene.GetClosestIntersectionLinear
      simp only [hflagL, hflag]
    · intro hf
      rw [hflag] at hf
      cases hf
    · intro _
      refine ⟨pT, hpT1, pL, hpL, hT0, hL0, hoT, hoL, hhT, hhL, ?_, ?_⟩
      · apply le_antisymm
        · rw [htT]
          exact htree
        · rw [htL]
          exact hlin
      · intro p hp h hh
        obtain ⟨g5, g6⟩ := hgeo p hp h hh
        rw [htL]
        exact b4 p hp h hh g5 g6
  · obtain ⟨hflag, hc1⟩ := a2 heq
    have hlineq : (Scene.linearScan L origin direction primitives
        (false, { tMax := FLT_MAX, out := none })).2.tMax = FLT_MAX := by
      rcases lt_or_eq_of_le b1 with hlt | h
      · obtain ⟨-, pL, hpL, hL0, hhL, -, htL⟩ := b3 hlt
        obtain ⟨g3, g4⟩ := hgeo pL hpL hL0 hhL
        have htree := a4 pL ((hmem pL).mpr hpL) hL0 hhL g3 g4
        rw [heq, htL] at htree
        exact absurd hlt (not_lt.mpr htree)
      · exact h
    obtain ⟨hflagL, hcL⟩ := b2 hlineq
    refine ⟨tree, flag, c1.out, (Scene.linearScan L origin direction primitives
      (false, { tMax := FLT_MAX, out := none })).2.out, hb, hT, ?_, ?_, ?_⟩
    · unfold Scene.GetClosestIntersectionLinear
      simp only [hflagL, hflag]
    · intro _
      rw [hc1, hcL]
      exact ⟨rfl, rfl⟩
    · intro hf
      rw [hflag] at hf
      cases hf

end Refinement

section RefinementExamples

/-- The partition of `[overlapA, overlapB]` at depth 0 sends the second triangle left. -/
theorem overlap_split : KDTree.splitSides [overlapA, overlapB] 0 = ([overlapB], [overlapA]) := by
  norm_num [KDTree.splitSides, KDTree.onRightSide, KDTree.splitValue, overlapA, overlapB,
    Primitive.GetMidpoint, Triangle.GetMidpoint, flatTriangle, Vector3.Get, Vector3.add,
    Vector3.scale, List.filter]

/-- The two sides share no primitive, so `makeNode` keeps dividing. -/
theorem overlap_keep : KDTree.keepDividing [overlapB] [overlapA] = true := by
  norm_num [KDTree.keepDividing, KDTree.sharedCount, overlapA, overlapB, KDTree.STOP_PERCENT]

/-- The constructor builds `overlapTree` from `[overlapA, overlapB]`. -/
theorem overlap_build : KDTree.build [overlapA, overlapB] = .ok overlapTree := by
  simp only [KDTree.build, KDTree.makeNode, KDTree.makeNodeFuel, List.length_cons,
    List.length_nil, overlap_split, overlap_keep]
  rfl

/-- The ray from `(3/2, 3/2, 1)` along `(-1, -1, -1)` hits the first triangle at `t = 1`. -/
theorem overlapA_hit :
    Primitive.intersects exactFns overlapA ⟨3 / 2, 3 / 2, 1⟩ ⟨-1, -1, -1⟩
      = some (Triangle.hitAt exactFns (flatTriangle ⟨0, 0, 0⟩ ⟨4, 0, 0⟩ ⟨0, 4, 0⟩)
          ⟨3 / 2, 3 / 2, 1⟩ ⟨-1, -1, -1⟩ 1 (1 / 8) (1 / 8)) := by
  norm_num [Primitive.intersects, overlapA, Triangle.intersects, Triangle.det, Triangle.baryU,
    Triangle.baryV, Triangle.rayT, flatTriangle, Vector3.dot, Vector3.cross, Vector3.sub,
    FLT_EPSILON, Object.rejects, plainObject]

/-- The ray from `(3/2, 3/2, 1)` along `(-1, -1, -1)` hits the second triangle at `t = 1`. -/
theorem overlapB_hit :
    Primitive.intersects exactFns overlapB ⟨3 / 2, 3 / 2, 1⟩ ⟨-1, -1, -1⟩
      = some (Triangle.hitAt exactFns (flatTriangle ⟨1, 1, 0⟩ ⟨-3, 1, 0⟩ ⟨1, -3, 0⟩)
          ⟨3 / 2, 3 / 2, 1⟩ ⟨-1, -1, -1⟩ 1 (1 / 8) (1 / 8)) := by
  norm_num [Primitive.intersects, overlapB, Triangle.intersects, Triangle.det, Triangle.baryU,
    Triangle.baryV, Triangle.rayT, flatTriangle, Vector3.dot, Vector3.cross, Vector3.sub,
    FLT_EPSILON, Object.rejects, plainObject]

/-- The brute-force scan keeps the first triangle of the list: the second is not strictly
closer. -/
theorem overlap_linear :
    Scene.GetClosestIntersectionLinear exactFns [overlapA, overlapB] ⟨3 / 2, 3 / 2, 1⟩ ⟨-1, -1, -1⟩
      = (true, some (Triangle.hitAt exactFns (flatTriangle ⟨0, 0, 0⟩ ⟨4, 0, 0⟩ ⟨0, 4, 0⟩)
          ⟨3 / 2, 3 / 2, 1⟩ ⟨-1, -1, -1⟩ 1 (1 / 8) (1 / 8), plainObject 1)) := by
  simp only [Scene.GetClosestIntersectionLinear, Scene.linearScan, overlapA_hit, overlapB_hit,
    Triangle.hitAt]
  norm_num [FLT_MAX, overlapA]

/-- The tree visits its left leaf first and keeps the second triangle of the list. -/
theorem overlap_tree :
    KDTree.GetClosestIntersection exactFns overlapTree ⟨3 / 2, 3 / 2, 1⟩ ⟨-1, -1, -1⟩
      = .ok (true, some (Triangle.hitAt exactFns (flatTriangle ⟨1, 1, 0⟩ ⟨-3, 1, 0⟩ ⟨1, -3, 0⟩)
          ⟨3 / 2, 3 / 2, 1⟩ ⟨-1, -1, -1⟩ 1 (1 / 8) (1 / 8), plainObject 2)) := by
  have hb0 : BoundingBox.intersects
      (BoundingBox.Expand (Primitive.GetBounds overlapB) (Primitive.GetBounds overlapA))
      ⟨3 / 2, 3 / 2, 1⟩ (KDTree.invDirection ⟨-1, -1, -1⟩) = true := by
    rw [BoundingBox.intersects_finite]
    · norm_num [BoundingBox.slabTest, BoundingBox.Expand, Primitive.GetBounds, overlapA,
        overlapB, Triangle.GetBounds, flatTriangle, Vector3.mul, Vector3.sub]
    · norm_num
    · norm_num
    · norm_num
  have hb1 : BoundingBox.intersects (Primitive.GetBounds overlapB)
      ⟨3 / 2, 3 / 2, 1⟩ (KDTree.invDirection ⟨-1, -1, -1⟩) = true := by
    rw [BoundingBox.intersects_finite]
    · norm_num [BoundingBox.slabTest, Primitive.GetBounds, overlapB,
        Triangle.GetBounds, flatTriangle, Vector3.mul, Vector3.sub]
    · norm_num
    · norm_num
    · norm_num
  have hb2 : BoundingBox.intersects (Primitive.GetBounds overlapA)
      ⟨3 / 2, 3 / 2, 1⟩ (KDTree.invDirection ⟨-1, -1, -1⟩) = true := by
    rw [BoundingBox.intersects_finite]
    · norm_num [BoundingBox.slabTest, Primitive.GetBounds, overlapA,
        Triangle.GetBounds, flatTriangle, Vector3.mul, Vector3.sub]
    · norm_num
    · norm_num
    · norm_num
  have h1 : ([[overlapA, overlapB], [overlapB], [overlapA]] : List (List (Primitive ℚ)))[1]?
      = some [overlapB] := rfl
  have h2 : ([[overlapA, overlapB], [overlapB], [overlapA]] : List (List (Primitive ℚ)))[2]?
      = some [overlapA] := rfl
  simp only [KDTree.GetClosestIntersection, overlapTree, KDTree.intersectsNode, hb0, hb1, hb2,
    KDNode.isNull, h1, h2, KDTree.leafScan, overlapA_hit, overlapB_hit, Triangle.hitAt]
  norm_num [FLT_MAX, overlapB]

/-- The constructor builds `ballTree` from `[unitBall]`. -/
theorem ball_build : KDTree.build [unitBall] = .ok ballTree := rfl

/-- The constructor builds `smallTree` from `[smallBall]`. -/
theorem small_build : KDTree.build [smallBall] = .ok smallTree := rfl

theorem small_coeffs :
    Sphere.coeffA (⟨1, 0, 0⟩ : Vector3 ℚ) = 1
      ∧ Sphere.coeffB smallSphere grazingOrigin ⟨1, 0, 0⟩ = -10
      ∧ Sphere.determinant smallSphere grazingOrigin ⟨1, 0, 0⟩
        = -(4 * (1 / 2 ^ 10 * (1 / 2 ^ 10)) * (2 / 2 ^ 23 + 1 / 2 ^ 46)) := by
  refine ⟨?_, ?_, ?_⟩
  · norm_num [Sphere.coeffA, Vector3.dot]
  · norm_num [Sphere.coeffB, smallSphere, grazingOrigin, Vector3.dot, Vector3.sub]
  · norm_num [Sphere.determinant, Sphere.coeffA, Sphere.coeffB, Sphere.coeffC, smallSphere,
      grazingOrigin, Vector3.dot, Vector3.sub]

/-- The ray from `(-5, 2^-10 (1 + 2^-23), 0)` along `(1, 0, 0)` passes the small sphere at a
distance slightly above its radius: the discriminant is negative but inside the epsilon band,
and the one-root branch of `Sphere::intersects` reports a hit at `t = -b / (2a) = 5`. -/
theorem small_grazing_hit :
    Primitive.intersects exactFns smallBall grazingOrigin ⟨1, 0, 0⟩
      = some (Sphere.hitAt exactFns smallSphere grazingOrigin ⟨1, 0, 0⟩ 5 false) := by
  obtain ⟨hA, hB, hdet⟩ := small_coeffs
  have hband : Sphere.determinant smallSphere grazingOrigin ⟨1, 0, 0⟩ < FLT_EPSILON
      ∧ Sphere.determinant smallSphere grazingOrigin ⟨1, 0, 0⟩ > -FLT_EPSILON := by
    rw [hdet]
    norm_num [FLT_EPSILON]
  have ht5 : -Sphere.coeffB smallSphere grazingOrigin ⟨1, 0, 0⟩
      / (2 * Sphere.coeffA (⟨1, 0, 0⟩ : Vector3 ℚ)) = 5 := by
    rw [hA, hB]
    norm_num
  have hrej : ∀ h : HitData ℚ, (plainObject 1).rejects h = false := fun _ => rfl
  show Sphere.intersects exactFns (plainObject 1) smallSphere _ _ = _
  unfold Sphere.intersects
  simp only
  rw [if_pos hband, ht5, if_neg (by norm_num)]
  simp only [hrej, Bool.false_eq_true, if_false]

/-- The brute-force scan reports the grazing hit. -/
theorem small_linear :
    (Scene.GetClosestIntersectionLinear exactFns [smallBall] grazingOrigin ⟨1, 0, 0⟩).1
      = true := by
  have ht : (Sphere.hitAt exactFns smallSphere grazingOrigin ⟨1, 0, 0⟩ 5 false).t
      < (FLT_MAX : ℚ) := by
    show (5 : ℚ) < FLT_MAX
    norm_num [FLT_MAX]
  simp only [Scene.GetClosestIntersectionLinear, Scene.linearScan, small_grazing_hit, ht,
    if_true]

/-- The grazing ray misses the bounding box of the small sphere, so the tree tests nothing. -/
theorem small_tree :
    KDTree.GetClosestIntersection exactFns smallTree grazingOrigin ⟨1, 0, 0⟩
      = .ok (false, none) := by
  have hb : BoundingBox.intersects (KDTree.boundsOf smallBall []) grazingOrigin
      (KDTree.invDirection ⟨1, 0, 0⟩) = false := by
    have hbox : KDTree.boundsOf smallBall []
        = ⟨⟨-(1 / 2 ^ 10), -(1 / 2 ^ 10), -(1 / 2 ^ 10)⟩, ⟨1 / 2 ^ 10, 1 / 2 ^ 10, 1 / 2 ^ 10⟩⟩ := by
      norm_num [KDTree.boundsOf, smallBall, Primitive.GetBounds, Sphere.GetBounds, smallSphere,
        Vector3.subScalar, Vector3.addScalar]
    rw [hbox]
    norm_num [BoundingBox.intersects, KDTree.invDirection, FloatValue.div, Vector3.mulValue,
      FloatValue.scale, FloatValue.min, FloatValue.max, FloatValue.lt, FloatValue.ge,
      FloatValue.le, Vector3.sub, grazingOrigin]
  simp only [KDTree.GetClosestIntersection, smallTree, KDTree.intersectsNode, hb,
    Bool.false_eq_true, if_false]

/-- A ray along `(0, 0, -1)` from the height `5` that touches the unit sphere on its equator
has the discriminant `0`, and the one-root branch reports the hit at `t = 5`. -/
theorem ball_tangent_hit (ox oy : ℚ) (h : ox * ox + oy * oy = 1) :
    Primitive.intersects exactFns unitBall ⟨ox, oy, 5⟩ ⟨0, 0, -1⟩
      = some (Sphere.hitAt exactFns unitSphere ⟨ox, oy, 5⟩ ⟨0, 0, -1⟩ 5 false) := by
  have hA : Sphere.coeffA (⟨0, 0, -1⟩ : Vector3 ℚ) = 1 := by
    norm_num [Sphere.coeffA, Vector3.dot]
  have hB : Sphere.coeffB unitSphere ⟨ox, oy, 5⟩ ⟨0, 0, -1⟩ = -10 := by
    norm_num [Sphere.coeffB, unitSphere, Vector3.dot, Vector3.sub]
  have hdet : Sphere.determinant unitSphere ⟨ox, oy, 5⟩ ⟨0, 0, -1⟩ = 0 := by
    simp only [Sphere.determinant, Sphere.coeffA, Sphere.coeffB, Sphere.coeffC, unitSphere,
      Vector3.dot, Vector3.sub]
    linear_combination (-4 : ℚ) * h
  have hband : Sphere.determinant unitSphere ⟨ox, oy, 5⟩ ⟨0, 0, -1⟩ < FLT_EPSILON
      ∧ Sphere.determinant unitSphere ⟨ox, oy, 5⟩ ⟨0, 0, -1⟩ > -FLT_EPSILON := by
    rw [hdet]
    norm_num [FLT_EPSILON]
  have ht5 : -Sphere.coeffB unitSphere ⟨ox, oy, 5⟩ ⟨0, 0, -1⟩
      / (2 * Sphere.coeffA (⟨0, 0, -1⟩ : Vector3 ℚ)) = 5 := by
    rw [hA, hB]
    norm_num
  have hrej : ∀ h : HitData ℚ, (plainObject 1).rejects h = false := fun _ => rfl
  show Sphere.intersects exactFns (plainObject 1) unitSphere _ _ = _
  unfold Sphere.intersects
  simp only
  rw [if_pos hband, ht5, if_neg (by norm_num)]
  simp only [hrej, Bool.false_eq_true, if_false]

/-- The brute-force scan reports the tangent hit. -/
theorem ball_tangent_linear (ox oy : ℚ) (h : ox * ox + oy * oy = 1) :
    (Scene.GetClosestIntersectionLinear exactFns [unitBall] ⟨ox, oy, 5⟩ ⟨0, 0, -1⟩).1
      = true := by
  have ht : (Sphere.hitAt exactFns unitSphere ⟨ox, oy, 5⟩ ⟨0, 0, -1⟩ 5 false).t
      < (FLT_MAX : ℚ) := by
    show (5 : ℚ) < FLT_MAX
    norm_num [FLT_MAX]
  simp only [Scene.GetClosestIntersectionLinear, Scene.linearScan, ball_tangent_hit ox oy h, ht,
    if_true]

theorem ball_bounds : KDTree.boundsOf unitBall [] = ⟨⟨-1, -1, -1⟩, ⟨1, 1, 1⟩⟩ := by
  norm_num [KDTree.boundsOf, unitBall, Primitive.GetBounds, Sphere.GetBounds, unitSphere,
    Vector3.subScalar, Vector3.addScalar]

/-- The slab test rejects the box `[-1, 1]^3` for the three rays along `(0, 0, -1)` that run in
its faces `x = -1`, `x = 1` and `y = 1`: the product `0 * inf` is NaN on the lower `x` face,
and the two plane parameters are both `-inf` on an upper face. -/
theorem ball_face_culled :
    BoundingBox.intersects (KDTree.boundsOf unitBall []) ⟨-1, 0, 5⟩
        (KDTree.invDirection ⟨0, 0, -1⟩) = false
      ∧ BoundingBox.intersects (KDTree.boundsOf unitBall []) ⟨1, 0, 5⟩
        (KDTree.invDirection ⟨0, 0, -1⟩) = false
      ∧ BoundingBox.intersects (KDTree.boundsOf unitBall []) ⟨0, 1, 5⟩
        (KDTree.invDirection ⟨0, 0, -1⟩) = false := by
  rw [ball_bounds]
  refine ⟨?_, ?_, ?_⟩
  · norm_num [BoundingBox.intersects, KDTree.invDirection, FloatValue.div, Vector3.mulValue,
      FloatValue.scale, FloatValue.min, FloatValue.max, FloatValue.lt, FloatValue.ge,
      FloatValue.le, Vector3.sub]
  · norm_num [BoundingBox.intersects, KDTree.invDirection, FloatValue.div, Vector3.mulValue,
      FloatValue.scale, FloatValue.min, FloatValue.max, FloatValue.lt, FloatValue.ge,
      FloatValue.le, Vector3.sub]
  · norm_num [BoundingBox.intersects, KDTree.invDirection, FloatValue.div, Vector3.mulValue,
      FloatValue.scale, FloatValue.min, FloatValue.max, FloatValue.lt, FloatValue.ge,
      FloatValue.le, Vector3.sub]

/-- The tree culls the box for a ray whose slab test fails. -/
theorem ball_tree_culled (origin direction : Vector3 ℚ)
    (hb : BoundingBox.intersects (KDTree.boundsOf unitBall []) origin
      (KDTree.invDirection direction) = false) :
    KDTree.GetClosestIntersection exactFns ballTree origin direction = .ok (false, none) := by
  simp only [KDTree.GetClosestIntersection, ballTree, KDTree.intersectsNode, hb,
    Bool.false_eq_true, if_false]

/-- The ray of the specification from `(0, 0, 5)` along `(0, 0, -1)` hits the unit sphere at
`t = 4`. -/
theorem ball_axis_hit :
    Primitive.intersects exactFns unitBall ⟨0, 0, 5⟩ ⟨0, 0, -1⟩
      = some (Sphere.hitAt exactFns unitSphere ⟨0, 0, 5⟩ ⟨0, 0, -1⟩ 4 true) := by
  have hA : Sphere.coeffA (⟨0, 0, -1⟩ : Vector3 ℚ) = 1 := by
    norm_num [Sphere.coeffA, Vector3.dot]
  have hB : Sphere.coeffB unitSphere ⟨0, 0, 5⟩ ⟨0, 0, -1⟩ = -10 := by
    norm_num [Sphere.coeffB, unitSphere, Vector3.dot, Vector3.sub]
  have hdet : Sphere.determinant unitSphere ⟨0, 0, 5⟩ ⟨0, 0, -1⟩ = 2 * 2 := by
    norm_num [Sphere.determinant, Sphere.coeffA, Sphere.coeffB, Sphere.coeffC, unitSphere,
      Vector3.dot, Vector3.sub]
  have hrej : ∀ h : HitData ℚ, (plainObject 1).rejects h = false := fun _ => rfl
  show Sphere.intersects exactFns (plainObject 1) unitSphere _ _ = _
  unfold Sphere.intersects
  simp only
  rw [hdet, hA, hB, exactFns_sqrt 2 (by norm_num), if_neg (by norm_num [FLT_EPSILON]),
    if_pos (by norm_num [FLT_EPSILON])]
  have hsel : Sphere.selectRoot ((-(-10) + 2) / (2 * 1)) ((-(-10) - 2) / (2 * 1)) = (4 : ℚ) := by
    norm_num [Sphere.selectRoot]
  rw [hsel, if_neg (by norm_num)]
  simp only [hrej, Bool.false_eq_true, if_false]

/-- The ray of the specification reaches the bounds of the unit sphere at `t = 4`: the hit
point `(0, 0, 1)` lies in the box, and the origin lies strictly between the faces of the two
axes the ray runs along. -/
theorem ball_axis_reached :
    BoundingBox.Reached (Primitive.GetBounds unitBall) ⟨0, 0, 5⟩ ⟨0, 0, -1⟩ (4 : ℚ) := by
  have hbox : Primitive.GetBounds unitBall = ⟨⟨-1, -1, -1⟩, ⟨1, 1, 1⟩⟩ := by
    norm_num [unitBall, Primitive.GetBounds, Sphere.GetBounds, unitSphere,
      Vector3.subScalar, Vector3.addScalar]
  rw [hbox]
  refine ⟨?_, ?_, ?_, ?_⟩
  · norm_num [BoundingBox.Contains, Vector3.add, Vector3.scale]
  · intro _
    norm_num
  · intro _
    norm_num
  · intro h
    norm_num at h

/-- Counterexample to C1 as stated, in four parts.
(1) A tie: for the list `[overlapA, overlapB]` of two coplanar, overlapping triangles of two
different objects and the ray from `(3/2, 3/2, 1)` along `(-1, -1, -1)`, both queries report a
hit at `t = 1`, but the brute-force scan returns the object at address 1 (the first primitive
of the list) and the tree the object at address 2 (the primitive of the leaf it visits first).
(2) A grazing ray: for the list `[smallBall]` and the ray from `(-5, 2^-10 (1 + 2^-23), 0)`
along `(1, 0, 0)`, which passes the sphere inside the epsilon band of the discriminant and
outside its bounding box, the brute-force scan reports a hit and the tree reports none.
(3) The empty list: the brute-force scan reports no hit, the tree dereferences its null
root.
(4) Rays in a face of the box: for the list `[unitBall]` and the rays along `(0, 0, -1)` from
`(-1, 0, 5)`, `(1, 0, 5)` and `(0, 1, 5)`, which touch the unit sphere in a point of a face of
its bounding box, the brute-force scan reports the hit at `t = 5`; the inverse direction is
infinite in `x` and `y`, the slab test computes `0 * inf`, which is NaN, or two equal
infinities, and the tree reports no hit. -/
theorem KDTree.GetClosestIntersection_differs :
    (KDTree.build [overlapA, overlapB] = .ok overlapTree
      ∧ KDTree.GetClosestIntersection exactFns overlapTree ⟨3 / 2, 3 / 2, 1⟩ ⟨-1, -1, -1⟩
          = .ok (true, some (Triangle.hitAt exactFns (flatTriangle ⟨1, 1, 0⟩ ⟨-3, 1, 0⟩ ⟨1, -3, 0⟩)
              ⟨3 / 2, 3 / 2, 1⟩ ⟨-1, -1, -1⟩ 1 (1 / 8) (1 / 8), plainObject 2))
      ∧ Scene.GetClosestIntersectionLinear exactFns [overlapA, overlapB] ⟨3 / 2, 3 / 2, 1⟩
            ⟨-1, -1, -1⟩
          = (true, some (Triangle.hitAt exactFns (flatTriangle ⟨0, 0, 0⟩ ⟨4, 0, 0⟩ ⟨0, 4, 0⟩)
              ⟨3 / 2, 3 / 2, 1⟩ ⟨-1, -1, -1⟩ 1 (1 / 8) (1 / 8), plainObject 1))
      ∧ (plainObject 2).addr ≠ (plainObject 1).addr)
    ∧ (KDTree.build [smallBall] = .ok smallTree
      ∧ KDTree.GetClosestIntersection exactFns smallTree grazingOrigin ⟨1, 0, 0⟩
          = .ok (false, none)
      ∧ (Scene.GetClosestIntersectionLinear exactFns [smallBall] grazingOrigin ⟨1, 0, 0⟩).1
          = true)
    ∧ (KDTree.build ([] : List (Primitive ℚ)) = .ok { root := KDNode.null, nodePrimitives := [] }
      ∧ KDTree.GetClosestIntersection exactFns
          ({ root := KDNode.null, nodePrimitives := [] } : KDTree ℚ) ⟨3 / 2, 3 / 2, 1⟩
          ⟨-1, -1, -1⟩ = .error Fault.nullDereference
      ∧ Scene.GetClosestIntersectionLinear exactFns [] ⟨3 / 2, 3 / 2, 1⟩ ⟨-1, -1, -1⟩
          = (false, none))
    ∧ (KDTree.build [unitBall] = .ok ballTree
      ∧ (KDTree.GetClosestIntersection exactFns ballTree ⟨-1, 0, 5⟩ ⟨0, 0, -1⟩
            = .ok (false, none)
        ∧ (Scene.GetClosestIntersectionLinear exactFns [unitBall] ⟨-1, 0, 5⟩ ⟨0, 0, -1⟩).1
            = true)
      ∧ (KDTree.GetClosestIntersection exactFns ballTree ⟨1, 0, 5⟩ ⟨0, 0, -1⟩
            = .ok (false, none)
        ∧ (Scene.GetClosestIntersectionLinear exactFns [unitBall] ⟨1, 0, 5⟩ ⟨0, 0, -1⟩).1
            = true)
      ∧ (KDTree.GetClosestIntersection exactFns ballTree ⟨0, 1, 5⟩ ⟨0, 0, -1⟩
            = .ok (false, none)
        ∧ (Scene.GetClosestIntersectionLinear exactFns [unitBall] ⟨0, 1, 5⟩ ⟨0, 0, -1⟩).1
            = true)) :=
  ⟨⟨overlap_build, overlap_tree, overlap_linear, by simp [plainObject]⟩,
    ⟨small_build, small_tree, small_linear⟩, ⟨rfl, rfl, rfl⟩,
    ⟨ball_build,
      ⟨ball_tree_culled _ _ ball_face_culled.1, ball_tangent_linear (-1) 0 (by norm_num)⟩,
      ⟨ball_tree_culled _ _ ball_face_culled.2.1, ball_tangent_linear 1 0 (by norm_num)⟩,
      ⟨ball_tree_culled _ _ ball_face_culled.2.2, ball_tangent_linear 0 1 (by norm_num)⟩⟩⟩

/-- Witness for the amended C1: the unit sphere and the ray of the specification from
`(0, 0, 5)` along `(0, 0, -1)`, which runs along two axes of the box. -/
theorem KDTree.GetClosestIntersection_refines_witness :
    ∃ (tree : KDTree ℚ) (flag : Bool) (outT outL : Option (HitData ℚ × Object ℚ)),
      KDTree.build [unitBall] = .ok tree
      ∧ KDTree.GetClosestIntersection exactFns tree ⟨0, 0, 5⟩ ⟨0, 0, -1⟩ = .ok (flag, outT)
      ∧ Scene.GetClosestIntersectionLinear exactFns [unitBall] ⟨0, 0, 5⟩ ⟨0, 0, -1⟩
          = (flag, outL)
      ∧ (flag = false → outT = none ∧ outL = none)
      ∧ (flag = true →
          ∃ pT ∈ [unitBall], ∃ pL ∈ [unitBall], ∃ hT hL : HitData ℚ,
            outT = some (hT, pT.parent) ∧ outL = some (hL, pL.parent)
            ∧ Primitive.intersects exactFns pT ⟨0, 0, 5⟩ ⟨0, 0, -1⟩ = some hT
            ∧ Primitive.intersects exactFns pL ⟨0, 0, 5⟩ ⟨0, 0, -1⟩ = some hL
            ∧ hT.t = hL.t
            ∧ ∀ p ∈ [unitBall], ∀ h : HitData ℚ,
                Primitive.intersects exactFns p ⟨0, 0, 5⟩ ⟨0, 0, -1⟩ = some h →
                hL.t ≤ h.t) :=
  KDTree.GetClosestIntersection_refines exactFns [unitBall] ⟨0, 0, 5⟩ ⟨0, 0, -1⟩ (by simp)
    (by
      intro p hp h hh
      rw [List.mem_singleton] at hp
      subst hp
      rw [ball_axis_hit] at hh
      simp only [Option.some.injEq] at hh
      subst hh
      exact ball_axis_reached)

end RefinementExamples

section PositiveExamples

/-- Witness for C6: the unit sphere hit by the ray from `(0, 0, 5)` along `(0, 0, -1)` at
`t = 4`, which is also the float value the method reports. -/
theorem Primitive.intersects_t_pos_witness :
    (((⟨0, 0, -1⟩ : Vector3 ℚ) = Vector3.zero →
        ∃ tr : Triangle ℚ, unitBall.shape = Shape.triangle tr)
      ∧ Primitive.intersects exactFns unitBall ⟨0, 0, 5⟩ ⟨0, 0, -1⟩
        = some (Sphere.hitAt exactFns unitSphere ⟨0, 0, 5⟩ ⟨0, 0, -1⟩ 4 true))
      ∧ 0 < (Sphere.hitAt exactFns unitSphere ⟨0, 0, 5⟩ ⟨0, 0, -1⟩ 4 true).t
      ∧ Sphere.intersectsFloat exactFns unitSphere ⟨0, 0, 5⟩ ⟨0, 0, -1⟩
        = some (FloatValue.num 4) := by
  have hdir : (⟨0, 0, -1⟩ : Vector3 ℚ) = Vector3.zero →
      ∃ tr : Triangle ℚ, unitBall.shape = Shape.triangle tr := by
    intro h
    simp [Vector3.zero] at h
  have h := Primitive.intersects_t_pos exactFns unitBall ⟨0, 0, 5⟩ ⟨0, 0, -1⟩ _ hdir
    ball_axis_hit
  exact ⟨⟨hdir, ball_axis_hit⟩, h.1, h.2.2 unitSphere rfl rfl⟩

/-- Counterexample for C6 as stated: for the unit sphere, whose object has no intersection
shader, and the ray from `(0, 0, 5)` with the zero direction vector, `a`, `b` and the
discriminant are `0`, the one-root branch computes `t = 0 / 0`, the test `t <= 0` fails for
NaN, and the method returns `true` with `hitData.t` NaN, which is not greater than `0`. -/
theorem Sphere.intersects_zero_direction :
    unitBall.shape = Shape.sphere unitSphere
      ∧ unitBall.parent.intersectionShader = none
      ∧ Sphere.coeffA (⟨0, 0, 0⟩ : Vector3 ℚ) = 0
      ∧ Sphere.coeffB unitSphere ⟨0, 0, 5⟩ ⟨0, 0, 0⟩ = 0
      ∧ Sphere.determinant unitSphere ⟨0, 0, 5⟩ ⟨0, 0, 0⟩ = 0
      ∧ Sphere.intersectsFloat exactFns unitSphere ⟨0, 0, 5⟩ ⟨0, 0, 0⟩ = some FloatValue.nan
      ∧ FloatValue.lt (FloatValue.num 0) (FloatValue.nan : FloatValue ℚ) = false := by
  refine ⟨rfl, rfl, ?_, ?_, ?_, Sphere.intersectsFloat_zero exactFns unitSphere ⟨0, 0, 5⟩, rfl⟩
  · norm_num [Sphere.coeffA, Vector3.dot]
  · norm_num [Sphere.coeffB, unitSphere, Vector3.dot, Vector3.sub]
  · norm_num [Sphere.determinant, Sphere.coeffA, Sphere.coeffB, Sphere.coeffC, unitSphere,
      Vector3.dot, Vector3.sub]

end PositiveExamples

section Shadows

variable {F : Type} [LinearOrderedField F]

/-- Attenuating the zero factor leaves it zero. -/
theorem KDTree.attenuate_zero (m : Material F) :
    KDTree.attenuate (⟨0, 0, 0⟩ : Vector3 F) m = ⟨0, 0, 0⟩ := by
  simp [KDTree.attenuate, Vector3.mul, Vector3.scale]

/-- Once the factor is zero no sequence of hits changes it. -/
theorem KDTree.shadowOutcome_zero (hs : List (HitData F)) :
    KDTree.shadowOutcome hs (⟨0, 0, 0⟩ : Vector3 F) = ⟨0, 0, 0⟩ := by
  induction hs with
  | nil => rfl
  | cons h hs ih =>
    unfold KDTree.shadowOutcome
    split_ifs
    · rfl
    · rw [KDTree.attenuate_zero]
      exact ih

/-- The outcome over a concatenation is the outcome of the second part applied to the outcome
of the first. -/
theorem KDTree.shadowOutcome_append (hs1 hs2 : List (HitData F)) (sf : Vector3 F) :
    KDTree.shadowOutcome (hs1 ++ hs2) sf
      = KDTree.shadowOutcome hs2 (KDTree.shadowOutcome hs1 sf) := by
  induction hs1 generalizing sf with
  | nil => rfl
  | cons h hs ih =>
    simp only [List.cons_append, KDTree.shadowOutcome]
    split_ifs
    · rw [KDTree.shadowOutcome_zero]
    · exact ih _

/-- An accepted hit with `ktran < 0.01` anywhere in the sequence forces the outcome zero. -/
theorem KDTree.shadowOutcome_blocked (hs : List (HitData F)) (sf : Vector3 F)
    (h : HitData F) (hmem : h ∈ hs) (hk : h.material.ktran < 1 / 100) :
    KDTree.shadowOutcome hs sf = ⟨0, 0, 0⟩ := by
  induction hs generalizing sf with
  | nil => cases hmem
  | cons g gs ih =>
    unfold KDTree.shadowOutcome
    split_ifs with hg
    · rfl
    · rcases List.mem_cons.mp hmem with rfl | hmem
      · exact absurd hk hg
      · exact ih _ hmem

/-- The leaf loop of `traceShadowNode` computes the outcome of the accepted hits of the leaf. -/
theorem KDTree.shadowScan_eq (L : MathFns F) (origin direction : Vector3 F) (maxDist : F)
    (ps : List (Primitive F)) (sf : Vector3 F) :
    KDTree.shadowScan L origin direction maxDist ps sf
      = KDTree.shadowOutcome (ps.filterMap (Primitive.shadowHit L origin direction maxDist))
          sf := by
  induction ps generalizing sf with
  | nil => rfl
  | cons p ps ih =>
    unfold KDTree.shadowScan
    rw [List.filterMap_cons]
    unfold Primitive.shadowHit
    cases Primitive.intersects L p origin direction with
    | none => exact ih sf
    | some h =>
      simp only
      by_cases hr : h.t < maxDist ∧ h.t ≥ MIN_SHADOW_INTERSECT
      · rw [if_pos hr, if_pos hr]
        simp only [KDTree.shadowOutcome]
        split_ifs
        · rfl
        · exact ih _
      · rw [if_neg hr, if_neg hr]
        exact ih sf

/-- The shadow traversal of a well-formed, non-null node returns without fault the outcome of
the accepted hits among the primitives of the leaves it reaches. -/
theorem KDTree.traceShadowNode_eq (L : MathFns F) (reg : List (List (Primitive F)))
    (origin direction : Vector3 F) (inv : Vector3 (FloatValue F)) (maxDist : F)
    (node : KDNode F)
    (hnn : node.isNull = false) (hwf : KDNode.WellFormed reg node) (sf : Vector3 F) :
    KDTree.traceShadowNode L reg origin direction inv maxDist node sf
      = .ok (KDTree.shadowOutcome
          ((KDNode.visitedPrimitives reg origin inv node).filterMap
            (Primitive.shadowHit L origin direction maxDist)) sf) := by
  induction node generalizing sf with
  | null => cases hnn
  | node left right bounds idx ihl ihr =>
    obtain ⟨-, hrest⟩ := hwf
    unfold KDTree.traceShadowNode KDNode.visitedPrimitives
    by_cases hb : BoundingBox.intersects bounds origin inv = true
    · rw [if_pos hb, if_pos hb]
      by_cases hleaf : (left.isNull && right.isNull) = true
      · rw [if_pos hleaf] at hrest
        rw [if_pos hleaf, if_pos hleaf]
        have hget : reg[idx]? = some (reg.get ⟨idx, hrest⟩) := List.getElem?_eq_getElem hrest
        rw [hget]
        simp only [Option.getD_some]
        rw [KDTree.shadowScan_eq]
      · rw [if_neg hleaf] at hrest
        rw [if_neg hleaf, if_neg hleaf]
        obtain ⟨hwl, hwr⟩ := hrest
        rw [List.filterMap_append, KDTree.shadowOutcome_append]
        have hL : (if left.isNull = true then Except.ok sf
              else KDTree.traceShadowNode L reg origin direction inv maxDist left sf)
            = (Except.ok (KDTree.shadowOutcome
                ((KDNode.visitedPrimitives reg origin inv left).filterMap
                  (Primitive.shadowHit L origin direction maxDist)) sf) :
                Except Fault (Vector3 F)) := by
          by_cases hln : left.isNull = true
          · rw [if_pos hln]
            cases left with
            | null => rfl
            | node _ _ _ _ => cases hln
          · rw [if_neg hln]
            exact ihl (by simpa using hln) hwl sf
        rw [hL]
        simp only
        by_cases hrn : right.isNull = true
        · rw [if_pos hrn]
          cases right with
          | null => rfl
          | node _ _ _ _ => cases hrn
        · rw [if_neg hrn]
          exact ihr (by simpa using hrn) hwr _
    · rw [if_neg hb, if_neg hb]
      rfl

/-- The constructor on the empty list yields the null root. -/
theorem KDTree.build_nil :
    KDTree.build ([] : List (Primitive F)) = .ok { root := KDNode.null, nodePrimitives := [] } :=
  rfl

/-- The method `TraceShadowRay` on a tree built from a non-empty list returns without fault the
outcome of the accepted hits, started from `(1,1,1)`. -/
theorem KDTree.TraceShadowRay_eq (L : MathFns F) (primitives : List (Primitive F))
    (tree : KDTree F) (hb : KDTree.build primitives = .ok tree) (hne : primitives ≠ [])
    (origin direction : Vector3 F) (maxDist : F) :
    KDTree.TraceShadowRay L tree origin direction maxDist
      = .ok (KDTree.shadowOutcome (KDTree.shadowHits L tree origin direction maxDist)
          ⟨1, 1, 1⟩) := by
  obtain ⟨tree1, hb1, hnn, hwf, -⟩ := KDTree.build_spec primitives hne
  rw [hb] at hb1
  cases hb1
  unfold KDTree.TraceShadowRay KDTree.shadowHits
  exact KDTree.traceShadowNode_eq L tree.nodePrimitives origin direction _ maxDist tree.root
    hnn hwf _

/-- The primitives tested in a leaf are primitives of the leaf. -/
theorem KDTree.shadowScanTested_subset (L : MathFns F) (origin direction : Vector3 F)
    (maxDist : F) (ps : List (Primitive F)) :
    ∀ p ∈ KDTree.shadowScanTested L origin direction maxDist ps, p ∈ ps := by
  induction ps with
  | nil =>
    intro p hp
    cases hp
  | cons q qs ih =>
    intro p hp
    unfold KDTree.shadowScanTested at hp
    cases hq : Primitive.shadowHit L origin direction maxDist q with
    | none =>
      rw [hq] at hp
      rcases List.mem_cons.mp hp with rfl | hp
      · exact List.mem_cons_self _ _
      · exact List.mem_cons_of_mem _ (ih p hp)
    | some h =>
      rw [hq] at hp
      simp only at hp
      split_ifs at hp
      · rcases List.mem_cons.mp hp with rfl | hp
        · exact List.mem_cons_self _ _
        · cases hp
      · rcases List.mem_cons.mp hp with rfl | hp
        · exact List.mem_cons_self _ _
        · exact List.mem_cons_of_mem _ (ih p hp)

/-- The primitives tested beneath a node are primitives of the leaves the traversal reaches. -/
theorem KDNode.shadowTested_subset (L : MathFns F) (reg : List (List (Primitive F)))
    (origin direction : Vector3 F) (inv : Vector3 (FloatValue F)) (maxDist : F)
    (node : KDNode F) :
    ∀ p ∈ KDNode.shadowTested L reg origin direction inv maxDist node,
      p ∈ KDNode.visitedPrimitives reg origin inv node := by
  induction node with
  | null =>
    intro p hp
    cases hp
  | node left right bounds idx ihl ihr =>
    intro p hp
    unfold KDNode.shadowTested at hp
    unfold KDNode.visitedPrimitives
    by_cases hb : BoundingBox.intersects bounds origin inv = true
    · rw [if_pos hb] at hp ⊢
      by_cases hleaf : (left.isNull && right.isNull) = true
      · rw [if_pos hleaf] at hp ⊢
        exact KDTree.shadowScanTested_subset L origin direction maxDist _ p hp
      · rw [if_neg hleaf] at hp ⊢
        rcases List.mem_append.mp hp with h | h
        · exact List.mem_append_left _ (ihl p h)
        · exact List.mem_append_right _ (ihr p h)
    · rw [if_neg hb] at hp
      cases hp

/-- A hit within the accepted range passes the test of the shadow loop. -/
theorem Primitive.shadowHit_of_intersects (L : MathFns F)
    (p : Primitive F) (origin direction : Vector3 F) (maxDist : F) (h : HitData F)
    (hh : Primitive.intersects L p origin direction = some h)
    (hlo : MIN_SHADOW_INTERSECT ≤ h.t) (hhi : h.t < maxDist) :
    Primitive.shadowHit L origin direction maxDist p = some h := by
  unfold Primitive.shadowHit
  rw [hh]
  simp only
  rw [if_pos ⟨hhi, hlo⟩]

/-- C7. For every tree built by the constructor and every shadow ray: if any primitive tested
by the traversal reports a hit with `MIN_SHADOW_INTERSECT <= t < maxDist` whose hit material
has `ktran < 0.01`, then `KDTree::TraceShadowRay` outputs exactly `(0,0,0)`, whatever other
primitives are hit before or after it and whatever the traversal order. -/
theorem KDTree.TraceShadowRay_blocked (L : MathFns F) (primitives : List (Primitive F))
    (tree : KDTree F) (hb : KDTree.build primitives = .ok tree)
    (origin direction : Vector3 F) (maxDist : F) (p : Primitive F) (h : HitData F)
    (hp : p ∈ KDTree.shadowTested L tree origin direction maxDist)
    (hh : Primitive.intersects L p origin direction = some h)
    (hlo : MIN_SHADOW_INTERSECT ≤ h.t) (hhi : h.t < maxDist)
    (hk : h.material.ktran < 1 / 100) :
    KDTree.TraceShadowRay L tree origin direction maxDist = .ok ⟨0, 0, 0⟩ := by
  have hne : primitives ≠ [] := by
    intro hnil
    rw [hnil, KDTree.build_nil] at hb
    cases hb
    cases hp
  rw [KDTree.TraceShadowRay_eq L primitives tree hb hne]
  have hvis := KDNode.shadowTested_subset L tree.nodePrimitives origin direction
    (KDTree.invDirection direction) maxDist tree.root p hp
  have hsh := Primitive.shadowHit_of_intersects L p origin direction maxDist h hh hlo hhi
  have hmem : h ∈ KDTree.shadowHits L tree origin direction maxDist := by
    unfold KDTree.shadowHits
    exact List.mem_filterMap.mpr ⟨p, hvis, hsh⟩
  rw [KDTree.shadowOutcome_blocked _ _ h hmem hk]

/-- The normalised diffuse colour of a gray material is `(1,1,1)`. -/
theorem KDTree.normalizedDiffuse_gray (m : Material F) (g : F) (hg : m.diffColor = ⟨g, g, g⟩) :
    KDTree.normalizedDiffuse m = ⟨1, 1, 1⟩ := by
  unfold KDTree.normalizedDiffuse
  rw [hg]
  simp only [Vector3.MaxComponent, max_self, Vector3.divScalar]
  split_ifs with h
  · have hg0 : g ≠ 0 := ne_of_gt (lt_trans FLT_EPSILON_pos h)
    rw [div_self hg0]
  · rfl

/-- C8 (amended). When the accepted hits of a shadow ray (those with
`MIN_SHADOW_INTERSECT <= t < maxDist`) are exactly two, with transparencies `t1, t2 >= 0.01`,
`TraceShadowRay` outputs the componentwise product `(1,1,1) * t1 * nd1 * t2 * nd2`, where
`nd_i` is the occluder's diffuse colour divided by its largest channel if that channel exceeds
`FLT_EPSILON` and `(1,1,1)` otherwise; the value does not depend on the order of the two, and
for gray or white occluders it is `t1 * t2` in every channel. -/
theorem KDTree.TraceShadowRay_two_occluders (L : MathFns F) (primitives : List (Primitive F))
    (tree : KDTree F) (hb : KDTree.build primitives = .ok tree)
    (origin direction : Vector3 F) (maxDist : F) (h1 h2 : HitData F)
    (hhits : KDTree.shadowHits L tree origin direction maxDist = [h1, h2])
    (hk1 : 1 / 100 ≤ h1.material.ktran) (hk2 : 1 / 100 ≤ h2.material.ktran) :
    KDTree.TraceShadowRay L tree origin direction maxDist
        = .ok (Vector3.mul
            (Vector3.scale
              (Vector3.mul (Vector3.scale ⟨1, 1, 1⟩ h1.material.ktran)
                (KDTree.normalizedDiffuse h1.material))
              h2.material.ktran)
            (KDTree.normalizedDiffuse h2.material))
      ∧ Vector3.mul
            (Vector3.scale
              (Vector3.mul (Vector3.scale ⟨1, 1, 1⟩ h1.material.ktran)
                (KDTree.normalizedDiffuse h1.material))
              h2.material.ktran)
            (KDTree.normalizedDiffuse h2.material)
          = Vector3.mul
            (Vector3.scale
              (Vector3.mul (Vector3.scale ⟨1, 1, 1⟩ h2.material.ktran)
                (KDTree.normalizedDiffuse h2.material))
              h1.material.ktran)
            (KDTree.normalizedDiffuse h1.material)
      ∧ (∀ g1 g2 : F, h1.material.diffColor = ⟨g1, g1, g1⟩ →
          h2.material.diffColor = ⟨g2, g2, g2⟩ →
          Vector3.mul
            (Vector3.scale
              (Vector3.mul (Vector3.scale ⟨1, 1, 1⟩ h1.material.ktran)
                (KDTree.normalizedDiffuse h1.material))
              h2.material.ktran)
            (KDTree.normalizedDiffuse h2.material)
          = ⟨h1.material.ktran * h2.material.ktran, h1.material.ktran * h2.material.ktran,
              h1.material.ktran * h2.material.ktran⟩) := by
  have hne : primitives ≠ [] := by
    intro hnil
    rw [hnil, KDTree.build_nil] at hb
    cases hb
    cases hhits
  refine ⟨?_, ?_, ?_⟩
  · rw [KDTree.TraceShadowRay_eq L primitives tree hb hne, hhits]
    simp only [KDTree.shadowOutcome, not_lt.mpr hk1, not_lt.mpr hk2, if_false,
      KDTree.attenuate]
  · simp only [Vector3.mul, Vector3.scale, Vector3.mk.injEq]
    refine ⟨?_, ?_, ?_⟩ <;> ring
  · intro g1 g2 hg1 hg2
    rw [KDTree.normalizedDiffuse_gray _ g1 hg1, KDTree.normalizedDiffuse_gray _ g2 hg2]
    simp only [Vector3.mul, Vector3.scale, Vector3.mk.injEq]
    refine ⟨?_, ?_, ?_⟩ <;> ring

/-- The primitives of the leaves a traversal reaches are primitives of the leaves beneath the
node. -/
theorem KDNode.visitedPrimitives_subset (reg : List (List (Primitive F)))
    (origin : Vector3 F) (inv : Vector3 (FloatValue F)) (node : KDNode F) :
    ∀ p ∈ KDNode.visitedPrimitives reg origin inv node, p ∈ KDNode.leafPrimitives reg node := by
  induction node with
  | null =>
    intro p hp
    cases hp
  | node left right bounds idx ihl ihr =>
    intro p hp
    unfold KDNode.visitedPrimitives at hp
    unfold KDNode.leafPrimitives
    by_cases hb : BoundingBox.intersects bounds origin inv = true
    · rw [if_pos hb] at hp
      by_cases hleaf : (left.isNull && right.isNull) = true
      · rw [if_pos hleaf] at hp ⊢
        exact hp
      · rw [if_neg hleaf] at hp ⊢
        rcases List.mem_append.mp hp with h | h
        · exact List.mem_append_left _ (ihl p h)
        · exact List.mem_append_right _ (ihr p h)
    · rw [if_neg hb] at hp
      cases hp

/-- C9. In `KDTree::TraceShadowRay`, on a tree built from a non-empty list, only hits with
`MIN_SHADOW_INTERSECT <= t < maxDist` affect the shadow factor: the output is the outcome of
the accepted hits alone, and a ray all of whose hits are closer than the bias or at or beyond
`maxDist` yields `(1,1,1)`. -/
theorem KDTree.TraceShadowRay_out_of_range (L : MathFns F) (primitives : List (Primitive F))
    (tree : KDTree F) (hb : KDTree.build primitives = .ok tree) (hne : primitives ≠ [])
    (origin direction : Vector3 F) (maxDist : F) :
    KDTree.TraceShadowRay L tree origin direction maxDist
        = .ok (KDTree.shadowOutcome (KDTree.shadowHits L tree origin direction maxDist)
            ⟨1, 1, 1⟩)
      ∧ (∀ h ∈ KDTree.shadowHits L tree origin direction maxDist,
          MIN_SHADOW_INTERSECT ≤ h.t ∧ h.t < maxDist)
      ∧ ((∀ p ∈ primitives, ∀ h : HitData F,
            Primitive.intersects L p origin direction = some h →
            h.t < MIN_SHADOW_INTERSECT ∨ maxDist ≤ h.t) →
          KDTree.TraceShadowRay L tree origin direction maxDist = .ok ⟨1, 1, 1⟩) := by
  have heq := KDTree.TraceShadowRay_eq L primitives tree hb hne origin direction maxDist
  have hrange : ∀ (p : Primitive F) (h : HitData F),
      Primitive.shadowHit L origin direction maxDist p = some h →
      Primitive.intersects L p origin direction = some h
        ∧ MIN_SHADOW_INTERSECT ≤ h.t ∧ h.t < maxDist := by
    intro p h hsh
    unfold Primitive.shadowHit at hsh
    cases hi : Primitive.intersects L p origin direction with
    | none =>
      rw [hi] at hsh
      cases hsh
    | some g =>
      rw [hi] at hsh
      simp only at hsh
      split_ifs at hsh with hr
      cases hsh
      exact ⟨rfl, hr.2, hr.1⟩
  refine ⟨heq, ?_, ?_⟩
  · intro h hmem
    unfold KDTree.shadowHits at hmem
    obtain ⟨p, -, hsh⟩ := List.mem_filterMap.mp hmem
    exact (hrange p h hsh).2
  · intro hout
    obtain ⟨tree1, hb1, -, -, hmem⟩ := KDTree.build_spec primitives hne
    rw [hb] at hb1
    cases hb1
    have hnil : KDTree.shadowHits L tree origin direction maxDist = [] := by
      apply List.eq_nil_iff_forall_not_mem.mpr
      intro h hin
      unfold KDTree.shadowHits at hin
      obtain ⟨p, hp, hsh⟩ := List.mem_filterMap.mp hin
      obtain ⟨hi, hlo, hhi⟩ := hrange p h hsh
      have hpl := (hmem p).mp (KDNode.visitedPrimitives_subset _ _ _ _ p hp)
      rcases hout p hpl h hi with hc | hc
      · exact absurd hlo (not_le.mpr hc)
      · exact absurd hhi (not_lt.mpr hc)
    rw [heq, hnil]
    rfl

end Shadows

section ShadowExamples

/-- The centroid of a pane has `x = 4/3`. -/
theorem pane_midpoint (a : Nat) (m : Material ℚ) (z : ℚ) :
    Vector3.Get (Primitive.GetMidpoint (pane a m z)) 0 = 4 / 3 := by
  norm_num [pane, paneTriangle, Primitive.GetMidpoint, Triangle.GetMidpoint, Vector3.Get,
    Vector3.add, Vector3.scale]

/-- Two panes over the same footprint are not separated by the split on `x`. -/
theorem pane_split (a b : Nat) (m n : Material ℚ) (z w : ℚ) :
    KDTree.splitSides [pane a m z, pane b n w] 0
      = ([pane a m z, pane b n w], [pane a m z, pane b n w]) := by
  have hmid : KDTree.splitValue [pane a m z, pane b n w] 0 = 4 / 3 := by
    simp only [KDTree.splitValue, List.foldl_cons, List.foldl_nil, pane_midpoint,
      List.length_cons, List.length_nil]
    norm_num
  have hr : ∀ (c : Nat) (k : Material ℚ) (v : ℚ),
      KDTree.onRightSide 0 (4 / 3 : ℚ) (pane c k v) = true := by
    intro c k v
    simp only [KDTree.onRightSide, pane_midpoint, ge_iff_le, le_refl, decide_True]
  simp only [KDTree.splitSides, Nat.zero_mod, Nat.cast_zero, hmid, List.filter_cons, hr,
    if_true, Bool.not_true, Bool.false_eq_true, if_false, List.filter_nil, List.length_nil,
    List.length_cons]
  rfl

/-- The constructor builds the one-leaf tree from two panes over the same footprint. -/
theorem pane_build (a b : Nat) (m n : Material ℚ) (z w : ℚ) :
    KDTree.build [pane a m z, pane b n w] = .ok (paneTree (pane a m z) (pane b n w)) := by
  simp only [KDTree.build, KDTree.makeNode, KDTree.makeNodeFuel, List.length_cons,
    List.length_nil, pane_split, KDTree.keepDividing_self]
  rfl

/-- The ray from `(1,1,1)` along `(-1/8,-1/8,-1)` hits a pane at `z = 0` at `t = 1`. -/
theorem pane_intersects_top (a : Nat) (m : Material ℚ) :
    Primitive.intersects exactFns (pane a m 0) ⟨1, 1, 1⟩ ⟨-1 / 8, -1 / 8, -1⟩
      = some (Triangle.hitAt exactFns (paneTriangle m 0) ⟨1, 1, 1⟩ ⟨-1 / 8, -1 / 8, -1⟩ 1
          (7 / 32) (7 / 32)) := by
  norm_num [Primitive.intersects, pane, paneTriangle, Triangle.intersects,
    Triangle.det, Triangle.baryU, Triangle.baryV, Triangle.rayT, Vector3.dot, Vector3.cross,
    Vector3.sub, FLT_EPSILON, Object.rejects, plainObject]

/-- The ray from `(1,1,1)` along `(-1/8,-1/8,-1)` hits a pane at `z = -1` at `t = 2`. -/
theorem pane_intersects_low (a : Nat) (m : Material ℚ) :
    Primitive.intersects exactFns (pane a m (-1)) ⟨1, 1, 1⟩ ⟨-1 / 8, -1 / 8, -1⟩
      = some (Triangle.hitAt exactFns (paneTriangle m (-1)) ⟨1, 1, 1⟩ ⟨-1 / 8, -1 / 8, -1⟩ 2
          (3 / 16) (3 / 16)) := by
  norm_num [Primitive.intersects, pane, paneTriangle, Triangle.intersects,
    Triangle.det, Triangle.baryU, Triangle.baryV, Triangle.rayT, Vector3.dot, Vector3.cross,
    Vector3.sub, FLT_EPSILON, Object.rejects, plainObject]

/-- The bounds of a pane. -/
theorem pane_GetBounds (a : Nat) (m : Material ℚ) (z : ℚ) :
    Primitive.GetBounds (pane a m z) = ⟨⟨0, 0, z⟩, ⟨4, 4, z⟩⟩ := by
  simp only [Primitive.GetBounds, pane, paneTriangle, Triangle.GetBounds, min_self, max_self]
  norm_num

/-- The bounds of the leaf holding a pane at `z = 0` and a pane at `z = -1`. -/
theorem pane_boundsOf (a b : Nat) (m n : Material ℚ) :
    KDTree.boundsOf (pane a m 0) [pane b n (-1)] = ⟨⟨0, 0, -1⟩, ⟨4, 4, 0⟩⟩ := by
  simp only [KDTree.boundsOf, List.foldl_cons, List.foldl_nil, pane_GetBounds,
    BoundingBox.Expand, min_self, max_self]
  norm_num

/-- The ray from `(1,1,1)` along `(-1/8,-1/8,-1)` passes the bounds of the leaf holding a pane
at `z = 0` and a pane at `z = -1`. -/
theorem pane_bounds (a b : Nat) (m n : Material ℚ) :
    BoundingBox.intersects (KDTree.boundsOf (pane a m 0) [pane b n (-1)]) ⟨1, 1, 1⟩
      (KDTree.invDirection ⟨-1 / 8, -1 / 8, -1⟩) = true := by
  rw [pane_boundsOf]
  rw [BoundingBox.intersects_finite]
  · norm_num [BoundingBox.slabTest, Vector3.mul, Vector3.sub]
  · norm_num
  · norm_num
  · norm_num

/-- The traversal for the ray from `(1,1,1)` along `(-1/8,-1/8,-1)` reaches the single leaf of
the tree of a pane at `z = 0` and a pane at `z = -1`. -/
theorem pane_visited (a b : Nat) (m n : Material ℚ) :
    KDNode.visitedPrimitives (paneTree (pane a m 0) (pane b n (-1))).nodePrimitives ⟨1, 1, 1⟩
        (KDTree.invDirection ⟨-1 / 8, -1 / 8, -1⟩) (paneTree (pane a m 0) (pane b n (-1))).root
      = [pane a m 0, pane b n (-1)] := by
  simp only [paneTree, KDNode.visitedPrimitives, pane_bounds, KDNode.isNull, Bool.and_self,
    if_true]
  rfl

/-- With `maxDist = 10` the hit of the pane at `z = 0` is accepted. -/
theorem pane_shadowHit_top (a : Nat) (m : Material ℚ) :
    Primitive.shadowHit exactFns ⟨1, 1, 1⟩ ⟨-1 / 8, -1 / 8, -1⟩ 10 (pane a m 0)
      = some (Triangle.hitAt exactFns (paneTriangle m 0) ⟨1, 1, 1⟩ ⟨-1 / 8, -1 / 8, -1⟩ 1
          (7 / 32) (7 / 32)) :=
  Primitive.shadowHit_of_intersects exactFns _ _ _ _ _ (pane_intersects_top a m)
    (by show MIN_SHADOW_INTERSECT ≤ (1 : ℚ); norm_num [MIN_SHADOW_INTERSECT])
    (by show (1 : ℚ) < 10; norm_num)

/-- With `maxDist = 10` the hit of the pane at `z = -1` is accepted. -/
theorem pane_shadowHit_low (a : Nat) (m : Material ℚ) :
    Primitive.shadowHit exactFns ⟨1, 1, 1⟩ ⟨-1 / 8, -1 / 8, -1⟩ 10 (pane a m (-1))
      = some (Triangle.hitAt exactFns (paneTriangle m (-1)) ⟨1, 1, 1⟩ ⟨-1 / 8, -1 / 8, -1⟩ 2
          (3 / 16) (3 / 16)) :=
  Primitive.shadowHit_of_intersects exactFns _ _ _ _ _ (pane_intersects_low a m)
    (by show MIN_SHADOW_INTERSECT ≤ (2 : ℚ); norm_num [MIN_SHADOW_INTERSECT])
    (by show (2 : ℚ) < 10; norm_num)

/-- The accepted hits of the ray from `(1,1,1)` along `(-1/8,-1/8,-1)` with `maxDist = 10` in
the tree of a pane at `z = 0` and a pane at `z = -1`: both panes, in list order. -/
theorem pane_shadowHits (a b : Nat) (m n : Material ℚ) :
    KDTree.shadowHits exactFns (paneTree (pane a m 0) (pane b n (-1))) ⟨1, 1, 1⟩
        ⟨-1 / 8, -1 / 8, -1⟩ 10
      = [Triangle.hitAt exactFns (paneTriangle m 0) ⟨1, 1, 1⟩ ⟨-1 / 8, -1 / 8, -1⟩ 1
            (7 / 32) (7 / 32),
          Triangle.hitAt exactFns (paneTriangle n (-1)) ⟨1, 1, 1⟩ ⟨-1 / 8, -1 / 8, -1⟩ 2
            (3 / 16) (3 / 16)] := by
  have hv : KDTree.shadowHits exactFns (paneTree (pane a m 0) (pane b n (-1))) ⟨1, 1, 1⟩
      ⟨-1 / 8, -1 / 8, -1⟩ 10
      = [pane a m 0, pane b n (-1)].filterMap
          (Primitive.shadowHit exactFns ⟨1, 1, 1⟩ ⟨-1 / 8, -1 / 8, -1⟩ 10) :=
    congrArg (List.filterMap _) (pane_visited a b m n)
  rw [hv, List.filterMap_cons_some (pane_shadowHit_top a m),
    List.filterMap_cons_some (pane_shadowHit_low b n), List.filterMap_nil]

/-- Counterexample to C8 as stated: the half-transparent `dimPane`, whose diffuse colour
`(2^-24, 0, 0)` has its largest channel below `FLT_EPSILON`, in front of the half-transparent
`whitePane`.  Exactly these two are hit in range; the code outputs `(1/4, 1/4, 1/4)` because
the guard replaces the normalised colour of `dimPane` by `(1,1,1)`, whereas the product with
`nd` taken as the diffuse colour divided by its largest channel is `(1/4, 0, 0)`. -/
theorem KDTree.TraceShadowRay_dim_occluder :
    KDTree.build [dimPane, whitePane] = .ok (paneTree dimPane whitePane)
      ∧ KDTree.shadowHits exactFns (paneTree dimPane whitePane) ⟨1, 1, 1⟩ ⟨-1 / 8, -1 / 8, -1⟩ 10
          = [Triangle.hitAt exactFns (paneTriangle (tintedMaterial (1 / 2) ⟨1 / 2 ^ 24, 0, 0⟩) 0)
                ⟨1, 1, 1⟩ ⟨-1 / 8, -1 / 8, -1⟩ 1 (7 / 32) (7 / 32),
              Triangle.hitAt exactFns (paneTriangle (tintedMaterial (1 / 2) ⟨1, 1, 1⟩) (-1))
                ⟨1, 1, 1⟩ ⟨-1 / 8, -1 / 8, -1⟩ 2 (3 / 16) (3 / 16)]
      ∧ KDTree.TraceShadowRay exactFns (paneTree dimPane whitePane) ⟨1, 1, 1⟩
          ⟨-1 / 8, -1 / 8, -1⟩ 10 = .ok ⟨1 / 4, 1 / 4, 1 / 4⟩
      ∧ Vector3.mul
          (Vector3.scale
            (Vector3.mul (Vector3.scale ⟨1, 1, 1⟩ (1 / 2 : ℚ))
              (Vector3.divScalar ⟨1 / 2 ^ 24, 0, 0⟩
                (Vector3.MaxComponent (⟨1 / 2 ^ 24, 0, 0⟩ : Vector3 ℚ))))
            (1 / 2))
          (Vector3.divScalar ⟨1, 1, 1⟩ (Vector3.MaxComponent (⟨1, 1, 1⟩ : Vector3 ℚ)))
          = ⟨1 / 4, 0, 0⟩ := by
  refine ⟨pane_build _ _ _ _ _ _, pane_shadowHits _ _ _ _, ?_, ?_⟩
  · have h := KDTree.TraceShadowRay_eq exactFns [dimPane, whitePane]
      (paneTree dimPane whitePane) (pane_build _ _ _ _ _ _) (by simp) ⟨1, 1, 1⟩
      ⟨-1 / 8, -1 / 8, -1⟩ 10
    have hh : KDTree.shadowHits exactFns (paneTree dimPane whitePane) ⟨1, 1, 1⟩
        ⟨-1 / 8, -1 / 8, -1⟩ 10 = _ := pane_shadowHits 1 2 _ _
    rw [h, hh]
    norm_num [KDTree.shadowOutcome, KDTree.attenuate, KDTree.normalizedDiffuse, Triangle.hitAt,
      paneTriangle, tintedMaterial, Material.add, Material.scale, Vector3.add, Vector3.scale,
      Vector3.mul, Vector3.MaxComponent, Vector3.divScalar, FLT_EPSILON]
  · norm_num [Vector3.mul, Vector3.scale, Vector3.divScalar, Vector3.MaxComponent]

/-- The interpolated transparency of a hit on a pane is the transparency of its material. -/
theorem pane_hit_ktran (k : ℚ) (c : Vector3 ℚ) (z : ℚ) (origin direction : Vector3 ℚ)
    (t u v : ℚ) :
    (Triangle.hitAt exactFns (paneTriangle (tintedMaterial k c) z) origin direction t u
      v).material.ktran = k := by
  simp only [Triangle.hitAt, paneTriangle, tintedMaterial, Material.add, Material.scale]
  ring

/-- The shadow traversal for the ray from `(1,1,1)` along `(-1/8,-1/8,-1)` with `maxDist = 10`
tests `dimPane` and then `solidPane`. -/
theorem pane_tested :
    KDTree.shadowTested exactFns (paneTree dimPane solidPane) ⟨1, 1, 1⟩ ⟨-1 / 8, -1 / 8, -1⟩ 10
      = [dimPane, solidPane] := by
  have hb : BoundingBox.intersects (KDTree.boundsOf dimPane [solidPane]) ⟨1, 1, 1⟩
      (KDTree.invDirection ⟨-1 / 8, -1 / 8, -1⟩) = true := pane_bounds 1 3 _ _
  have h1 : Primitive.shadowHit exactFns ⟨1, 1, 1⟩ ⟨-1 / 8, -1 / 8, -1⟩ 10 dimPane = _ :=
    pane_shadowHit_top 1 _
  have h2 : Primitive.shadowHit exactFns ⟨1, 1, 1⟩ ⟨-1 / 8, -1 / 8, -1⟩ 10 solidPane = _ :=
    pane_shadowHit_low 3 _
  have h0 : ([[dimPane, solidPane]] : List (List (Primitive ℚ)))[0]?
      = some [dimPane, solidPane] := rfl
  simp only [KDTree.shadowTested, paneTree, KDNode.shadowTested, hb, KDNode.isNull,
    Bool.and_self, if_true, h0, Option.getD_some, KDTree.shadowScanTested, h1, h2,
    pane_hit_ktran]
  norm_num

/-- Witness for C7: the half-transparent `dimPane` in front of `solidPane`, whose transparency
is `0`; the shadow ray from `(1,1,1)` along `(-1/8,-1/8,-1)` with `maxDist = 10` is blocked. -/
theorem KDTree.TraceShadowRay_blocked_witness :
    KDTree.TraceShadowRay exactFns (paneTree dimPane solidPane) ⟨1, 1, 1⟩ ⟨-1 / 8, -1 / 8, -1⟩ 10
      = .ok ⟨0, 0, 0⟩ :=
  KDTree.TraceShadowRay_blocked exactFns [dimPane, solidPane] (paneTree dimPane solidPane)
    (pane_build _ _ _ _ _ _) ⟨1, 1, 1⟩ ⟨-1 / 8, -1 / 8, -1⟩ 10 solidPane
    (Triangle.hitAt exactFns (paneTriangle (tintedMaterial 0 ⟨1, 1, 1⟩) (-1)) ⟨1, 1, 1⟩
      ⟨-1 / 8, -1 / 8, -1⟩ 2 (3 / 16) (3 / 16))
    (by rw [pane_tested]; simp)
    (pane_intersects_low 3 _)
    (by show MIN_SHADOW_INTERSECT ≤ (2 : ℚ); norm_num [MIN_SHADOW_INTERSECT])
    (by show (2 : ℚ) < 10; norm_num)
    (by rw [pane_hit_ktran]; norm_num)

/-- Witness for the amended C8: `dimPane` in front of `whitePane`, both of transparency
`1/2`. -/
theorem KDTree.TraceShadowRay_two_occluders_witness :
    KDTree.TraceShadowRay exactFns (paneTree dimPane whitePane) ⟨1, 1, 1⟩ ⟨-1 / 8, -1 / 8, -1⟩ 10
      = .ok (Vector3.mul
          (Vector3.scale
            (Vector3.mul
              (Vector3.scale ⟨1, 1, 1⟩
                (Triangle.hitAt exactFns
                  (paneTriangle (tintedMaterial (1 / 2) ⟨1 / 2 ^ 24, 0, 0⟩) 0) ⟨1, 1, 1⟩
                  ⟨-1 / 8, -1 / 8, -1⟩ 1 (7 / 32) (7 / 32)).material.ktran)
              (KDTree.normalizedDiffuse
                (Triangle.hitAt exactFns
                  (paneTriangle (tintedMaterial (1 / 2) ⟨1 / 2 ^ 24, 0, 0⟩) 0) ⟨1, 1, 1⟩
                  ⟨-1 / 8, -1 / 8, -1⟩ 1 (7 / 32) (7 / 32)).material))
            (Triangle.hitAt exactFns (paneTriangle (tintedMaterial (1 / 2) ⟨1, 1, 1⟩) (-1))
              ⟨1, 1, 1⟩ ⟨-1 / 8, -1 / 8, -1⟩ 2 (3 / 16) (3 / 16)).material.ktran)
          (KDTree.normalizedDiffuse
            (Triangle.hitAt exactFns (paneTriangle (tintedMaterial (1 / 2) ⟨1, 1, 1⟩) (-1))
              ⟨1, 1, 1⟩ ⟨-1 / 8, -1 / 8, -1⟩ 2 (3 / 16) (3 / 16)).material)) :=
  (KDTree.TraceShadowRay_two_occluders exactFns [dimPane, whitePane]
    (paneTree dimPane whitePane) (pane_build _ _ _ _ _ _) ⟨1, 1, 1⟩ ⟨-1 / 8, -1 / 8, -1⟩ 10 _ _
    (pane_shadowHits 1 2 _ _)
    (by rw [pane_hit_ktran]; norm_num)
    (by rw [pane_hit_ktran]; norm_num)).1

/-- Witness for C9: the two panes are hit at `t = 1` and `t = 2`; with `maxDist = 1/2` both
hits are at or beyond `maxDist` and the shadow factor stays `(1,1,1)`. -/
theorem KDTree.TraceShadowRay_out_of_range_witness :
    KDTree.TraceShadowRay exactFns (paneTree dimPane whitePane) ⟨1, 1, 1⟩ ⟨-1 / 8, -1 / 8, -1⟩
      (1 / 2) = .ok ⟨1, 1, 1⟩ :=
  (KDTree.TraceShadowRay_out_of_range exactFns [dimPane, whitePane]
    (paneTree dimPane whitePane) (pane_build _ _ _ _ _ _) (by simp) ⟨1, 1, 1⟩
    ⟨-1 / 8, -1 / 8, -1⟩ (1 / 2)).2.2
    (by
      intro p hp h hh
      right
      rcases List.mem_cons.mp hp with rfl | hp
      · have h1 : Primitive.intersects exactFns dimPane ⟨1, 1, 1⟩ ⟨-1 / 8, -1 / 8, -1⟩ = _ :=
          pane_intersects_top 1 _
        rw [h1] at hh
        cases hh
        show (1 / 2 : ℚ) ≤ 1
        norm_num
      · rcases List.mem_cons.mp hp with rfl | hp
        · have h2 : Primitive.intersects exactFns whitePane ⟨1, 1, 1⟩ ⟨-1 / 8, -1 / 8, -1⟩
              = _ := pane_intersects_low 2 _
          rw [h2] at hh
          cases hh
          show (1 / 2 : ℚ) ≤ 2
          norm_num
        · cases hp)

end ShadowExamples

section Refraction

variable {F : Type} [LinearOrderedField F]

omit [LinearOrderedField F] in
/-- The search of the inside stack finds the object iff some element has its address. -/
theorem Renderer.onStack_iff (S : List (Object F)) (o : Object F) :
    Renderer.onStack S o = true ↔ ∃ x ∈ S, x.addr = o.addr := by
  unfold Renderer.onStack
  simp only [List.any_eq_true, decide_eq_true_eq]

/-- Entry: when the hit object is not on the stack, `n1` is the index of the last element of
the stack (1 for the empty stack), `n2` the object's index, and the object is pushed. -/
theorem Renderer.refractionMedia_enter (S : List (Object F)) (o : Object F)
    (h : ∀ x ∈ S, x.addr ≠ o.addr) :
    Renderer.refractionMedia S o
      = ((S.getLast?.map Object.indexOfRefraction).getD 1, o.indexOfRefraction, S ++ [o]) := by
  have hns : Renderer.onStack S o = false := by
    cases hc : Renderer.onStack S o
    · rfl
    · obtain ⟨x, hx, hxa⟩ := (Renderer.onStack_iff S o).mp hc
      exact absurd hxa (h x hx)
  unfold Renderer.refractionMedia
  simp only [hns, Bool.not_false, Bool.or_true, if_true]
  cases S.getLast? <;> rfl

/-- Exit: when the hit object is on the stack, `n1` is the object's index, its first occurrence
is erased, and `n2` is the index of the last element of the reduced stack (1 if empty). -/
theorem Renderer.refractionMedia_exit (S : List (Object F)) (o : Object F)
    (h : ∃ x ∈ S, x.addr = o.addr) :
    Renderer.refractionMedia S o
      = (o.indexOfRefraction,
          (((S.eraseP (fun x => decide (x.addr = o.addr))).getLast?.map
            Object.indexOfRefraction).getD 1),
          S.eraseP (fun x => decide (x.addr = o.addr))) := by
  have hs : Renderer.onStack S o = true := (Renderer.onStack_iff S o).mpr h
  have hne : S.isEmpty = false := by
    obtain ⟨x, hx, -⟩ := h
    cases S with
    | nil => cases hx
    | cons _ _ => rfl
  unfold Renderer.refractionMedia
  simp only [hs, hne, Bool.not_true, Bool.or_self, Bool.false_eq_true, if_false]
  cases (S.eraseP (fun x => decide (x.addr = o.addr))).getLast? <;> rfl

/-- C10. In the refraction branch of `Renderer::traceRay` (closest hit on object `o`, shaded
material without subsurface profile and with `ktran > 0.01`), for every inside stack `S`: if
`o` is not in `S`, the index ratio passed to `refract` is `n1 / n2` with `n1` the index of
refraction of the last element of `S` (1 if `S` is empty) and `n2` the index of `o`, and the
refracted ray is traced with `S ++ [o]`; if `o` is in `S`, then `n1` is the index of `o`, `o`
is removed from `S`, `n2` is the index of the last element of the reduced stack (1 if empty),
and the refracted ray is traced with the reduced stack. -/
theorem Renderer.traceRay_refraction (L : MathFns F) (R : Renderer F)
    (origin direction outputColor : Vector3 F) (numBounces : Int) (S : List (Object F))
    (hitData0 hitData : HitData F) (o : Object F) (radiance radianceReflection : Vector3 F)
    (hn : numBounces ≤ Renderer.MAX_BOUNCES)
    (hhit : Scene.GetClosestIntersection L R.scene origin direction
      = .ok (true, some (hitData0, o)))
    (hshade : hitData
      = Renderer.applyColorShader o (Renderer.orientNormal direction S o hitData0))
    (hprofile : hitData.material.bssrdf = none)
    (hktran : hitData.material.ktran > Renderer.MIN_TRANSPARENCY)
    (hdirect : Renderer.directRadiance L R direction hitData = .ok radiance)
    (hreflect :
      (if Vector3.MaxComponent hitData.material.specColor > Renderer.MIN_SHININESS then
        Renderer.traceRay L R
          (Vector3.add hitData.position
            (Vector3.scale hitData.normal Renderer.PUSH_SPAWNED_RAYS))
          (Vector3.neg (Vector3.normalize L (Vector3.reflect direction hitData.normal)))
          Vector3.zero (numBounces + 1) S
       else Except.ok Vector3.zero) = .ok radianceReflection) :
    ((∀ x ∈ S, x.addr ≠ o.addr) →
      Renderer.traceRay L R origin direction outputColor numBounces S
        = (Renderer.refractedRadiance L R direction hitData numBounces
            ((S.getLast?.map Object.indexOfRefraction).getD 1) o.indexOfRefraction
            (S ++ [o])).map
          (fun radianceRefraction =>
            Renderer.renderingEquation radiance radianceReflection radianceRefraction
              hitData.material))
    ∧ ((∃ x ∈ S, x.addr = o.addr) →
      Renderer.traceRay L R origin direction outputColor numBounces S
        = (Renderer.refractedRadiance L R direction hitData numBounces
            o.indexOfRefraction
            (((S.eraseP (fun x => decide (x.addr = o.addr))).getLast?.map
              Object.indexOfRefraction).getD 1)
            (S.eraseP (fun x => decide (x.addr = o.addr)))).map
          (fun radianceRefraction =>
            Renderer.renderingEquation radiance radianceReflection radianceRefraction
              hitData.material)) := by
  have hunfold : Renderer.traceRay L R origin direction outputColor numBounces S
      = (Renderer.refractedRadiance L R direction hitData numBounces
            (Renderer.refractionMedia S o).1 (Renderer.refractionMedia S o).2.1
            (Renderer.refractionMedia S o).2.2).map
          (fun radianceRefraction =>
            Renderer.renderingEquation radiance radianceReflection radianceRefraction
              hitData.material) := by
    rw [Renderer.traceRay]
    rw [dif_neg (not_lt.mpr hn), hhit]
    simp only
    rw [← hshade]
    simp only [hprofile, ne_eq, not_true_eq_false, if_false, hdirect, hreflect, hktran, if_true]
    unfold Renderer.refractedRadiance
    cases Vector3.refract L (Vector3.neg direction) hitData.normal
      ((Renderer.refractionMedia S o).1 / (Renderer.refractionMedia S o).2.1) with
    | none => rfl
    | some refractDir =>
      simp only
      cases Renderer.traceRay L R
        (Vector3.sub hitData.position (Vector3.scale hitData.normal Renderer.PUSH_SPAWNED_RAYS))
        (Vector3.neg refractDir) Vector3.zero (numBounces + 1)
        (Renderer.refractionMedia S o).2.2 <;> rfl
  constructor
  · intro h
    rw [hunfold, Renderer.refractionMedia_enter S o h]
  · intro h
    rw [hunfold, Renderer.refractionMedia_exit S o h]

end Refraction

section RefractionExamples

/-- The two normal flips leave the material of the hit untouched. -/
theorem Renderer.orientNormal_material {F : Type} [LinearOrderedField F] (direction : Vector3 F)
    (S : List (Object F)) (o : Object F) (h : HitData F) :
    (Renderer.orientNormal direction S o h).material = h.material := by
  unfold Renderer.orientNormal
  simp only
  split_ifs <;> rfl

/-- The material `traceRay` shades at `dimPane` is the interpolated material of the hit. -/
theorem dimShaded_material : dimShaded.material = dimHit.material := by
  unfold dimShaded Renderer.applyColorShader
  simp only [plainObject]
  exact Renderer.orientNormal_material _ _ _ _

/-- The closest hit of the ray from `(1,1,1)` along `(-1/8,-1/8,-1)` in the pane scene is the
hit on `dimPane` at `t = 1`. -/
theorem pane_closest :
    Scene.GetClosestIntersection exactFns paneRenderer.scene ⟨1, 1, 1⟩ ⟨-1 / 8, -1 / 8, -1⟩
      = .ok (true, some (dimHit, plainObject 1)) := by
  have hb : BoundingBox.intersects (KDTree.boundsOf dimPane [whitePane]) ⟨1, 1, 1⟩
      (KDTree.invDirection ⟨-1 / 8, -1 / 8, -1⟩) = true := pane_bounds 1 2 _ _
  have h1 : Primitive.intersects exactFns dimPane ⟨1, 1, 1⟩ ⟨-1 / 8, -1 / 8, -1⟩
      = some dimHit := pane_intersects_top 1 _
  have h2 : Primitive.intersects exactFns whitePane ⟨1, 1, 1⟩ ⟨-1 / 8, -1 / 8, -1⟩ = _ :=
    pane_intersects_low 2 _
  have h0 : ([[dimPane, whitePane]] : List (List (Primitive ℚ)))[0]?
      = some [dimPane, whitePane] := rfl
  have ht1 : dimHit.t < (FLT_MAX : ℚ) := by
    show (1 : ℚ) < FLT_MAX
    norm_num [FLT_MAX]
  have ht2 : ¬ (Triangle.hitAt exactFns (paneTriangle (tintedMaterial (1 / 2) ⟨1, 1, 1⟩) (-1))
      ⟨1, 1, 1⟩ ⟨-1 / 8, -1 / 8, -1⟩ 2 (3 / 16) (3 / 16)).t < dimHit.t := by
    show ¬ (2 : ℚ) < 1
    norm_num
  simp only [Scene.GetClosestIntersection, paneRenderer, KDTree.GetClosestIntersection, paneTree,
    KDTree.intersectsNode, hb, KDNode.isNull, Bool.and_self, if_true, h0, KDTree.leafScan, h1,
    h2, ht1, ht2, if_false]
  rfl

/-- Witness for C10: the ray from `(1,1,1)` along `(-1/8,-1/8,-1)` enters `dimPane` (object at
address 1, index 3/2, transparency 1/2) from the empty stack: the ratio passed to `refract` is
`1 / (3/2)` and the refracted ray is traced with the stack `[object 1]`. -/
theorem Renderer.traceRay_refraction_witness :
    Renderer.traceRay exactFns paneRenderer ⟨1, 1, 1⟩ ⟨-1 / 8, -1 / 8, -1⟩ Vector3.zero 0 []
      = (Renderer.refractedRadiance exactFns paneRenderer ⟨-1 / 8, -1 / 8, -1⟩ dimShaded 0
            1 (3 / 2) [plainObject 1]).map
          (fun radianceRefraction =>
            Renderer.renderingEquation
              (Vector3.scale
                (Vector3.mul dimShaded.material.ambColor dimShaded.material.diffColor)
                (1 - dimShaded.material.ktran))
              Vector3.zero radianceRefraction dimShaded.material) := by
  have h := (Renderer.traceRay_refraction exactFns paneRenderer ⟨1, 1, 1⟩ ⟨-1 / 8, -1 / 8, -1⟩
    Vector3.zero 0 [] dimHit dimShaded (plainObject 1) _ Vector3.zero
    (by norm_num [Renderer.MAX_BOUNCES])
    pane_closest rfl
    (by rw [dimShaded_material]; rfl)
    (by
      rw [dimShaded_material]
      unfold dimHit
      rw [pane_hit_ktran]
      norm_num [Renderer.MIN_TRANSPARENCY])
    rfl
    (by
      rw [dimShaded_material]
      have hs : dimHit.material.specColor = ⟨0, 0, 0⟩ := by
        simp [dimHit, Triangle.hitAt, paneTriangle, tintedMaterial, Material.add,
          Material.scale, Vector3.add, Vector3.scale]
      rw [hs, if_neg]
      norm_num [Vector3.MaxComponent, Renderer.MIN_SHININESS])).1
    (by simp)
  have hn1 : ((([] : List (Object ℚ)).getLast?.map Object.indexOfRefraction).getD 1) = 1 := rfl
  have hn2 : (plainObject 1).indexOfRefraction = 3 / 2 := rfl
  have hst : ([] : List (Object ℚ)) ++ [plainObject 1] = [plainObject 1] := rfl
  rw [hn1, hn2, hst] at h
  exact h

end RefractionExamples

section Boxes

variable {F : Type} [LinearOrderedField F]

/-- Claim C19.  After `A.Expand(B)` the box has `minCorner` equal to the componentwise minimum
of the old `A.minCorner` and `B.minCorner`, and `maxCorner` equal to the componentwise maximum
of the old `A.maxCorner` and `B.maxCorner`; and `A.Expand(A)` leaves `A` unchanged. -/
theorem BoundingBox.Expand_min_max (a b : BoundingBox F) :
    (BoundingBox.Expand a b).minCorner = Vector3.componentMin a.minCorner b.minCorner
      ∧ (BoundingBox.Expand a b).maxCorner = Vector3.componentMax a.maxCorner b.maxCorner
      ∧ BoundingBox.Expand a a = a := by
  refine ⟨rfl, rfl, ?_⟩
  obtain ⟨⟨x1, y1, z1⟩, ⟨x2, y2, z2⟩⟩ := a
  simp only [BoundingBox.Expand, min_self, max_self]

/-- Claim C20.  `Expand` keeps the invariant `minCorner <= maxCorner`: if the receiver satisfies
it, so does the receiver after `Expand`, whatever the argument box is. -/
theorem BoundingBox.Expand_ordered (a b : BoundingBox F) (ha : BoundingBox.Ordered a) :
    BoundingBox.Ordered (BoundingBox.Expand a b) := by
  obtain ⟨hx, hy, hz⟩ := ha
  exact ⟨le_trans (min_le_left _ _) (le_trans hx (le_max_left _ _)),
    le_trans (min_le_left _ _) (le_trans hy (le_max_left _ _)),
    le_trans (min_le_left _ _) (le_trans hz (le_max_left _ _))⟩

end Boxes

section BoxExamples

theorem orderedBox_ordered : BoundingBox.Ordered orderedBox := by
  unfold BoundingBox.Ordered orderedBox
  norm_num

/-- Witness for `BoundingBox.Expand_ordered`: an ordered box expanded by an inverted one. -/
theorem BoundingBox.Expand_ordered_witness :
    BoundingBox.Ordered orderedBox
      ∧ BoundingBox.Ordered (BoundingBox.Expand orderedBox invertedBox) :=
  ⟨orderedBox_ordered, BoundingBox.Expand_ordered orderedBox invertedBox orderedBox_ordered⟩

end BoxExamples

section Facing

variable {F : Type} [LinearOrderedField F]

theorem Vector3.dot_neg_right (a b : Vector3 F) :
    Vector3.dot a (Vector3.neg b) = -Vector3.dot a b := by
  simp only [Vector3.dot, Vector3.neg]
  ring

omit [LinearOrderedField F] in
theorem Renderer.applyColorShader_normal (hitObject : Object F) (hitData : HitData F) :
    (Renderer.applyColorShader hitObject hitData).normal = hitData.normal := by
  unfold Renderer.applyColorShader
  cases hitObject.colorShader <;> rfl

/-- Claim C15.  After the two normal flips of `traceRay` (and the colour shader, which leaves
the normal alone) the normal used for shading satisfies `direction . normal <= 0`, for every
inside stack, hit object and reported hit data. -/
theorem Renderer.orientNormal_faces (direction : Vector3 F) (insideStack : List (Object F))
    (hitObject : Object F) (hitData : HitData F) :
    Vector3.dot direction
        (Renderer.applyColorShader hitObject
          (Renderer.orientNormal direction insideStack hitObject hitData)).normal ≤ 0 := by
  rw [Renderer.applyColorShader_normal]
  unfold Renderer.orientNormal
  simp only
  split_ifs with h1 h2 h2
  · show Vector3.dot direction (Vector3.neg (Vector3.neg hitData.normal)) ≤ 0
    have h2' : Vector3.dot direction (Vector3.neg hitData.normal) > 0 := h2
    rw [Vector3.dot_neg_right]
    linarith
  · exact not_lt.mp h2
  · show Vector3.dot direction (Vector3.neg hitData.normal) ≤ 0
    rw [Vector3.dot_neg_right]
    linarith
  · exact not_lt.mp h2

end Facing

section Enclosure

variable {F : Type} [LinearOrderedField F]

/-- Well-formedness passes to every node beneath a well-formed node. -/
theorem KDNode.wellFormed_subnodes (reg : List (List (Primitive F))) (node : KDNode F)
    (hwf : KDNode.WellFormed reg node) :
    ∀ n ∈ KDNode.subnodes node, KDNode.WellFormed reg n := by
  induction node with
  | null =>
    intro n hn
    cases hn
  | node left right bounds idx ihl ihr =>
    intro n hn
    rcases List.mem_cons.mp hn with rfl | hn
    · exact hwf
    · obtain ⟨-, hrest⟩ := hwf
      by_cases hleaf : (left.isNull && right.isNull) = true
      · have hl : left = KDNode.null := by
          cases left with
          | null => rfl
          | node _ _ _ _ => simp [KDNode.isNull] at hleaf
        have hr : right = KDNode.null := by
          cases right with
          | null => rfl
          | node _ _ _ _ => simp [KDNode.isNull] at hleaf
        subst hl
        subst hr
        simp [KDNode.subnodes] at hn
      · rw [if_neg hleaf] at hrest
        rcases List.mem_append.mp hn with hn | hn
        · exact ihl hrest.1 n hn
        · exact ihr hrest.2 n hn

/-- Claim C17.  For every non-empty primitive list (any registry built so far, any depth)
`makeNode` returns a node such that every node of the tree beneath it, the node itself
included, has bounds that enclose `GetBounds()` of every primitive stored in a leaf beneath
that node; the leaves beneath the returned node hold exactly the primitives of the list. -/
theorem KDTree.makeNode_bounds_enclose (reg : List (List (Primitive F)))
    (primitives : List (Primitive F)) (depth : Nat) (hne : primitives ≠ []) :
    ∃ node reg1, KDTree.makeNode reg primitives depth = .ok (node, reg1)
      ∧ (∀ p, p ∈ KDNode.leafPrimitives reg1 node ↔ p ∈ primitives)
      ∧ ∀ left right bounds primitivesIndex,
          KDNode.node left right bounds primitivesIndex ∈ KDNode.subnodes node →
          ∀ p ∈ KDNode.leafPrimitives reg1 (KDNode.node left right bounds primitivesIndex),
            BoundingBox.Encloses bounds (Primitive.GetBounds p) := by
  obtain ⟨node, reg1, ext, e, -, -, hwf, hmem⟩ :=
    KDTree.makeNodeFuel_spec primitives.length reg primitives depth hne (le_refl _)
  refine ⟨node, reg1, e, hmem, ?_⟩
  intro left right bounds idx hn
  exact (KDNode.wellFormed_subnodes reg1 node hwf _ hn).1

end Enclosure

section EnclosureExamples

/-- Witness for `KDTree.makeNode_bounds_enclose`: the two overlapping triangles. -/
theorem KDTree.makeNode_bounds_enclose_witness :
    [overlapA, overlapB] ≠ []
      ∧ ∃ node reg1, KDTree.makeNode [] [overlapA, overlapB] 0 = .ok (node, reg1)
        ∧ (∀ p, p ∈ KDNode.leafPrimitives reg1 node ↔ p ∈ [overlapA, overlapB])
        ∧ ∀ left right bounds primitivesIndex,
            KDNode.node left right bounds primitivesIndex ∈ KDNode.subnodes node →
            ∀ p ∈ KDNode.leafPrimitives reg1 (KDNode.node left right bounds primitivesIndex),
              BoundingBox.Encloses bounds (Primitive.GetBounds p) :=
  ⟨List.cons_ne_nil _ _,
    KDTree.makeNode_bounds_enclose [] [overlapA, overlapB] 0 (List.cons_ne_nil _ _)⟩

end EnclosureExamples

section Snell

variable {F : Type} [LinearOrderedField F]

/-- The method `refract` on a vector with `v . n >= 0`: the `else` branch is taken, the ratio
is `n`, and the result is decided by the sign of `refractK`. -/
theorem Vector3.refract_facing (L : MathFns F) (v n : Vector3 F) (eta : F)
    (hvn : 0 ≤ Vector3.dot v n) :
    Vector3.refract L v n eta
      = if Vector3.refractK v n eta < 0 then none
        else some (Vector3.refractedDir v n eta (L.sqrt (Vector3.refractK v n eta))) := by
  have hflip : decide (Vector3.dot v n < 0) = false := decide_eq_false (not_lt.mpr hvn)
  have hk : 1 - eta / 1 * (eta / 1) * (1 - Vector3.dot v n * Vector3.dot v n)
      = Vector3.refractK v n eta := by
    unfold Vector3.refractK
    rw [div_one]
    ring
  unfold Vector3.refract Vector3.refractedDir
  simp only [hflip, Bool.false_eq_true, if_false]
  rw [hk, div_one]

/-- The refracted vector has unit length and its part perpendicular to the normal is `eta`
times that of the incident vector, once the square root is exact at `refractK`. -/
theorem Vector3.refracted_spec (v n : Vector3 F) (eta s : F)
    (hv : Vector3.dot v v = 1) (hn : Vector3.dot n n = 1)
    (hs : s * s = Vector3.refractK v n eta) :
    Vector3.dot (Vector3.refractedDir v n eta s) (Vector3.refractedDir v n eta s) = 1
      ∧ Vector3.dot (Vector3.refractedDir v n eta s) n = s
      ∧ Vector3.perpendicular (Vector3.refractedDir v n eta s) n
          = Vector3.scale (Vector3.perpendicular v n) eta := by
  obtain ⟨vx, vy, vz⟩ := v
  obtain ⟨nx, ny, nz⟩ := n
  simp only [Vector3.dot, Vector3.refractK, Vector3.refractedDir, Vector3.add, Vector3.scale,
    Vector3.neg, Vector3.perpendicular, Vector3.sub, Vector3.mk.injEq] at hv hn hs ⊢
  have hdot : (vx * eta + -nx * (eta * (vx * nx + vy * ny + vz * nz) - s)) * nx
      + (vy * eta + -ny * (eta * (vx * nx + vy * ny + vz * nz) - s)) * ny
      + (vz * eta + -nz * (eta * (vx * nx + vy * ny + vz * nz) - s)) * nz = s := by
    linear_combination (s - eta * (vx * nx + vy * ny + vz * nz)) * hn
  refine ⟨?_, hdot, ?_, ?_, ?_⟩
  · linear_combination eta ^ 2 * hv + hs
      + ((eta * (vx * nx + vy * ny + vz * nz) - s) ^ 2) * hn
  · rw [hdot]
    ring
  · rw [hdot]
    ring
  · rw [hdot]
    ring

/-- Refracting back with the reciprocal ratio about the same normal returns the incident
vector. -/
theorem Vector3.refractedDir_back (v n : Vector3 F) (eta s c : F) (he : eta ≠ 0)
    (hc : c = Vector3.dot v n) (hs : Vector3.dot (Vector3.refractedDir v n eta s) n = s) :
    Vector3.refractedDir (Vector3.refractedDir v n eta s) n (1 / eta) c = v := by
  have hout : Vector3.refractedDir (Vector3.refractedDir v n eta s) n (1 / eta) c
      = Vector3.add (Vector3.scale (Vector3.refractedDir v n eta s) (1 / eta))
          (Vector3.scale (Vector3.neg n)
            (1 / eta * Vector3.dot (Vector3.refractedDir v n eta s) n - c)) := rfl
  rw [hout, hs, hc]
  obtain ⟨vx, vy, vz⟩ := v
  obtain ⟨nx, ny, nz⟩ := n
  simp only [Vector3.refractedDir, Vector3.neg, Vector3.add, Vector3.scale, Vector3.dot,
    Vector3.mk.injEq]
  refine ⟨?_, ?_, ?_⟩ <;> field_simp <;> ring

/-- Claim C11.  For unit vectors `v` and `n` with `v . n >= 0` and a ratio `eta > 0`, with a
square root that is exact at `1 - eta^2 (1 - (v . n)^2)` when that is non-negative: `refract`
reports total internal reflection exactly when `eta^2 (1 - (v . n)^2) > 1`; otherwise it returns
a unit vector whose component perpendicular to `n` is `eta` times that of `v`; and it never
reports total internal reflection when `eta <= 1`. -/
theorem Vector3.refract_snell (L : MathFns F) (v n : Vector3 F) (eta : F)
    (hv : Vector3.dot v v = 1) (hn : Vector3.dot n n = 1) (hvn : 0 ≤ Vector3.dot v n)
    (heta : 0 < eta)
    (hsqrt : 0 ≤ Vector3.refractK v n eta →
      L.sqrt (Vector3.refractK v n eta) * L.sqrt (Vector3.refractK v n eta)
        = Vector3.refractK v n eta) :
    (Vector3.refract L v n eta = none ↔ eta ^ 2 * (1 - (Vector3.dot v n) ^ 2) > 1)
      ∧ (¬ eta ^ 2 * (1 - (Vector3.dot v n) ^ 2) > 1 →
          ∃ out, Vector3.refract L v n eta = some out ∧ Vector3.dot out out = 1
            ∧ Vector3.perpendicular out n = Vector3.scale (Vector3.perpendicular v n) eta)
      ∧ (eta ≤ 1 → Vector3.refract L v n eta ≠ none) := by
  have hiff : Vector3.refract L v n eta = none ↔ eta ^ 2 * (1 - (Vector3.dot v n) ^ 2) > 1 := by
    rw [Vector3.refract_facing L v n eta hvn]
    unfold Vector3.refractK
    split_ifs with hk
    · exact ⟨fun _ => by linarith, fun _ => rfl⟩
    · refine ⟨fun h => (by cases h), fun h => ?_⟩
      exact absurd (by linarith) hk
  refine ⟨hiff, ?_, ?_⟩
  · intro hno
    have hk : ¬ Vector3.refractK v n eta < 0 := by
      unfold Vector3.refractK
      intro h
      exact hno (by linarith)
    have hs := hsqrt (not_lt.mp hk)
    obtain ⟨h1, -, h3⟩ := Vector3.refracted_spec v n eta _ hv hn hs
    refine ⟨_, ?_, h1, h3⟩
    rw [Vector3.refract_facing L v n eta hvn, if_neg hk]
  · intro hle hnone
    have hgt := hiff.mp hnone
    have h1 : eta ^ 2 ≤ 1 := by nlinarith
    have h2 : 0 ≤ (Vector3.dot v n) ^ 2 := sq_nonneg _
    nlinarith [sq_nonneg eta]

/-- Claim C12.  Refraction round trip, with a square root that is exact on squares and at
`1 - eta^2 (1 - (d . n)^2)` (which makes that quantity non-negative: no total internal
reflection): for a unit direction `d`, a unit normal `n` with `d . n <= 0` and
a ratio `eta > 0`, the entry refraction of `traceRay`
(`refract` on `-d` with ratio `eta`, the ray continuing along `-refractDir`) followed by the
same with ratio `1 / eta` about the same normal gives the direction `d` again; and at normal
incidence `d = -n` a single refraction with any ratio gives `d` again. -/
theorem Vector3.refract_round_trip (L : MathFns F) (d n : Vector3 F) (eta : F)
    (hd : Vector3.dot d d = 1) (hn : Vector3.dot n n = 1) (hdn : Vector3.dot d n ≤ 0)
    (heta : 0 < eta)
    (hsqrt : ∀ y : F, 0 ≤ y → L.sqrt (y * y) = y)
    (hk : L.sqrt (Vector3.refractK (Vector3.neg d) n eta)
        * L.sqrt (Vector3.refractK (Vector3.neg d) n eta)
      = Vector3.refractK (Vector3.neg d) n eta) :
    (∃ out1 out2, Vector3.refract L (Vector3.neg d) n eta = some out1
        ∧ Vector3.refract L (Vector3.neg (Vector3.neg out1)) n (1 / eta) = some out2
        ∧ Vector3.neg out2 = d)
      ∧ ∀ e : F, ∃ out, Vector3.refract L (Vector3.neg (Vector3.neg n)) n e = some out
          ∧ Vector3.neg out = Vector3.neg n := by
  have hnegneg : ∀ a : Vector3 F, Vector3.neg (Vector3.neg a) = a := by
    intro a
    obtain ⟨ax, ay, az⟩ := a
    simp only [Vector3.neg, neg_neg]
  have hvn : 0 ≤ Vector3.dot (Vector3.neg d) n := by
    have : Vector3.dot (Vector3.neg d) n = -Vector3.dot d n := by
      simp only [Vector3.dot, Vector3.neg]
      ring
    rw [this]
    linarith
  have hvv : Vector3.dot (Vector3.neg d) (Vector3.neg d) = 1 := by
    rw [← hd]
    simp only [Vector3.dot, Vector3.neg]
    ring
  have hs0 : 0 ≤ L.sqrt (Vector3.refractK (Vector3.neg d) n eta) :=
    sqrt_nonneg_of_exact L hsqrt _ hk
  have hk0 : ¬ Vector3.refractK (Vector3.neg d) n eta < 0 := by
    rw [← hk]
    exact not_lt.mpr (mul_self_nonneg _)
  obtain ⟨-, h2, -⟩ := Vector3.refracted_spec (Vector3.neg d) n eta _ hvv hn hk
  have hk2 : Vector3.refractK
      (Vector3.refractedDir (Vector3.neg d) n eta
        (L.sqrt (Vector3.refractK (Vector3.neg d) n eta))) n (1 / eta)
      = Vector3.dot (Vector3.neg d) n * Vector3.dot (Vector3.neg d) n := by
    have hK : Vector3.refractK (Vector3.neg d) n eta
        = 1 - eta ^ 2 * (1 - (Vector3.dot (Vector3.neg d) n) ^ 2) := rfl
    show 1 - (1 / eta) ^ 2 * (1 - (Vector3.dot (Vector3.refractedDir (Vector3.neg d) n eta
        (L.sqrt (Vector3.refractK (Vector3.neg d) n eta))) n) ^ 2) = _
    rw [h2]
    generalize L.sqrt (Vector3.refractK (Vector3.neg d) n eta) = s at hk ⊢
    rw [hK] at hk
    have he : eta ≠ 0 := ne_of_gt heta
    field_simp
    linear_combination hk
  have e1 : Vector3.refract L (Vector3.neg d) n eta
      = some (Vector3.refractedDir (Vector3.neg d) n eta
          (L.sqrt (Vector3.refractK (Vector3.neg d) n eta))) := by
    rw [Vector3.refract_facing L _ n eta hvn, if_neg hk0]
  have e2 : Vector3.refract L
        (Vector3.neg (Vector3.neg (Vector3.refractedDir (Vector3.neg d) n eta
          (L.sqrt (Vector3.refractK (Vector3.neg d) n eta))))) n (1 / eta)
      = some (Vector3.refractedDir
          (Vector3.refractedDir (Vector3.neg d) n eta
            (L.sqrt (Vector3.refractK (Vector3.neg d) n eta)))
          n (1 / eta) (Vector3.dot (Vector3.neg d) n)) := by
    rw [hnegneg, Vector3.refract_facing L _ n (1 / eta) (by rw [h2]; exact hs0), hk2,
      hsqrt _ hvn, if_neg (not_lt.mpr (mul_self_nonneg _))]
  constructor
  · refine ⟨_, _, e1, e2, ?_⟩
    rw [Vector3.refractedDir_back _ n eta _ _ (ne_of_gt heta) rfl h2, hnegneg]
  · intro e
    have hnn : 0 ≤ Vector3.dot (Vector3.neg (Vector3.neg n)) n := by
      rw [hnegneg, hn]
      exact zero_le_one
    have hk1 : Vector3.refractK (Vector3.neg (Vector3.neg n)) n e = 1 * 1 := by
      unfold Vector3.refractK
      rw [hnegneg, hn]
      ring
    have e3 : Vector3.refract L (Vector3.neg (Vector3.neg n)) n e
        = some (Vector3.refractedDir (Vector3.neg (Vector3.neg n)) n e 1) := by
      rw [Vector3.refract_facing L _ n e hnn, hk1, hsqrt 1 zero_le_one,
        if_neg (by norm_num)]
    refine ⟨_, e3, ?_⟩
    unfold Vector3.refractedDir
    rw [hnegneg, hn]
    obtain ⟨nx, ny, nz⟩ := n
    simp only [Vector3.neg, Vector3.add, Vector3.scale, Vector3.mk.injEq]
    refine ⟨?_, ?_, ?_⟩ <;> ring

end Snell

section SnellExamples

theorem snell_k : Vector3.refractK (⟨3 / 5, 0, 4 / 5⟩ : Vector3 ℚ) ⟨0, 0, 1⟩ (4 / 3)
    = 3 / 5 * (3 / 5) := by
  unfold Vector3.refractK Vector3.dot
  norm_num

/-- Witness for `Vector3.refract_snell`: `v = (3/5, 0, 4/5)`, `n = (0, 0, 1)`, `eta = 4/3`. -/
theorem Vector3.refract_snell_witness :
    (Vector3.refract exactFns (⟨3 / 5, 0, 4 / 5⟩ : Vector3 ℚ) ⟨0, 0, 1⟩ (4 / 3) = none
        ↔ (4 / 3 : ℚ) ^ 2 * (1 - (Vector3.dot (⟨3 / 5, 0, 4 / 5⟩ : Vector3 ℚ) ⟨0, 0, 1⟩) ^ 2) > 1)
      ∧ (¬ (4 / 3 : ℚ) ^ 2 * (1 - (Vector3.dot (⟨3 / 5, 0, 4 / 5⟩ : Vector3 ℚ) ⟨0, 0, 1⟩) ^ 2) > 1 →
          ∃ out, Vector3.refract exactFns (⟨3 / 5, 0, 4 / 5⟩ : Vector3 ℚ) ⟨0, 0, 1⟩ (4 / 3)
              = some out
            ∧ Vector3.dot out out = 1
            ∧ Vector3.perpendicular out ⟨0, 0, 1⟩
              = Vector3.scale (Vector3.perpendicular ⟨3 / 5, 0, 4 / 5⟩ ⟨0, 0, 1⟩) (4 / 3))
      ∧ ((4 / 3 : ℚ) ≤ 1 →
          Vector3.refract exactFns (⟨3 / 5, 0, 4 / 5⟩ : Vector3 ℚ) ⟨0, 0, 1⟩ (4 / 3) ≠ none) :=
  Vector3.refract_snell exactFns ⟨3 / 5, 0, 4 / 5⟩ ⟨0, 0, 1⟩ (4 / 3)
    (by norm_num [Vector3.dot]) (by norm_num [Vector3.dot]) (by norm_num [Vector3.dot])
    (by norm_num)
    (by
      intro _
      rw [snell_k, exactFns_sqrt _ (by norm_num)])

theorem snell_k_neg :
    Vector3.refractK (Vector3.neg (⟨-3 / 5, 0, -4 / 5⟩ : Vector3 ℚ)) ⟨0, 0, 1⟩ (4 / 3)
      = 3 / 5 * (3 / 5) := by
  unfold Vector3.refractK Vector3.dot Vector3.neg
  norm_num

/-- Witness for `Vector3.refract_round_trip`: `d = (-3/5, 0, -4/5)`, `n = (0, 0, 1)`,
`eta = 4/3`. -/
theorem Vector3.refract_round_trip_witness :
    (∃ out1 out2,
        Vector3.refract exactFns (Vector3.neg (⟨-3 / 5, 0, -4 / 5⟩ : Vector3 ℚ)) ⟨0, 0, 1⟩ (4 / 3)
          = some out1
        ∧ Vector3.refract exactFns (Vector3.neg (Vector3.neg out1)) ⟨0, 0, 1⟩ (1 / (4 / 3))
          = some out2
        ∧ Vector3.neg out2 = ⟨-3 / 5, 0, -4 / 5⟩)
      ∧ ∀ e : ℚ, ∃ out,
          Vector3.refract exactFns (Vector3.neg (Vector3.neg ⟨0, 0, 1⟩)) ⟨0, 0, 1⟩ e = some out
          ∧ Vector3.neg out = Vector3.neg ⟨0, 0, 1⟩ :=
  Vector3.refract_round_trip exactFns ⟨-3 / 5, 0, -4 / 5⟩ ⟨0, 0, 1⟩ (4 / 3)
    (by norm_num [Vector3.dot]) (by norm_num [Vector3.dot]) (by norm_num [Vector3.dot])
    (by norm_num) exactFns_sqrt
    (by rw [snell_k_neg, exactFns_sqrt _ (by norm_num)])

end SnellExamples

section Bounces

variable {F : Type} [LinearOrderedField F]

/-- A call of `traceRay` beyond the bounce limit returns at once with `outputColor` as it
was. -/
theorem Renderer.traceRay_stop (L : MathFns F) (R : Renderer F)
    (origin direction outputColor : Vector3 F) (numBounces : Int)
    (insideStack : List (Object F)) (hn : numBounces > Renderer.MAX_BOUNCES) :
    Renderer.traceRay L R origin direction outputColor numBounces insideStack
      = .ok outputColor := by
  rw [Renderer.traceRay, dif_pos hn]

/-- A call stack of `MAX_BOUNCES + 2 - numBounces` frames is enough for `traceRay`. -/
theorem Renderer.traceRayFuel_eq (L : MathFns F) (R : Renderer F) (fuel : Nat) :
    ∀ (origin direction outputColor : Vector3 F) (numBounces : Int)
      (insideStack : List (Object F)),
      (Renderer.MAX_BOUNCES + 1 - numBounces).toNat < fuel →
      Renderer.traceRayFuel L R fuel origin direction outputColor numBounces insideStack
        = Renderer.traceRay L R origin direction outputColor numBounces insideStack := by
  induction fuel with
  | zero =>
    intro origin direction outputColor numBounces insideStack h
    exact absurd h (Nat.not_lt_zero _)
  | succ fuel ih =>
    intro origin direction outputColor numBounces insideStack h
    by_cases hn : numBounces > Renderer.MAX_BOUNCES
    · rw [Renderer.traceRay_stop L R _ _ _ _ _ hn]
      unfold Renderer.traceRayFuel
      rw [if_pos hn]
    · have hlt : (Renderer.MAX_BOUNCES + 1 - (numBounces + 1)).toNat < fuel := by
        unfold Renderer.MAX_BOUNCES at hn h ⊢
        omega
      have ih1 : ∀ (o d c : Vector3 F) (st : List (Object F)),
          Renderer.traceRayFuel L R fuel o d c (numBounces + 1) st
            = Renderer.traceRay L R o d c (numBounces + 1) st :=
        fun o d c st => ih o d c (numBounces + 1) st hlt
      conv_rhs => rw [Renderer.traceRay]
      unfold Renderer.traceRayFuel
      rw [if_neg hn, dif_neg hn]
      simp only [ih1]

/-- Claim C13.  `traceRay` terminates: every recursive call is made with `numBounces + 1`
and a call with `numBounces > MAX_BOUNCES` returns without recursing, so a call stack of
more than `MAX_BOUNCES + 1 - numBounces` frames is never exhausted (the bounded function
agrees with `traceRay`); and a call with `numBounces > MAX_BOUNCES` returns `outputColor`
unchanged whatever the scene, so the zero vector the callers pass stays zero. -/
theorem Renderer.traceRay_terminates (L : MathFns F) (R : Renderer F) (fuel : Nat)
    (origin direction outputColor : Vector3 F) (numBounces : Int)
    (insideStack : List (Object F))
    (hfuel : (Renderer.MAX_BOUNCES + 1 - numBounces).toNat < fuel) :
    Renderer.traceRayFuel L R fuel origin direction outputColor numBounces insideStack
        = Renderer.traceRay L R origin direction outputColor numBounces insideStack
      ∧ (numBounces > Renderer.MAX_BOUNCES →
          ∀ R1 : Renderer F,
            Renderer.traceRay L R1 origin direction outputColor numBounces insideStack
              = .ok outputColor
            ∧ Renderer.traceRay L R1 origin direction Vector3.zero numBounces insideStack
              = .ok Vector3.zero) :=
  ⟨Renderer.traceRayFuel_eq L R fuel origin direction outputColor numBounces insideStack hfuel,
    fun hn R1 => ⟨Renderer.traceRay_stop L R1 _ _ _ _ _ hn,
      Renderer.traceRay_stop L R1 _ _ _ _ _ hn⟩⟩

end Bounces

section BouncesExamples

/-- Witness for `Renderer.traceRay_terminates`: in the pane scene, a top-level call
(`numBounces = 0`) needs no more than twelve frames, and a call with `numBounces = 11` returns
the zero vector it was given. -/
theorem Renderer.traceRay_terminates_witness :
    (Renderer.MAX_BOUNCES + 1 - 0).toNat < 12
      ∧ Renderer.traceRayFuel exactFns paneRenderer 12 ⟨1, 1, 1⟩ ⟨-1 / 8, -1 / 8, -1⟩
          Vector3.zero 0 []
        = Renderer.traceRay exactFns paneRenderer ⟨1, 1, 1⟩ ⟨-1 / 8, -1 / 8, -1⟩
            Vector3.zero 0 []
      ∧ (Renderer.MAX_BOUNCES + 1 - 11).toNat < 1
      ∧ (11 : Int) > Renderer.MAX_BOUNCES
      ∧ Renderer.traceRay exactFns paneRenderer ⟨1, 1, 1⟩ ⟨-1 / 8, -1 / 8, -1⟩
          Vector3.zero 11 [] = .ok Vector3.zero :=
  ⟨by decide,
    (Renderer.traceRay_terminates exactFns paneRenderer 12 ⟨1, 1, 1⟩ ⟨-1 / 8, -1 / 8, -1⟩
      Vector3.zero 0 [] (by decide)).1,
    by decide, by decide,
    ((Renderer.traceRay_terminates exactFns paneRenderer 1 ⟨1, 1, 1⟩ ⟨-1 / 8, -1 / 8, -1⟩
      Vector3.zero 11 [] (by decide)).2 (by decide) paneRenderer).1⟩

end BouncesExamples

section Shading

variable {F : Type} [LinearOrderedField F]

theorem Vector3.add_add (a b c : Vector3 F) :
    Vector3.add (Vector3.add a b) c = Vector3.add a (Vector3.add b c) := by
  simp only [Vector3.add, Vector3.mk.injEq]
  exact ⟨add_assoc _ _ _, add_assoc _ _ _, add_assoc _ _ _⟩

theorem Vector3.add_zero_right (a : Vector3 F) : Vector3.add a Vector3.zero = a := by
  obtain ⟨x, y, z⟩ := a
  simp only [Vector3.add, Vector3.zero, add_zero]

/-- A loop over the lights whose body adds the light radiance to the accumulator and passes a
fault on, entered with the accumulator `acc`, adds the sum of the light radiances to it; the
first fault ends it. -/
theorem Renderer.lights_foldl (L : MathFns F) (R : Renderer F) (direction : Vector3 F)
    (hitData : HitData F)
    (f : Except Fault (Vector3 F) → LightSource F → Except Fault (Vector3 F))
    (hferr : ∀ e light, f (.error e) light = .error e)
    (hfok : ∀ radiance light, f (.ok radiance) light
      = (Renderer.getLightRadiance L R direction light hitData).map
          (fun r => Vector3.add radiance r))
    (lights : List (LightSource F)) :
    (∀ e, lights.foldl f (.error e) = .error e)
      ∧ ∀ radiance : Vector3 F, lights.foldl f (.ok radiance)
        = (Renderer.lightRadiances L R direction hitData lights).map
            (fun rs => Vector3.add radiance (Vector3.sum rs)) := by
  induction lights with
  | nil =>
    refine ⟨fun e => rfl, fun radiance => ?_⟩
    show Except.ok radiance = Except.ok (Vector3.add radiance Vector3.zero)
    rw [Vector3.add_zero_right]
  | cons light rest ih =>
    obtain ⟨ih1, ih2⟩ := ih
    constructor
    · intro e
      rw [List.foldl_cons, hferr, ih1]
    · intro radiance
      rw [List.foldl_cons, hfok]
      unfold Renderer.lightRadiances
      cases Renderer.getLightRadiance L R direction light hitData with
      | error e => exact ih1 e
      | ok r =>
        show rest.foldl f (Except.ok (Vector3.add radiance r)) = _
        rw [ih2]
        cases Renderer.lightRadiances L R direction hitData rest with
        | error e => rfl
        | ok rs =>
          show Except.ok (Vector3.add (Vector3.add radiance r) (Vector3.sum rs))
            = Except.ok (Vector3.add radiance (Vector3.add r (Vector3.sum rs)))
          rw [Vector3.add_add]

/-- The value of `radiance` after the loop over the lights is the ambient term plus the sum of
the light radiances. -/
theorem Renderer.directRadiance_eq (L : MathFns F) (R : Renderer F) (direction : Vector3 F)
    (hitData : HitData F) :
    Renderer.directRadiance L R direction hitData
      = (Renderer.lightRadiances L R direction hitData R.scene.lights).map
          (fun rs => Vector3.add
            (Vector3.scale (Vector3.mul hitData.material.ambColor hitData.material.diffColor)
              (1 - hitData.material.ktran))
            (Vector3.sum rs)) := by
  unfold Renderer.directRadiance
  refine (Renderer.lights_foldl L R direction hitData _ (fun e light => rfl) ?_ _).2 _
  intro radiance light
  cases Renderer.getLightRadiance L R direction light hitData <;> rfl

/-- Claim C14.  For a call of `traceRay` that reaches the scene (`numBounces <= MAX_BOUNCES`):
if the closest hit has a shaded material without subsurface profile, the output is
`ambColor * diffColor * (1 - ktran)` plus the sum over all lights of `getLightRadiance` plus
`R * specColor` plus `T * ktran`, with `R` the traced reflection radiance if the largest
specular channel exceeds `0.01` and zero otherwise, and `T` the traced refraction radiance if
`ktran` exceeds `0.01` and `refract` did not report total internal reflection and zero
otherwise; if the ray hits nothing, `outputColor` is left as the caller passed it, which is
black for the zero vector every caller passes. -/
theorem Renderer.traceRay_shading (L : MathFns F) (R : Renderer F)
    (origin direction outputColor : Vector3 F) (numBounces : Int)
    (insideStack : List (Object F)) (hn : numBounces ≤ Renderer.MAX_BOUNCES) :
    (∀ (hitData0 : HitData F) (hitObject : Object F),
        Scene.GetClosestIntersection L R.scene origin direction
          = .ok (true, some (hitData0, hitObject)) →
        (Renderer.applyColorShader hitObject
          (Renderer.orientNormal direction insideStack hitObject hitData0)).material.bssrdf
          = none →
        Renderer.traceRay L R origin direction outputColor numBounces insideStack
          = Renderer.shadedRadiance L R direction
              (Renderer.applyColorShader hitObject
                (Renderer.orientNormal direction insideStack hitObject hitData0))
              numBounces insideStack hitObject)
      ∧ (∀ out : Option (HitData F × Object F),
          Scene.GetClosestIntersection L R.scene origin direction = .ok (false, out) →
          Renderer.traceRay L R origin direction outputColor numBounces insideStack
              = .ok outputColor
            ∧ Renderer.traceRay L R origin direction Vector3.zero numBounces insideStack
              = .ok Vector3.zero) := by
  constructor
  · intro hitData0 hitObject hhit hprofile
    rw [Renderer.traceRay]
    rw [dif_neg (not_lt.mpr hn), hhit]
    simp only [hprofile, ne_eq, not_true_eq_false, if_false]
    rw [Renderer.directRadiance_eq]
    unfold Renderer.shadedRadiance Renderer.reflectedRadiance Renderer.transmittedRadiance
      Renderer.refractedRadiance Renderer.MIN_SHININESS Renderer.MIN_TRANSPARENCY
    cases Renderer.lightRadiances L R direction
      (Renderer.applyColorShader hitObject
        (Renderer.orientNormal direction insideStack hitObject hitData0)) R.scene.lights with
    | error e => rfl
    | ok rs => rfl
  · intro out hmiss
    constructor
    · rw [Renderer.traceRay]
      rw [dif_neg (not_lt.mpr hn), hmiss]
    · rw [Renderer.traceRay]
      rw [dif_neg (not_lt.mpr hn), hmiss]

end Shading

section ShadingExamples

/-- Witness for `Renderer.traceRay_shading`: the ray from `(1,1,1)` along `(-1/8,-1/8,-1)`
in the pane scene hits `dimPane`, whose material has no subsurface profile. -/
theorem Renderer.traceRay_shading_witness :
    (0 : Int) ≤ Renderer.MAX_BOUNCES
      ∧ Scene.GetClosestIntersection exactFns paneRenderer.scene ⟨1, 1, 1⟩ ⟨-1 / 8, -1 / 8, -1⟩
          = .ok (true, some (dimHit, plainObject 1))
      ∧ dimShaded.material.bssrdf = none
      ∧ Renderer.traceRay exactFns paneRenderer ⟨1, 1, 1⟩ ⟨-1 / 8, -1 / 8, -1⟩ Vector3.zero 0 []
          = Renderer.shadedRadiance exactFns paneRenderer ⟨-1 / 8, -1 / 8, -1⟩ dimShaded 0 []
              (plainObject 1) :=
  ⟨by decide, pane_closest, by rw [dimShaded_material]; rfl,
    (Renderer.traceRay_shading exactFns paneRenderer ⟨1, 1, 1⟩ ⟨-1 / 8, -1 / 8, -1⟩
      Vector3.zero 0 [] (by decide)).1 dimHit (plainObject 1) pane_closest
      (by
        show dimShaded.material.bssrdf = none
        rw [dimShaded_material]
        rfl)⟩

end ShadingExamples

section Split

variable {F : Type} [LinearOrderedField F]

/-- The accumulation loop for `mid` adds the midpoints to its start value. -/
theorem KDTree.foldl_midpoints (axis : Int) (ps : List (Primitive F)) (m : F) :
    ps.foldl (fun m p => m + Vector3.Get (Primitive.GetMidpoint p) axis) m
      = m + (ps.map (fun p => Vector3.Get (Primitive.GetMidpoint p) axis)).sum := by
  induction ps generalizing m with
  | nil => simp
  | cons p ps ih =>
    rw [List.foldl_cons, ih, List.map_cons, List.sum_cons, add_assoc]

/-- The value `mid` of `makeNode` is the mean of the midpoints. -/
theorem KDTree.splitValue_eq (ps : List (Primitive F)) (axis : Int) :
    KDTree.splitValue ps axis = KDTree.meanMidpoint ps axis := by
  unfold KDTree.splitValue KDTree.meanMidpoint
  rw [KDTree.foldl_midpoints, zero_add]

/-- The partition of `makeNode` is the one described: strictly smaller midpoints left, the rest
right, an empty side replaced by a copy of the other. -/
theorem KDTree.splitSides_eq (ps : List (Primitive F)) (depth : Nat) :
    KDTree.splitSides ps depth = KDTree.specSides ps depth := by
  unfold KDTree.splitSides KDTree.specSides
  simp only [KDTree.splitValue_eq]
  have hp : ∀ p : Primitive F,
      KDTree.onRightSide ((depth % 3 : Nat) : Int)
          (KDTree.meanMidpoint ps ((depth % 3 : Nat) : Int)) p
        = !decide (Vector3.Get (Primitive.GetMidpoint p) ((depth % 3 : Nat) : Int)
          < KDTree.meanMidpoint ps ((depth % 3 : Nat) : Int)) := by
    intro p
    unfold KDTree.onRightSide
    by_cases h : Vector3.Get (Primitive.GetMidpoint p) ((depth % 3 : Nat) : Int)
        < KDTree.meanMidpoint ps ((depth % 3 : Nat) : Int)
    · rw [decide_eq_false (not_le.mpr h), decide_eq_true h]
      rfl
    · rw [decide_eq_true (not_lt.mp h), decide_eq_false h]
      rfl
  have hr : KDTree.onRightSide ((depth % 3 : Nat) : Int)
        (KDTree.meanMidpoint ps ((depth % 3 : Nat) : Int))
      = (fun p => !decide (Vector3.Get (Primitive.GetMidpoint p) ((depth % 3 : Nat) : Int)
        < KDTree.meanMidpoint ps ((depth % 3 : Nat) : Int))) := funext hp
  have hl : (fun p => !KDTree.onRightSide ((depth % 3 : Nat) : Int)
        (KDTree.meanMidpoint ps ((depth % 3 : Nat) : Int)) p)
      = (fun p => decide (Vector3.Get (Primitive.GetMidpoint p) ((depth % 3 : Nat) : Int)
        < KDTree.meanMidpoint ps ((depth % 3 : Nat) : Int))) := by
    funext p
    rw [hp, Bool.not_not]
  rw [hl, hr]
  generalize ps.filter (fun p => decide (Vector3.Get (Primitive.GetMidpoint p)
    ((depth % 3 : Nat) : Int) < KDTree.meanMidpoint ps ((depth % 3 : Nat) : Int))) = lower
  generalize ps.filter (fun p => !decide (Vector3.Get (Primitive.GetMidpoint p)
    ((depth % 3 : Nat) : Int) < KDTree.meanMidpoint ps ((depth % 3 : Nat) : Int))) = rest
  cases lower with
  | nil =>
    cases rest with
    | nil => rfl
    | cons r rs => rfl
  | cons l ls =>
    cases rest with
    | nil => rfl
    | cons r rs => rfl

omit [LinearOrderedField F] in
/-- The inner counting loop adds the number of primitives of `right` at the address of `l`. -/
theorem KDTree.inner_count_eq (l : Primitive F) (right : List (Primitive F)) (count : Nat) :
    right.foldl (fun count r => if l.addr = r.addr then count + 1 else count) count
      = count + (right.filter (fun r => decide (l.addr = r.addr))).length := by
  induction right generalizing count with
  | nil => rfl
  | cons r rs ih =>
    rw [List.foldl_cons, ih, List.filter_cons]
    by_cases hr : l.addr = r.addr
    · simp only [hr, if_true, decide_True, List.length_cons]
      omega
    · simp only [hr, if_false, decide_False, Bool.false_eq_true]

omit [LinearOrderedField F] in
/-- The double counting loop adds the number of shared pairs to its start value. -/
theorem KDTree.outer_count_eq (left right : List (Primitive F)) (count : Nat) :
    left.foldl
        (fun count l =>
          right.foldl (fun count r => if l.addr = r.addr then count + 1 else count) count)
        count
      = count + KDTree.sharedPairs left right := by
  induction left generalizing count with
  | nil => rfl
  | cons l ls ih =>
    rw [List.foldl_cons, ih, KDTree.inner_count_eq]
    unfold KDTree.sharedPairs
    have hprod : (l :: ls).product right
        = right.map (fun b => (l, b)) ++ ls.product right := List.product_cons l ls right
    rw [hprod, List.filter_append, List.length_append, List.filter_map, List.length_map]
    have hf : ((fun pr : Primitive F × Primitive F => decide (pr.1.addr = pr.2.addr))
        ∘ fun b => (l, b)) = fun r => decide (l.addr = r.addr) := rfl
    rw [hf]
    omega

omit [LinearOrderedField F] in
/-- The counter `sharedCount` of `makeNode` is the number of shared pairs. -/
theorem KDTree.sharedCount_eq (left right : List (Primitive F)) :
    KDTree.sharedCount left right = KDTree.sharedPairs left right := by
  unfold KDTree.sharedCount
  rw [KDTree.outer_count_eq, Nat.zero_add]

/-- The box `Expand a b` lies in every box that encloses `a` and `b`. -/
theorem BoundingBox.Expand_least (a b d : BoundingBox F) (ha : BoundingBox.Encloses d a)
    (hb : BoundingBox.Encloses d b) : BoundingBox.Encloses d (BoundingBox.Expand a b) := by
  obtain ⟨a1, a2, a3, a4, a5, a6⟩ := ha
  obtain ⟨b1, b2, b3, b4, b5, b6⟩ := hb
  exact ⟨le_min a1 b1, max_le a2 b2, le_min a3 b3, max_le a4 b4, le_min a5 b5, max_le a6 b6⟩

/-- The box `Expand a b` is the union of `a` and `b`. -/
theorem BoundingBox.Expand_isUnion (a b : BoundingBox F) :
    BoundingBox.IsUnion (BoundingBox.Expand a b) [a, b] := by
  constructor
  · intro c hc
    rcases List.mem_cons.mp hc with rfl | hc
    · exact BoundingBox.Expand_encloses_left _ _
    · rcases List.mem_cons.mp hc with rfl | hc
      · exact BoundingBox.Expand_encloses_right _ _
      · cases hc
  · intro d hd
    exact BoundingBox.Expand_least a b d (hd a (List.mem_cons_self _ _))
      (hd b (List.mem_cons_of_mem _ (List.mem_cons_self _ _)))

/-- The bounds loop stays inside every box that encloses its start value and the bounds of the
primitives. -/
theorem KDTree.foldl_Expand_least (ps : List (Primitive F)) (b d : BoundingBox F)
    (hb : BoundingBox.Encloses d b)
    (hps : ∀ p ∈ ps, BoundingBox.Encloses d (Primitive.GetBounds p)) :
    BoundingBox.Encloses d
      (ps.foldl (fun b p => BoundingBox.Expand b (Primitive.GetBounds p)) b) := by
  induction ps generalizing b with
  | nil => exact hb
  | cons q qs ih =>
    rw [List.foldl_cons]
    exact ih _ (BoundingBox.Expand_least _ _ _ hb (hps q (List.mem_cons_self _ _)))
      (fun p hp => hps p (List.mem_cons_of_mem _ hp))

/-- The bounds computed for a leaf are the union of the bounds of its primitives. -/
theorem KDTree.boundsOf_isUnion (first : Primitive F) (rest : List (Primitive F)) :
    BoundingBox.IsUnion (KDTree.boundsOf first rest)
      ((first :: rest).map Primitive.GetBounds) := by
  constructor
  · intro c hc
    obtain ⟨p, hp, rfl⟩ := List.mem_map.mp hc
    exact KDTree.boundsOf_encloses first rest p hp
  · intro d hd
    unfold KDTree.boundsOf
    refine KDTree.foldl_Expand_least rest _ d ?_ ?_
    · exact hd _ (List.mem_map.mpr ⟨first, List.mem_cons_self _ _, rfl⟩)
    · intro p hp
      exact hd _ (List.mem_map.mpr ⟨p, List.mem_cons_of_mem _ hp, rfl⟩)

/-- Any budget of at least the length of the list gives the result of `makeNode`. -/
theorem KDTree.makeNodeFuel_fuel (fuel : Nat) :
    ∀ (reg : List (List (Primitive F))) (ps : List (Primitive F)) (depth : Nat),
      ps.length ≤ fuel →
      KDTree.makeNodeFuel fuel reg ps depth = KDTree.makeNode reg ps depth := by
  induction fuel using Nat.strong_induction_on with
  | _ fuel ih =>
    intro reg ps depth hlen
    cases ps with
    | nil =>
      unfold KDTree.makeNode
      cases fuel <;> rfl
    | cons first rest =>
      cases fuel with
      | zero => simp at hlen
      | succ fuel =>
        have hrest : rest.length ≤ fuel := by
          simp only [List.length_cons] at hlen
          omega
        have hA : ∀ (reg1 : List (List (Primitive F))) (ps1 : List (Primitive F)) (d1 : Nat),
            ps1.length < (first :: rest).length →
            KDTree.makeNodeFuel fuel reg1 ps1 d1 = KDTree.makeNode reg1 ps1 d1 := by
          intro reg1 ps1 d1 h
          refine ih fuel (Nat.lt_succ_self _) reg1 ps1 d1 ?_
          simp only [List.length_cons] at h
          omega
        have hB : ∀ (reg1 : List (List (Primitive F))) (ps1 : List (Primitive F)) (d1 : Nat),
            ps1.length < (first :: rest).length →
            KDTree.makeNodeFuel rest.length reg1 ps1 d1 = KDTree.makeNode reg1 ps1 d1 := by
          intro reg1 ps1 d1 h
          refine ih rest.length (by omega) reg1 ps1 d1 ?_
          simp only [List.length_cons] at h
          omega
        show KDTree.makeNodeFuel (fuel + 1) reg (first :: rest) depth
          = KDTree.makeNodeFuel (rest.length + 1) reg (first :: rest) depth
        unfold KDTree.makeNodeFuel
        simp only
        by_cases h1 : (first :: rest).length = 1
        · rw [if_pos h1, if_pos h1]
        · rw [if_neg h1, if_neg h1]
          by_cases hk : KDTree.keepDividing (KDTree.splitSides (first :: rest) depth).1
              (KDTree.splitSides (first :: rest) depth).2 = true
          · obtain ⟨-, -, hl1, hl2, -⟩ := KDTree.splitSides_spec (first :: rest) depth hk
            rw [if_pos hk, if_pos hk, hA _ _ _ hl1, hB _ _ _ hl1]
            cases KDTree.makeNode (reg ++ [first :: rest])
              (KDTree.splitSides (first :: rest) depth).1 (depth + 1) with
            | error e => rfl
            | ok res =>
              obtain ⟨leftNode, reg2⟩ := res
              simp only
              rw [hA _ _ _ hl2, hB _ _ _ hl2]
          · rw [if_neg hk, if_neg hk]

/-- The method `makeNode` on a list of two or more primitives on which it keeps dividing:
it recurses into both sides and the bounds of the node are `Expand` of the bounds of the two
children. -/
theorem KDTree.makeNode_divide (reg : List (List (Primitive F)))
    (primitives : List (Primitive F)) (depth : Nat) (h2 : 2 ≤ primitives.length)
    (hk : KDTree.keepDividing (KDTree.splitSides primitives depth).1
      (KDTree.splitSides primitives depth).2 = true) :
    ∃ ll lr lb li rl rr rb ri reg2 reg3,
      KDTree.makeNode (reg ++ [primitives]) (KDTree.splitSides primitives depth).1 (depth + 1)
        = .ok (KDNode.node ll lr lb li, reg2)
      ∧ KDTree.makeNode reg2 (KDTree.splitSides primitives depth).2 (depth + 1)
        = .ok (KDNode.node rl rr rb ri, reg3)
      ∧ KDTree.makeNode reg primitives depth
        = .ok (KDNode.node (KDNode.node ll lr lb li) (KDNode.node rl rr rb ri)
            (BoundingBox.Expand lb rb) reg.length, reg3) := by
  obtain ⟨hne1, hne2, hl1, hl2, -⟩ := KDTree.splitSides_spec primitives depth hk
  obtain ⟨leftNode, reg2, -, e1, -, hnn1, -, -⟩ :=
    KDTree.makeNodeFuel_spec _ (reg ++ [primitives]) (KDTree.splitSides primitives depth).1
      (depth + 1) hne1 (le_refl _)
  obtain ⟨rightNode, reg3, -, e2, -, hnn2, -, -⟩ :=
    KDTree.makeNodeFuel_spec _ reg2 (KDTree.splitSides primitives depth).2
      (depth + 1) hne2 (le_refl _)
  cases leftNode with
  | null => cases hnn1
  | node ll lr lb li =>
    cases rightNode with
    | null => cases hnn2
    | node rl rr rb ri =>
      refine ⟨ll, lr, lb, li, rl, rr, rb, ri, reg2, reg3, e1, e2, ?_⟩
      cases primitives with
      | nil => simp at h2
      | cons first rest =>
        have hone : ¬ (first :: rest).length = 1 := by
          simp only [List.length_cons] at h2 ⊢
          omega
        have hidx : (reg ++ [first :: rest]).length - 1 = reg.length := by
          rw [List.length_append, List.length_singleton]
          omega
        have f1 : KDTree.makeNodeFuel rest.length (reg ++ [first :: rest])
            (KDTree.splitSides (first :: rest) depth).1 (depth + 1)
            = .ok (KDNode.node ll lr lb li, reg2) := by
          rw [KDTree.makeNodeFuel_fuel]
          · exact e1
          · simp only [List.length_cons] at hl1
            omega
        have f2 : KDTree.makeNodeFuel rest.length reg2
            (KDTree.splitSides (first :: rest) depth).2 (depth + 1)
            = .ok (KDNode.node rl rr rb ri, reg3) := by
          rw [KDTree.makeNodeFuel_fuel]
          · exact e2
          · simp only [List.length_cons] at hl2
            omega
        show KDTree.makeNodeFuel (rest.length + 1) reg (first :: rest) depth = _
        unfold KDTree.makeNodeFuel
        simp only
        rw [if_neg hone, if_pos hk, f1]
        simp only
        rw [f2]
        simp only [hidx]

/-- The method `makeNode` on a list of two or more primitives on which it stops dividing: the
node is a leaf that holds the list, with the bounds of the bounds loop. -/
theorem KDTree.makeNode_stop (reg : List (List (Primitive F))) (first : Primitive F)
    (rest : List (Primitive F)) (depth : Nat)
    (hk : ¬ KDTree.keepDividing (KDTree.splitSides (first :: rest) depth).1
      (KDTree.splitSides (first :: rest) depth).2 = true) :
    KDTree.makeNode reg (first :: rest) depth
      = .ok (KDNode.node KDNode.null KDNode.null (KDTree.boundsOf first rest) reg.length,
          reg ++ [first :: rest]) := by
  have hidx : (reg ++ [first :: rest]).length - 1 = reg.length := by
    rw [List.length_append, List.length_singleton]
    omega
  show KDTree.makeNodeFuel (rest.length + 1) reg (first :: rest) depth = _
  unfold KDTree.makeNodeFuel
  simp only
  rw [if_neg hk, ite_self, hidx]

/-- Claim C18.  At depth `d`, on a list of two or more primitives, `makeNode` splits along
the axis `d mod 3` at the mean of the midpoints (strictly smaller midpoints left, the rest
right, an empty side replaced by a copy of the other) and counts the pairs shared between the
two sides; if the count is below `0.6` times the size of both sides, it recurses into both
sides at depth `d + 1` (both children are nodes) and the bounds of the node are the union of
the bounds of the two children; otherwise the node is a leaf that holds the whole list, and its
bounds are the union of the bounds of all primitives of the list. -/
theorem KDTree.makeNode_split (reg : List (List (Primitive F)))
    (primitives : List (Primitive F)) (depth : Nat) (h2 : 2 ≤ primitives.length) :
    KDTree.splitSides primitives depth = KDTree.specSides primitives depth
      ∧ KDTree.sharedCount (KDTree.specSides primitives depth).1
          (KDTree.specSides primitives depth).2
        = KDTree.sharedPairs (KDTree.specSides primitives depth).1
            (KDTree.specSides primitives depth).2
      ∧ ((((KDTree.sharedPairs (KDTree.specSides primitives depth).1
                (KDTree.specSides primitives depth).2 : Nat) : F)
              < 3 / 5 * ((KDTree.specSides primitives depth).1.length : F)
            ∧ ((KDTree.sharedPairs (KDTree.specSides primitives depth).1
                (KDTree.specSides primitives depth).2 : Nat) : F)
              < 3 / 5 * ((KDTree.specSides primitives depth).2.length : F)) →
          ∃ ll lr lb li rl rr rb ri reg2 reg3,
            KDTree.makeNode (reg ++ [primitives]) (KDTree.specSides primitives depth).1
                (depth + 1) = .ok (KDNode.node ll lr lb li, reg2)
            ∧ KDTree.makeNode reg2 (KDTree.specSides primitives depth).2 (depth + 1)
                = .ok (KDNode.node rl rr rb ri, reg3)
            ∧ KDTree.makeNode reg primitives depth
                = .ok (KDNode.node (KDNode.node ll lr lb li) (KDNode.node rl rr rb ri)
                    (BoundingBox.Expand lb rb) reg.length, reg3)
            ∧ BoundingBox.IsUnion (BoundingBox.Expand lb rb) [lb, rb])
      ∧ (¬ (((KDTree.sharedPairs (KDTree.specSides primitives depth).1
                (KDTree.specSides primitives depth).2 : Nat) : F)
              < 3 / 5 * ((KDTree.specSides primitives depth).1.length : F)
            ∧ ((KDTree.sharedPairs (KDTree.specSides primitives depth).1
                (KDTree.specSides primitives depth).2 : Nat) : F)
              < 3 / 5 * ((KDTree.specSides primitives depth).2.length : F)) →
          ∃ b, KDTree.makeNode reg primitives depth
                = .ok (KDNode.node KDNode.null KDNode.null b reg.length, reg ++ [primitives])
            ∧ KDNode.leafPrimitives (reg ++ [primitives])
                (KDNode.node KDNode.null KDNode.null b reg.length) = primitives
            ∧ BoundingBox.IsUnion b (primitives.map Primitive.GetBounds)) := by
  have hsides := KDTree.splitSides_eq primitives depth
  have hkeep : KDTree.keepDividing (KDTree.splitSides primitives depth).1
        (KDTree.splitSides primitives depth).2 = true
      ↔ (((KDTree.sharedPairs (KDTree.specSides primitives depth).1
                (KDTree.specSides primitives depth).2 : Nat) : F)
              < 3 / 5 * ((KDTree.specSides primitives depth).1.length : F)
            ∧ ((KDTree.sharedPairs (KDTree.specSides primitives depth).1
                (KDTree.specSides primitives depth).2 : Nat) : F)
              < 3 / 5 * ((KDTree.specSides primitives depth).2.length : F)) := by
    rw [hsides]
    unfold KDTree.keepDividing KDTree.STOP_PERCENT
    rw [KDTree.sharedCount_eq, decide_eq_true_iff]
  refine ⟨hsides, KDTree.sharedCount_eq _ _, ?_, ?_⟩
  · intro h
    obtain ⟨ll, lr, lb, li, rl, rr, rb, ri, reg2, reg3, e1, e2, e3⟩ :=
      KDTree.makeNode_divide reg primitives depth h2 (hkeep.mpr h)
    rw [hsides] at e1 e2
    exact ⟨ll, lr, lb, li, rl, rr, rb, ri, reg2, reg3, e1, e2, e3,
      BoundingBox.Expand_isUnion lb rb⟩
  · intro h
    cases primitives with
    | nil => simp at h2
    | cons first rest =>
      refine ⟨KDTree.boundsOf first rest,
        KDTree.makeNode_stop reg first rest depth (fun hk => h (hkeep.mp hk)), ?_,
        KDTree.boundsOf_isUnion first rest⟩
      have hl := (KDTree.leaf_spec reg first rest).2
      have hidx : (reg ++ [first :: rest]).length - 1 = reg.length := by
        rw [List.length_append, List.length_singleton]
        omega
      rw [hidx] at hl
      exact hl

end Split

section SplitExamples

/-- Witness for `KDTree.makeNode_split`: the two overlapping triangles at depth `0`. -/
theorem KDTree.makeNode_split_witness :
    2 ≤ [overlapA, overlapB].length
      ∧ KDTree.splitSides [overlapA, overlapB] 0 = KDTree.specSides [overlapA, overlapB] 0
      ∧ KDTree.sharedCount (KDTree.specSides [overlapA, overlapB] 0).1
          (KDTree.specSides [overlapA, overlapB] 0).2
        = KDTree.sharedPairs (KDTree.specSides [overlapA, overlapB] 0).1
            (KDTree.specSides [overlapA, overlapB] 0).2 :=
  ⟨by decide, (KDTree.makeNode_split [] [overlapA, overlapB] 0 (by decide)).1,
    (KDTree.makeNode_split [] [overlapA, overlapB] 0 (by decide)).2.1⟩

end SplitExamples

section Lambert

variable {F : Type} [LinearOrderedField F]

/-- The method `getLightRadiance` is the direct term for the shadow factor that its shadow ray
returns. -/
theorem Renderer.getLightRadiance_eq (L : MathFns F) (R : Renderer F) (direction : Vector3 F)
    (light : LightSource F) (hitData : HitData F) :
    Renderer.getLightRadiance L R direction light hitData
      = (Renderer.shadowQuery L R light hitData).map
          (Renderer.lightTerm L direction light hitData) := by
  unfold Renderer.getLightRadiance Renderer.shadowQuery Renderer.lightTerm
    Renderer.PUSH_SPAWNED_RAYS
  simp only
  rw [mul_comm hitData.material.shininess 128]
  cases Scene.TraceShadowRay L R.scene
    (Vector3.add hitData.position (Vector3.scale hitData.normal (1 / 10000)))
    (LightSource.getDirection L light hitData.position)
    (LightSource.getDistance L light hitData.position) <;> rfl

/-- One channel of the direct term of a purely diffuse unshadowed surface is strictly monotone
in `max(L.N, 0)` when the other factors are positive. -/
theorem Renderer.lambert_channel (d s p1 p2 k c a m1 m2 : F) (hs : s = 0) (hd : 0 < d)
    (hk : k < 1) (hc : 0 < c) (ha : 0 < a) (hm : m1 < m2) :
    (d * m1 * (1 - k) + s * p1) * 1 * c * a < (d * m2 * (1 - k) + s * p2) * 1 * c * a := by
  subst hs
  have h1 : 0 < d * (1 - k) * c * a :=
    mul_pos (mul_pos (mul_pos hd (by linarith)) hc) ha
  nlinarith

/-- Claim C16, amended.  `getLightRadiance` returns
`(diffColor * max(L.N, 0) * (1 - ktran) + specColor * max(R.V, 0)^(128 * shininess))`
multiplied componentwise by the shadow factor and the light colour and by the distance
attenuation, the shadow ray starting at `position + N * 0.0001` along `L` with `maxDist` the
light distance.  For a purely diffuse unshadowed surface the result is zero when `L.N <= 0`;
and of two such hits with the same material, light colour and attenuation, the one with the
larger `L.N > 0` is strictly brighter in every channel, provided the diffuse colour and the
light colour are positive in every channel, `ktran < 1` and the attenuation is positive. -/
theorem Renderer.getLightRadiance_lambert (L : MathFns F) (R : Renderer F)
    (direction : Vector3 F) (light : LightSource F) (hitData : HitData F) :
    Renderer.getLightRadiance L R direction light hitData
        = (Renderer.shadowQuery L R light hitData).map
            (Renderer.lightTerm L direction light hitData)
      ∧ (hitData.material.specColor = ⟨0, 0, 0⟩ →
          Renderer.shadowQuery L R light hitData = .ok ⟨1, 1, 1⟩ →
          Vector3.dot (LightSource.getDirection L light hitData.position) hitData.normal ≤ 0 →
          Renderer.getLightRadiance L R direction light hitData = .ok ⟨0, 0, 0⟩)
      ∧ ∀ (light2 : LightSource F) (hitData2 : HitData F),
          hitData.material.specColor = ⟨0, 0, 0⟩ →
          hitData2.material = hitData.material →
          LightSource.color light2 = LightSource.color light →
          LightSource.getAttenuation light2 (LightSource.getDistance L light2 hitData2.position)
            = LightSource.getAttenuation light (LightSource.getDistance L light hitData.position) →
          Renderer.shadowQuery L R light hitData = .ok ⟨1, 1, 1⟩ →
          Renderer.shadowQuery L R light2 hitData2 = .ok ⟨1, 1, 1⟩ →
          (0 < hitData.material.diffColor.x ∧ 0 < hitData.material.diffColor.y
            ∧ 0 < hitData.material.diffColor.z) →
          hitData.material.ktran < 1 →
          (0 < (LightSource.color light).x ∧ 0 < (LightSource.color light).y
            ∧ 0 < (LightSource.color light).z) →
          0 < LightSource.getAttenuation light
            (LightSource.getDistance L light hitData.position) →
          Vector3.dot (LightSource.getDirection L light hitData.position) hitData.normal
            < Vector3.dot (LightSource.getDirection L light2 hitData2.position)
                hitData2.normal →
          0 < Vector3.dot (LightSource.getDirection L light2 hitData2.position)
                hitData2.normal →
          ∃ r1 r2 : Vector3 F,
            Renderer.getLightRadiance L R direction light hitData = .ok r1
            ∧ Renderer.getLightRadiance L R direction light2 hitData2 = .ok r2
            ∧ r1.x < r2.x ∧ r1.y < r2.y ∧ r1.z < r2.z := by
  refine ⟨Renderer.getLightRadiance_eq L R direction light hitData, ?_, ?_⟩
  · intro hspec hshadow hdot
    rw [Renderer.getLightRadiance_eq, hshadow]
    show Except.ok (Renderer.lightTerm L direction light hitData ⟨1, 1, 1⟩) = _
    unfold Renderer.lightTerm
    rw [hspec, max_eq_right hdot]
    simp only [Vector3.scale, Vector3.mul, Vector3.add, mul_zero, zero_mul, add_zero]
  · intro light2 hitData2 hspec hmat hcol hatt hshadow hshadow2 hdiff hk hc ha hlt hpos
    have e1 : Renderer.getLightRadiance L R direction light hitData
        = .ok (Renderer.lightTerm L direction light hitData ⟨1, 1, 1⟩) := by
      rw [Renderer.getLightRadiance_eq, hshadow]
      rfl
    have e2 : Renderer.getLightRadiance L R direction light2 hitData2
        = .ok (Renderer.lightTerm L direction light2 hitData2 ⟨1, 1, 1⟩) := by
      rw [Renderer.getLightRadiance_eq, hshadow2]
      rfl
    refine ⟨_, _, e1, e2, ?_⟩
    · have hm : max (Vector3.dot (LightSource.getDirection L light hitData.position)
            hitData.normal) 0
          < max (Vector3.dot (LightSource.getDirection L light2 hitData2.position)
            hitData2.normal) 0 := by
        rw [max_eq_left (le_of_lt hpos)]
        exact max_lt hlt hpos
      unfold Renderer.lightTerm
      rw [hmat, hcol, hatt]
      simp only [Vector3.scale, Vector3.mul, Vector3.add]
      have hsx : hitData.material.specColor.x = 0 := by rw [hspec]
      have hsy : hitData.material.specColor.y = 0 := by rw [hspec]
      have hsz : hitData.material.specColor.z = 0 := by rw [hspec]
      refine ⟨?_, ?_, ?_⟩
      · exact Renderer.lambert_channel _ _ _ _ _ _ _ _ _ hsx hdiff.1 hk hc.1 ha hm
      · exact Renderer.lambert_channel _ _ _ _ _ _ _ _ _ hsy hdiff.2.1 hk hc.2.1 ha hm
      · exact Renderer.lambert_channel _ _ _ _ _ _ _ _ _ hsz hdiff.2.2 hk hc.2.2 ha hm

/-- The slab test fails for a box that lies below the origin of a ray that goes up. -/
theorem BoundingBox.intersects_behind (b : BoundingBox F) (origin direction : Vector3 F)
    (hx : direction.x ≠ 0) (hy : direction.y ≠ 0)
    (h1 : b.minCorner.z < origin.z) (h2 : b.maxCorner.z < origin.z) (hdir : 0 < direction.z) :
    BoundingBox.intersects b origin (KDTree.invDirection direction) = false := by
  rw [BoundingBox.intersects_finite b origin direction hx hy (ne_of_gt hdir)]
  have hinv : 0 < 1 / direction.z := one_div_pos.mpr hdir
  generalize 1 / direction.x = ix
  generalize 1 / direction.y = iy
  generalize 1 / direction.z = iz at hinv
  unfold BoundingBox.slabTest
  simp only [decide_eq_false_iff_not, not_and, Vector3.mul, Vector3.sub]
  intro _ h
  have t1 : (b.minCorner.z - origin.z) * iz < 0 :=
    mul_neg_of_neg_of_pos (by linarith) hinv
  have t2 : (b.maxCorner.z - origin.z) * iz < 0 :=
    mul_neg_of_neg_of_pos (by linarith) hinv
  exact absurd h (not_le.mpr (lt_of_le_of_lt (min_le_right _ _) (max_lt t1 t2)))

end Lambert

section LambertExamples

theorem slant_direction (c p : Vector3 ℚ) :
    LightSource.getDirection exactFns (slantLight c) p = ⟨1 / 3, 2 / 3, 2 / 3⟩ := by
  have hlen : Vector3.length exactFns (⟨-1, -2, -2⟩ : Vector3 ℚ) = 3 := by
    show exactFns.sqrt ((-1) * (-1) + (-2) * (-2) + (-2) * (-2)) = 3
    have h9 : ((-1) * (-1) + (-2) * (-2) + (-2) * (-2) : ℚ) = 3 * 3 := by norm_num
    rw [h9, exactFns_sqrt 3 (by norm_num)]
  show Vector3.neg (Vector3.normalize exactFns ⟨-1, -2, -2⟩) = _
  unfold Vector3.normalize
  rw [hlen]
  norm_num [Vector3.neg, Vector3.divScalar]

/-- A shadow ray that starts above the panes and goes up along `(1/3, 2/3, 2/3)` misses the
bounds of the pane scene: the shadow factor stays `(1,1,1)`. -/
theorem slant_unshadowed (c : Vector3 ℚ) (m : Material ℚ) (n : Vector3 ℚ) (hn : 0 < n.z) :
    Renderer.shadowQuery exactFns paneRenderer (slantLight c) (lambertHit m n)
      = .ok ⟨1, 1, 1⟩ := by
  have hb : BoundingBox.intersects (KDTree.boundsOf dimPane [whitePane])
      (Vector3.add (lambertHit m n).position (Vector3.scale (lambertHit m n).normal (1 / 10000)))
      (KDTree.invDirection ⟨1 / 3, 2 / 3, 2 / 3⟩) = false := by
    have hbox : KDTree.boundsOf dimPane [whitePane] = ⟨⟨0, 0, -1⟩, ⟨4, 4, 0⟩⟩ :=
      pane_boundsOf 1 2 _ _
    rw [hbox]
    apply BoundingBox.intersects_behind
    · show (1 / 3 : ℚ) ≠ 0
      norm_num
    · show (2 / 3 : ℚ) ≠ 0
      norm_num
    · show (-1 : ℚ) < 0 + n.z * (1 / 10000)
      linarith
    · show (0 : ℚ) < 0 + n.z * (1 / 10000)
      linarith
    · show (0 : ℚ) < 2 / 3
      norm_num
  unfold Renderer.shadowQuery Scene.TraceShadowRay KDTree.TraceShadowRay
  rw [slant_direction]
  show KDTree.traceShadowNode exactFns [[dimPane, whitePane]] _ _
    (KDTree.invDirection ⟨1 / 3, 2 / 3, 2 / 3⟩) _
    (KDNode.node KDNode.null KDNode.null (KDTree.boundsOf dimPane [whitePane]) 0) ⟨1, 1, 1⟩ = _
  unfold KDTree.traceShadowNode
  rw [hb]
  rfl

theorem slant_dot_flat (c : Vector3 ℚ) (m : Material ℚ) :
    Vector3.dot (LightSource.getDirection exactFns (slantLight c) (lambertHit m ⟨0, 0, 1⟩).position)
      (lambertHit m ⟨0, 0, 1⟩).normal = 2 / 3 := by
  rw [slant_direction]
  norm_num [Vector3.dot, lambertHit]

theorem slant_dot_facing (c : Vector3 ℚ) (m : Material ℚ) :
    Vector3.dot
      (LightSource.getDirection exactFns (slantLight c)
        (lambertHit m ⟨1 / 3, 2 / 3, 2 / 3⟩).position)
      (lambertHit m ⟨1 / 3, 2 / 3, 2 / 3⟩).normal = 1 := by
  rw [slant_direction]
  norm_num [Vector3.dot, lambertHit]

/-- Counterexample for C16 as stated: two purely diffuse unshadowed hits on a white surface,
the second facing the light more (`L.N = 1` against `2/3`), get the same direct term
`(0,0,0)` when the light is black, and also when the surface has `ktran = 1`; the direct term
does not strictly grow with `L.N`. -/
theorem Renderer.getLightRadiance_flat :
    (whiteMaterial 0).specColor = ⟨0, 0, 0⟩
      ∧ (whiteMaterial 1).specColor = ⟨0, 0, 0⟩
      ∧ Renderer.shadowQuery exactFns paneRenderer (slantLight ⟨0, 0, 0⟩)
          (lambertHit (whiteMaterial 0) ⟨0, 0, 1⟩) = .ok ⟨1, 1, 1⟩
      ∧ Renderer.shadowQuery exactFns paneRenderer (slantLight ⟨0, 0, 0⟩)
          (lambertHit (whiteMaterial 0) ⟨1 / 3, 2 / 3, 2 / 3⟩) = .ok ⟨1, 1, 1⟩
      ∧ Vector3.dot
          (LightSource.getDirection exactFns (slantLight ⟨0, 0, 0⟩)
            (lambertHit (whiteMaterial 0) ⟨0, 0, 1⟩).position)
          (lambertHit (whiteMaterial 0) ⟨0, 0, 1⟩).normal = 2 / 3
      ∧ Vector3.dot
          (LightSource.getDirection exactFns (slantLight ⟨0, 0, 0⟩)
            (lambertHit (whiteMaterial 0) ⟨1 / 3, 2 / 3, 2 / 3⟩).position)
          (lambertHit (whiteMaterial 0) ⟨1 / 3, 2 / 3, 2 / 3⟩).normal = 1
      ∧ Renderer.getLightRadiance exactFns paneRenderer ⟨-1 / 8, -1 / 8, -1⟩
          (slantLight ⟨0, 0, 0⟩) (lambertHit (whiteMaterial 0) ⟨0, 0, 1⟩) = .ok ⟨0, 0, 0⟩
      ∧ Renderer.getLightRadiance exactFns paneRenderer ⟨-1 / 8, -1 / 8, -1⟩
          (slantLight ⟨0, 0, 0⟩) (lambertHit (whiteMaterial 0) ⟨1 / 3, 2 / 3, 2 / 3⟩)
          = .ok ⟨0, 0, 0⟩
      ∧ Renderer.getLightRadiance exactFns paneRenderer ⟨-1 / 8, -1 / 8, -1⟩
          (slantLight ⟨1, 1, 1⟩) (lambertHit (whiteMaterial 1) ⟨0, 0, 1⟩) = .ok ⟨0, 0, 0⟩
      ∧ Renderer.getLightRadiance exactFns paneRenderer ⟨-1 / 8, -1 / 8, -1⟩
          (slantLight ⟨1, 1, 1⟩) (lambertHit (whiteMaterial 1) ⟨1 / 3, 2 / 3, 2 / 3⟩)
          = .ok ⟨0, 0, 0⟩ := by
  have hdark : ∀ n : Vector3 ℚ, 0 < n.z →
      Renderer.getLightRadiance exactFns paneRenderer ⟨-1 / 8, -1 / 8, -1⟩
        (slantLight ⟨0, 0, 0⟩) (lambertHit (whiteMaterial 0) n) = .ok ⟨0, 0, 0⟩ := by
    intro n hn
    rw [Renderer.getLightRadiance_eq, slant_unshadowed _ _ _ hn]
    show Except.ok (Renderer.lightTerm exactFns _ _ _ _) = _
    unfold Renderer.lightTerm
    simp only [slantLight, LightSource.color, Vector3.scale, Vector3.mul, mul_zero, zero_mul]
  have hclear : ∀ n : Vector3 ℚ, 0 < n.z →
      Renderer.getLightRadiance exactFns paneRenderer ⟨-1 / 8, -1 / 8, -1⟩
        (slantLight ⟨1, 1, 1⟩) (lambertHit (whiteMaterial 1) n) = .ok ⟨0, 0, 0⟩ := by
    intro n hn
    rw [Renderer.getLightRadiance_eq, slant_unshadowed _ _ _ hn]
    show Except.ok (Renderer.lightTerm exactFns _ _ _ _) = _
    unfold Renderer.lightTerm
    simp only [lambertHit, whiteMaterial, Vector3.scale, Vector3.mul, Vector3.add, sub_self,
      mul_zero, zero_mul, add_zero]
  exact ⟨rfl, rfl, slant_unshadowed _ _ _ (by norm_num), slant_unshadowed _ _ _ (by norm_num),
    slant_dot_flat _ _, slant_dot_facing _ _, hdark _ (by norm_num), hdark _ (by norm_num),
    hclear _ (by norm_num), hclear _ (by norm_num)⟩

/-- Witness for `Renderer.getLightRadiance_lambert`: a white opaque surface under a white
directional light; the hit with `L.N = 1` is strictly brighter than the hit with
`L.N = 2/3`. -/
theorem Renderer.getLightRadiance_lambert_witness :
    ∃ r1 r2 : Vector3 ℚ,
      Renderer.getLightRadiance exactFns paneRenderer ⟨-1 / 8, -1 / 8, -1⟩
          (slantLight ⟨1, 1, 1⟩) (lambertHit (whiteMaterial 0) ⟨0, 0, 1⟩) = .ok r1
      ∧ Renderer.getLightRadiance exactFns paneRenderer ⟨-1 / 8, -1 / 8, -1⟩
          (slantLight ⟨1, 1, 1⟩) (lambertHit (whiteMaterial 0) ⟨1 / 3, 2 / 3, 2 / 3⟩) = .ok r2
      ∧ r1.x < r2.x ∧ r1.y < r2.y ∧ r1.z < r2.z :=
  (Renderer.getLightRadiance_lambert exactFns paneRenderer ⟨-1 / 8, -1 / 8, -1⟩
    (slantLight ⟨1, 1, 1⟩) (lambertHit (whiteMaterial 0) ⟨0, 0, 1⟩)).2.2
    (slantLight ⟨1, 1, 1⟩) (lambertHit (whiteMaterial 0) ⟨1 / 3, 2 / 3, 2 / 3⟩)
    rfl rfl rfl rfl
    (slant_unshadowed _ _ _ (by norm_num)) (slant_unshadowed _ _ _ (by norm_num))
    (by norm_num [lambertHit, whiteMaterial]) (by norm_num [lambertHit, whiteMaterial])
    (by norm_num [slantLight, LightSource.color])
    (by norm_num [slantLight, LightSource.getAttenuation])
    (by rw [slant_dot_flat, slant_dot_facing]; norm_num)
    (by rw [slant_dot_facing]; norm_num)

end LambertExamples

section Bounds

variable {F : Type} [LinearOrderedField F]

/-- A coordinate of a point within distance `r >= 0` of the centre differs from the centre's
by at most `r`. -/
theorem Sphere.coordinate_bound (a b c r : F) (hr : 0 ≤ r) (h : a * a + b * b + c * c ≤ r * r) :
    -r ≤ a ∧ a ≤ r := by
  have ha : a * a ≤ r * r := by nlinarith [mul_self_nonneg b, mul_self_nonneg c]
  exact abs_le_of_sq_le_sq' (by rw [sq, sq]; exact ha) hr

/-- Claim C21.  `Sphere::GetBounds` returns the box with `minCorner = center - radius` and
`maxCorner = center + radius` on every axis; for `radius >= 0` it contains every point within
distance `radius` of the centre and lies in every box that does.  `Triangle::GetBounds`
returns the per-axis minimum and maximum of the three vertices; it contains every convex
combination of the vertices and lies in every box that contains the vertices. -/
theorem Primitive.GetBounds_tight (s : Sphere F) (tr : Triangle F) :
    ((Sphere.GetBounds s).minCorner
        = ⟨s.center.x - s.radius, s.center.y - s.radius, s.center.z - s.radius⟩
      ∧ (Sphere.GetBounds s).maxCorner
        = ⟨s.center.x + s.radius, s.center.y + s.radius, s.center.z + s.radius⟩
      ∧ (0 ≤ s.radius →
          (∀ p : Vector3 F, Sphere.Within s p → BoundingBox.Contains (Sphere.GetBounds s) p)
          ∧ ∀ b : BoundingBox F, (∀ p : Vector3 F, Sphere.Within s p → BoundingBox.Contains b p) →
              BoundingBox.Encloses b (Sphere.GetBounds s)))
      ∧ ((Triangle.GetBounds tr).minCorner
          = Vector3.componentMin tr.v0 (Vector3.componentMin tr.v1 tr.v2)
        ∧ (Triangle.GetBounds tr).maxCorner
          = Vector3.componentMax tr.v0 (Vector3.componentMax tr.v1 tr.v2)
        ∧ (∀ w0 w1 w2 : F, 0 ≤ w0 → 0 ≤ w1 → 0 ≤ w2 → w0 + w1 + w2 = 1 →
            BoundingBox.Contains (Triangle.GetBounds tr) (Triangle.combination tr w0 w1 w2))
        ∧ ∀ b : BoundingBox F, BoundingBox.Contains b tr.v0 → BoundingBox.Contains b tr.v1 →
            BoundingBox.Contains b tr.v2 → BoundingBox.Encloses b (Triangle.GetBounds tr)) := by
  refine ⟨⟨rfl, rfl, ?_⟩, rfl, rfl, ?_, ?_⟩
  · intro hr
    constructor
    · intro p hp
      unfold Sphere.Within at hp
      simp only [Vector3.dot, Vector3.sub] at hp
      obtain ⟨x1, x2⟩ := Sphere.coordinate_bound (p.x - s.center.x) (p.y - s.center.y)
        (p.z - s.center.z) s.radius hr hp
      obtain ⟨y1, y2⟩ := Sphere.coordinate_bound (p.y - s.center.y) (p.x - s.center.x)
        (p.z - s.center.z) s.radius hr (by linarith)
      obtain ⟨z1, z2⟩ := Sphere.coordinate_bound (p.z - s.center.z) (p.x - s.center.x)
        (p.y - s.center.y) s.radius hr (by linarith)
      simp only [BoundingBox.Contains, Sphere.GetBounds, Vector3.subScalar, Vector3.addScalar]
      refine ⟨?_, ?_, ?_, ?_, ?_, ?_⟩ <;> linarith
    · intro b hb
      have hx1 := hb ⟨s.center.x - s.radius, s.center.y, s.center.z⟩
        (by simp only [Sphere.Within, Vector3.dot, Vector3.sub]; nlinarith)
      have hx2 := hb ⟨s.center.x + s.radius, s.center.y, s.center.z⟩
        (by simp only [Sphere.Within, Vector3.dot, Vector3.sub]; nlinarith)
      have hy1 := hb ⟨s.center.x, s.center.y - s.radius, s.center.z⟩
        (by simp only [Sphere.Within, Vector3.dot, Vector3.sub]; nlinarith)
      have hy2 := hb ⟨s.center.x, s.center.y + s.radius, s.center.z⟩
        (by simp only [Sphere.Within, Vector3.dot, Vector3.sub]; nlinarith)
      have hz1 := hb ⟨s.center.x, s.center.y, s.center.z - s.radius⟩
        (by simp only [Sphere.Within, Vector3.dot, Vector3.sub]; nlinarith)
      have hz2 := hb ⟨s.center.x, s.center.y, s.center.z + s.radius⟩
        (by simp only [Sphere.Within, Vector3.dot, Vector3.sub]; nlinarith)
      simp only [BoundingBox.Contains] at hx1 hx2 hy1 hy2 hz1 hz2
      simp only [BoundingBox.Encloses, Sphere.GetBounds, Vector3.subScalar, Vector3.addScalar]
      exact ⟨hx1.1, hx2.2.1, hy1.2.2.1, hy2.2.2.2.1, hz1.2.2.2.2.1, hz2.2.2.2.2.2⟩
  · intro w0 w1 w2 h0 h1 h2 hsum
    have hw : w0 = 1 - w1 - w2 := by linarith
    obtain ⟨x1, x2⟩ := convex_between tr.v0.x tr.v1.x tr.v2.x w1 w2 h1 h2 (by linarith)
    obtain ⟨y1, y2⟩ := convex_between tr.v0.y tr.v1.y tr.v2.y w1 w2 h1 h2 (by linarith)
    obtain ⟨z1, z2⟩ := convex_between tr.v0.z tr.v1.z tr.v2.z w1 w2 h1 h2 (by linarith)
    simp only [BoundingBox.Contains, Triangle.GetBounds, Triangle.combination, Vector3.add,
      Vector3.scale]
    rw [hw]
    exact ⟨x1, x2, y1, y2, z1, z2⟩
  · intro b h0 h1 h2
    simp only [BoundingBox.Contains] at h0 h1 h2
    simp only [BoundingBox.Encloses, Triangle.GetBounds]
    exact ⟨le_min h0.1 (le_min h1.1 h2.1), max_le h0.2.1 (max_le h1.2.1 h2.2.1),
      le_min h0.2.2.1 (le_min h1.2.2.1 h2.2.2.1),
      max_le h0.2.2.2.1 (max_le h1.2.2.2.1 h2.2.2.2.1),
      le_min h0.2.2.2.2.1 (le_min h1.2.2.2.2.1 h2.2.2.2.2.1),
      max_le h0.2.2.2.2.2 (max_le h1.2.2.2.2.2 h2.2.2.2.2.2)⟩

end Bounds

section BoundsExamples

/-- Witness for `Primitive.GetBounds_tight`: the unit sphere (radius `1 >= 0`) contains the
point `(0, 3/5, 4/5)`, and so does its box. -/
theorem Primitive.GetBounds_tight_witness :
    (0 : ℚ) ≤ unitSphere.radius
      ∧ Sphere.Within unitSphere ⟨0, 3 / 5, 4 / 5⟩
      ∧ BoundingBox.Contains (Sphere.GetBounds unitSphere) ⟨0, 3 / 5, 4 / 5⟩
      ∧ BoundingBox.Contains (Triangle.GetBounds unitTriangle)
          (Triangle.combination unitTriangle (1 / 2) (1 / 4) (1 / 4)) :=
  ⟨by norm_num [unitSphere],
    by norm_num [Sphere.Within, unitSphere, Vector3.dot, Vector3.sub],
    ((Primitive.GetBounds_tight unitSphere unitTriangle).1.2.2
      (by norm_num [unitSphere])).1 _
      (by norm_num [Sphere.Within, unitSphere, Vector3.dot, Vector3.sub]),
    (Primitive.GetBounds_tight unitSphere unitTriangle).2.2.2.1 _ _ _
      (by norm_num) (by norm_num) (by norm_num) (by norm_num)⟩

end BoundsExamples

section Normalize

variable {F : Type} [LinearOrderedField F]

/-- Claim C27, amended.  `Vector3::normalize` is the unguarded quotient `*this / length()`.
With a square root that is exact at `x*x + y*y + z*z`, the divisor is zero exactly for the zero
vector, and for every other vector the result has unit length. -/
theorem Vector3.normalize_unguarded (L : MathFns F) (a : Vector3 F)
    (hsqrt : L.sqrt (a.x * a.x + a.y * a.y + a.z * a.z)
        * L.sqrt (a.x * a.x + a.y * a.y + a.z * a.z)
      = a.x * a.x + a.y * a.y + a.z * a.z) :
    Vector3.normalize L a = Vector3.divScalar a (Vector3.length L a)
      ∧ (Vector3.normalizeChecked L a = none ↔ a = Vector3.zero)
      ∧ (a ≠ Vector3.zero →
          Vector3.normalizeChecked L a = some (Vector3.normalize L a)
          ∧ Vector3.dot (Vector3.normalize L a) (Vector3.normalize L a) = 1) := by
  have hlen : Vector3.length L a = 0 ↔ a = Vector3.zero := by
    constructor
    · intro h0
      apply Vector3.eq_zero_of_dot_self
      unfold Vector3.length at h0
      rw [h0, mul_zero] at hsqrt
      unfold Vector3.dot
      exact hsqrt.symm
    · intro ha
      have hz : a.x * a.x + a.y * a.y + a.z * a.z = 0 := by
        rw [ha]
        simp only [Vector3.zero, mul_zero, add_zero]
      unfold Vector3.length
      rw [hz] at hsqrt ⊢
      exact mul_self_eq_zero.mp hsqrt
  refine ⟨rfl, ?_, ?_⟩
  · unfold Vector3.normalizeChecked
    constructor
    · intro h
      by_cases h0 : Vector3.length L a = 0
      · exact hlen.mp h0
      · rw [if_neg h0] at h
        cases h
    · intro ha
      rw [if_pos (hlen.mpr ha)]
  · intro ha
    have h0 : Vector3.length L a ≠ 0 := fun h => ha (hlen.mp h)
    refine ⟨?_, ?_⟩
    · unfold Vector3.normalizeChecked
      rw [if_neg h0]
      rfl
    · unfold Vector3.normalize
      have hl : Vector3.length L a * Vector3.length L a
          = a.x * a.x + a.y * a.y + a.z * a.z := hsqrt
      simp only [Vector3.dot, Vector3.divScalar]
      field_simp
      linear_combination -hl

end Normalize

section NormalizeExamples

/-- Counterexample for C27: on the zero vector the divisor `length()` is zero and `normalize`
divides by it; nothing guards the division. -/
theorem Vector3.normalize_zero :
    Vector3.length exactFns (Vector3.zero : Vector3 ℚ) = 0
      ∧ Vector3.normalize exactFns (Vector3.zero : Vector3 ℚ)
        = Vector3.divScalar Vector3.zero 0
      ∧ Vector3.normalizeChecked exactFns (Vector3.zero : Vector3 ℚ) = none := by
  have hlen : Vector3.length exactFns (Vector3.zero : Vector3 ℚ) = 0 := by
    show exactFns.sqrt (0 * 0 + 0 * 0 + 0 * 0) = 0
    have h0 : ((0 : ℚ) * 0 + 0 * 0 + 0 * 0) = 0 * 0 := by norm_num
    rw [h0, exactFns_sqrt 0 (le_refl _)]
  refine ⟨hlen, ?_, ?_⟩
  · unfold Vector3.normalize
    rw [hlen]
  · unfold Vector3.normalizeChecked
    rw [if_pos hlen]

/-- Witness for `Vector3.normalize_unguarded`: the vector `(3, 0, 4)` of length `5`. -/
theorem Vector3.normalize_unguarded_witness :
    Vector3.normalize exactFns (⟨3, 0, 4⟩ : Vector3 ℚ)
        = Vector3.divScalar ⟨3, 0, 4⟩ (Vector3.length exactFns ⟨3, 0, 4⟩)
      ∧ (Vector3.normalizeChecked exactFns (⟨3, 0, 4⟩ : Vector3 ℚ) = none
          ↔ (⟨3, 0, 4⟩ : Vector3 ℚ) = Vector3.zero)
      ∧ ((⟨3, 0, 4⟩ : Vector3 ℚ) ≠ Vector3.zero →
          Vector3.normalizeChecked exactFns (⟨3, 0, 4⟩ : Vector3 ℚ)
            = some (Vector3.normalize exactFns ⟨3, 0, 4⟩)
          ∧ Vector3.dot (Vector3.normalize exactFns (⟨3, 0, 4⟩ : Vector3 ℚ))
              (Vector3.normalize exactFns ⟨3, 0, 4⟩) = 1) :=
  Vector3.normalize_unguarded exactFns ⟨3, 0, 4⟩
    (by
      have h25 : ((3 : ℚ) * 3 + 0 * 0 + 4 * 4) = 5 * 5 := by norm_num
      show exactFns.sqrt ((3 : ℚ) * 3 + 0 * 0 + 4 * 4) * exactFns.sqrt ((3 : ℚ) * 3 + 0 * 0 + 4 * 4)
        = (3 : ℚ) * 3 + 0 * 0 + 4 * 4
      rw [h25, exactFns_sqrt 5 (by norm_num)])

end NormalizeExamples

section Exponential

variable {F : Type} [LinearOrderedField F]

theorem ExpFns.exp_zero (E : ExpFns F) (hE : ExpFns.ExactExp E) : E.exp 0 = 1 := by
  have h1 := hE.1 0 0
  have h2 := hE.2 0
  rw [add_zero] at h1 h2
  have h3 : E.exp 0 * (E.exp 0 - 1) = 0 := by linear_combination -h1
  rcases mul_eq_zero.mp h3 with h | h
  · rw [h] at h2
    exact absurd h2 (by norm_num)
  · linarith

theorem ExpFns.exp_mul_neg (E : ExpFns F) (hE : ExpFns.ExactExp E) (x : F) :
    E.exp x * E.exp (-x) = 1 := by
  rw [← hE.1, add_neg_cancel, ExpFns.exp_zero E hE]

theorem ExpFns.exp_pos (E : ExpFns F) (hE : ExpFns.ExactExp E) (x : F) : 0 < E.exp x := by
  have h1 : E.exp x = E.exp (x / 2) * E.exp (x / 2) := by
    rw [← hE.1, add_halves]
  have h2 : 0 ≤ E.exp x := by
    rw [h1]
    exact mul_self_nonneg _
  have h3 := ExpFns.exp_mul_neg E hE x
  rcases eq_or_lt_of_le h2 with h | h
  · rw [← h, zero_mul] at h3
    exact absurd h3 (by norm_num)
  · exact h

theorem ExpFns.exp_le (E : ExpFns F) (hE : ExpFns.ExactExp E) (x y : F) (h : x ≤ y) :
    E.exp x ≤ E.exp y := by
  have h1 : E.exp y = E.exp x * E.exp (y - x) := by
    rw [← hE.1, add_sub_cancel]
  have h2 := hE.2 (y - x)
  have h3 := ExpFns.exp_pos E hE x
  rw [h1]
  nlinarith

theorem ExpFns.exp_lt (E : ExpFns F) (hE : ExpFns.ExactExp E) (x y : F) (h : x < y) :
    E.exp x < E.exp y := by
  have h1 : E.exp y = E.exp x * E.exp (y - x) := by
    rw [← hE.1, add_sub_cancel]
  have h2 := hE.2 (y - x)
  have h3 := ExpFns.exp_pos E hE x
  rw [h1]
  nlinarith

theorem ExpFns.exp_injective (E : ExpFns F) (hE : ExpFns.ExactExp E) (x y : F)
    (h : E.exp x = E.exp y) : x = y := by
  rcases lt_trichotomy x y with hlt | heq | hgt
  · exact absurd h (ne_of_lt (ExpFns.exp_lt E hE x y hlt))
  · exact heq
  · exact absurd h.symm (ne_of_lt (ExpFns.exp_lt E hE y x hgt))

theorem ExpFns.log_exp (E : ExpFns F) (hE : ExpFns.ExactExp E) (hL : ExpFns.ExactLog E)
    (x : F) : E.log (E.exp x) = x :=
  ExpFns.exp_injective E hE _ _ (hL _ (ExpFns.exp_pos E hE x))

theorem ExpFns.log_le (E : ExpFns F) (hE : ExpFns.ExactExp E) (hL : ExpFns.ExactLog E)
    (x y : F) (hx : 0 < x) (h : x ≤ y) : E.log x ≤ E.log y := by
  by_contra hc
  have h1 := ExpFns.exp_lt E hE _ _ (not_le.mp hc)
  rw [hL x hx, hL y (lt_of_lt_of_le hx h)] at h1
  exact absurd h (not_le.mpr h1)

theorem ExpFns.log_one (E : ExpFns F) (hE : ExpFns.ExactExp E) (hL : ExpFns.ExactLog E) :
    E.log 1 = 0 := by
  apply ExpFns.exp_injective E hE
  rw [hL 1 zero_lt_one, ExpFns.exp_zero E hE]

theorem ExpFns.log_neg (E : ExpFns F) (hE : ExpFns.ExactExp E) (hL : ExpFns.ExactLog E)
    (x : F) (hx : 0 < x) (h : x < 1) : E.log x < 0 := by
  by_contra hc
  have h1 := ExpFns.exp_le E hE _ _ (not_lt.mp hc)
  rw [hL x hx, ExpFns.exp_zero E hE] at h1
  exact absurd h (not_lt.mpr h1)

/-- The function `x ↦ (x + 1) exp(-x)` does not increase on `x >= 0`. -/
theorem ExpFns.kernel_antitone (E : ExpFns F) (hE : ExpFns.ExactExp E) (x y : F) (hx : 0 ≤ x)
    (h : x ≤ y) : (y + 1) * E.exp (-y) ≤ (x + 1) * E.exp (-x) := by
  have h1 : E.exp (-x) = E.exp (y - x) * E.exp (-y) := by
    rw [← hE.1]
    congr 1
    ring
  have h2 := hE.2 (y - x)
  have h3 := ExpFns.exp_pos E hE (-y)
  rw [h1, ← mul_assoc]
  apply mul_le_mul_of_nonneg_right _ (le_of_lt h3)
  nlinarith

theorem MathFns.sqrt_le (L : MathFns F) (hS : MathFns.ExactSqrt L) (x y : F) (hx : 0 ≤ x)
    (h : x ≤ y) : L.sqrt x ≤ L.sqrt y := by
  obtain ⟨a1, a2⟩ := hS x hx
  obtain ⟨b1, b2⟩ := hS y (le_trans hx h)
  by_contra hc
  have hlt := not_le.mp hc
  nlinarith

theorem MathFns.sqrt_pos (L : MathFns F) (hS : MathFns.ExactSqrt L) (x : F) (hx : 0 < x) :
    0 < L.sqrt x := by
  obtain ⟨a1, a2⟩ := hS x (le_of_lt hx)
  rcases eq_or_lt_of_le a1 with h | h
  · rw [← h, mul_zero] at a2
    exact absurd a2 (ne_of_lt hx)
  · exact h

theorem MathFns.sqrt_mul_self (L : MathFns F) (hS : MathFns.ExactSqrt L) (x : F) (hx : 0 ≤ x) :
    L.sqrt (x * x) = x := by
  obtain ⟨a1, a2⟩ := hS (x * x) (mul_self_nonneg x)
  nlinarith [mul_self_nonneg (L.sqrt (x * x) - x), mul_nonneg a1 hx]

end Exponential

section Constructor

variable {F : Type} [LinearOrderedField F]

theorem Vector3.Luminance_pos (a : Vector3 F) (ha : Vector3.Positive a) :
    0 < Vector3.Luminance a := by
  obtain ⟨hx, hy, hz⟩ := ha
  unfold Vector3.Luminance
  positivity

/-- The radius `Rmax` the constructor stores is positive, and the exponential kernel has
dropped to `0.01` there, whenever the luminance of `sigmaTr` is positive. -/
theorem BSSRDF.Rmax_spec (L : MathFns F) (E : ExpFns F) (hS : MathFns.ExactSqrt L)
    (hE : ExpFns.ExactExp E) (hL : ExpFns.ExactLog E) (s : F) (hs : 0 < s) :
    0 < L.sqrt (E.log (1 / 100) / -s)
      ∧ L.sqrt (E.log (1 / 100) / -s) * L.sqrt (E.log (1 / 100) / -s) = E.log (1 / 100) / -s
      ∧ -s * L.sqrt (E.log (1 / 100) / -s) * L.sqrt (E.log (1 / 100) / -s) = E.log (1 / 100)
      ∧ E.exp (-s * L.sqrt (E.log (1 / 100) / -s) * L.sqrt (E.log (1 / 100) / -s))
        = 1 / 100 := by
  have hlog : E.log (1 / 100) < 0 := ExpFns.log_neg E hE hL _ (by norm_num) (by norm_num)
  have hq : 0 < E.log (1 / 100) / -s := div_pos_of_neg_of_neg hlog (by linarith)
  have hsq := (hS _ (le_of_lt hq)).2
  have hmul : -s * L.sqrt (E.log (1 / 100) / -s) * L.sqrt (E.log (1 / 100) / -s)
      = E.log (1 / 100) := by
    rw [mul_assoc, hsq]
    field_simp
  refine ⟨MathFns.sqrt_pos L hS _ hq, hsq, hmul, ?_⟩
  rw [hmul, hL _ (by norm_num)]

/-- For the two indices of refraction used in `main.cpp`, `1.3` and `1.5`, the rational fit of
the diffuse Fresnel reflectance lies strictly between `0` and `1`. -/
theorem BSSRDF.FresnelDiffuseReflectance_main (eta : F) (h : eta = 13 / 10 ∨ eta = 3 / 2) :
    0 < BSSRDF.FresnelDiffuseReflectance eta ∧ BSSRDF.FresnelDiffuseReflectance eta < 1 := by
  unfold BSSRDF.FresnelDiffuseReflectance
  rcases h with rfl | rfl
  · rw [if_pos (by norm_num)]
    constructor <;> norm_num
  · rw [if_pos (by norm_num)]
    constructor <;> norm_num

/-- For the two indices of refraction used in `main.cpp` the coefficient `A` of the constructor
is positive. -/
theorem BSSRDF.new_A_pos (L : MathFns F) (E : ExpFns F) (sigmaA sigmaSPrime : Vector3 F)
    (g eta : F) (h : eta = 13 / 10 ∨ eta = 3 / 2) :
    0 < (BSSRDF.new L E sigmaA sigmaSPrime g eta).A := by
  obtain ⟨h0, h1⟩ := BSSRDF.FresnelDiffuseReflectance_main eta h
  show 0 < (1 + BSSRDF.FresnelDiffuseReflectance eta) / (1 - BSSRDF.FresnelDiffuseReflectance eta)
  exact div_pos (by linarith) (by linarith)

/-- Claim C26, amended.  The constructor derives, per channel, `sigmaS = sigmaSPrime / (1 - g)`,
`sigmaTPrime = sigmaA + sigmaSPrime`, `sigmaTr = sqrt(3 sigmaA sigmaTPrime)`,
`D = 1 / (3 sigmaTPrime)`, `zr = 1 / sigmaTPrime`, `zv = zr (1 + 4A/3) = zr + 4 A D`, and
`Rmax = sqrt(ln(0.01) / -L)` with `L` the luminance of `sigmaTr`.  For positive coefficients and
`g < 1` (exact `sqrt`, `exp`, `log`): `sigmaS`, `sigmaTPrime`, `sigmaTr`, `D`, `zr` and `Rmax`
are positive and `exp(-L Rmax^2) = 0.01`; `zv` is positive exactly when `1 + 4A/3 > 0`, which
depends on `eta` through `A = (1 + Fdr) / (1 - Fdr)`; for the two indices of refraction that
`main.cpp` passes, `1.3` and `1.5`, `A` is positive and so is `zv`. -/
theorem BSSRDF.new_spec (L : MathFns F) (E : ExpFns F) (sigmaA sigmaSPrime : Vector3 F)
    (g eta : F) (hS : MathFns.ExactSqrt L) (hE : ExpFns.ExactExp E) (hL : ExpFns.ExactLog E)
    (ha : Vector3.Positive sigmaA) (hs : Vector3.Positive sigmaSPrime) (hg : g < 1) :
    ((BSSRDF.new L E sigmaA sigmaSPrime g eta).sigmaS
        = ⟨sigmaSPrime.x / (1 - g), sigmaSPrime.y / (1 - g), sigmaSPrime.z / (1 - g)⟩
      ∧ (BSSRDF.new L E sigmaA sigmaSPrime g eta).sigmaTPrime
        = ⟨sigmaA.x + sigmaSPrime.x, sigmaA.y + sigmaSPrime.y, sigmaA.z + sigmaSPrime.z⟩
      ∧ (BSSRDF.new L E sigmaA sigmaSPrime g eta).sigmaTr
        = ⟨L.sqrt (3 * sigmaA.x * (sigmaA.x + sigmaSPrime.x)),
            L.sqrt (3 * sigmaA.y * (sigmaA.y + sigmaSPrime.y)),
            L.sqrt (3 * sigmaA.z * (sigmaA.z + sigmaSPrime.z))⟩
      ∧ (BSSRDF.new L E sigmaA sigmaSPrime g eta).D
        = ⟨1 / (3 * (sigmaA.x + sigmaSPrime.x)), 1 / (3 * (sigmaA.y + sigmaSPrime.y)),
            1 / (3 * (sigmaA.z + sigmaSPrime.z))⟩
      ∧ (BSSRDF.new L E sigmaA sigmaSPrime g eta).zr
        = ⟨1 / (sigmaA.x + sigmaSPrime.x), 1 / (sigmaA.y + sigmaSPrime.y),
            1 / (sigmaA.z + sigmaSPrime.z)⟩
      ∧ (BSSRDF.new L E sigmaA sigmaSPrime g eta).zv
        = Vector3.scale (BSSRDF.new L E sigmaA sigmaSPrime g eta).zr
            (1 + 4 * (BSSRDF.new L E sigmaA sigmaSPrime g eta).A / 3)
      ∧ (BSSRDF.new L E sigmaA sigmaSPrime g eta).zv
        = Vector3.add (BSSRDF.new L E sigmaA sigmaSPrime g eta).zr
            (Vector3.scale (BSSRDF.new L E sigmaA sigmaSPrime g eta).D
              (4 * (BSSRDF.new L E sigmaA sigmaSPrime g eta).A))
      ∧ (BSSRDF.new L E sigmaA sigmaSPrime g eta).Rmax
        = L.sqrt (E.log (1 / 100)
            / -Vector3.Luminance (BSSRDF.new L E sigmaA sigmaSPrime g eta).sigmaTr))
      ∧ (Vector3.Positive (BSSRDF.new L E sigmaA sigmaSPrime g eta).sigmaS
        ∧ Vector3.Positive (BSSRDF.new L E sigmaA sigmaSPrime g eta).sigmaTPrime
        ∧ Vector3.Positive (BSSRDF.new L E sigmaA sigmaSPrime g eta).sigmaTr
        ∧ Vector3.Positive (BSSRDF.new L E sigmaA sigmaSPrime g eta).D
        ∧ Vector3.Positive (BSSRDF.new L E sigmaA sigmaSPrime g eta).zr
        ∧ 0 < (BSSRDF.new L E sigmaA sigmaSPrime g eta).Rmax)
      ∧ (Vector3.Positive (BSSRDF.new L E sigmaA sigmaSPrime g eta).zv
          ↔ 0 < 1 + 4 / 3 * (BSSRDF.new L E sigmaA sigmaSPrime g eta).A)
      ∧ (eta = 13 / 10 ∨ eta = 3 / 2 →
          0 < (BSSRDF.new L E sigmaA sigmaSPrime g eta).A
            ∧ Vector3.Positive (BSSRDF.new L E sigmaA sigmaSPrime g eta).zv)
      ∧ E.exp (-Vector3.Luminance (BSSRDF.new L E sigmaA sigmaSPrime g eta).sigmaTr
            * ((BSSRDF.new L E sigmaA sigmaSPrime g eta).Rmax) ^ 2) = 1 / 100 := by
  obtain ⟨ax, ay, az⟩ := ha
  obtain ⟨sx, sy, sz⟩ := hs
  have hg1 : 0 < 1 - g := by linarith
  have htx : 0 < sigmaA.x + sigmaSPrime.x := by linarith
  have hty : 0 < sigmaA.y + sigmaSPrime.y := by linarith
  have htz : 0 < sigmaA.z + sigmaSPrime.z := by linarith
  have hrx : sigmaA.x * (sigmaA.x + sigmaSPrime.x) * 3 = 3 * sigmaA.x * (sigmaA.x + sigmaSPrime.x) := by
    ring
  have hry : sigmaA.y * (sigmaA.y + sigmaSPrime.y) * 3 = 3 * sigmaA.y * (sigmaA.y + sigmaSPrime.y) := by
    ring
  have hrz : sigmaA.z * (sigmaA.z + sigmaSPrime.z) * 3 = 3 * sigmaA.z * (sigmaA.z + sigmaSPrime.z) := by
    ring
  have hTr : (BSSRDF.new L E sigmaA sigmaSPrime g eta).sigmaTr
      = ⟨L.sqrt (3 * sigmaA.x * (sigmaA.x + sigmaSPrime.x)),
          L.sqrt (3 * sigmaA.y * (sigmaA.y + sigmaSPrime.y)),
          L.sqrt (3 * sigmaA.z * (sigmaA.z + sigmaSPrime.z))⟩ := by
    simp only [BSSRDF.new, Vector3.SquareRoot, Vector3.scale, Vector3.mul, Vector3.add, hrx, hry,
      hrz]
  have hTrpos : Vector3.Positive (BSSRDF.new L E sigmaA sigmaSPrime g eta).sigmaTr := by
    rw [hTr]
    exact ⟨MathFns.sqrt_pos L hS _ (by positivity), MathFns.sqrt_pos L hS _ (by positivity),
      MathFns.sqrt_pos L hS _ (by positivity)⟩
  have hlum := Vector3.Luminance_pos _ hTrpos
  obtain ⟨r1, r2, -, r4⟩ := BSSRDF.Rmax_spec L E hS hE hL _ hlum
  have hzr : (BSSRDF.new L E sigmaA sigmaSPrime g eta).zr
      = ⟨1 / (sigmaA.x + sigmaSPrime.x), 1 / (sigmaA.y + sigmaSPrime.y),
          1 / (sigmaA.z + sigmaSPrime.z)⟩ := rfl
  have hzv : (BSSRDF.new L E sigmaA sigmaSPrime g eta).zv
      = Vector3.scale (BSSRDF.new L E sigmaA sigmaSPrime g eta).zr
          (1 + 4 / 3 * (BSSRDF.new L E sigmaA sigmaSPrime g eta).A) := rfl
  have hD : (BSSRDF.new L E sigmaA sigmaSPrime g eta).D
      = ⟨1 / ((sigmaA.x + sigmaSPrime.x) * 3), 1 / ((sigmaA.y + sigmaSPrime.y) * 3),
          1 / ((sigmaA.z + sigmaSPrime.z) * 3)⟩ := rfl
  have hsS : (BSSRDF.new L E sigmaA sigmaSPrime g eta).sigmaS
      = ⟨sigmaSPrime.x / (1 - g), sigmaSPrime.y / (1 - g), sigmaSPrime.z / (1 - g)⟩ := rfl
  have hR : (BSSRDF.new L E sigmaA sigmaSPrime g eta).Rmax
      = L.sqrt (E.log (1 / 100)
          / -Vector3.Luminance (BSSRDF.new L E sigmaA sigmaSPrime g eta).sigmaTr) := rfl
  have px : 0 < 1 / (sigmaA.x + sigmaSPrime.x) := by positivity
  have py : 0 < 1 / (sigmaA.y + sigmaSPrime.y) := by positivity
  have pz : 0 < 1 / (sigmaA.z + sigmaSPrime.z) := by positivity
  have hnx : sigmaA.x + sigmaSPrime.x ≠ 0 := ne_of_gt htx
  have hny : sigmaA.y + sigmaSPrime.y ≠ 0 := ne_of_gt hty
  have hnz : sigmaA.z + sigmaSPrime.z ≠ 0 := ne_of_gt htz
  refine ⟨⟨hsS, rfl, hTr, ?_, hzr, ?_, ?_, hR⟩, ⟨?_, ⟨htx, hty, htz⟩, hTrpos, ?_, ?_, ?_⟩,
    ?_, ?_, ?_⟩
  · rw [hD]
    simp only [Vector3.mk.injEq]
    exact ⟨by rw [mul_comm], by rw [mul_comm], by rw [mul_comm]⟩
  · rw [hzv]
    congr 1
    ring
  · rw [hzv, hzr, hD]
    generalize (BSSRDF.new L E sigmaA sigmaSPrime g eta).A = A
    simp only [Vector3.scale, Vector3.add, Vector3.mk.injEq]
    refine ⟨?_, ?_, ?_⟩
    · field_simp
    · field_simp
    · field_simp
  · rw [hsS]
    exact ⟨div_pos sx hg1, div_pos sy hg1, div_pos sz hg1⟩
  · rw [hD]
    exact ⟨by positivity, by positivity, by positivity⟩
  · rw [hzr]
    exact ⟨px, py, pz⟩
  · rw [hR]
    exact r1
  · rw [hzv, hzr]
    generalize (BSSRDF.new L E sigmaA sigmaSPrime g eta).A = A
    simp only [Vector3.Positive, Vector3.scale]
    constructor
    · intro h
      by_contra hc
      have h1 := h.1
      have h2 : 1 / (sigmaA.x + sigmaSPrime.x) * (1 + 4 / 3 * A) ≤ 0 :=
        mul_nonpos_of_nonneg_of_nonpos (le_of_lt px) (not_lt.mp hc)
      exact absurd h1 (not_lt.mpr h2)
    · intro h
      exact ⟨mul_pos px h, mul_pos py h, mul_pos pz h⟩
  · intro heta
    have hA := BSSRDF.new_A_pos L E sigmaA sigmaSPrime g eta heta
    refine ⟨hA, ?_⟩
    rw [hzv, hzr]
    generalize (BSSRDF.new L E sigmaA sigmaSPrime g eta).A = A at hA
    have hf : 0 < 1 + 4 / 3 * A := by positivity
    exact ⟨mul_pos px hf, mul_pos py hf, mul_pos pz hf⟩
  · rw [hR, sq, ← mul_assoc]
    exact r4

end Constructor

section ConstructorExamples

/-- Over the reals the library functions exist with the exact properties assumed of them:
the real square root, exponential, logarithm, cosine and sine, and the number `π`. -/
theorem ExpFns.real_exact :
    ∃ (L : MathFns ℝ) (E : ExpFns ℝ), MathFns.ExactSqrt L ∧ ExpFns.ExactExp E
      ∧ ExpFns.ExactLog E ∧ ExpFns.ExactTrig E ∧ 3 < L.pi
      ∧ (∀ x, E.exp x = Real.exp x) ∧ (∀ x, E.log x = Real.log x) :=
  ⟨{ sqrt := Real.sqrt, atan2 := fun _ _ => 0, asin := Real.arcsin,
      pow := fun x y => Real.rpow x y, pi := Real.pi },
    { exp := Real.exp, log := Real.log, cos := Real.cos, sin := Real.sin },
    fun x hx => ⟨Real.sqrt_nonneg x, Real.mul_self_sqrt hx⟩,
    ⟨fun a b => Real.exp_add a b, fun x => by
      have h := Real.add_one_le_exp x
      linarith⟩,
    fun x hx => Real.exp_log hx,
    fun x => by
      have h := Real.cos_sq_add_sin_sq x
      nlinarith [h],
    Real.pi_gt_three, fun _ => rfl, fun _ => rfl⟩

/-- Witness for `BSSRDF.new_spec`: the constructor at the coefficients `(1,1,1)` and `(1,1,1)`
with `g = 0` and `eta = 13/10`, over the reals with the exact library functions. -/
theorem BSSRDF.new_spec_witness :
    ∃ (L : MathFns ℝ) (E : ExpFns ℝ), MathFns.ExactSqrt L ∧ ExpFns.ExactExp E
      ∧ ExpFns.ExactLog E ∧ Vector3.Positive (⟨1, 1, 1⟩ : Vector3 ℝ) ∧ (0 : ℝ) < 1
      ∧ (BSSRDF.new L E ⟨1, 1, 1⟩ ⟨1, 1, 1⟩ 0 (13 / 10)).sigmaS = ⟨1 / (1 - 0), 1 / (1 - 0),
          1 / (1 - 0)⟩
      ∧ (BSSRDF.new L E ⟨1, 1, 1⟩ ⟨1, 1, 1⟩ 0 (13 / 10)).zr
          = ⟨1 / (1 + 1), 1 / (1 + 1), 1 / (1 + 1)⟩
      ∧ Vector3.Positive (BSSRDF.new L E ⟨1, 1, 1⟩ ⟨1, 1, 1⟩ 0 (13 / 10)).sigmaTr
      ∧ 0 < (BSSRDF.new L E ⟨1, 1, 1⟩ ⟨1, 1, 1⟩ 0 (13 / 10)).Rmax
      ∧ Vector3.Positive (BSSRDF.new L E ⟨1, 1, 1⟩ ⟨1, 1, 1⟩ 0 (13 / 10)).zv
      ∧ E.exp (-Vector3.Luminance (BSSRDF.new L E ⟨1, 1, 1⟩ ⟨1, 1, 1⟩ 0 (13 / 10)).sigmaTr
            * ((BSSRDF.new L E ⟨1, 1, 1⟩ ⟨1, 1, 1⟩ 0 (13 / 10)).Rmax) ^ 2) = 1 / 100 := by
  obtain ⟨L, E, hS, hE, hL, -, -, -, -⟩ := ExpFns.real_exact
  have hp : Vector3.Positive (⟨1, 1, 1⟩ : Vector3 ℝ) := ⟨one_pos, one_pos, one_pos⟩
  have h := BSSRDF.new_spec L E ⟨1, 1, 1⟩ ⟨1, 1, 1⟩ 0 (13 / 10) hS hE hL hp hp one_pos
  exact ⟨L, E, hS, hE, hL, hp, one_pos, h.1.1, h.1.2.2.2.2.1, h.2.1.2.2.1, h.2.1.2.2.2.2.2,
    (h.2.2.2.1 (Or.inl rfl)).2, h.2.2.2.2⟩

/-- Counterexample for C26 as stated: with positive coefficients `(1,1,1)`, `g = 0 < 1` and
`eta = 4`, the rational fit gives `Fdr > 1`, hence `A < 0` and a negative `zv`. -/
theorem BSSRDF.new_negative_zv :
    Vector3.Positive (⟨1, 1, 1⟩ : Vector3 ℚ) ∧ (0 : ℚ) < 1
      ∧ BSSRDF.FresnelDiffuseReflectance (4 : ℚ) = 16159700 / 16000000
      ∧ (BSSRDF.new exactFns stubExp ⟨1, 1, 1⟩ ⟨1, 1, 1⟩ 0 4).zv.x < 0
      ∧ (BSSRDF.new exactFns stubExp ⟨1, 1, 1⟩ ⟨1, 1, 1⟩ 0 4).zv.y < 0
      ∧ (BSSRDF.new exactFns stubExp ⟨1, 1, 1⟩ ⟨1, 1, 1⟩ 0 4).zv.z < 0 := by
  have hF : BSSRDF.FresnelDiffuseReflectance (4 : ℚ) = 16159700 / 16000000 := by
    unfold BSSRDF.FresnelDiffuseReflectance
    norm_num
  refine ⟨⟨by norm_num, by norm_num, by norm_num⟩, by norm_num, hF, ?_, ?_, ?_⟩
  · simp only [BSSRDF.new, hF, Vector3.scale, Vector3.div, Vector3.add]
    norm_num
  · simp only [BSSRDF.new, hF, Vector3.scale, Vector3.div, Vector3.add]
    norm_num
  · simp only [BSSRDF.new, hF, Vector3.scale, Vector3.div, Vector3.add]
    norm_num

end ConstructorExamples

section PhaseFunction

variable {F : Type} [LinearOrderedField F]

/-- Claim C25.  `BSSRDF::Phase` is not the Henyey-Greenstein function: its first factor is
`(1 / 4) * pi` where the function has `1 / (4 pi)`, so it returns `pi^2` times the
Henyey-Greenstein value, a different number whenever that value is not zero; for `g = 0` it is
the constant `pi / 4`, not `1 / (4 pi)`. -/
theorem BSSRDF.Phase_scaled (L : MathFns F) (b : BSSRDF F) (cosTheta : F) (hpi : 3 < L.pi)
    (hg : b.g * b.g < 1)
    (hpow : 0 < L.pow (1 + 2 * b.g * cosTheta + b.g * b.g) (3 / 2)) :
    BSSRDF.Phase L b cosTheta = L.pi * L.pi * BSSRDF.henyeyGreenstein L b.g cosTheta
      ∧ BSSRDF.Phase L b cosTheta ≠ BSSRDF.henyeyGreenstein L b.g cosTheta
      ∧ (b.g = 0 → L.pow 1 (3 / 2) = 1 →
          BSSRDF.Phase L b cosTheta = L.pi / 4
          ∧ BSSRDF.henyeyGreenstein L b.g cosTheta = 1 / (4 * L.pi)
          ∧ L.pi / 4 ≠ 1 / (4 * L.pi)) := by
  have hp0 : L.pi ≠ 0 := by linarith
  have hw : L.pow (1 + 2 * b.g * cosTheta + b.g * b.g) (3 / 2) ≠ 0 := ne_of_gt hpow
  have hsq : b.g ^ 2 = b.g * b.g := sq b.g
  have heq : BSSRDF.Phase L b cosTheta
      = L.pi * L.pi * BSSRDF.henyeyGreenstein L b.g cosTheta := by
    unfold BSSRDF.Phase BSSRDF.henyeyGreenstein
    rw [hsq]
    field_simp
    ring
  have hHG : 0 < BSSRDF.henyeyGreenstein L b.g cosTheta := by
    unfold BSSRDF.henyeyGreenstein
    rw [hsq]
    have h1 : 0 < 1 - b.g * b.g := by linarith
    have h2 : 0 < 4 * L.pi := by linarith
    positivity
  have hpp : 1 < L.pi * L.pi := by nlinarith
  refine ⟨heq, ?_, ?_⟩
  · rw [heq]
    intro h
    nlinarith
  · intro h0 h1
    refine ⟨?_, ?_, ?_⟩
    · unfold BSSRDF.Phase
      rw [h0]
      simp only [mul_zero, zero_mul, add_zero, sub_zero, h1]
      ring
    · unfold BSSRDF.henyeyGreenstein
      rw [h0]
      have e1 : (1 : F) + 2 * 0 * cosTheta + 0 ^ 2 = 1 := by ring
      rw [e1, h1]
      ring
    · intro h
      field_simp at h
      nlinarith

end PhaseFunction

section PhaseExamples

theorem BSSRDF.new_g {F : Type} [LinearOrderedField F] (L : MathFns F) (E : ExpFns F)
    (sigmaA sigmaSPrime : Vector3 F) (g eta : F) :
    (BSSRDF.new L E sigmaA sigmaSPrime g eta).g = g := rfl

/-- Witness for `BSSRDF.Phase_scaled`: the isotropic profile `g = 0` with `pi` taken as
`22/7`. -/
theorem BSSRDF.Phase_scaled_witness :
    BSSRDF.Phase exactFns (BSSRDF.new exactFns stubExp ⟨1, 1, 1⟩ ⟨1, 1, 1⟩ 0 (13 / 10)) (1 / 2)
        = 11 / 14
      ∧ BSSRDF.henyeyGreenstein exactFns
          (BSSRDF.new exactFns stubExp ⟨1, 1, 1⟩ ⟨1, 1, 1⟩ 0 (13 / 10)).g (1 / 2) = 7 / 88 := by
  have h := BSSRDF.Phase_scaled exactFns
    (BSSRDF.new exactFns stubExp ⟨1, 1, 1⟩ ⟨1, 1, 1⟩ 0 (13 / 10)) (1 / 2)
    (by norm_num [exactFns]) (by rw [BSSRDF.new_g]; norm_num)
    (by
      rw [BSSRDF.new_g]
      show (0 : ℚ) < 1 + 2 * 0 * (1 / 2) + 0 * 0
      norm_num)
  obtain ⟨e1, e2, -⟩ := h.2.2 (BSSRDF.new_g _ _ _ _ _ _) rfl
  have hpi : exactFns.pi = 22 / 7 := rfl
  rw [hpi] at e1 e2
  constructor
  · rw [e1]
    norm_num
  · rw [e2]
    norm_num

end PhaseExamples

section Dipole

variable {F : Type} [LinearOrderedField F]

/-- One dipole term `z (σ d + 1) exp(-σ d) / d^3` with `d = sqrt(z^2 + r^2)` is non-negative
and does not increase with `r >= 0`. -/
theorem BSSRDF.dipole_antitone (L : MathFns F) (E : ExpFns F) (hS : MathFns.ExactSqrt L)
    (hE : ExpFns.ExactExp E) (z s r1 r2 : F) (hz : 0 < z) (hs : 0 ≤ s) (h0 : 0 ≤ r1)
    (h : r1 ≤ r2) :
    0 ≤ z * (s * L.sqrt (z * z + r2 * r2) + 1) * E.exp (-(s * L.sqrt (z * z + r2 * r2)))
          / (L.sqrt (z * z + r2 * r2) * L.sqrt (z * z + r2 * r2) * L.sqrt (z * z + r2 * r2))
      ∧ z * (s * L.sqrt (z * z + r2 * r2) + 1) * E.exp (-(s * L.sqrt (z * z + r2 * r2)))
          / (L.sqrt (z * z + r2 * r2) * L.sqrt (z * z + r2 * r2) * L.sqrt (z * z + r2 * r2))
        ≤ z * (s * L.sqrt (z * z + r1 * r1) + 1) * E.exp (-(s * L.sqrt (z * z + r1 * r1)))
          / (L.sqrt (z * z + r1 * r1) * L.sqrt (z * z + r1 * r1)
            * L.sqrt (z * z + r1 * r1)) := by
  have hq1 : 0 < z * z + r1 * r1 := by positivity
  have hq : z * z + r1 * r1 ≤ z * z + r2 * r2 := by nlinarith
  have hd1 : 0 < L.sqrt (z * z + r1 * r1) := MathFns.sqrt_pos L hS _ hq1
  have hd : L.sqrt (z * z + r1 * r1) ≤ L.sqrt (z * z + r2 * r2) :=
    MathFns.sqrt_le L hS _ _ (le_of_lt hq1) hq
  generalize L.sqrt (z * z + r1 * r1) = d1 at hd1 hd ⊢
  generalize L.sqrt (z * z + r2 * r2) = d2 at hd ⊢
  have hd2 : 0 < d2 := lt_of_lt_of_le hd1 hd
  have hk := ExpFns.kernel_antitone E hE (s * d1) (s * d2) (mul_nonneg hs (le_of_lt hd1))
    (mul_le_mul_of_nonneg_left hd hs)
  have he2 := ExpFns.exp_pos E hE (-(s * d2))
  have hn2 : 0 ≤ z * (s * d2 + 1) * E.exp (-(s * d2)) := by positivity
  constructor
  · positivity
  · apply div_le_div₀
    · have he1 := ExpFns.exp_pos E hE (-(s * d1))
      positivity
    · rw [mul_assoc, mul_assoc]
      exact mul_le_mul_of_nonneg_left hk (le_of_lt hz)
    · positivity
    · have h1 : d1 * d1 ≤ d2 * d2 := mul_le_mul hd hd (le_of_lt hd1) (le_of_lt hd2)
      exact mul_le_mul h1 hd (le_of_lt hd1) (by positivity)

/-- The clamp `min(max(x, 0), 1)` lands in `[0, 1]` and is monotone. -/
theorem BSSRDF.clamp_spec (x y : F) :
    (0 ≤ min (max x 0) 1 ∧ min (max x 0) 1 ≤ 1)
      ∧ (x ≤ y → min (max x 0) 1 ≤ min (max y 0) 1) :=
  ⟨⟨le_min (le_max_right x 0) (zero_le_one : (0 : F) ≤ 1), min_le_right _ _⟩,
    fun h => min_le_min (max_le_max h le_rfl) le_rfl⟩

/-- One channel of the unclamped reflectance, `c (pos + neg)`, does not increase with `r` after
the clamp, whatever the sign of the factor `c`. -/
theorem BSSRDF.channel_antitone (c p1 p2 n1 n2 : F) (hp : 0 ≤ p2) (hp12 : p2 ≤ p1)
    (hn : 0 ≤ n2) (hn12 : n2 ≤ n1) :
    min (max (c * (p2 + n2)) 0) 1 ≤ min (max (c * (p1 + n1)) 0) 1 := by
  rcases le_total 0 c with hc | hc
  · exact (BSSRDF.clamp_spec _ _).2 (mul_le_mul_of_nonneg_left (by linarith) hc)
  · have h2 : c * (p2 + n2) ≤ 0 := mul_nonpos_of_nonpos_of_nonneg hc (by linarith)
    rw [max_eq_right h2, min_eq_left (zero_le_one : (0 : F) ≤ 1)]
    exact (BSSRDF.clamp_spec (c * (p1 + n1)) 0).1.1

theorem BSSRDF.new_zr (L : MathFns F) (E : ExpFns F) (sigmaA sigmaSPrime : Vector3 F)
    (g eta : F) :
    (BSSRDF.new L E sigmaA sigmaSPrime g eta).zr
      = ⟨1 / (sigmaA.x + sigmaSPrime.x), 1 / (sigmaA.y + sigmaSPrime.y),
          1 / (sigmaA.z + sigmaSPrime.z)⟩ := rfl

theorem BSSRDF.new_zv (L : MathFns F) (E : ExpFns F) (sigmaA sigmaSPrime : Vector3 F)
    (g eta : F) :
    (BSSRDF.new L E sigmaA sigmaSPrime g eta).zv
      = ⟨1 / (sigmaA.x + sigmaSPrime.x)
            * (1 + 4 / 3 * ((1 + BSSRDF.FresnelDiffuseReflectance eta)
              / (1 - BSSRDF.FresnelDiffuseReflectance eta))),
          1 / (sigmaA.y + sigmaSPrime.y)
            * (1 + 4 / 3 * ((1 + BSSRDF.FresnelDiffuseReflectance eta)
              / (1 - BSSRDF.FresnelDiffuseReflectance eta))),
          1 / (sigmaA.z + sigmaSPrime.z)
            * (1 + 4 / 3 * ((1 + BSSRDF.FresnelDiffuseReflectance eta)
              / (1 - BSSRDF.FresnelDiffuseReflectance eta)))⟩ := rfl

theorem BSSRDF.new_sigmaTr (L : MathFns F) (E : ExpFns F) (sigmaA sigmaSPrime : Vector3 F)
    (g eta : F) :
    (BSSRDF.new L E sigmaA sigmaSPrime g eta).sigmaTr
      = ⟨L.sqrt (sigmaA.x * (sigmaA.x + sigmaSPrime.x) * 3),
          L.sqrt (sigmaA.y * (sigmaA.y + sigmaSPrime.y) * 3),
          L.sqrt (sigmaA.z * (sigmaA.z + sigmaSPrime.z) * 3)⟩ := rfl

theorem BSSRDF.new_sigmaTr_pos (L : MathFns F) (E : ExpFns F) (hS : MathFns.ExactSqrt L)
    (sigmaA sigmaSPrime : Vector3 F) (g eta : F) (ha : Vector3.Positive sigmaA)
    (hs : Vector3.Positive sigmaSPrime) :
    Vector3.Positive (BSSRDF.new L E sigmaA sigmaSPrime g eta).sigmaTr := by
  obtain ⟨ax, ay, az⟩ := ha
  obtain ⟨sx, sy, sz⟩ := hs
  rw [BSSRDF.new_sigmaTr]
  exact ⟨MathFns.sqrt_pos L hS _ (by positivity), MathFns.sqrt_pos L hS _ (by positivity),
    MathFns.sqrt_pos L hS _ (by positivity)⟩

/-- The value of `DiffuseReflectance`, channel by channel. -/
theorem BSSRDF.DiffuseReflectance_eq (L : MathFns F) (E : ExpFns F) (b : BSSRDF F) (r : F) :
    BSSRDF.DiffuseReflectance L E b r
      = ⟨min (max (b.alphaPrime.x / (4 * L.pi)
            * (b.zr.x * (b.sigmaTr.x * L.sqrt (b.zr.x * b.zr.x + r * r) + 1)
                * E.exp (-(b.sigmaTr.x * L.sqrt (b.zr.x * b.zr.x + r * r)))
                / (L.sqrt (b.zr.x * b.zr.x + r * r) * L.sqrt (b.zr.x * b.zr.x + r * r)
                  * L.sqrt (b.zr.x * b.zr.x + r * r))
              + b.zv.x * (b.sigmaTr.x * L.sqrt (b.zv.x * b.zv.x + r * r) + 1)
                * E.exp (-(b.sigmaTr.x * L.sqrt (b.zv.x * b.zv.x + r * r)))
                / (L.sqrt (b.zv.x * b.zv.x + r * r) * L.sqrt (b.zv.x * b.zv.x + r * r)
                  * L.sqrt (b.zv.x * b.zv.x + r * r)))) 0) 1,
        min (max (b.alphaPrime.y / (4 * L.pi)
            * (b.zr.y * (b.sigmaTr.y * L.sqrt (b.zr.y * b.zr.y + r * r) + 1)
                * E.exp (-(b.sigmaTr.y * L.sqrt (b.zr.y * b.zr.y + r * r)))
                / (L.sqrt (b.zr.y * b.zr.y + r * r) * L.sqrt (b.zr.y * b.zr.y + r * r)
                  * L.sqrt (b.zr.y * b.zr.y + r * r))
              + b.zv.y * (b.sigmaTr.y * L.sqrt (b.zv.y * b.zv.y + r * r) + 1)
                * E.exp (-(b.sigmaTr.y * L.sqrt (b.zv.y * b.zv.y + r * r)))
                / (L.sqrt (b.zv.y * b.zv.y + r * r) * L.sqrt (b.zv.y * b.zv.y + r * r)
                  * L.sqrt (b.zv.y * b.zv.y + r * r)))) 0) 1,
        min (max (b.alphaPrime.z / (4 * L.pi)
            * (b.zr.z * (b.sigmaTr.z * L.sqrt (b.zr.z * b.zr.z + r * r) + 1)
                * E.exp (-(b.sigmaTr.z * L.sqrt (b.zr.z * b.zr.z + r * r)))
                / (L.sqrt (b.zr.z * b.zr.z + r * r) * L.sqrt (b.zr.z * b.zr.z + r * r)
                  * L.sqrt (b.zr.z * b.zr.z + r * r))
              + b.zv.z * (b.sigmaTr.z * L.sqrt (b.zv.z * b.zv.z + r * r) + 1)
                * E.exp (-(b.sigmaTr.z * L.sqrt (b.zv.z * b.zv.z + r * r)))
                / (L.sqrt (b.zv.z * b.zv.z + r * r) * L.sqrt (b.zv.z * b.zv.z + r * r)
                  * L.sqrt (b.zv.z * b.zv.z + r * r)))) 0) 1⟩ := rfl

/-- Claim C22.  For a profile built by the constructor from positive absorption and reduced
scattering coefficients whose virtual-source depth `zv` is positive (exact `sqrt` and `exp`):
every channel of `DiffuseReflectance(r)` lies in `[0, 1]`, and for `0 <= r1 <= r2` no channel
of `DiffuseReflectance(r2)` exceeds the channel of `DiffuseReflectance(r1)`. -/
theorem BSSRDF.DiffuseReflectance_unit_antitone (L : MathFns F) (E : ExpFns F)
    (sigmaA sigmaSPrime : Vector3 F) (g eta : F) (hS : MathFns.ExactSqrt L)
    (hE : ExpFns.ExactExp E) (ha : Vector3.Positive sigmaA)
    (hs : Vector3.Positive sigmaSPrime)
    (hzv : Vector3.Positive (BSSRDF.new L E sigmaA sigmaSPrime g eta).zv) :
    (∀ r : F, Vector3.InUnit
        (BSSRDF.DiffuseReflectance L E (BSSRDF.new L E sigmaA sigmaSPrime g eta) r))
      ∧ ∀ r1 r2 : F, 0 ≤ r1 → r1 ≤ r2 →
          Vector3.Le
            (BSSRDF.DiffuseReflectance L E (BSSRDF.new L E sigmaA sigmaSPrime g eta) r2)
            (BSSRDF.DiffuseReflectance L E (BSSRDF.new L E sigmaA sigmaSPrime g eta) r1) := by
  have hTr := BSSRDF.new_sigmaTr_pos L E hS sigmaA sigmaSPrime g eta ha hs
  have hzr : Vector3.Positive (BSSRDF.new L E sigmaA sigmaSPrime g eta).zr := by
    obtain ⟨ax, ay, az⟩ := ha
    obtain ⟨sx, sy, sz⟩ := hs
    rw [BSSRDF.new_zr]
    exact ⟨by positivity, by positivity, by positivity⟩
  generalize BSSRDF.new L E sigmaA sigmaSPrime g eta = b at hzv hTr hzr
  constructor
  · intro r
    rw [BSSRDF.DiffuseReflectance_eq]
    exact ⟨(BSSRDF.clamp_spec _ 0).1, (BSSRDF.clamp_spec _ 0).1, (BSSRDF.clamp_spec _ 0).1⟩
  · intro r1 r2 h0 h
    rw [BSSRDF.DiffuseReflectance_eq, BSSRDF.DiffuseReflectance_eq]
    have px := BSSRDF.dipole_antitone L E hS hE b.zr.x b.sigmaTr.x r1 r2 hzr.1
      (le_of_lt hTr.1) h0 h
    have py := BSSRDF.dipole_antitone L E hS hE b.zr.y b.sigmaTr.y r1 r2 hzr.2.1
      (le_of_lt hTr.2.1) h0 h
    have pz := BSSRDF.dipole_antitone L E hS hE b.zr.z b.sigmaTr.z r1 r2 hzr.2.2
      (le_of_lt hTr.2.2) h0 h
    have nx := BSSRDF.dipole_antitone L E hS hE b.zv.x b.sigmaTr.x r1 r2 hzv.1
      (le_of_lt hTr.1) h0 h
    have ny := BSSRDF.dipole_antitone L E hS hE b.zv.y b.sigmaTr.y r1 r2 hzv.2.1
      (le_of_lt hTr.2.1) h0 h
    have nz := BSSRDF.dipole_antitone L E hS hE b.zv.z b.sigmaTr.z r1 r2 hzv.2.2
      (le_of_lt hTr.2.2) h0 h
    exact ⟨BSSRDF.channel_antitone _ _ _ _ _ px.1 px.2 nx.1 nx.2,
      BSSRDF.channel_antitone _ _ _ _ _ py.1 py.2 ny.1 ny.2,
      BSSRDF.channel_antitone _ _ _ _ _ pz.1 pz.2 nz.1 nz.2⟩

/-- Claim C23.  For a profile built by the constructor whose `sigmaTr` luminance is positive
(exact `sqrt`, `exp`, `log`, `cos`, `sin`), every `u1` and every `u2` in `[0, 1]`: the point
`ImportanceSampleDiffusion(u1, u2)` has `z = 0` and lies at the distance
`r = sqrt(ln(1 - u2 (1 - exp(-s Rmax^2))) / -s)` from the origin, and `0 <= r <= Rmax`. -/
theorem BSSRDF.ImportanceSampleDiffusion_disk (L : MathFns F) (E : ExpFns F)
    (sigmaA sigmaSPrime : Vector3 F) (g eta : F) (hS : MathFns.ExactSqrt L)
    (hE : ExpFns.ExactExp E) (hL : ExpFns.ExactLog E) (hT : ExpFns.ExactTrig E)
    (hs : 0 < Vector3.Luminance (BSSRDF.new L E sigmaA sigmaSPrime g eta).sigmaTr)
    (u1 u2 : F) (h0 : 0 ≤ u2) (h1 : u2 ≤ 1) :
    (BSSRDF.ImportanceSampleDiffusion L E (BSSRDF.new L E sigmaA sigmaSPrime g eta) u1 u2).z
        = 0
      ∧ ∃ r : F, 0 ≤ r ∧ r ≤ (BSSRDF.new L E sigmaA sigmaSPrime g eta).Rmax
        ∧ r = L.sqrt (E.log (1 - u2 * (1 - E.exp
                (-Vector3.Luminance (BSSRDF.new L E sigmaA sigmaSPrime g eta).sigmaTr
                  * (BSSRDF.new L E sigmaA sigmaSPrime g eta).Rmax
                  * (BSSRDF.new L E sigmaA sigmaSPrime g eta).Rmax)))
            / -Vector3.Luminance (BSSRDF.new L E sigmaA sigmaSPrime g eta).sigmaTr)
        ∧ (BSSRDF.ImportanceSampleDiffusion L E
              (BSSRDF.new L E sigmaA sigmaSPrime g eta) u1 u2).x ^ 2
            + (BSSRDF.ImportanceSampleDiffusion L E
              (BSSRDF.new L E sigmaA sigmaSPrime g eta) u1 u2).y ^ 2 = r ^ 2 := by
  have hR : (BSSRDF.new L E sigmaA sigmaSPrime g eta).Rmax
      = L.sqrt (E.log (1 / 100)
          / -Vector3.Luminance (BSSRDF.new L E sigmaA sigmaSPrime g eta).sigmaTr) := rfl
  obtain ⟨r1, r2, r3, r4⟩ := BSSRDF.Rmax_spec L E hS hE hL _ hs
  rw [← hR] at r1 r2 r3 r4
  generalize (BSSRDF.new L E sigmaA sigmaSPrime g eta) = b at hs hR r1 r2 r3 r4 ⊢
  simp only [BSSRDF.ImportanceSampleDiffusion]
  generalize Vector3.Luminance b.sigmaTr = s at hs hR r1 r2 r3 r4 ⊢
  have harg1 : 1 / 100 ≤ 1 - u2 * (1 - E.exp (-s * b.Rmax * b.Rmax)) := by
    rw [r4]
    linarith
  have harg2 : 1 - u2 * (1 - E.exp (-s * b.Rmax * b.Rmax)) ≤ 1 := by
    rw [r4]
    nlinarith
  have hpos : (0 : F) < 1 - u2 * (1 - E.exp (-s * b.Rmax * b.Rmax)) :=
    lt_of_lt_of_le (by norm_num) harg1
  have hl1 := ExpFns.log_le E hE hL _ _ (by norm_num) harg1
  have hl2 := ExpFns.log_le E hE hL _ _ hpos harg2
  rw [ExpFns.log_one E hE hL] at hl2
  have hneg : -s < 0 := by linarith
  have hq0 : 0 ≤ E.log (1 - u2 * (1 - E.exp (-s * b.Rmax * b.Rmax))) / -s :=
    div_nonneg_of_nonpos hl2 (le_of_lt hneg)
  have hq1 : E.log (1 - u2 * (1 - E.exp (-s * b.Rmax * b.Rmax))) / -s
      ≤ E.log (1 / 100) / -s := div_le_div_of_nonpos_of_le (le_of_lt hneg) hl1
  refine ⟨trivial, _, (hS _ hq0).1, ?_, rfl, ?_⟩
  · exact le_of_le_of_eq (MathFns.sqrt_le L hS _ _ hq0 hq1) hR.symm
  · show (L.sqrt (E.log (1 - u2 * (1 - E.exp (-s * b.Rmax * b.Rmax))) / -s)
        * E.cos (2 * L.pi * u1)) ^ 2
      + (L.sqrt (E.log (1 - u2 * (1 - E.exp (-s * b.Rmax * b.Rmax))) / -s)
        * E.sin (2 * L.pi * u1)) ^ 2 = _
    have ht := hT (2 * L.pi * u1)
    linear_combination
      (L.sqrt (E.log (1 - u2 * (1 - E.exp (-s * b.Rmax * b.Rmax))) / -s)) ^ 2 * ht

end Dipole

section SingleScatter

/-- Claim C24.  Over the reals, with `exp` and `log` the real exponential and logarithm, and
`s` the luminance of `sigmaT` positive: `SampleSingleScatterPDF(x) = s exp(-s x)` is
non-negative and its integral over `[0, ∞)` is `1`; for `u` in `(0, 1]` the sample
`x = ImportanceSampleSingleScatter(u) = -ln(u) / s` is non-negative and
`SampleSingleScatterPDF(x) = s u`. -/
theorem BSSRDF.SampleSingleScatterPDF_density (E : ExpFns ℝ) (b : BSSRDF ℝ)
    (hexp : ∀ x, E.exp x = Real.exp x) (hlog : ∀ x, E.log x = Real.log x)
    (hs : 0 < Vector3.Luminance b.sigmaT) :
    (∀ x : ℝ, BSSRDF.SampleSingleScatterPDF E b x
        = Vector3.Luminance b.sigmaT * Real.exp (-Vector3.Luminance b.sigmaT * x)
        ∧ 0 ≤ BSSRDF.SampleSingleScatterPDF E b x)
      ∧ (∫ x in Set.Ici (0 : ℝ), BSSRDF.SampleSingleScatterPDF E b x) = 1
      ∧ ∀ u : ℝ, 0 < u → u ≤ 1 →
          BSSRDF.ImportanceSampleSingleScatter E b u
              = -Real.log u / Vector3.Luminance b.sigmaT
            ∧ 0 ≤ BSSRDF.ImportanceSampleSingleScatter E b u
            ∧ BSSRDF.SampleSingleScatterPDF E b (BSSRDF.ImportanceSampleSingleScatter E b u)
              = Vector3.Luminance b.sigmaT * u := by
  have hpdf : ∀ x : ℝ, BSSRDF.SampleSingleScatterPDF E b x
      = Vector3.Luminance b.sigmaT * Real.exp (-Vector3.Luminance b.sigmaT * x) := by
    intro x
    unfold BSSRDF.SampleSingleScatterPDF
    rw [hexp]
  have hiss : ∀ u : ℝ, BSSRDF.ImportanceSampleSingleScatter E b u
      = -Real.log u / Vector3.Luminance b.sigmaT := by
    intro u
    unfold BSSRDF.ImportanceSampleSingleScatter
    rw [hlog]
  generalize Vector3.Luminance b.sigmaT = s at hs hpdf hiss ⊢
  refine ⟨fun x => ⟨hpdf x, ?_⟩, ?_, ?_⟩
  · rw [hpdf]
    exact mul_nonneg (le_of_lt hs) (le_of_lt (Real.exp_pos _))
  · rw [MeasureTheory.integral_Ici_eq_integral_Ioi]
    simp only [hpdf]
    rw [MeasureTheory.integral_mul_left]
    have h1 : (fun x : ℝ => Real.exp (-s * x)) = fun x : ℝ => (fun y => Real.exp (-y)) (s * x) := by
      funext x
      simp only [neg_mul]
    rw [h1, MeasureTheory.integral_comp_mul_left_Ioi (fun y => Real.exp (-y)) 0 hs, mul_zero,
      integral_exp_neg_Ioi_zero, smul_eq_mul, mul_one]
    exact mul_inv_cancel₀ (ne_of_gt hs)
  · intro u hu0 hu1
    have hl : Real.log u ≤ 0 := Real.log_nonpos (le_of_lt hu0) hu1
    refine ⟨hiss u, ?_, ?_⟩
    · rw [hiss]
      exact div_nonneg (by linarith) (le_of_lt hs)
    · rw [hiss, hpdf]
      have h2 : -s * (-Real.log u / s) = Real.log u := by
        field_simp
      rw [h2, Real.exp_log hu0]

end SingleScatter

section ProfileExamples

/-- For `eta = 13/10` the diffuse Fresnel reflectance lies strictly between `0` and `1`. -/
theorem BSSRDF.FresnelDiffuseReflectance_sample :
    0 < BSSRDF.FresnelDiffuseReflectance (13 / 10 : ℝ)
      ∧ BSSRDF.FresnelDiffuseReflectance (13 / 10 : ℝ) < 1 := by
  unfold BSSRDF.FresnelDiffuseReflectance
  rw [if_pos (by norm_num)]
  constructor <;> norm_num

/-- The profile with coefficients `(1,1,1)` and `(1,1,1)`, `g = 0` and `eta = 13/10` has a
positive virtual-source depth. -/
theorem BSSRDF.sample_zv_pos (L : MathFns ℝ) (E : ExpFns ℝ) :
    Vector3.Positive (BSSRDF.new L E ⟨1, 1, 1⟩ ⟨1, 1, 1⟩ 0 (13 / 10)).zv := by
  obtain ⟨h0, h1⟩ := BSSRDF.FresnelDiffuseReflectance_sample
  have hA : 0 < (1 + BSSRDF.FresnelDiffuseReflectance (13 / 10 : ℝ))
      / (1 - BSSRDF.FresnelDiffuseReflectance (13 / 10 : ℝ)) :=
    div_pos (by linarith) (by linarith)
  rw [BSSRDF.new_zv]
  exact ⟨by positivity, by positivity, by positivity⟩

/-- Witness for `BSSRDF.DiffuseReflectance_unit_antitone`: the profile with coefficients
`(1,1,1)` and `(1,1,1)`, `g = 0` and `eta = 13/10` over the reals, at `r = 0` and `r = 1`. -/
theorem BSSRDF.DiffuseReflectance_unit_antitone_witness :
    ∃ (L : MathFns ℝ) (E : ExpFns ℝ), MathFns.ExactSqrt L ∧ ExpFns.ExactExp E
      ∧ Vector3.Positive (⟨1, 1, 1⟩ : Vector3 ℝ)
      ∧ Vector3.Positive (BSSRDF.new L E ⟨1, 1, 1⟩ ⟨1, 1, 1⟩ 0 (13 / 10)).zv
      ∧ Vector3.InUnit
          (BSSRDF.DiffuseReflectance L E (BSSRDF.new L E ⟨1, 1, 1⟩ ⟨1, 1, 1⟩ 0 (13 / 10)) 1)
      ∧ Vector3.Le
          (BSSRDF.DiffuseReflectance L E (BSSRDF.new L E ⟨1, 1, 1⟩ ⟨1, 1, 1⟩ 0 (13 / 10)) 1)
          (BSSRDF.DiffuseReflectance L E (BSSRDF.new L E ⟨1, 1, 1⟩ ⟨1, 1, 1⟩ 0 (13 / 10))
            0) := by
  obtain ⟨L, E, hS, hE, -, -, -, -, -⟩ := ExpFns.real_exact
  have hp : Vector3.Positive (⟨1, 1, 1⟩ : Vector3 ℝ) := ⟨one_pos, one_pos, one_pos⟩
  have h := BSSRDF.DiffuseReflectance_unit_antitone L E ⟨1, 1, 1⟩ ⟨1, 1, 1⟩ 0 (13 / 10) hS hE
    hp hp (BSSRDF.sample_zv_pos L E)
  exact ⟨L, E, hS, hE, hp, BSSRDF.sample_zv_pos L E, h.1 1, h.2 0 1 le_rfl zero_le_one⟩

/-- Witness for `BSSRDF.ImportanceSampleDiffusion_disk`: the same profile over the reals, at
`u1 = 1/4` and `u2 = 1/2`. -/
theorem BSSRDF.ImportanceSampleDiffusion_disk_witness :
    ∃ (L : MathFns ℝ) (E : ExpFns ℝ), MathFns.ExactSqrt L ∧ ExpFns.ExactExp E
      ∧ ExpFns.ExactLog E ∧ ExpFns.ExactTrig E
      ∧ 0 < Vector3.Luminance (BSSRDF.new L E ⟨1, 1, 1⟩ ⟨1, 1, 1⟩ 0 (13 / 10)).sigmaTr
      ∧ (0 : ℝ) ≤ 1 / 2 ∧ (1 / 2 : ℝ) ≤ 1
      ∧ (BSSRDF.ImportanceSampleDiffusion L E
            (BSSRDF.new L E ⟨1, 1, 1⟩ ⟨1, 1, 1⟩ 0 (13 / 10)) (1 / 4) (1 / 2)).z = 0
      ∧ ∃ r : ℝ, 0 ≤ r ∧ r ≤ (BSSRDF.new L E ⟨1, 1, 1⟩ ⟨1, 1, 1⟩ 0 (13 / 10)).Rmax
        ∧ (BSSRDF.ImportanceSampleDiffusion L E
              (BSSRDF.new L E ⟨1, 1, 1⟩ ⟨1, 1, 1⟩ 0 (13 / 10)) (1 / 4) (1 / 2)).x ^ 2
            + (BSSRDF.ImportanceSampleDiffusion L E
              (BSSRDF.new L E ⟨1, 1, 1⟩ ⟨1, 1, 1⟩ 0 (13 / 10)) (1 / 4) (1 / 2)).y ^ 2
            = r ^ 2 := by
  obtain ⟨L, E, hS, hE, hL, hT, -, -, -⟩ := ExpFns.real_exact
  have hp : Vector3.Positive (⟨1, 1, 1⟩ : Vector3 ℝ) := ⟨one_pos, one_pos, one_pos⟩
  have hs := Vector3.Luminance_pos _
    (BSSRDF.new_sigmaTr_pos L E hS ⟨1, 1, 1⟩ ⟨1, 1, 1⟩ 0 (13 / 10) hp hp)
  obtain ⟨hz, r, hr0, hr1, -, hr2⟩ := BSSRDF.ImportanceSampleDiffusion_disk L E ⟨1, 1, 1⟩
    ⟨1, 1, 1⟩ 0 (13 / 10) hS hE hL hT hs (1 / 4) (1 / 2) (by norm_num) (by norm_num)
  exact ⟨L, E, hS, hE, hL, hT, hs, by norm_num, by norm_num, hz, r, hr0, hr1, hr2⟩

/-- Witness for `BSSRDF.SampleSingleScatterPDF_density`: the same profile over the reals,
whose `sigmaT` is `(2,2,2)`, at `u = 1/2`. -/
theorem BSSRDF.SampleSingleScatterPDF_density_witness :
    ∃ (L : MathFns ℝ) (E : ExpFns ℝ), (∀ x, E.exp x = Real.exp x)
      ∧ (∀ x, E.log x = Real.log x)
      ∧ (BSSRDF.new L E ⟨1, 1, 1⟩ ⟨1, 1, 1⟩ 0 (13 / 10)).sigmaT = ⟨2, 2, 2⟩
      ∧ 0 < Vector3.Luminance (BSSRDF.new L E ⟨1, 1, 1⟩ ⟨1, 1, 1⟩ 0 (13 / 10)).sigmaT
      ∧ (∫ x in Set.Ici (0 : ℝ), BSSRDF.SampleSingleScatterPDF E
            (BSSRDF.new L E ⟨1, 1, 1⟩ ⟨1, 1, 1⟩ 0 (13 / 10)) x) = 1
      ∧ 0 ≤ BSSRDF.ImportanceSampleSingleScatter E
            (BSSRDF.new L E ⟨1, 1, 1⟩ ⟨1, 1, 1⟩ 0 (13 / 10)) (1 / 2)
      ∧ BSSRDF.SampleSingleScatterPDF E (BSSRDF.new L E ⟨1, 1, 1⟩ ⟨1, 1, 1⟩ 0 (13 / 10))
            (BSSRDF.ImportanceSampleSingleScatter E
              (BSSRDF.new L E ⟨1, 1, 1⟩ ⟨1, 1, 1⟩ 0 (13 / 10)) (1 / 2))
          = Vector3.Luminance (BSSRDF.new L E ⟨1, 1, 1⟩ ⟨1, 1, 1⟩ 0 (13 / 10)).sigmaT
            * (1 / 2) := by
  obtain ⟨L, E, -, -, -, -, -, hexp, hlog⟩ := ExpFns.real_exact
  have hT : (BSSRDF.new L E ⟨1, 1, 1⟩ ⟨1, 1, 1⟩ 0 (13 / 10)).sigmaT = ⟨2, 2, 2⟩ := by
    show (⟨1 + 1 / (1 - 0), 1 + 1 / (1 - 0), 1 + 1 / (1 - 0)⟩ : Vector3 ℝ) = ⟨2, 2, 2⟩
    norm_num
  have hs : 0 < Vector3.Luminance (BSSRDF.new L E ⟨1, 1, 1⟩ ⟨1, 1, 1⟩ 0 (13 / 10)).sigmaT := by
    rw [hT]
    unfold Vector3.Luminance
    norm_num
  have h := BSSRDF.SampleSingleScatterPDF_density E
    (BSSRDF.new L E ⟨1, 1, 1⟩ ⟨1, 1, 1⟩ 0 (13 / 10)) hexp hlog hs
  have hu := h.2.2 (1 / 2) (by norm_num) (by norm_num)
  exact ⟨L, E, hexp, hlog, hT, hs, h.2.1, hu.2.1, hu.2.2⟩

end ProfileExamples

section Sampling

variable {F : Type} [LinearOrderedField F]

theorem Renderer.join_const_length {α : Type} (k : Nat) :
    ∀ ls : List (List α), (∀ l ∈ ls, l.length = k) → ls.flatten.length = ls.length * k := by
  intro ls
  induction ls with
  | nil => intro _; simp
  | cons l ls ih =>
    intro h
    rw [List.flatten_cons, List.length_append, ih (fun m hm => h m (List.mem_cons_of_mem _ hm)),
      h l (List.mem_cons_self _ _), List.length_cons]
    ring

/-- Every pattern that `createSamplingPatterns` stores has `floor(sqrt N)^2` points, and there is
at least one pattern. -/
theorem Renderer.createSamplingPatterns_count (rnd : Nat → Nat → Nat → F × F) (N : Nat)
    (ps : List (List (SamplePoint F))) (h : Renderer.createSamplingPatterns rnd N = some ps) :
    0 < ps.length ∧ ∀ pattern ∈ ps, pattern.length = Nat.sqrt N * Nat.sqrt N := by
  unfold Renderer.createSamplingPatterns at h
  split_ifs at h with h1 h2
  · cases h
    subst h1
    refine ⟨by simp, ?_⟩
    intro pattern hp
    rw [List.mem_singleton] at hp
    subst hp
    rfl
  · simp only [Option.some.injEq] at h
    subst h
    constructor
    · simp [Renderer.NUM_SAMPLING_PATTERNS]
    · intro pattern hp
      rw [List.mem_map] at hp
      obtain ⟨i, -, rfl⟩ := hp
      rw [Renderer.join_const_length (Nat.sqrt N)]
      · rw [List.length_map, List.length_range]
      · intro l hl
        rw [List.mem_map] at hl
        obtain ⟨x, -, rfl⟩ := hl
        rw [List.length_map, List.length_range]

/-- A pass of the sampling loop reads inside the patterns exactly when its sample number is below
the common length of the patterns. -/
theorem Renderer.sampleRadiance_read (L : MathFns F) (R : Renderer F)
    (camera : ThinLensCamera F) (ps : List (List (SamplePoint F))) (rnd : Nat → F × F)
    (i j n k : Nat) (h0 : 0 < ps.length) (hk : ∀ pattern ∈ ps, pattern.length = k) :
    (k ≤ n → Renderer.sampleRadiance L R camera ps rnd i j n = .error Fault.indexOutOfRange)
      ∧ (n < k → ∃ p : SamplePoint F,
          Renderer.sampleRadiance L R camera ps rnd i j n
            = Renderer.traceRay L R
                (camera.GetRay ((i : F) + p.x) ((j : F) + p.y) (rnd n).1 (rnd n).2).1
                (camera.GetRay ((i : F) + p.x) ((j : F) + p.y) (rnd n).1 (rnd n).2).2
                Vector3.zero 0 []) := by
  have hw : (j * camera.imageWidth + i) % ps.length < ps.length := Nat.mod_lt _ h0
  obtain ⟨pattern, hpat, hmem⟩ : ∃ pattern, ps[(j * camera.imageWidth + i) % ps.length]?
      = some pattern ∧ pattern ∈ ps :=
    ⟨_, List.getElem?_eq_getElem hw, List.getElem_mem hw⟩
  have hlen := hk pattern hmem
  constructor
  · intro hn
    have hnone : pattern[n]? = none := List.getElem?_eq_none (by omega)
    unfold Renderer.sampleRadiance
    simp only [hpat, hnone]
  · intro hn
    have hsome : pattern[n]? = some (pattern[n]) := List.getElem?_eq_getElem (by omega)
    refine ⟨pattern[n], ?_⟩
    unfold Renderer.sampleRadiance
    simp only [hpat, hsome]

/-- The sampling loop stops with a fault at a sample whose pass faults. -/
theorem Renderer.takeSamples_fault (L : MathFns F) (R : Renderer F)
    (camera : ThinLensCamera F) (ps : List (List (SamplePoint F))) (rnd : Nat → F × F)
    (i j : Nat) (ns : List Nat) (n : Nat) (hn : n ∈ ns) (e : Fault)
    (h : Renderer.sampleRadiance L R camera ps rnd i j n = .error e) :
    ∃ e1, Renderer.takeSamples L R camera ps rnd i j ns = .error e1 := by
  induction ns with
  | nil => cases hn
  | cons m rest ih =>
    unfold Renderer.takeSamples
    rcases List.mem_cons.mp hn with hm | hm
    · subst hm
      rw [h]
      exact ⟨e, rfl⟩
    · obtain ⟨e1, he1⟩ := ih hm
      rw [he1]
      cases Renderer.sampleRadiance L R camera ps rnd i j m with
      | error e2 => exact ⟨e2, rfl⟩
      | ok c => exact ⟨e1, rfl⟩

/-- Claim C28, failing input.  The constructor accepts `samplesPerPixel = 2`
(`2 & 1 = 0`), but `(int)sqrt(2) = 1`: each of the 64 stored patterns holds one point, the
read `samplePatterns[..][1]` of the second pass of `ColorPixel` is out of bounds for every
pixel, and `ColorPixel` has no defined result. -/
theorem Renderer.createSamplingPatterns_two (rnd : Nat → Nat → Nat → F × F) :
    2 &&& (2 - 1) = 0
      ∧ ∃ ps : List (List (SamplePoint F)),
          Renderer.createSamplingPatterns rnd 2 = some ps
          ∧ ps.length = 64
          ∧ (∀ pattern ∈ ps, pattern.length = 1)
          ∧ ∀ (L : MathFns F) (R : Renderer F) (camera : ThinLensCamera F)
              (lens : Nat → F × F) (i j : Nat),
              Renderer.sampleRadiance L R camera ps lens i j 1 = .error Fault.indexOutOfRange
              ∧ ∃ e, Renderer.ColorPixel L R camera 2 ps lens i j = .error e := by
  refine ⟨by decide, ?_⟩
  obtain ⟨ps, hps⟩ : ∃ ps, Renderer.createSamplingPatterns rnd 2 = some ps := by
    unfold Renderer.createSamplingPatterns
    rw [if_neg (by decide), if_neg (by decide)]
    exact ⟨_, rfl⟩
  obtain ⟨h0, hk⟩ := Renderer.createSamplingPatterns_count rnd 2 ps hps
  have hsq : Nat.sqrt 2 * Nat.sqrt 2 = 1 := by
    have : Nat.sqrt 2 = 1 := (Nat.eq_sqrt.mpr ⟨by norm_num, by norm_num⟩).symm
    rw [this]
  rw [hsq] at hk
  have hlen : ps.length = 64 := by
    unfold Renderer.createSamplingPatterns at hps
    rw [if_neg (by decide), if_neg (by decide)] at hps
    simp only [Option.some.injEq] at hps
    subst hps
    rw [List.length_map, List.length_range]
    rfl
  refine ⟨ps, hps, hlen, hk, ?_⟩
  intro L R camera lens i j
  have hread := (Renderer.sampleRadiance_read L R camera ps lens i j 1 1 h0 hk).1 le_rfl
  refine ⟨hread, ?_⟩
  obtain ⟨e1, he1⟩ := Renderer.takeSamples_fault L R camera ps lens i j (List.range 2) 1
    (by simp) _ hread
  unfold Renderer.ColorPixel
  rw [he1]
  exact ⟨e1, rfl⟩

/-- The sampling loop returns the radiances of its passes when none of them faults. -/
theorem Renderer.takeSamples_ok (L : MathFns F) (R : Renderer F) (camera : ThinLensCamera F)
    (ps : List (List (SamplePoint F))) (rnd : Nat → F × F) (i j : Nat)
    (rad : Nat → Vector3 F) (ns : List Nat)
    (h : ∀ n ∈ ns, Renderer.sampleRadiance L R camera ps rnd i j n = .ok (rad n)) :
    Renderer.takeSamples L R camera ps rnd i j ns = .ok (ns.map rad) := by
  induction ns with
  | nil => rfl
  | cons m rest ih =>
    unfold Renderer.takeSamples
    rw [h m (List.mem_cons_self _ _), ih (fun n hn => h n (List.mem_cons_of_mem _ hn))]
    rfl

/-- The accumulation loop `outputColor += sampleColors[n]` adds the channel sums. -/
theorem Renderer.foldl_add_channels (rad : Nat → Vector3 F) (ns : List Nat) :
    ∀ acc : Vector3 F, (ns.map rad).foldl Vector3.add acc
      = ⟨acc.x + (ns.map fun n => (rad n).x).sum, acc.y + (ns.map fun n => (rad n).y).sum,
          acc.z + (ns.map fun n => (rad n).z).sum⟩ := by
  induction ns with
  | nil =>
    intro acc
    simp only [List.map_nil, List.foldl_nil, List.sum_nil, add_zero]
  | cons m rest ih =>
    intro acc
    rw [List.map_cons, List.foldl_cons, ih]
    simp only [Vector3.add, List.map_cons, List.sum_cons, add_assoc]

theorem Renderer.sum_range_list (f : Nat → F) (N : Nat) :
    ((List.range N).map f).sum = ∑ n in Finset.range N, f n := by
  induction N with
  | zero => simp
  | succ k ih =>
    rw [List.range_succ, List.map_append, List.sum_append, ih, Finset.sum_range_succ]
    simp

/-- Claim C30, amended.  When the `N > 0` passes of the sampling loop return the radiances
`rad 0, .., rad (N-1)`, `ColorPixel` outputs their arithmetic mean, channel by channel (the
divisor `(float)samplesPerPixel` is not zero); no clamp is applied to it.  The restriction to
`[0, 1]` is the work of the expression `max(min(c, 1), 0)` that `renderTile` applies to each
channel before quantisation. -/
theorem Renderer.ColorPixel_mean (L : MathFns F) (R : Renderer F) (camera : ThinLensCamera F)
    (N : Nat) (ps : List (List (SamplePoint F))) (rnd : Nat → F × F) (i j : Nat)
    (rad : Nat → Vector3 F) (hN : 0 < N)
    (h : ∀ n, n < N → Renderer.sampleRadiance L R camera ps rnd i j n = .ok (rad n)) :
    Renderer.ColorPixel L R camera N ps rnd i j
        = .ok ⟨(∑ n in Finset.range N, (rad n).x) / (N : F),
            (∑ n in Finset.range N, (rad n).y) / (N : F),
            (∑ n in Finset.range N, (rad n).z) / (N : F)⟩
      ∧ (N : F) ≠ 0
      ∧ ∀ c : F, 0 ≤ renderTileClamp c ∧ renderTileClamp c ≤ 1 := by
  refine ⟨?_, Nat.cast_ne_zero.mpr (Nat.pos_iff_ne_zero.mp hN), ?_⟩
  · unfold Renderer.ColorPixel
    rw [Renderer.takeSamples_ok L R camera ps rnd i j rad (List.range N)
      (fun n hn => h n (List.mem_range.mp hn))]
    simp only [Renderer.foldl_add_channels, Vector3.zero, zero_add, Vector3.divScalar,
      Renderer.sum_range_list]
  · intro c
    exact ⟨le_max_right _ _, max_le (min_le_right _ _) zero_le_one⟩

end Sampling
section SamplingExamples

theorem exactFns_sqrt_one : exactFns.sqrt 1 = 1 := by
  have h := exactFns_sqrt 1 (by norm_num)
  rw [mul_one] at h
  exact h

/-- The rays of `fixedCamera` hit a white pane at `z = 0` at `t = 1`. -/
theorem lit_intersects_top (a : Nat) :
    Primitive.intersects exactFns (pane a (tintedMaterial 0 ⟨1, 1, 1⟩) 0) ⟨1, 2, 2 / 3⟩
      ⟨-1 / 3, -2 / 3, -2 / 3⟩ = some litHit := by
  have h : Primitive.intersects exactFns (pane a (tintedMaterial 0 ⟨1, 1, 1⟩) 0) ⟨1, 2, 2 / 3⟩
      ⟨-1 / 3, -2 / 3, -2 / 3⟩
      = some (Triangle.hitAt exactFns (paneTriangle (tintedMaterial 0 ⟨1, 1, 1⟩) 0) ⟨1, 2, 2 / 3⟩
          ⟨-1 / 3, -2 / 3, -2 / 3⟩ 1 (1 / 6) (1 / 3)) := by
    norm_num [Primitive.intersects, pane, paneTriangle, Triangle.intersects,
      Triangle.det, Triangle.baryU, Triangle.baryV, Triangle.rayT, Vector3.dot, Vector3.cross,
      Vector3.sub, FLT_EPSILON, Object.rejects, plainObject]
  rw [h]
  congr 1
  simp only [Triangle.hitAt, paneTriangle, tintedMaterial, Material.add, Material.scale,
    Vector3.add, Vector3.scale, Vector3.normalize, Vector3.divScalar, Vector3.length, litHit]
  norm_num [exactFns_sqrt_one]

/-- The rays of `fixedCamera` hit a pane at `z = -1` at `t = 5/2`. -/
theorem lit_intersects_low (a : Nat) (m : Material ℚ) :
    Primitive.intersects exactFns (pane a m (-1)) ⟨1, 2, 2 / 3⟩ ⟨-1 / 3, -2 / 3, -2 / 3⟩
      = some (Triangle.hitAt exactFns (paneTriangle m (-1)) ⟨1, 2, 2 / 3⟩
          ⟨-1 / 3, -2 / 3, -2 / 3⟩ (5 / 2) (1 / 24) (1 / 12)) := by
  norm_num [Primitive.intersects, pane, paneTriangle, Triangle.intersects,
    Triangle.det, Triangle.baryU, Triangle.baryV, Triangle.rayT, Vector3.dot, Vector3.cross,
    Vector3.sub, FLT_EPSILON, Object.rejects, plainObject]

/-- The rays of `fixedCamera` pass the bounds of the leaf of the lit scene. -/
theorem lit_bounds (a b : Nat) (m n : Material ℚ) :
    BoundingBox.intersects (KDTree.boundsOf (pane a m 0) [pane b n (-1)]) ⟨1, 2, 2 / 3⟩
      (KDTree.invDirection ⟨-1 / 3, -2 / 3, -2 / 3⟩) = true := by
  rw [pane_boundsOf]
  rw [BoundingBox.intersects_finite]
  · norm_num [BoundingBox.slabTest, Vector3.mul, Vector3.sub]
  · norm_num
  · norm_num
  · norm_num

/-- The closest hit of the rays of `fixedCamera` in the lit scene is `litHit` on
`brightPane`. -/
theorem lit_closest :
    Scene.GetClosestIntersection exactFns litRenderer.scene ⟨1, 2, 2 / 3⟩
      ⟨-1 / 3, -2 / 3, -2 / 3⟩ = .ok (true, some (litHit, plainObject 1)) := by
  have hb : BoundingBox.intersects (KDTree.boundsOf brightPane [whitePane]) ⟨1, 2, 2 / 3⟩
      (KDTree.invDirection ⟨-1 / 3, -2 / 3, -2 / 3⟩) = true := lit_bounds 1 2 _ _
  have h1 : Primitive.intersects exactFns brightPane ⟨1, 2, 2 / 3⟩ ⟨-1 / 3, -2 / 3, -2 / 3⟩
      = some litHit := lit_intersects_top 1
  have h2 : Primitive.intersects exactFns whitePane ⟨1, 2, 2 / 3⟩ ⟨-1 / 3, -2 / 3, -2 / 3⟩ = _ :=
    lit_intersects_low 2 _
  have h0 : ([[brightPane, whitePane]] : List (List (Primitive ℚ)))[0]?
      = some [brightPane, whitePane] := rfl
  have ht1 : litHit.t < (FLT_MAX : ℚ) := by
    show (1 : ℚ) < FLT_MAX
    norm_num [FLT_MAX]
  have ht2 : ¬ (Triangle.hitAt exactFns (paneTriangle (tintedMaterial (1 / 2) ⟨1, 1, 1⟩) (-1))
      ⟨1, 2, 2 / 3⟩ ⟨-1 / 3, -2 / 3, -2 / 3⟩ (5 / 2) (1 / 24) (1 / 12)).t < litHit.t := by
    show ¬ (5 / 2 : ℚ) < 1
    norm_num
  simp only [Scene.GetClosestIntersection, litRenderer, KDTree.GetClosestIntersection, paneTree,
    KDTree.intersectsNode, hb, KDNode.isNull, Bool.and_self, if_true, h0, KDTree.leafScan, h1,
    h2, ht1, ht2, if_false]
  rfl

/-- The hit data `traceRay` shades in the lit scene: no normal flip, no colour shader. -/
theorem lit_shaded :
    Renderer.applyColorShader (plainObject 1)
      (Renderer.orientNormal ⟨-1 / 3, -2 / 3, -2 / 3⟩ [] (plainObject 1) litHit) = litHit := by
  have hd : ¬ Vector3.dot (⟨-1 / 3, -2 / 3, -2 / 3⟩ : Vector3 ℚ) litHit.normal > 0 := by
    norm_num [Vector3.dot, litHit]
  unfold Renderer.applyColorShader Renderer.orientNormal
  simp only [plainObject, List.isEmpty_nil, Bool.not_true, Bool.false_and, Bool.false_eq_true,
    if_false, hd]

/-- The shadow ray from `litHit` towards the light misses the bounds of the lit scene. -/
theorem lit_unshadowed :
    Renderer.shadowQuery exactFns litRenderer (slantLight ⟨1, 1, 1⟩) litHit = .ok ⟨1, 1, 1⟩ := by
  have hb : BoundingBox.intersects (KDTree.boundsOf brightPane [whitePane])
      (Vector3.add litHit.position (Vector3.scale litHit.normal (1 / 10000)))
      (KDTree.invDirection ⟨1 / 3, 2 / 3, 2 / 3⟩) = false := by
    have hbox : KDTree.boundsOf brightPane [whitePane] = ⟨⟨0, 0, -1⟩, ⟨4, 4, 0⟩⟩ :=
      pane_boundsOf 1 2 _ _
    rw [hbox]
    apply BoundingBox.intersects_behind
    · show (1 / 3 : ℚ) ≠ 0
      norm_num
    · show (2 / 3 : ℚ) ≠ 0
      norm_num
    · show (-1 : ℚ) < 0 + 1 * (1 / 10000)
      norm_num
    · show (0 : ℚ) < 0 + 1 * (1 / 10000)
      norm_num
    · show (0 : ℚ) < 2 / 3
      norm_num
  unfold Renderer.shadowQuery Scene.TraceShadowRay KDTree.TraceShadowRay
  rw [slant_direction]
  show KDTree.traceShadowNode exactFns [[brightPane, whitePane]] _ _
    (KDTree.invDirection ⟨1 / 3, 2 / 3, 2 / 3⟩) _
    (KDNode.node KDNode.null KDNode.null (KDTree.boundsOf brightPane [whitePane]) 0) ⟨1, 1, 1⟩ = _
  unfold KDTree.traceShadowNode
  rw [hb]
  rfl

/-- The light of the lit scene adds `(2/3, 2/3, 2/3)` at `litHit`. -/
theorem lit_light :
    Renderer.getLightRadiance exactFns litRenderer ⟨-1 / 3, -2 / 3, -2 / 3⟩
      (slantLight ⟨1, 1, 1⟩) litHit = .ok ⟨2 / 3, 2 / 3, 2 / 3⟩ := by
  rw [Renderer.getLightRadiance_eq, lit_unshadowed]
  show Except.ok (Renderer.lightTerm exactFns _ _ _ _) = _
  unfold Renderer.lightTerm
  rw [slant_direction]
  simp only [litHit, tintedMaterial, slantLight, LightSource.color, LightSource.getAttenuation,
    Vector3.scale, Vector3.mul, Vector3.add, Vector3.dot, zero_mul, mul_zero, add_zero]
  norm_num

/-- Every pass of the sampling loop over the lit scene returns `(5/3, 5/3, 5/3)`: the ambient
term `(1,1,1)` plus the light term `(2/3, 2/3, 2/3)`. -/
theorem lit_sample (rnd : Nat → ℚ × ℚ) (i j : Nat) :
    Renderer.sampleRadiance exactFns litRenderer fixedCamera [[⟨1 / 2, 1 / 2⟩]] rnd i j 0
      = .ok ⟨5 / 3, 5 / 3, 5 / 3⟩ := by
  have hread : ([[⟨1 / 2, 1 / 2⟩]] : List (List (SamplePoint ℚ)))[
      (j * fixedCamera.imageWidth + i) % ([[⟨1 / 2, 1 / 2⟩]] : List (List (SamplePoint ℚ))).length]?
      = some [⟨1 / 2, 1 / 2⟩] := by
    rw [List.length_singleton, Nat.mod_one]
    rfl
  have hdirect : Renderer.directRadiance exactFns litRenderer ⟨-1 / 3, -2 / 3, -2 / 3⟩ litHit
      = .ok ⟨5 / 3, 5 / 3, 5 / 3⟩ := by
    rw [Renderer.directRadiance_eq]
    have hl : Renderer.lightRadiances exactFns litRenderer ⟨-1 / 3, -2 / 3, -2 / 3⟩ litHit
        litRenderer.scene.lights = .ok [⟨2 / 3, 2 / 3, 2 / 3⟩] := by
      show Renderer.lightRadiances exactFns litRenderer ⟨-1 / 3, -2 / 3, -2 / 3⟩ litHit
        [slantLight ⟨1, 1, 1⟩] = _
      simp only [Renderer.lightRadiances, lit_light]
    rw [hl]
    show Except.ok _ = Except.ok _
    congr 1
    simp only [litHit, tintedMaterial, Vector3.sum, Vector3.add, Vector3.scale, Vector3.mul,
      Vector3.zero]
    norm_num
  unfold Renderer.sampleRadiance
  simp only [hread]
  show Renderer.traceRay exactFns litRenderer ⟨1, 2, 2 / 3⟩ ⟨-1 / 3, -2 / 3, -2 / 3⟩
    Vector3.zero 0 [] = _
  rw [Renderer.traceRay]
  rw [dif_neg (by norm_num [Renderer.MAX_BOUNCES]), lit_closest]
  simp only [lit_shaded, hdirect]
  norm_num [litHit, tintedMaterial, Vector3.MaxComponent, Renderer.MIN_SHININESS,
    Renderer.MIN_TRANSPARENCY, Vector3.add, Vector3.mul, Vector3.scale, Vector3.zero]

/-- Counterexample for C30 as stated: at pixel `(0, 0)` with one sample per pixel, the centred
pattern, a white opaque surface (ambient and diffuse colour `(1,1,1)`) and one white
directional light, the colour `ColorPixel` outputs is `(5/3, 5/3, 5/3)`, outside `[0, 1]` in
every channel. -/
theorem Renderer.ColorPixel_bright :
    Renderer.createSamplingPatterns (fun _ _ _ => ((0 : ℚ), (0 : ℚ))) 1 = some [[⟨1 / 2, 1 / 2⟩]]
      ∧ Renderer.ColorPixel exactFns litRenderer fixedCamera 1 [[⟨1 / 2, 1 / 2⟩]]
          (fun _ => (0, 0)) 0 0
        = .ok ⟨5 / 3, 5 / 3, 5 / 3⟩
      ∧ ¬ Vector3.InUnit (⟨5 / 3, 5 / 3, 5 / 3⟩ : Vector3 ℚ) := by
  refine ⟨rfl, ?_, ?_⟩
  · unfold Renderer.ColorPixel
    have hr : List.range 1 = [0] := rfl
    rw [hr]
    simp only [Renderer.takeSamples, lit_sample, List.foldl_cons, List.foldl_nil]
    norm_num [Vector3.divScalar, Vector3.add, Vector3.zero]
  · unfold Vector3.InUnit
    norm_num

/-- Witness for `Renderer.ColorPixel_mean`: one sample per pixel over the lit scene. -/
theorem Renderer.ColorPixel_mean_witness :
    0 < 1
      ∧ (∀ n, n < 1 →
          Renderer.sampleRadiance exactFns litRenderer fixedCamera [[⟨1 / 2, 1 / 2⟩]]
            (fun _ => (0, 0)) 2 3 n = .ok ((fun _ => (⟨5 / 3, 5 / 3, 5 / 3⟩ : Vector3 ℚ)) n))
      ∧ Renderer.ColorPixel exactFns litRenderer fixedCamera 1 [[⟨1 / 2, 1 / 2⟩]]
          (fun _ => (0, 0)) 2 3
        = .ok ⟨(∑ _n in Finset.range 1, (5 / 3 : ℚ)) / ((1 : Nat) : ℚ),
            (∑ _n in Finset.range 1, (5 / 3 : ℚ)) / ((1 : Nat) : ℚ),
            (∑ _n in Finset.range 1, (5 / 3 : ℚ)) / ((1 : Nat) : ℚ)⟩ := by
  have h : ∀ n, n < 1 →
      Renderer.sampleRadiance exactFns litRenderer fixedCamera [[⟨1 / 2, 1 / 2⟩]]
        (fun _ => (0, 0)) 2 3 n = .ok ((fun _ => (⟨5 / 3, 5 / 3, 5 / 3⟩ : Vector3 ℚ)) n) := by
    intro n hn
    have h0 : n = 0 := by omega
    subst h0
    exact lit_sample _ 2 3
  exact ⟨one_pos, h,
    (Renderer.ColorPixel_mean exactFns litRenderer fixedCamera 1 [[⟨1 / 2, 1 / 2⟩]]
      (fun _ => (0, 0)) 2 3 (fun _ => ⟨5 / 3, 5 / 3, 5 / 3⟩) one_pos h).1⟩

end SamplingExamples

section Removal

/-- With distinct pointers in the list, erasing the primitive found for `ptr` leaves the
primitives whose address differs from `ptr`, in their order. -/
theorem Scene.eraseFound_spec {F : Type} (ptr : Nat) :
    ∀ primitives : List (Primitive F), (primitives.map Primitive.addr).Nodup →
      ptr ∈ primitives.map Primitive.addr →
      Scene.eraseFound ptr primitives
        = some (primitives.filter fun p => decide (p.addr ≠ ptr)) := by
  intro primitives
  induction primitives with
  | nil =>
    intro _ h
    cases h
  | cons p rest ih =>
    intro hnd hmem
    rw [List.map_cons, List.nodup_cons] at hnd
    unfold Scene.eraseFound
    by_cases hp : p.addr = ptr
    · rw [if_pos hp]
      have hall : ∀ q ∈ rest, decide (q.addr ≠ ptr) = true := by
        intro q hq
        rw [decide_eq_true_iff]
        intro hq1
        apply hnd.1
        rw [hp, ← hq1]
        exact List.mem_map_of_mem _ hq
      rw [List.filter_cons, if_neg (by simp [hp]), List.filter_eq_self.mpr hall]
    · rw [if_neg hp]
      rw [List.map_cons, List.mem_cons] at hmem
      rcases hmem with h | h
      · exact absurd h.symm hp
      · rw [ih hnd.2 h, List.filter_cons, if_pos (by simp [hp])]
        rfl

/-- The loop of `RemoveObject` deletes exactly the primitives the object points to. -/
theorem Scene.removePrimitives_spec {F : Type} :
    ∀ (ptrs : List Nat) (primitives : List (Primitive F)), Scene.Owns primitives ptrs →
      Scene.removePrimitives ptrs primitives
        = .ok (primitives.filter fun p => decide (p.addr ∉ ptrs)) := by
  intro ptrs
  induction ptrs with
  | nil =>
    intro primitives _
    unfold Scene.removePrimitives
    congr 1
    exact (List.filter_eq_self.mpr (fun p _ => by simp)).symm
  | cons ptr rest ih =>
    intro primitives h
    obtain ⟨hnd, hptrs, hsub⟩ := h
    rw [List.nodup_cons] at hptrs
    unfold Scene.removePrimitives
    rw [Scene.eraseFound_spec ptr primitives hnd (hsub ptr (List.mem_cons_self _ _))]
    simp only
    rw [ih]
    · rw [List.filter_filter]
      congr 1
      apply List.filter_congr
      intro p _
      simp only [List.mem_cons, not_or, ne_eq, Bool.decide_and, Bool.and_comm]
    · refine ⟨?_, hptrs.2, ?_⟩
      · exact List.Nodup.sublist (List.Sublist.map _ (List.filter_sublist _)) hnd
      · intro a ha
        have h1 := hsub a (List.mem_cons_of_mem _ ha)
        rw [List.mem_map] at h1 ⊢
        obtain ⟨p, hp, rfl⟩ := h1
        refine ⟨p, ?_, rfl⟩
        rw [List.mem_filter]
        refine ⟨hp, ?_⟩
        rw [decide_eq_true_iff]
        intro hpa
        exact hptrs.1 (hpa ▸ ha)

variable {F : Type} [LinearOrderedField F]

/-- The constructor of `KDTree` returns a tree for every primitive list. -/
theorem KDTree.build_total (primitives : List (Primitive F)) :
    ∃ tree : KDTree F, KDTree.build primitives = .ok tree := by
  by_cases h : primitives = []
  · subst h
    exact ⟨_, KDTree.build_nil⟩
  · obtain ⟨tree, ht, -⟩ := KDTree.build_spec primitives h
    exact ⟨tree, ht⟩

/-- Claim C29.  For a valid index whose object points to distinct primitives of the scene's
list, itself a list of distinct pointers: `RemoveObject(index)` returns, the primitive list
afterwards is the old list without the primitives of the removed object, the others in their
order; the object list is the old one without the entry at `index`; the tree is the one the
`KDTree` constructor builds from the new primitive list; the lights are untouched; and every
other object, whose pointers are distinct primitives of the old list and none of them a pointer
of the removed object, still points to distinct primitives of the new list. -/
theorem Scene.RemoveObject_consistent (scene : Scene F) (index : Int)
    (object : Object F × List Nat) (h0 : 0 ≤ index)
    (hobj : scene.objects[index.toNat]? = some object)
    (hown : Scene.Owns scene.primitives object.2) :
    ∃ after : Scene F, Scene.RemoveObject scene index = .ok after
      ∧ after.primitives = scene.primitives.filter (fun p => decide (p.addr ∉ object.2))
      ∧ after.objects = scene.objects.eraseIdx index.toNat
      ∧ KDTree.build after.primitives = .ok after.kdtree
      ∧ after.lights = scene.lights
      ∧ ∀ ptrs : List Nat, Scene.Owns scene.primitives ptrs → (∀ a ∈ ptrs, a ∉ object.2) →
          Scene.Owns after.primitives ptrs := by
  obtain ⟨tree, htree⟩ := KDTree.build_total
    (scene.primitives.filter (fun p => decide (p.addr ∉ object.2)))
  refine ⟨{ primitives := scene.primitives.filter (fun p => decide (p.addr ∉ object.2))
            lights := scene.lights, kdtree := tree
            objects := scene.objects.eraseIdx index.toNat }, ?_, rfl, rfl, htree, rfl, ?_⟩
  · unfold Scene.RemoveObject
    rw [if_neg (not_lt.mpr h0), hobj]
    simp only
    rw [Scene.removePrimitives_spec object.2 scene.primitives hown]
    simp only
    rw [htree]
  · intro ptrs hp hdis
    obtain ⟨hnd, hptrs, hsub⟩ := hp
    refine ⟨List.Nodup.sublist (List.Sublist.map _ (List.filter_sublist _)) hnd, hptrs, ?_⟩
    intro a ha
    have h1 := hsub a ha
    rw [List.mem_map] at h1 ⊢
    obtain ⟨p, hp1, rfl⟩ := h1
    refine ⟨p, ?_, rfl⟩
    rw [List.mem_filter]
    exact ⟨hp1, decide_eq_true (hdis _ ha)⟩

end Removal

section RemovalExamples

/-- Witness for `Scene.RemoveObject_consistent`: removing object 0 of the pane scene leaves
`whitePane` and the object at address 2. -/
theorem Scene.RemoveObject_consistent_witness :
    (0 : Int) ≤ 0
      ∧ paneScene.objects[(0 : Int).toNat]? = some (plainObject 1, [1])
      ∧ Scene.Owns paneScene.primitives [1]
      ∧ ∃ after : Scene ℚ, Scene.RemoveObject paneScene 0 = .ok after
        ∧ after.primitives = [whitePane]
        ∧ after.objects = [(plainObject 2, [2])]
        ∧ KDTree.build after.primitives = .ok after.kdtree
        ∧ after.lights = paneScene.lights
        ∧ Scene.Owns after.primitives [2] := by
  have hown : Scene.Owns paneScene.primitives [1] := by
    refine ⟨?_, ?_, ?_⟩
    · show ([1, 2] : List Nat).Nodup
      decide
    · decide
    · intro a ha
      show a ∈ ([1, 2] : List Nat)
      rw [List.mem_singleton] at ha
      subst ha
      decide
  have hother : Scene.Owns paneScene.primitives [2] := by
    refine ⟨?_, ?_, ?_⟩
    · show ([1, 2] : List Nat).Nodup
      decide
    · decide
    · intro a ha
      show a ∈ ([1, 2] : List Nat)
      rw [List.mem_singleton] at ha
      subst ha
      decide
  obtain ⟨after, h1, h2, h3, h4, h5, h6⟩ :=
    Scene.RemoveObject_consistent paneScene 0 (plainObject 1, [1]) le_rfl rfl hown
  exact ⟨le_rfl, rfl, hown, after, h1, h2, h3, h4, h5,
    h6 [2] hother (by
      intro a ha
      rw [List.mem_singleton] at ha
      subst ha
      decide)⟩

end RemovalExamples

section SlabTest

variable {F : Type} [LinearOrderedField F]

/-- One axis of the slab test, read backwards: a parameter between the two slab parameters of
an ordered slab puts the ray inside the slab. -/
theorem slab_axis_inside (lo hi o d t : F) (hd : d ≠ 0) (hlh : lo ≤ hi)
    (h1 : min ((lo - o) * (1 / d)) ((hi - o) * (1 / d)) ≤ t)
    (h2 : t ≤ max ((lo - o) * (1 / d)) ((hi - o) * (1 / d))) :
    lo ≤ o + d * t ∧ o + d * t ≤ hi := by
  simp only [mul_one_div] at h1 h2
  rcases lt_or_gt_of_ne hd with hneg | hpos
  · have h12 : (hi - o) / d ≤ (lo - o) / d := by
      rw [div_le_div_right_of_neg hneg]
      linarith
    rw [min_eq_right h12] at h1
    rw [max_eq_left h12] at h2
    rw [div_le_iff_of_neg hneg] at h1
    rw [le_div_iff_of_neg hneg] at h2
    constructor <;> linarith
  · have h12 : (lo - o) / d ≤ (hi - o) / d := by
      rw [div_le_div_iff_of_pos_right hpos]
      linarith
    rw [min_eq_left h12] at h1
    rw [max_eq_right h12] at h2
    rw [div_le_iff₀ hpos] at h1
    rw [le_div_iff₀ hpos] at h2
    constructor <;> linarith

/-- Claim C33.  For a box with `minCorner <= maxCorner`, every origin and every direction
whose three components are non-zero: `intersects(origin, 1/direction)` returns true exactly
when some `t >= 0` puts `origin + t * direction` inside the box, bounds included. -/
theorem BoundingBox.intersects_iff (b : BoundingBox F) (origin direction : Vector3 F)
    (hb : BoundingBox.Ordered b) (hx : direction.x ≠ 0) (hy : direction.y ≠ 0)
    (hz : direction.z ≠ 0) :
    BoundingBox.intersects b origin (KDTree.invDirection direction) = true
      ↔ ∃ t : F, 0 ≤ t
          ∧ BoundingBox.Contains b (Vector3.add origin (Vector3.scale direction t)) := by
  constructor
  · intro h
    rw [BoundingBox.intersects_finite b origin direction hx hy hz] at h
    simp only [BoundingBox.slabTest, Vector3.mul, Vector3.sub, decide_eq_true_eq] at h
    obtain ⟨h1, h2⟩ := h
    obtain ⟨bx, bY, bz⟩ := hb
    generalize hlo : max (max (min ((b.minCorner.x - origin.x) * (1 / direction.x))
        ((b.maxCorner.x - origin.x) * (1 / direction.x)))
      (min ((b.minCorner.y - origin.y) * (1 / direction.y))
        ((b.maxCorner.y - origin.y) * (1 / direction.y))))
      (min ((b.minCorner.z - origin.z) * (1 / direction.z))
        ((b.maxCorner.z - origin.z) * (1 / direction.z))) = tmin at h1
    generalize hhi : min (min (max ((b.minCorner.x - origin.x) * (1 / direction.x))
        ((b.maxCorner.x - origin.x) * (1 / direction.x)))
      (max ((b.minCorner.y - origin.y) * (1 / direction.y))
        ((b.maxCorner.y - origin.y) * (1 / direction.y))))
      (max ((b.minCorner.z - origin.z) * (1 / direction.z))
        ((b.maxCorner.z - origin.z) * (1 / direction.z))) = tmax at h1 h2
    have lx : min ((b.minCorner.x - origin.x) * (1 / direction.x))
        ((b.maxCorner.x - origin.x) * (1 / direction.x)) ≤ tmin := by
      rw [← hlo]
      exact le_trans (le_max_left _ _) (le_max_left _ _)
    have ly : min ((b.minCorner.y - origin.y) * (1 / direction.y))
        ((b.maxCorner.y - origin.y) * (1 / direction.y)) ≤ tmin := by
      rw [← hlo]
      exact le_trans (le_max_right _ _) (le_max_left _ _)
    have lz : min ((b.minCorner.z - origin.z) * (1 / direction.z))
        ((b.maxCorner.z - origin.z) * (1 / direction.z)) ≤ tmin := by
      rw [← hlo]
      exact le_max_right _ _
    have ux : tmax ≤ max ((b.minCorner.x - origin.x) * (1 / direction.x))
        ((b.maxCorner.x - origin.x) * (1 / direction.x)) := by
      rw [← hhi]
      exact le_trans (min_le_left _ _) (min_le_left _ _)
    have uy : tmax ≤ max ((b.minCorner.y - origin.y) * (1 / direction.y))
        ((b.maxCorner.y - origin.y) * (1 / direction.y)) := by
      rw [← hhi]
      exact le_trans (min_le_left _ _) (min_le_right _ _)
    have uz : tmax ≤ max ((b.minCorner.z - origin.z) * (1 / direction.z))
        ((b.maxCorner.z - origin.z) * (1 / direction.z)) := by
      rw [← hhi]
      exact min_le_right _ _
    have t1 : tmin ≤ max tmin 0 := le_max_left _ _
    have t2 : max tmin 0 ≤ tmax := max_le h1 h2
    refine ⟨max tmin 0, le_max_right _ _, ?_⟩
    obtain ⟨x1, x2⟩ := slab_axis_inside _ _ _ _ (max tmin 0) hx bx (le_trans lx t1)
      (le_trans t2 ux)
    obtain ⟨y1, y2⟩ := slab_axis_inside _ _ _ _ (max tmin 0) hy bY (le_trans ly t1)
      (le_trans t2 uy)
    obtain ⟨z1, z2⟩ := slab_axis_inside _ _ _ _ (max tmin 0) hz bz (le_trans lz t1)
      (le_trans t2 uz)
    exact ⟨x1, x2, y1, y2, z1, z2⟩
  · rintro ⟨t, ht, hc⟩
    exact BoundingBox.intersects_of_contains b origin direction t hx hy hz ht hc

end SlabTest

section SlabTestExamples

/-- Witness for `BoundingBox.intersects_iff`: the box `[0,1] x [0,2] x [0,3]` and the ray from
`(-1,-1,-1)` along `(1,1,1)`, which enters the box at `t = 1`. -/
theorem BoundingBox.intersects_iff_witness :
    BoundingBox.Ordered orderedBox
      ∧ BoundingBox.intersects orderedBox ⟨-1, -1, -1⟩ (KDTree.invDirection ⟨1, 1, 1⟩) = true
      ∧ ∃ t : ℚ, 0 ≤ t
          ∧ BoundingBox.Contains orderedBox
              (Vector3.add ⟨-1, -1, -1⟩ (Vector3.scale ⟨1, 1, 1⟩ t)) := by
  have h := BoundingBox.intersects_iff orderedBox ⟨-1, -1, -1⟩ ⟨1, 1, 1⟩ orderedBox_ordered
    (by norm_num) (by norm_num) (by norm_num)
  have hc : ∃ t : ℚ, 0 ≤ t
      ∧ BoundingBox.Contains orderedBox
          (Vector3.add ⟨-1, -1, -1⟩ (Vector3.scale ⟨1, 1, 1⟩ t)) := by
    refine ⟨1, by norm_num, ?_⟩
    unfold BoundingBox.Contains orderedBox
    norm_num [Vector3.add, Vector3.scale]
  exact ⟨orderedBox_ordered, h.mpr hc, hc⟩

end SlabTestExamples

section EmptyTree

variable {F : Type} [LinearOrderedField F]

/-- The tree stored by a scene that `RemoveObject` returns is the one built from its primitive
list. -/
theorem Scene.RemoveObject_tree (scene after : Scene F) (index : Int)
    (h : Scene.RemoveObject scene index = .ok after) :
    KDTree.build after.primitives = .ok after.kdtree := by
  unfold Scene.RemoveObject at h
  split_ifs at h
  split at h
  · cases h
  · split at h
    · cases h
    · split at h
      · cases h
      · rename_i hb
        simp only [Except.ok.injEq] at h
        rw [← h]
        exact hb

/-- Claim C39, failing input.  The constructor stores the null pointer that `makeNode` returns
for the empty primitive list as the root, and both queries dereference the root without a
test: on the tree built from the empty list `GetClosestIntersection` and `TraceShadowRay`
have no defined result, for every ray; this is the tree a scene holds after `RemoveObject`
has removed its last primitive. -/
theorem KDTree.empty_tree_queries (L : MathFns F) (origin direction : Vector3 F)
    (maxDist : F) :
    KDTree.build ([] : List (Primitive F)) = .ok { root := KDNode.null, nodePrimitives := [] }
      ∧ KDTree.GetClosestIntersection L { root := KDNode.null, nodePrimitives := [] } origin
          direction = .error Fault.nullDereference
      ∧ KDTree.TraceShadowRay L { root := KDNode.null, nodePrimitives := [] } origin direction
          maxDist = .error Fault.nullDereference
      ∧ ∀ (scene after : Scene F) (index : Int),
          Scene.RemoveObject scene index = .ok after → after.primitives = [] →
          Scene.GetClosestIntersection L after origin direction
              = .error Fault.nullDereference
            ∧ Scene.TraceShadowRay L after origin direction maxDist
              = .error Fault.nullDereference := by
  have hq : KDTree.GetClosestIntersection L { root := KDNode.null, nodePrimitives := [] }
      origin direction = .error Fault.nullDereference := by
    unfold KDTree.GetClosestIntersection KDTree.intersectsNode
    rfl
  have hs : KDTree.TraceShadowRay L { root := KDNode.null, nodePrimitives := [] } origin
      direction maxDist = .error Fault.nullDereference := by
    unfold KDTree.TraceShadowRay KDTree.traceShadowNode
    rfl
  refine ⟨KDTree.build_nil, hq, hs, ?_⟩
  intro scene after index hrem hempty
  have ht := Scene.RemoveObject_tree scene after index hrem
  rw [hempty, KDTree.build_nil] at ht
  have hk : after.kdtree = { root := KDNode.null, nodePrimitives := [] } := by
    simp only [Except.ok.injEq] at ht
    exact ht.symm
  unfold Scene.GetClosestIntersection Scene.TraceShadowRay
  rw [hk]
  exact ⟨hq, hs⟩

end EmptyTree

section HitBounds

variable {F : Type} [LinearOrderedField F]

end HitBounds

section HitBoundsExamples

end HitBoundsExamples

section Partition

variable {F : Type} [LinearOrderedField F]

theorem KDTree.sum_ge_of_all (l : List F) (m : F) (h : ∀ x ∈ l, m ≤ x) :
    (l.length : F) * m ≤ l.sum := by
  induction l with
  | nil => simp
  | cons x xs ih =>
    have h1 := h x (List.mem_cons_self _ _)
    have h2 := ih (fun y hy => h y (List.mem_cons_of_mem _ hy))
    rw [List.sum_cons, List.length_cons, Nat.cast_succ]
    linarith

theorem KDTree.sum_lt_of_all (l : List F) (m : F) (hne : l ≠ []) (h : ∀ x ∈ l, x < m) :
    l.sum < (l.length : F) * m := by
  induction l with
  | nil => exact absurd rfl hne
  | cons x xs ih =>
    have h1 := h x (List.mem_cons_self _ _)
    rw [List.sum_cons, List.length_cons, Nat.cast_succ]
    by_cases hxs : xs = []
    · subst hxs
      simp only [List.sum_nil, List.length_nil, Nat.cast_zero]
      linarith
    · have h2 := ih hxs (fun y hy => h y (List.mem_cons_of_mem _ hy))
      linarith

theorem KDTree.all_eq_of_sum (l : List F) (m : F) (h : ∀ x ∈ l, m ≤ x)
    (hs : l.sum = (l.length : F) * m) : ∀ x ∈ l, x = m := by
  induction l with
  | nil =>
    intro x hx
    cases hx
  | cons y ys ih =>
    have h1 := h y (List.mem_cons_self _ _)
    have hys : ∀ z ∈ ys, m ≤ z := fun z hz => h z (List.mem_cons_of_mem _ hz)
    have h2 := KDTree.sum_ge_of_all ys m hys
    rw [List.sum_cons, List.length_cons, Nat.cast_succ] at hs
    have hy : y = m := by linarith
    have hsum : ys.sum = (ys.length : F) * m := by linarith
    intro x hx
    rcases List.mem_cons.mp hx with rfl | hx
    · exact hy
    · exact ih hys hsum x hx

/-- The mean of the midpoints times the number of primitives is the sum of the midpoints. -/
theorem KDTree.mean_mul_length (primitives : List (Primitive F)) (axis : Int)
    (hne : primitives ≠ []) :
    ((primitives.map (fun p => Vector3.Get (Primitive.GetMidpoint p) axis)).length : F)
        * KDTree.splitValue primitives axis
      = (primitives.map (fun p => Vector3.Get (Primitive.GetMidpoint p) axis)).sum := by
  rw [KDTree.splitValue_eq]
  unfold KDTree.meanMidpoint
  have hlen : (primitives.length : F) ≠ 0 := by
    rw [Nat.cast_ne_zero]
    intro h0
    exact hne (List.length_eq_zero.mp h0)
  rw [List.length_map]
  field_simp

/-- The two sides `makeNode` passes on, in terms of the two vectors of the partition loop. -/
theorem KDTree.splitSides_sides (primitives : List (Primitive F)) (depth : Nat) :
    KDTree.splitSides primitives depth
      = (if (KDTree.lowerSide primitives depth).length = 0
          then KDTree.upperSide primitives depth else KDTree.lowerSide primitives depth,
        if (KDTree.upperSide primitives depth).length = 0
          then (if (KDTree.lowerSide primitives depth).length = 0
            then KDTree.upperSide primitives depth else KDTree.lowerSide primitives depth)
          else KDTree.upperSide primitives depth) := rfl

/-- In exact arithmetic the vector `right` of the partition loop is never empty: some midpoint
reaches the mean. -/
theorem KDTree.upperSide_ne_nil (primitives : List (Primitive F)) (depth : Nat)
    (hne : primitives ≠ []) : KDTree.upperSide primitives depth ≠ [] := by
  intro hnil
  have hall : ∀ x ∈ primitives.map
      (fun p => Vector3.Get (Primitive.GetMidpoint p) ((depth % 3 : Nat) : Int)),
      x < KDTree.splitValue primitives ((depth % 3 : Nat) : Int) := by
    intro x hx
    obtain ⟨p, hp, rfl⟩ := List.mem_map.mp hx
    by_contra hc
    have hmem : p ∈ KDTree.upperSide primitives depth := by
      unfold KDTree.upperSide
      rw [List.mem_filter]
      refine ⟨hp, ?_⟩
      unfold KDTree.onRightSide
      exact decide_eq_true (not_lt.mp hc)
    rw [hnil] at hmem
    cases hmem
  have hne1 : primitives.map
      (fun p => Vector3.Get (Primitive.GetMidpoint p) ((depth % 3 : Nat) : Int)) ≠ [] := by
    intro h
    exact hne (List.map_eq_nil_iff.mp h)
  have h1 := KDTree.sum_lt_of_all _ _ hne1 hall
  rw [KDTree.mean_mul_length primitives _ hne] at h1
  exact lt_irrefl _ h1

/-- The vector `left` of the partition loop is empty exactly when all midpoints along the axis
are equal. -/
theorem KDTree.lowerSide_eq_nil_iff (primitives : List (Primitive F)) (depth : Nat)
    (hne : primitives ≠ []) :
    KDTree.lowerSide primitives depth = [] ↔ KDTree.SameMidpoints primitives depth := by
  have hright : ∀ p ∈ primitives, p ∉ KDTree.lowerSide primitives depth →
      KDTree.splitValue primitives ((depth % 3 : Nat) : Int)
        ≤ Vector3.Get (Primitive.GetMidpoint p) ((depth % 3 : Nat) : Int) := by
    intro p hp hnot
    by_contra hc
    apply hnot
    unfold KDTree.lowerSide
    rw [List.mem_filter]
    refine ⟨hp, ?_⟩
    unfold KDTree.onRightSide
    rw [decide_eq_false hc]
    rfl
  constructor
  · intro hnil
    have hall : ∀ x ∈ primitives.map
        (fun p => Vector3.Get (Primitive.GetMidpoint p) ((depth % 3 : Nat) : Int)),
        KDTree.splitValue primitives ((depth % 3 : Nat) : Int) ≤ x := by
      intro x hx
      obtain ⟨p, hp, rfl⟩ := List.mem_map.mp hx
      apply hright p hp
      rw [hnil]
      exact List.not_mem_nil p
    have heq := KDTree.all_eq_of_sum _ _ hall (KDTree.mean_mul_length primitives _ hne).symm
    intro p hp q hq
    rw [heq _ (List.mem_map_of_mem _ hp), heq _ (List.mem_map_of_mem _ hq)]
  · intro hsame
    obtain ⟨q, hq⟩ := List.exists_mem_of_ne_nil _ (KDTree.upperSide_ne_nil primitives depth hne)
    unfold KDTree.upperSide at hq
    rw [List.mem_filter] at hq
    obtain ⟨hq1, hq2⟩ := hq
    unfold KDTree.onRightSide at hq2
    rw [decide_eq_true_iff] at hq2
    unfold KDTree.lowerSide
    rw [List.filter_eq_nil_iff]
    intro p hp
    unfold KDTree.onRightSide
    rw [hsame p hp q hq1, decide_eq_true hq2]
    simp

omit [LinearOrderedField F] in
/-- Two lists without a common address share no pair. -/
theorem KDTree.sharedCount_disjoint (left right : List (Primitive F))
    (h : ∀ l ∈ left, ∀ r ∈ right, l.addr ≠ r.addr) : KDTree.sharedCount left right = 0 := by
  rw [KDTree.sharedCount_eq]
  unfold KDTree.sharedPairs
  rw [List.length_eq_zero, List.filter_eq_nil_iff]
  rintro ⟨l, r⟩ hmem
  have hm := List.pair_mem_product.mp hmem
  simp only [decide_eq_true_eq]
  exact h l hm.1 r hm.2

/-- With pointer identity, the two vectors of the partition loop share no primitive. -/
theorem KDTree.sides_disjoint (primitives : List (Primitive F)) (depth : Nat)
    (hptr : KDTree.PointerIdentity primitives) :
    KDTree.sharedCount (KDTree.lowerSide primitives depth) (KDTree.upperSide primitives depth)
      = 0 := by
  apply KDTree.sharedCount_disjoint
  intro l hl r hr haddr
  unfold KDTree.lowerSide at hl
  unfold KDTree.upperSide at hr
  rw [List.mem_filter] at hl hr
  have heq := hptr l hl.1 r hr.1 haddr
  have h1 := hl.2
  rw [heq, hr.2] at h1
  cases h1

/-- The test `keepDividing` passes on two non-empty lists that share no pair. -/
theorem KDTree.keepDividing_of_disjoint (left right : List (Primitive F)) (hl : left ≠ [])
    (hr : right ≠ []) (h0 : KDTree.sharedCount left right = 0) :
    KDTree.keepDividing left right = true := by
  unfold KDTree.keepDividing KDTree.STOP_PERCENT
  rw [h0, decide_eq_true_iff]
  have h1 : (0 : F) < (left.length : F) :=
    Nat.cast_pos.mpr (List.length_pos.mpr hl)
  have h2 : (0 : F) < (right.length : F) :=
    Nat.cast_pos.mpr (List.length_pos.mpr hr)
  rw [Nat.cast_zero]
  constructor <;> positivity

/-- A degenerate split, one whose partition loop leaves a side empty, never recurses. -/
theorem KDTree.keepDividing_degenerate (primitives : List (Primitive F)) (depth : Nat)
    (h : KDTree.lowerSide primitives depth = [] ∨ KDTree.upperSide primitives depth = []) :
    KDTree.keepDividing (KDTree.splitSides primitives depth).1
      (KDTree.splitSides primitives depth).2 = false := by
  rw [KDTree.splitSides_sides]
  simp only
  by_cases hl : (KDTree.lowerSide primitives depth).length = 0
  · rw [if_pos hl, ite_self]
    exact KDTree.keepDividing_self _
  · rw [if_neg hl]
    rcases h with h | h
    · rw [h] at hl
      exact absurd rfl hl
    · rw [h]
      simp only [List.length_nil, if_true]
      exact KDTree.keepDividing_self _

/-- When `makeNode` keeps dividing, the two sides are the two vectors of the partition loop,
both non-empty. -/
theorem KDTree.splitSides_proper (primitives : List (Primitive F)) (depth : Nat)
    (hk : KDTree.keepDividing (KDTree.splitSides primitives depth).1
      (KDTree.splitSides primitives depth).2 = true) :
    KDTree.lowerSide primitives depth ≠ [] ∧ KDTree.upperSide primitives depth ≠ []
      ∧ KDTree.splitSides primitives depth
        = (KDTree.lowerSide primitives depth, KDTree.upperSide primitives depth) := by
  have hl : KDTree.lowerSide primitives depth ≠ [] := by
    intro h
    rw [KDTree.keepDividing_degenerate primitives depth (Or.inl h)] at hk
    cases hk
  have hr : KDTree.upperSide primitives depth ≠ [] := by
    intro h
    rw [KDTree.keepDividing_degenerate primitives depth (Or.inr h)] at hk
    cases hk
  refine ⟨hl, hr, ?_⟩
  rw [KDTree.splitSides_sides]
  rw [if_neg (fun h => hl (List.length_eq_zero.mp h)),
    if_neg (fun h => hr (List.length_eq_zero.mp h))]

/-- Claim C31.  `makeNode` returns on every primitive list and every registry, with any
recursion budget of at least the length of the list; whenever it recurses, both lists it
recurses on are strictly shorter than the current list; and a degenerate split, where the
partition loop left one side empty and it was replaced by a copy of the other, never
recurses. -/
theorem KDTree.makeNode_terminates (reg : List (List (Primitive F)))
    (primitives : List (Primitive F)) (depth : Nat) :
    (∃ node reg1, KDTree.makeNode reg primitives depth = .ok (node, reg1))
      ∧ (∀ fuel : Nat, primitives.length ≤ fuel →
          KDTree.makeNodeFuel fuel reg primitives depth = KDTree.makeNode reg primitives depth)
      ∧ (KDTree.keepDividing (KDTree.splitSides primitives depth).1
            (KDTree.splitSides primitives depth).2 = true →
          (KDTree.splitSides primitives depth).1.length < primitives.length
            ∧ (KDTree.splitSides primitives depth).2.length < primitives.length)
      ∧ (KDTree.lowerSide primitives depth = [] ∨ KDTree.upperSide primitives depth = [] →
          KDTree.keepDividing (KDTree.splitSides primitives depth).1
            (KDTree.splitSides primitives depth).2 = false) := by
  refine ⟨?_, fun fuel h => KDTree.makeNodeFuel_fuel fuel reg primitives depth h, ?_,
    KDTree.keepDividing_degenerate primitives depth⟩
  · by_cases hne : primitives = []
    · subst hne
      exact ⟨KDNode.null, reg, rfl⟩
    · obtain ⟨node, reg1, -, e, -⟩ :=
        KDTree.makeNodeFuel_spec primitives.length reg primitives depth hne (le_refl _)
      exact ⟨node, reg1, e⟩
  · intro hk
    obtain ⟨-, -, h1, h2, -⟩ := KDTree.splitSides_spec primitives depth hk
    exact ⟨h1, h2⟩

/-- Claim C37.  In exact arithmetic, for a non-empty list in which a pointer determines its
primitive: the right vector of the partition loop is never empty; the shared count is `0`
whenever the left vector is not empty; and a list of two or more primitives is subdivided
(the node gets two child nodes) exactly when the midpoints along the axis `depth mod 3` are
not all equal, and becomes a leaf holding the whole list exactly when they are all equal. -/
theorem KDTree.makeNode_subdivides (reg : List (List (Primitive F)))
    (primitives : List (Primitive F)) (depth : Nat) (h2 : 2 ≤ primitives.length)
    (hptr : KDTree.PointerIdentity primitives) :
    KDTree.upperSide primitives depth ≠ []
      ∧ (KDTree.lowerSide primitives depth ≠ [] →
          KDTree.sharedCount (KDTree.splitSides primitives depth).1
            (KDTree.splitSides primitives depth).2 = 0)
      ∧ (KDTree.keepDividing (KDTree.splitSides primitives depth).1
            (KDTree.splitSides primitives depth).2 = true
          ↔ ¬ KDTree.SameMidpoints primitives depth)
      ∧ (¬ KDTree.SameMidpoints primitives depth →
          ∃ ll lr lb li rl rr rb ri reg3,
            KDTree.makeNode reg primitives depth
              = .ok (KDNode.node (KDNode.node ll lr lb li) (KDNode.node rl rr rb ri)
                  (BoundingBox.Expand lb rb) reg.length, reg3))
      ∧ (KDTree.SameMidpoints primitives depth →
          ∃ bounds, KDTree.makeNode reg primitives depth
            = .ok (KDNode.node KDNode.null KDNode.null bounds reg.length, reg ++ [primitives]))
      := by
  have hne : primitives ≠ [] := by
    intro h
    rw [h] at h2
    simp at h2
  have hup := KDTree.upperSide_ne_nil primitives depth hne
  have hshared : KDTree.lowerSide primitives depth ≠ [] →
      KDTree.splitSides primitives depth
          = (KDTree.lowerSide primitives depth, KDTree.upperSide primitives depth)
        ∧ KDTree.sharedCount (KDTree.splitSides primitives depth).1
          (KDTree.splitSides primitives depth).2 = 0 := by
    intro hl
    have hs : KDTree.splitSides primitives depth
        = (KDTree.lowerSide primitives depth, KDTree.upperSide primitives depth) := by
      rw [KDTree.splitSides_sides]
      rw [if_neg (fun h => hl (List.length_eq_zero.mp h)),
        if_neg (fun h => hup (List.length_eq_zero.mp h))]
    rw [hs]
    exact ⟨rfl, KDTree.sides_disjoint primitives depth hptr⟩
  have hiff : KDTree.keepDividing (KDTree.splitSides primitives depth).1
        (KDTree.splitSides primitives depth).2 = true
      ↔ ¬ KDTree.SameMidpoints primitives depth := by
    rw [← KDTree.lowerSide_eq_nil_iff primitives depth hne]
    constructor
    · intro hk
      exact (KDTree.splitSides_proper primitives depth hk).1
    · intro hl
      obtain ⟨hs, h0⟩ := hshared hl
      rw [hs] at h0 ⊢
      exact KDTree.keepDividing_of_disjoint _ _ hl hup h0
  refine ⟨hup, fun hl => (hshared hl).2, hiff, ?_, ?_⟩
  · intro hns
    obtain ⟨ll, lr, lb, li, rl, rr, rb, ri, reg2, reg3, -, -, e⟩ :=
      KDTree.makeNode_divide reg primitives depth h2 (hiff.mpr hns)
    exact ⟨ll, lr, lb, li, rl, rr, rb, ri, reg3, e⟩
  · intro hs
    cases primitives with
    | nil => exact absurd rfl hne
    | cons first rest =>
      refine ⟨KDTree.boundsOf first rest, ?_⟩
      apply KDTree.makeNode_stop
      intro hk
      exact hiff.mp hk hs

end Partition

section Leaves

variable {F : Type} [LinearOrderedField F]

/-- The method `makeNode` on a non-empty list, with a budget of at least the length of the
list: every node beneath the result has two non-null children or none, and the primitive
lists of the leaves, concatenated, are a permutation of the list. -/
theorem KDTree.makeNodeFuel_shape (fuel : Nat) :
    ∀ (reg : List (List (Primitive F))) (primitives : List (Primitive F)) (depth : Nat),
      primitives ≠ [] → primitives.length ≤ fuel →
      ∃ node reg1, KDTree.makeNodeFuel fuel reg primitives depth = .ok (node, reg1)
        ∧ node.isNull = false ∧ KDNode.TwoOrNone node
        ∧ (KDNode.leafPrimitives reg1 node).Perm primitives := by
  induction fuel with
  | zero =>
    intro reg primitives depth hne hlen
    cases primitives with
    | nil => exact absurd rfl hne
    | cons first rest => simp at hlen
  | succ fuel ih =>
    intro reg primitives depth hne hlen
    cases primitives with
    | nil => exact absurd rfl hne
    | cons first rest =>
      unfold KDTree.makeNodeFuel
      simp only
      obtain ⟨-, hleaflp⟩ := KDTree.leaf_spec reg first rest
      have hleaf : KDNode.TwoOrNone
          (KDNode.node KDNode.null KDNode.null (KDTree.boundsOf first rest)
            ((reg ++ [first :: rest]).length - 1)) :=
        ⟨Or.inl ⟨rfl, rfl⟩, trivial, trivial⟩
      by_cases h1 : (first :: rest).length = 1
      · rw [if_pos h1]
        refine ⟨_, _, rfl, rfl, hleaf, ?_⟩
        rw [hleaflp]
      · rw [if_neg h1]
        by_cases hk : KDTree.keepDividing (KDTree.splitSides (first :: rest) depth).1
            (KDTree.splitSides (first :: rest) depth).2 = true
        · rw [if_pos hk]
          obtain ⟨hl, hr, hll, hrl, -⟩ := KDTree.splitSides_spec (first :: rest) depth hk
          obtain ⟨-, -, hsides⟩ := KDTree.splitSides_proper (first :: rest) depth hk
          obtain ⟨ln, reg2, e1, hlnn, hlshape, hlperm⟩ :=
            ih (reg ++ [first :: rest]) _ (depth + 1) hl (by omega)
          obtain ⟨rn, reg3, e2, hrnn, hrshape, hrperm⟩ :=
            ih reg2 _ (depth + 1) hr (by omega)
          obtain ⟨ln1, reg21, -, e1s, -, -, hlwf, -⟩ :=
            KDTree.makeNodeFuel_spec fuel (reg ++ [first :: rest]) _ (depth + 1) hl (by omega)
          rw [e1] at e1s
          simp only [Except.ok.injEq, Prod.mk.injEq] at e1s
          obtain ⟨hn1, hr1⟩ := e1s
          subst hn1
          subst hr1
          obtain ⟨rn1, reg31, ext2, e2s, hreg3, -, -, -⟩ :=
            KDTree.makeNodeFuel_spec fuel reg2 _ (depth + 1) hr (by omega)
          rw [e2] at e2s
          simp only [Except.ok.injEq, Prod.mk.injEq] at e2s
          obtain ⟨hn2, hr2⟩ := e2s
          subst hn2
          subst hr2
          rw [e1]
          simp only
          rw [e2]
          simp only
          cases ln with
          | null => cases hlnn
          | node ll lr lb li =>
            cases rn with
            | null => cases hrnn
            | node rl rr rb ri =>
              simp only
              obtain ⟨hl3lp, -⟩ := KDNode.wellFormed_append reg2 ext2 _ hlwf
              rw [← hreg3] at hl3lp
              have hlp : KDNode.leafPrimitives reg3
                  (KDNode.node (KDNode.node ll lr lb li) (KDNode.node rl rr rb ri)
                    (BoundingBox.Expand lb rb) ((reg ++ [first :: rest]).length - 1))
                  = KDNode.leafPrimitives reg3 (KDNode.node ll lr lb li)
                    ++ KDNode.leafPrimitives reg3 (KDNode.node rl rr rb ri) := by
                rw [KDNode.leafPrimitives]
                simp only [KDNode.isNull, Bool.and_self, Bool.false_eq_true, if_false]
              refine ⟨_, reg3, rfl, rfl, ⟨Or.inr ⟨rfl, rfl⟩, hlshape, hrshape⟩, ?_⟩
              rw [hlp, hl3lp]
              refine (List.Perm.append hlperm hrperm).trans ?_
              rw [hsides]
              simp only
              unfold KDTree.lowerSide KDTree.upperSide
              exact (List.perm_append_comm).trans (List.filter_append_perm _ _)
        · rw [if_neg hk]
          refine ⟨_, _, rfl, rfl, hleaf, ?_⟩
          rw [hleaflp]

/-- Claim C32.  On a non-empty list `makeNode` returns, without dereferencing a null child, a
non-null node beneath which every node has either two non-null children or none; whenever it
takes the recursive branch, both recursive calls receive a non-empty list and return a
non-null node. -/
theorem KDTree.makeNode_children (reg : List (List (Primitive F)))
    (primitives : List (Primitive F)) (depth : Nat) (hne : primitives ≠ []) :
    (∃ node reg1, KDTree.makeNode reg primitives depth = .ok (node, reg1)
        ∧ node.isNull = false ∧ KDNode.TwoOrNone node)
      ∧ (2 ≤ primitives.length →
          KDTree.keepDividing (KDTree.splitSides primitives depth).1
            (KDTree.splitSides primitives depth).2 = true →
          (KDTree.splitSides primitives depth).1 ≠ []
            ∧ (KDTree.splitSides primitives depth).2 ≠ []
            ∧ ∃ leftNode rightNode reg2 reg3,
                KDTree.makeNode (reg ++ [primitives]) (KDTree.splitSides primitives depth).1
                    (depth + 1) = .ok (leftNode, reg2)
                  ∧ KDTree.makeNode reg2 (KDTree.splitSides primitives depth).2 (depth + 1)
                    = .ok (rightNode, reg3)
                  ∧ leftNode.isNull = false ∧ rightNode.isNull = false) := by
  constructor
  · obtain ⟨node, reg1, e, hnn, hshape, -⟩ :=
      KDTree.makeNodeFuel_shape primitives.length reg primitives depth hne (le_refl _)
    exact ⟨node, reg1, e, hnn, hshape⟩
  · intro h2 hk
    obtain ⟨hl, hr, -⟩ := KDTree.splitSides_spec primitives depth hk
    obtain ⟨ll, lr, lb, li, rl, rr, rb, ri, reg2, reg3, e1, e2, -⟩ :=
      KDTree.makeNode_divide reg primitives depth h2 hk
    exact ⟨hl, hr, _, _, reg2, reg3, e1, e2, rfl, rfl⟩

/-- The primitives of a leaf on which the shadow loop calls `intersects` are a prefix of the
leaf. -/
theorem KDTree.shadowScanTested_sublist (L : MathFns F)
    (origin direction : Vector3 F) (maxDist : F) (ps : List (Primitive F)) :
    (KDTree.shadowScanTested L origin direction maxDist ps).Sublist ps := by
  induction ps with
  | nil => exact List.Sublist.refl _
  | cons p ps ih =>
    unfold KDTree.shadowScanTested
    split
    · split_ifs
      · exact List.Sublist.cons₂ p (List.nil_sublist _)
      · exact List.Sublist.cons₂ p ih
    · exact List.Sublist.cons₂ p ih

/-- The leaves a traversal reaches are visited in the order of the leaves, each once. -/
theorem KDNode.visitedPrimitives_sublist (reg : List (List (Primitive F)))
    (origin : Vector3 F) (invDirection : Vector3 (FloatValue F)) (node : KDNode F) :
    (KDNode.visitedPrimitives reg origin invDirection node).Sublist
      (KDNode.leafPrimitives reg node) := by
  induction node with
  | null => exact List.Sublist.refl _
  | node left right bounds idx ihl ihr =>
    unfold KDNode.visitedPrimitives KDNode.leafPrimitives
    split_ifs
    · exact List.Sublist.refl _
    · exact List.Sublist.append ihl ihr
    · exact List.nil_sublist _
    · exact List.nil_sublist _

/-- The primitives a shadow traversal tests are met in the order of the leaves, each once. -/
theorem KDNode.shadowTested_sublist (L : MathFns F) (reg : List (List (Primitive F)))
    (origin direction : Vector3 F) (invDirection : Vector3 (FloatValue F)) (maxDist : F)
    (node : KDNode F) :
    (KDNode.shadowTested L reg origin direction invDirection maxDist node).Sublist
      (KDNode.leafPrimitives reg node) := by
  induction node with
  | null => exact List.Sublist.refl _
  | node left right bounds idx ihl ihr =>
    unfold KDNode.shadowTested KDNode.leafPrimitives
    split_ifs
    · exact KDTree.shadowScanTested_sublist L origin direction maxDist _
    · exact List.Sublist.append ihl ihr
    · exact List.nil_sublist _
    · exact List.nil_sublist _

omit [LinearOrderedField F] in
/-- A sublist of a permutation of the list holds no address more often than the list. -/
theorem KDTree.count_le_of_sublist_perm (tested leaves primitives : List (Primitive F))
    (hs : tested.Sublist leaves) (hp : leaves.Perm primitives) (a : Nat) :
    (tested.map Primitive.addr).count a ≤ (primitives.map Primitive.addr).count a := by
  have h1 := List.Sublist.count_le (hs.map Primitive.addr) a
  have h2 := List.Perm.count_eq (hp.map Primitive.addr) a
  omega

/-- Claim C38.  For every non-empty primitive list the constructor returns a tree whose leaf
lists, concatenated, are a permutation of the list.  The primitives a closest-hit traversal
visits and the primitives a shadow traversal tests are sublists of that concatenation, so no
pointer is tested more often in one query than it occurs in the list: at most once when the
pointers of the list are distinct. -/
theorem KDTree.build_partitions (primitives : List (Primitive F)) (hne : primitives ≠ []) :
    ∃ tree : KDTree F, KDTree.build primitives = .ok tree
      ∧ (KDNode.leafPrimitives tree.nodePrimitives tree.root).Perm primitives
      ∧ ∀ (L : MathFns F) (origin direction : Vector3 F) (maxDist : F) (a : Nat),
          ((KDNode.visitedPrimitives tree.nodePrimitives origin
              (KDTree.invDirection direction) tree.root).map Primitive.addr).count a
            ≤ (primitives.map Primitive.addr).count a
          ∧ ((KDTree.shadowTested L tree origin direction maxDist).map Primitive.addr).count a
            ≤ (primitives.map Primitive.addr).count a
          ∧ ((primitives.map Primitive.addr).Nodup →
              ((KDNode.visitedPrimitives tree.nodePrimitives origin
                  (KDTree.invDirection direction) tree.root).map Primitive.addr).count a ≤ 1
              ∧ ((KDTree.shadowTested L tree origin direction maxDist).map
                  Primitive.addr).count a ≤ 1) := by
  obtain ⟨node, reg1, e, -, -, hperm⟩ :=
    KDTree.makeNodeFuel_shape primitives.length [] primitives 0 hne (le_refl _)
  refine ⟨{ root := node, nodePrimitives := reg1 }, ?_, hperm, ?_⟩
  · unfold KDTree.build KDTree.makeNode
    rw [e]
  · intro L origin direction maxDist a
    have h1 := KDTree.count_le_of_sublist_perm _ _ _
      (KDNode.visitedPrimitives_sublist reg1 origin (KDTree.invDirection direction) node)
      hperm a
    have h2 := KDTree.count_le_of_sublist_perm _ _ _
      (KDNode.shadowTested_sublist L reg1 origin direction (KDTree.invDirection direction)
        maxDist node) hperm a
    refine ⟨h1, h2, ?_⟩
    intro hnd
    have h3 := List.nodup_iff_count_le_one.mp hnd a
    exact ⟨le_trans h1 h3, le_trans h2 h3⟩

end Leaves

section LeavesExamples

theorem overlap_pointers : KDTree.PointerIdentity [overlapA, overlapB] := by
  intro p hp q hq h
  simp only [List.mem_cons, List.mem_singleton, List.not_mem_nil, or_false] at hp hq
  rcases hp with rfl | rfl <;> rcases hq with rfl | rfl
  · rfl
  · exact absurd h (by decide)
  · exact absurd h (by decide)
  · rfl

/-- Witness for `KDTree.makeNode_subdivides`: the two overlapping triangles, whose centroids
differ along `x`, are subdivided at depth `0`. -/
theorem KDTree.makeNode_subdivides_witness :
    2 ≤ [overlapA, overlapB].length ∧ KDTree.PointerIdentity [overlapA, overlapB]
      ∧ KDTree.upperSide [overlapA, overlapB] 0 ≠ []
      ∧ (KDTree.keepDividing (KDTree.splitSides [overlapA, overlapB] 0).1
            (KDTree.splitSides [overlapA, overlapB] 0).2 = true
          ↔ ¬ KDTree.SameMidpoints [overlapA, overlapB] 0) :=
  ⟨le_refl _, overlap_pointers,
    (KDTree.makeNode_subdivides [] [overlapA, overlapB] 0 (le_refl _) overlap_pointers).1,
    (KDTree.makeNode_subdivides [] [overlapA, overlapB] 0 (le_refl _) overlap_pointers).2.2.1⟩

/-- Witness for `KDTree.makeNode_children`: the node built from the two overlapping triangles
has two children. -/
theorem KDTree.makeNode_children_witness :
    [overlapA, overlapB] ≠ []
      ∧ ∃ node reg1, KDTree.makeNode [] [overlapA, overlapB] 0 = .ok (node, reg1)
        ∧ node.isNull = false ∧ KDNode.TwoOrNone node :=
  ⟨List.cons_ne_nil _ _,
    (KDTree.makeNode_children [] [overlapA, overlapB] 0 (List.cons_ne_nil _ _)).1⟩

/-- Witness for `KDTree.build_partitions`: the leaves of the tree built from the two
overlapping triangles hold a permutation of the two. -/
theorem KDTree.build_partitions_witness :
    [overlapA, overlapB] ≠ []
      ∧ ∃ tree : KDTree ℚ, KDTree.build [overlapA, overlapB] = .ok tree
        ∧ (KDNode.leafPrimitives tree.nodePrimitives tree.root).Perm [overlapA, overlapB] := by
  obtain ⟨tree, h1, h2, -⟩ :=
    KDTree.build_partitions [overlapA, overlapB] (List.cons_ne_nil _ _)
  exact ⟨List.cons_ne_nil _ _, tree, h1, h2⟩

end LeavesExamples

section InsideStack

variable {F : Type} [LinearOrderedField F]

/-- The value of `traceRay` at a hit without subsurface profile, in terms of its two recursive
calls: the reflection call gets the caller's stack, the refraction call the stack of
`refractionMedia`. -/
theorem Renderer.traceRay_calls (L : MathFns F) (R : Renderer F) (c : Renderer.Call F)
    (outputColor : Vector3 F) (hitData0 : HitData F) (hitObject : Object F)
    (hn : c.numBounces ≤ Renderer.MAX_BOUNCES)
    (hhit : Scene.GetClosestIntersection L R.scene c.origin c.direction
      = .ok (true, some (hitData0, hitObject)))
    (hprofile : (Renderer.applyColorShader hitObject
      (Renderer.orientNormal c.direction c.insideStack hitObject hitData0)).material.bssrdf
        = none) :
    Renderer.traceRay L R c.origin c.direction outputColor c.numBounces c.insideStack
      = Renderer.shadedRadiance L R c.direction
          (Renderer.applyColorShader hitObject
            (Renderer.orientNormal c.direction c.insideStack hitObject hitData0))
          c.numBounces c.insideStack hitObject := by
  rw [Renderer.traceRay]
  rw [dif_neg (not_lt.mpr hn), hhit]
  simp only [hprofile, ne_eq, not_true_eq_false, if_false]
  rw [Renderer.directRadiance_eq]
  unfold Renderer.shadedRadiance Renderer.reflectedRadiance Renderer.transmittedRadiance
    Renderer.refractedRadiance Renderer.MIN_SHININESS Renderer.MIN_TRANSPARENCY
  cases Renderer.lightRadiances L R c.direction
    (Renderer.applyColorShader hitObject
      (Renderer.orientNormal c.direction c.insideStack hitObject hitData0)) R.scene.lights with
  | error e => rfl
  | ok rs => rfl

omit [LinearOrderedField F] in
/-- Pushing an object whose pointer is not on a duplicate-free stack keeps it duplicate-free. -/
theorem Renderer.duplicateFree_push (S : List (Object F)) (o : Object F)
    (hS : Renderer.DuplicateFree S) (h : ∀ x ∈ S, x.addr ≠ o.addr) :
    Renderer.DuplicateFree (S ++ [o]) := by
  unfold Renderer.DuplicateFree at hS ⊢
  rw [List.map_append, List.nodup_append]
  refine ⟨hS, List.nodup_singleton _, ?_⟩
  intro a ha hb
  rw [List.map_singleton, List.mem_singleton] at hb
  obtain ⟨x, hx, rfl⟩ := List.mem_map.mp ha
  exact h x hx hb

omit [LinearOrderedField F] in
/-- Erasing an entry from a duplicate-free stack keeps it duplicate-free. -/
theorem Renderer.duplicateFree_erase (S : List (Object F)) (p : Object F → Bool)
    (hS : Renderer.DuplicateFree S) : Renderer.DuplicateFree (S.eraseP p) := by
  unfold Renderer.DuplicateFree at hS ⊢
  exact List.Nodup.sublist ((List.eraseP_sublist S).map Object.addr) hS

/-- The stack `refractionMedia` hands to the refraction call is duplicate-free when the
caller's stack is. -/
theorem Renderer.refractionMedia_duplicateFree (S : List (Object F)) (o : Object F)
    (hS : Renderer.DuplicateFree S) :
    Renderer.DuplicateFree (Renderer.refractionMedia S o).2.2 := by
  by_cases h : ∃ x ∈ S, x.addr = o.addr
  · rw [Renderer.refractionMedia_exit S o h]
    exact Renderer.duplicateFree_erase S _ hS
  · have h1 : ∀ x ∈ S, x.addr ≠ o.addr := fun x hx hxa => h ⟨x, hx, hxa⟩
    rw [Renderer.refractionMedia_enter S o h1]
    exact Renderer.duplicateFree_push S o hS h1

/-- An entry of `o` directly followed by an exit of `o` gives back the stack from before the
entry. -/
theorem Renderer.refractionMedia_enter_exit (S : List (Object F)) (o : Object F)
    (h : ∀ x ∈ S, x.addr ≠ o.addr) :
    (Renderer.refractionMedia S o).2.2 = S ++ [o]
      ∧ (Renderer.refractionMedia (S ++ [o]) o).2.2 = S := by
  constructor
  · rw [Renderer.refractionMedia_enter S o h]
  · rw [Renderer.refractionMedia_exit (S ++ [o]) o
      ⟨o, List.mem_append_right _ (List.mem_singleton_self o), rfl⟩]
    show (S ++ [o]).eraseP (fun x => decide (x.addr = o.addr)) = S
    rw [List.eraseP_append_right _ (fun b hb => by simpa using h b hb)]
    rw [List.eraseP_cons_of_pos (by simp)]
    exact List.append_nil S

/-- One recursive call keeps the stack duplicate-free and raises `numBounces` by one. -/
theorem Renderer.spawns_step (L : MathFns F) (R : Renderer F) (c c1 : Renderer.Call F)
    (h : Renderer.Spawns L R c c1) (hS : Renderer.DuplicateFree c.insideStack) :
    Renderer.DuplicateFree c1.insideStack ∧ c1.numBounces = c.numBounces + 1 := by
  cases h with
  | reflection hitData0 hitObject hn hhit hprofile hspec => exact ⟨hS, rfl⟩
  | refraction hitData0 hitObject refractDir hn hhit hprofile hk hr =>
    exact ⟨Renderer.refractionMedia_duplicateFree _ _ hS, rfl⟩

/-- Claim C36.  If the stack passed to a call of `traceRay` is duplicate-free, so is the stack
passed to every call reached from it through any number of recursive calls (the reflection
call gets the stack of its caller, the refraction call the stack after the entry/exit
bookkeeping, which is duplicate-free for every hit object); an entry of an object `o` that is
not on the stack pushes it, and the exit of `o` that follows gives back the stack from before
the entry; the empty stack that `ColorPixel` passes is duplicate-free. -/
theorem Renderer.insideStack_duplicateFree (L : MathFns F) (R : Renderer F)
    (c : Renderer.Call F) (hS : Renderer.DuplicateFree c.insideStack) :
    (∀ c1 : Renderer.Call F, Relation.ReflTransGen (Renderer.Spawns L R) c c1 →
        Renderer.DuplicateFree c1.insideStack)
      ∧ (∀ o : Object F, Renderer.DuplicateFree (Renderer.refractionMedia c.insideStack o).2.2)
      ∧ (∀ o : Object F, (∀ x ∈ c.insideStack, x.addr ≠ o.addr) →
          (Renderer.refractionMedia c.insideStack o).2.2 = c.insideStack ++ [o]
            ∧ (Renderer.refractionMedia (c.insideStack ++ [o]) o).2.2 = c.insideStack)
      ∧ Renderer.DuplicateFree ([] : List (Object F)) := by
  refine ⟨?_, fun o => Renderer.refractionMedia_duplicateFree _ o hS,
    fun o h => Renderer.refractionMedia_enter_exit _ o h, List.nodup_nil⟩
  intro c1 hreach
  induction hreach with
  | refl => exact hS
  | tail _ hstep ih => exact (Renderer.spawns_step L R _ _ hstep ih).1

end InsideStack

section InsideStackExamples

/-- Witness for `Renderer.insideStack_duplicateFree`: a call with the stack `[object 1]`; the
object at address 2 enters and leaves. -/
theorem Renderer.insideStack_duplicateFree_witness :
    Renderer.DuplicateFree [plainObject 1]
      ∧ Renderer.DuplicateFree (Renderer.refractionMedia [plainObject 1] (plainObject 2)).2.2
      ∧ (Renderer.refractionMedia [plainObject 1] (plainObject 2)).2.2
          = [plainObject 1] ++ [plainObject 2]
      ∧ (Renderer.refractionMedia ([plainObject 1] ++ [plainObject 2]) (plainObject 2)).2.2
          = [plainObject 1] := by
  have hS : Renderer.DuplicateFree [plainObject 1] := by
    unfold Renderer.DuplicateFree
    exact List.nodup_singleton _
  have h := Renderer.insideStack_duplicateFree exactFns paneRenderer
    { origin := ⟨1, 1, 1⟩, direction := ⟨-1 / 8, -1 / 8, -1⟩, numBounces := 0
      insideStack := [plainObject 1] } hS
  have hne : ∀ x ∈ [plainObject 1], x.addr ≠ (plainObject 2).addr := by
    intro x hx
    rw [List.mem_singleton] at hx
    subst hx
    show (1 : Nat) ≠ 2
    decide
  exact ⟨hS, h.2.1 (plainObject 2), (h.2.2.1 (plainObject 2) hne).1,
    (h.2.2.1 (plainObject 2) hne).2⟩

end InsideStackExamples

section Tiles

/-- The inner tile loop from `y`, a multiple of the tile size, with enough budget: it returns
tiles of the column `x` that lie inside the image, and a pixel row `j` is covered by exactly
one of them if `y <= j`, by none otherwise. -/
theorem mainTileColumn_spec (W H TS x : Nat) (hTS : 0 < TS) (hx : x + TS ≤ INT_MAX)
    (hy : ∀ y, y < H → TS ∣ y → y + TS ≤ INT_MAX) :
    ∀ fuel y : Nat, TS ∣ y → H ≤ y + fuel →
      ∃ column, mainTileColumn W H TS x fuel y = .ok column
        ∧ (∀ t ∈ column, t.min_x = x ∧ t.max_x = min (x + TS) W ∧ t.min_y < t.max_y
            ∧ t.max_y ≤ H)
        ∧ ∀ i j : Nat, j < H →
            (column.filter (fun t => t.covers i j)).length
              = if x ≤ i ∧ i < min (x + TS) W ∧ y ≤ j then 1 else 0 := by
  intro fuel
  induction fuel with
  | zero =>
    intro y _ hfuel
    refine ⟨[], ?_, ?_, ?_⟩
    · unfold mainTileColumn
      rw [if_neg (by omega)]
    · intro t ht
      cases ht
    · intro i j hj
      rw [if_neg (by omega)]
      rfl
  | succ fuel ih =>
    intro y hdvd hfuel
    by_cases hyH : y < H
    · have hov : ¬ (x + TS > INT_MAX ∨ y + TS > INT_MAX) := by
        have := hy y hyH hdvd
        omega
      obtain ⟨rest, hrest, hmem, hcount⟩ := ih (y + TS) (Dvd.dvd.add hdvd (dvd_refl TS))
        (by omega)
      refine ⟨(⟨x, min (x + TS) W, y, min (y + TS) H⟩ : Tile) :: rest, ?_, ?_, ?_⟩
      · unfold mainTileColumn
        rw [if_pos hyH, if_neg hov, hrest]
      · intro t ht
        rcases List.mem_cons.mp ht with rfl | ht
        · refine ⟨rfl, rfl, ?_, ?_⟩
          · show y < min (y + TS) H
            exact lt_min (by omega) hyH
          · exact min_le_right _ _
        · exact hmem t ht
      · intro i j hj
        rw [List.filter_cons]
        have hcov : (Tile.covers (⟨x, min (x + TS) W, y,
            min (y + TS) H⟩ : Tile) i j = true)
            ↔ (x ≤ i ∧ i < min (x + TS) W ∧ y ≤ j ∧ j < min (y + TS) H) := by
          unfold Tile.covers
          rw [decide_eq_true_iff]
        by_cases hc : Tile.covers (⟨x, min (x + TS) W, y,
            min (y + TS) H⟩ : Tile) i j = true
        · rw [if_pos hc, List.length_cons, hcount i j hj]
          obtain ⟨c1, c2, c3, c4⟩ := hcov.mp hc
          have c5 : j < y + TS := lt_of_lt_of_le c4 (min_le_left _ _)
          rw [if_neg (by omega), if_pos ⟨c1, c2, c3⟩]
        · rw [if_neg hc, hcount i j hj]
          by_cases hin : x ≤ i ∧ i < min (x + TS) W ∧ y ≤ j
          · rw [if_pos hin]
            have hnot : ¬ j < min (y + TS) H := fun h4 =>
              hc (hcov.mpr ⟨hin.1, hin.2.1, hin.2.2, h4⟩)
            have h5 : y + TS ≤ j := by
              rcases le_total (y + TS) H with hm | hm
              · rw [min_eq_left hm] at hnot
                omega
              · rw [min_eq_right hm] at hnot
                omega
            rw [if_pos ⟨hin.1, hin.2.1, h5⟩]
          · rw [if_neg hin, if_neg (by
              intro h
              exact hin ⟨h.1, h.2.1, by omega⟩)]
    · refine ⟨[], ?_, ?_, ?_⟩
      · unfold mainTileColumn
        rw [if_neg hyH]
      · intro t ht
        cases ht
      · intro i j hj
        rw [if_neg (by omega)]
        rfl

/-- The outer tile loop from `x`, a multiple of the tile size, with enough budget: it returns
tiles that lie inside the image, and a pixel `(i, j)` of the image is covered by exactly one
of them if `x <= i`, by none otherwise. -/
theorem mainTileRows_spec (W H TS : Nat) (hTS : 0 < TS)
    (hx : ∀ x, x < W → TS ∣ x → x + TS ≤ INT_MAX)
    (hy : ∀ y, y < H → TS ∣ y → y + TS ≤ INT_MAX) :
    ∀ fuel x : Nat, TS ∣ x → W ≤ x + fuel →
      ∃ tiles, mainTileRows W H TS fuel x = .ok tiles
        ∧ (∀ t ∈ tiles, t.min_x < t.max_x ∧ t.max_x ≤ W ∧ t.min_y < t.max_y ∧ t.max_y ≤ H)
        ∧ ∀ i j : Nat, i < W → j < H →
            (tiles.filter (fun t => t.covers i j)).length = if x ≤ i then 1 else 0 := by
  intro fuel
  induction fuel with
  | zero =>
    intro x _ hfuel
    refine ⟨[], ?_, ?_, ?_⟩
    · unfold mainTileRows
      rw [if_neg (by omega)]
    · intro t ht
      cases ht
    · intro i j hi hj
      rw [if_neg (by omega)]
      rfl
  | succ fuel ih =>
    intro x hdvd hfuel
    by_cases hxW : x < W
    · have hov := hx x hxW hdvd
      obtain ⟨column, hcol, hcmem, hccount⟩ :=
        mainTileColumn_spec W H TS x hTS hov hy H 0 (dvd_zero TS) (by omega)
      obtain ⟨rest, hrest, hmem, hcount⟩ := ih (x + TS) (Dvd.dvd.add hdvd (dvd_refl TS))
        (by omega)
      refine ⟨column ++ rest, ?_, ?_, ?_⟩
      · unfold mainTileRows
        rw [if_pos hxW, hcol]
        simp only
        rw [if_neg (by omega), hrest]
      · intro t ht
        rcases List.mem_append.mp ht with ht | ht
        · obtain ⟨m1, m2, m3, m4⟩ := hcmem t ht
          refine ⟨?_, ?_, m3, m4⟩
          · rw [m1, m2]
            exact lt_min (by omega) hxW
          · rw [m2]
            exact min_le_right _ _
        · exact hmem t ht
      · intro i j hi hj
        rw [List.filter_append, List.length_append, hccount i j hj, hcount i j hi hj]
        by_cases h1 : x ≤ i
        · by_cases h2 : x + TS ≤ i
          · have h3 : ¬ i < min (x + TS) W := by
              intro h
              have := lt_of_lt_of_le h (min_le_left _ _)
              omega
            rw [if_neg (fun h => h3 h.2.1), if_pos h2, if_pos h1]
          · have h3 : i < min (x + TS) W := lt_min (by omega) hi
            rw [if_pos ⟨h1, h3, Nat.zero_le j⟩, if_neg h2, if_pos h1]
        · rw [if_neg (fun h => h1 h.1), if_neg (by omega), if_neg h1]
    · refine ⟨[], ?_, ?_, ?_⟩
      · unfold mainTileRows
        rw [if_neg hxW]
      · intro t ht
        cases ht
      · intro i j hi hj
        rw [if_neg (by omega)]
        rfl

/-- A loop variable that is a positive multiple of the step and below the extent stays far
from `INT_MAX` when three times the extent fits. -/
theorem main_step_fits (E TS v : Nat) (hTS : TS ≤ INT_MAX) (hE : E * 3 ≤ INT_MAX)
    (hv : v < E) (hdvd : TS ∣ v) : v + TS ≤ INT_MAX := by
  rcases Nat.eq_zero_or_pos v with h0 | hpos
  · omega
  · have := Nat.le_of_dvd hpos hdvd
    omega

/-- Claim C35, amended.  For positive `int` values of the image width, the image height and
the tile size such that `width * height * 3` fits the type `int`: the two loops of `main`
return a tile vector without overflow; every pixel `(i, j)` of the image lies in the range of
exactly one tile; every tile is non-empty and lies inside the image; the frame buffer is
allocated with `width * height * 3` bytes, and every byte index `(j * width + i) * 3 + c`,
`c < 3`, that `renderTile` writes for a pixel of a tile is below that size. -/
theorem mainTiles_partition (W H TS : Nat) (hW : 0 < W) (hH : 0 < H) (hTS : 0 < TS)
    (hTSint : TS ≤ INT_MAX) (hsize : W * H * 3 ≤ INT_MAX) :
    ∃ tiles, mainTiles W H TS = .ok tiles
      ∧ (∀ i j : Nat, i < W → j < H →
          (tiles.filter (fun t => t.covers i j)).length = 1)
      ∧ (∀ t ∈ tiles, t.min_x < t.max_x ∧ t.max_x ≤ W ∧ t.min_y < t.max_y ∧ t.max_y ≤ H)
      ∧ FrameBuffer.new W H = .ok (W * H * 3)
      ∧ ∀ t ∈ tiles, ∀ i j c : Nat, t.covers i j = true → c < 3 →
          FrameBuffer.getPixelPtr W i j + c < W * H * 3 := by
  have hW3 : W * 3 ≤ INT_MAX := by
    have h1 : W * 1 ≤ W * H := Nat.mul_le_mul_left W hH
    omega
  have hH3 : H * 3 ≤ INT_MAX := by
    have h1 : 1 * H ≤ W * H := Nat.mul_le_mul_right H hW
    omega
  obtain ⟨tiles, htiles, hmem, hcount⟩ := mainTileRows_spec W H TS hTS
    (fun x hx hd => main_step_fits W TS x hTSint hW3 hx hd)
    (fun y hy hd => main_step_fits H TS y hTSint hH3 hy hd) W 0 (dvd_zero TS) (by omega)
  refine ⟨tiles, htiles, ?_, hmem, ?_, ?_⟩
  · intro i j hi hj
    rw [hcount i j hi hj, if_pos (Nat.zero_le i)]
  · unfold FrameBuffer.new
    rw [if_neg]
    intro h
    rcases h with h | h
    · have : W * H ≤ W * H * 3 := Nat.le_mul_of_pos_right _ (by norm_num)
      omega
    · omega
  · intro t ht i j c hcov hc
    obtain ⟨m1, m2, m3, m4⟩ := hmem t ht
    unfold Tile.covers at hcov
    rw [decide_eq_true_iff] at hcov
    obtain ⟨c1, c2, c3, c4⟩ := hcov
    have hi : i < W := lt_of_lt_of_le c2 m2
    have hj : j + 1 ≤ H := lt_of_lt_of_le c4 m4
    have h1 : (j + 1) * W ≤ H * W := Nat.mul_le_mul_right W hj
    rw [Nat.add_mul, Nat.one_mul, Nat.mul_comm H W] at h1
    unfold FrameBuffer.getPixelPtr
    omega

end Tiles

section TilesExamples

/-- Witness for `mainTiles_partition`: an image of `800 x 800` pixels in tiles of `32`, the
values of `main.cpp`. -/
theorem mainTiles_partition_witness :
    0 < 800 ∧ 0 < 32 ∧ 32 ≤ INT_MAX ∧ 800 * 800 * 3 ≤ INT_MAX
      ∧ ∃ tiles, mainTiles 800 800 32 = .ok tiles
        ∧ (∀ i j : Nat, i < 800 → j < 800 →
            (tiles.filter (fun t => t.covers i j)).length = 1)
        ∧ FrameBuffer.new 800 800 = .ok (800 * 800 * 3) := by
  have h1 : 32 ≤ INT_MAX := by
    unfold INT_MAX
    norm_num
  have h2 : 800 * 800 * 3 ≤ INT_MAX := by
    unfold INT_MAX
    norm_num
  obtain ⟨tiles, e, hc, -, hf, -⟩ :=
    mainTiles_partition 800 800 32 (by norm_num) (by norm_num) (by norm_num) h1 h2
  exact ⟨by norm_num, by norm_num, h1, h2, tiles, e, hc, hf⟩

/-- Counterexample for C35 as stated: for the positive sizes `32768 x 32768` the expression
`width * height * 3` of the frame buffer constructor is `3 * 2^30`, above `INT_MAX`; the
buffer size overflows, and so does the byte index of the last pixel. -/
theorem FrameBuffer.new_overflow :
    0 < 32768 ∧ FrameBuffer.new 32768 32768 = .error TileFault.signedOverflow
      ∧ INT_MAX < FrameBuffer.getPixelPtr 32768 32767 32767 := by
  refine ⟨by norm_num, ?_, ?_⟩
  · unfold FrameBuffer.new INT_MAX
    rw [if_pos (by norm_num)]
  · unfold FrameBuffer.getPixelPtr INT_MAX
    norm_num

end TilesExamples

section DiffusionMass

/-- The mass of the kernel `c exp(-s (x^2 + y^2))` over the disk of radius `r` around the
origin of the plane is `c π / s (1 - exp(-s r^2))`, by polar coordinates. -/
theorem disk_mass (s c r : ℝ) (hs : 0 < s) (hr : 0 ≤ r) :
    (∫ p in {p : ℝ × ℝ | p.1 * p.1 + p.2 * p.2 ≤ r * r},
        c * Real.exp (-s * (p.1 * p.1 + p.2 * p.2)))
      = c * Real.pi / s * (1 - Real.exp (-s * (r * r))) := by
  have hmeas : MeasurableSet {p : ℝ × ℝ | p.1 * p.1 + p.2 * p.2 ≤ r * r} :=
    measurableSet_le (by fun_prop) (by fun_prop)
  rw [← MeasureTheory.integral_indicator hmeas, ← integral_comp_polarCoord_symm]
  have key : Set.EqOn
      (fun p : ℝ × ℝ => p.1 • Set.indicator {p : ℝ × ℝ | p.1 * p.1 + p.2 * p.2 ≤ r * r}
        (fun p => c * Real.exp (-s * (p.1 * p.1 + p.2 * p.2))) (polarCoord.symm p))
      (fun p : ℝ × ℝ => Set.indicator (Set.Iic r)
        (fun ρ => ρ * (c * Real.exp (-s * (ρ * ρ)))) p.1 * (fun _ => (1 : ℝ)) p.2)
      polarCoord.target := by
    intro p hp
    have hp1 : 0 < p.1 := hp.1
    have hsq : p.1 * Real.cos p.2 * (p.1 * Real.cos p.2)
        + p.1 * Real.sin p.2 * (p.1 * Real.sin p.2) = p.1 * p.1 := by
      have := Real.cos_sq_add_sin_sq p.2
      linear_combination (p.1 * p.1) * this
    simp only [polarCoord_symm_apply, smul_eq_mul, mul_one]
    by_cases h : p.1 ≤ r
    · rw [Set.indicator_of_mem, Set.indicator_of_mem, hsq]
      · exact h
      · rw [Set.mem_setOf_eq, hsq]
        exact mul_le_mul h h hp1.le hr
    · rw [Set.indicator_of_not_mem, Set.indicator_of_not_mem, mul_zero]
      · exact h
      · rw [Set.mem_setOf_eq, hsq]
        push_neg at h ⊢
        exact mul_self_lt_mul_self hr h
  rw [MeasureTheory.setIntegral_congr_fun polarCoord.open_target.measurableSet key,
    polarCoord_target, MeasureTheory.Measure.volume_eq_prod]
  refine (MeasureTheory.setIntegral_prod_mul (Set.indicator (Set.Iic r)
    (fun ρ => ρ * (c * Real.exp (-s * (ρ * ρ))))) (fun _ => (1 : ℝ)) (Set.Ioi (0 : ℝ))
    (Set.Ioo (-Real.pi) Real.pi)).trans ?_
  have h1 : (∫ _ in Set.Ioo (-Real.pi) Real.pi, (1 : ℝ)) = 2 * Real.pi := by
    rw [MeasureTheory.setIntegral_const, Real.volume_Ioo,
      ENNReal.toReal_ofReal (by linarith [Real.pi_pos]), smul_eq_mul]
    ring
  have h2 : (∫ ρ in Set.Ioi (0 : ℝ), Set.indicator (Set.Iic r)
      (fun ρ => ρ * (c * Real.exp (-s * (ρ * ρ)))) ρ)
      = c / (2 * s) * (1 - Real.exp (-s * (r * r))) := by
    rw [MeasureTheory.setIntegral_indicator measurableSet_Iic, Set.Ioi_inter_Iic,
      ← intervalIntegral.integral_of_le hr]
    have hd : ∀ x ∈ Set.uIcc 0 r, HasDerivAt (fun ρ => -c / (2 * s) * Real.exp (-s * (ρ * ρ)))
        (x * (c * Real.exp (-s * (x * x)))) x := by
      intro x _
      have h := (((hasDerivAt_id x).mul (hasDerivAt_id x)).const_mul (-s)).exp.const_mul
        (-c / (2 * s))
      convert h using 1
      simp only [id]
      field_simp
      ring
    rw [intervalIntegral.integral_eq_sub_of_hasDerivAt hd]
    · simp only [mul_zero, Real.exp_zero]
      ring
    · apply Continuous.intervalIntegrable
      fun_prop
  rw [h1, h2]
  field_simp
  ring

/-- The sampling of the diffusion disk and its density for a profile with positive `sigmaTr`
luminance and positive `Rmax`, over the reals. -/
theorem BSSRDF.diffusion_mass (L : MathFns ℝ) (E : ExpFns ℝ) (b : BSSRDF ℝ)
    (hS : MathFns.ExactSqrt L) (hexp : ∀ x, E.exp x = Real.exp x)
    (hlog : ∀ x, E.log x = Real.log x) (hpi : L.pi = Real.pi)
    (hs : 0 < Vector3.Luminance b.sigmaTr) (hR : 0 < b.Rmax) :
    (∀ u1 u2 : ℝ, 0 ≤ u2 → u2 ≤ 1 → ∃ r : ℝ, 0 ≤ r
        ∧ BSSRDF.ImportanceSampleDiffusion L E b u1 u2
            = ⟨r * E.cos (2 * L.pi * u1), r * E.sin (2 * L.pi * u1), 0⟩
        ∧ (1 - E.exp (-Vector3.Luminance b.sigmaTr * (r * r)))
            / (1 - E.exp (-Vector3.Luminance b.sigmaTr * (b.Rmax * b.Rmax))) = u2
        ∧ (∫ p in {p : ℝ × ℝ | p.1 * p.1 + p.2 * p.2 ≤ r * r},
            BSSRDF.SampleDiffusionPDF L E b p.1 p.2) = u2)
      ∧ (∫ p in {p : ℝ × ℝ | p.1 * p.1 + p.2 * p.2 ≤ b.Rmax * b.Rmax},
          BSSRDF.SampleDiffusionPDF L E b p.1 p.2) = 1 := by
  have hpdf : ∀ x y : ℝ, BSSRDF.SampleDiffusionPDF L E b x y
      = (1 / Real.pi * Vector3.Luminance b.sigmaTr
          / (1 - Real.exp (-Vector3.Luminance b.sigmaTr * (b.Rmax * b.Rmax))))
        * Real.exp (-Vector3.Luminance b.sigmaTr * (x * x + y * y)) := by
    intro x y
    simp only [BSSRDF.SampleDiffusionPDF, hexp, hpi]
    rw [mul_assoc (-Vector3.Luminance b.sigmaTr) b.Rmax b.Rmax]
    ring
  have hsample : ∀ u1 u2 : ℝ, BSSRDF.ImportanceSampleDiffusion L E b u1 u2
      = ⟨L.sqrt (Real.log (1 - u2 * (1 - Real.exp (-Vector3.Luminance b.sigmaTr
              * (b.Rmax * b.Rmax)))) / -Vector3.Luminance b.sigmaTr) * E.cos (2 * L.pi * u1),
          L.sqrt (Real.log (1 - u2 * (1 - Real.exp (-Vector3.Luminance b.sigmaTr
              * (b.Rmax * b.Rmax)))) / -Vector3.Luminance b.sigmaTr) * E.sin (2 * L.pi * u1),
          0⟩ := by
    intro u1 u2
    simp only [BSSRDF.ImportanceSampleDiffusion, hexp, hlog]
    rw [mul_assoc (-Vector3.Luminance b.sigmaTr) b.Rmax b.Rmax]
  simp only [hpdf, hexp]
  generalize Vector3.Luminance b.sigmaTr = s at hs hsample ⊢
  generalize b.Rmax = R at hR hsample ⊢
  have hea : Real.exp (-s * (R * R)) < 1 := by
    have hneg : -s * (R * R) < 0 := by
      have := mul_pos hs (mul_pos hR hR)
      linarith
    have := Real.exp_lt_exp.mpr hneg
    rwa [Real.exp_zero] at this
  have hep : 0 < Real.exp (-s * (R * R)) := Real.exp_pos _
  have hD : 0 < 1 - Real.exp (-s * (R * R)) := by linarith
  have hne : 1 - Real.exp (-s * (R * R)) ≠ 0 := ne_of_gt hD
  have hsne : s ≠ 0 := ne_of_gt hs
  have hmass : ∀ v : ℝ, 1 / Real.pi * s / (1 - Real.exp (-s * (R * R))) * Real.pi / s
      * (1 - v) = (1 - v) / (1 - Real.exp (-s * (R * R))) := by
    intro v
    have hpi0 := Real.pi_ne_zero
    generalize Real.exp (-s * (R * R)) = e at hne ⊢
    field_simp
    ring
  refine ⟨?_, ?_⟩
  · intro u1 u2 h0 h1
    have harg : 0 < 1 - u2 * (1 - Real.exp (-s * (R * R))) := by nlinarith
    have harg1 : 1 - u2 * (1 - Real.exp (-s * (R * R))) ≤ 1 := by nlinarith
    have hlog0 := Real.log_nonpos (le_of_lt harg) harg1
    have hq : 0 ≤ Real.log (1 - u2 * (1 - Real.exp (-s * (R * R)))) / -s :=
      div_nonneg_of_nonpos hlog0 (by linarith)
    obtain ⟨hr0, hrr⟩ := hS _ hq
    have hexpr : Real.exp (-s * (L.sqrt (Real.log (1 - u2 * (1 - Real.exp (-s * (R * R)))) / -s)
        * L.sqrt (Real.log (1 - u2 * (1 - Real.exp (-s * (R * R)))) / -s)))
        = 1 - u2 * (1 - Real.exp (-s * (R * R))) := by
      rw [hrr]
      have : -s * (Real.log (1 - u2 * (1 - Real.exp (-s * (R * R)))) / -s)
          = Real.log (1 - u2 * (1 - Real.exp (-s * (R * R)))) := by
        field_simp
      rw [this, Real.exp_log harg]
    have hratio : (1 - (1 - u2 * (1 - Real.exp (-s * (R * R)))))
        / (1 - Real.exp (-s * (R * R))) = u2 := by
      rw [sub_sub_cancel]
      exact mul_div_cancel_right₀ u2 hne
    refine ⟨_, hr0, hsample u1 u2, ?_, ?_⟩
    · rw [hexpr]
      exact hratio
    · rw [disk_mass s _ _ hs hr0, hexpr, hmass]
      exact hratio
  · rw [disk_mass s _ R hs (le_of_lt hR), hmass]
    exact div_self hne

/-- Claim C34.  Over the reals, with `exp`, `log` the real exponential and logarithm, `M_PI`
the number `π` and `sqrt` exact, for a profile built by the constructor whose `sigmaTr`
luminance `s` is positive: for every `u1` and every `u2` in `[0, 1]` the point
`ImportanceSampleDiffusion(u1, u2)` is `(r cos θ, r sin θ, 0)` for a radius `r >= 0` with
`(1 - exp(-s r^2)) / (1 - exp(-s Rmax^2)) = u2`, and `u2` is the integral of
`SampleDiffusionPDF` over the disk of radius `r`; the integral of `SampleDiffusionPDF` over the
disk of radius `Rmax` is `1`. -/
theorem BSSRDF.SampleDiffusionPDF_mass (L : MathFns ℝ) (E : ExpFns ℝ)
    (sigmaA sigmaSPrime : Vector3 ℝ) (g eta : ℝ) (hS : MathFns.ExactSqrt L)
    (hexp : ∀ x, E.exp x = Real.exp x) (hlog : ∀ x, E.log x = Real.log x)
    (hpi : L.pi = Real.pi)
    (hs : 0 < Vector3.Luminance (BSSRDF.new L E sigmaA sigmaSPrime g eta).sigmaTr) :
    (∀ u1 u2 : ℝ, 0 ≤ u2 → u2 ≤ 1 → ∃ r : ℝ, 0 ≤ r
        ∧ BSSRDF.ImportanceSampleDiffusion L E (BSSRDF.new L E sigmaA sigmaSPrime g eta) u1 u2
            = ⟨r * E.cos (2 * L.pi * u1), r * E.sin (2 * L.pi * u1), 0⟩
        ∧ (1 - E.exp (-Vector3.Luminance (BSSRDF.new L E sigmaA sigmaSPrime g eta).sigmaTr
                * (r * r)))
            / (1 - E.exp (-Vector3.Luminance (BSSRDF.new L E sigmaA sigmaSPrime g eta).sigmaTr
                * ((BSSRDF.new L E sigmaA sigmaSPrime g eta).Rmax
                  * (BSSRDF.new L E sigmaA sigmaSPrime g eta).Rmax))) = u2
        ∧ (∫ p in {p : ℝ × ℝ | p.1 * p.1 + p.2 * p.2 ≤ r * r},
            BSSRDF.SampleDiffusionPDF L E (BSSRDF.new L E sigmaA sigmaSPrime g eta) p.1 p.2)
          = u2)
      ∧ (∫ p in {p : ℝ × ℝ | p.1 * p.1 + p.2 * p.2
            ≤ (BSSRDF.new L E sigmaA sigmaSPrime g eta).Rmax
              * (BSSRDF.new L E sigmaA sigmaSPrime g eta).Rmax},
          BSSRDF.SampleDiffusionPDF L E (BSSRDF.new L E sigmaA sigmaSPrime g eta) p.1 p.2)
        = 1 := by
  have hE : ExpFns.ExactExp E := by
    refine ⟨fun x y => ?_, fun x => ?_⟩
    · rw [hexp, hexp, hexp]
      exact Real.exp_add x y
    · rw [hexp]
      linarith [Real.add_one_le_exp x]
  have hL : ExpFns.ExactLog E := by
    intro x hx
    rw [hexp, hlog]
    exact Real.exp_log hx
  have hR : 0 < (BSSRDF.new L E sigmaA sigmaSPrime g eta).Rmax :=
    (BSSRDF.Rmax_spec L E hS hE hL _ hs).1
  exact BSSRDF.diffusion_mass L E _ hS hexp hlog hpi hs hR

end DiffusionMass

section DiffusionMassExamples

/-- Over the reals the library functions of the density claims exist: the real square root,
exponential and logarithm, and the number `π`. -/
theorem MathFns.real_library :
    ∃ (L : MathFns ℝ) (E : ExpFns ℝ), MathFns.ExactSqrt L ∧ (∀ x, E.exp x = Real.exp x)
      ∧ (∀ x, E.log x = Real.log x) ∧ L.pi = Real.pi :=
  ⟨{ sqrt := Real.sqrt, atan2 := fun _ _ => 0, asin := Real.arcsin,
      pow := fun x y => Real.rpow x y, pi := Real.pi },
    { exp := Real.exp, log := Real.log, cos := Real.cos, sin := Real.sin },
    fun x hx => ⟨Real.sqrt_nonneg x, Real.mul_self_sqrt hx⟩, fun _ => rfl, fun _ => rfl, rfl⟩

/-- Witness for `BSSRDF.SampleDiffusionPDF_mass`: the profile of the coefficients `(1,1,1)`
and `(1,1,1)` with `g = 0`, `eta = 13/10` over the reals, at `u1 = 1/4` and `u2 = 1/2`. -/
theorem BSSRDF.SampleDiffusionPDF_mass_witness :
    ∃ (L : MathFns ℝ) (E : ExpFns ℝ), MathFns.ExactSqrt L ∧ (∀ x, E.exp x = Real.exp x)
      ∧ (∀ x, E.log x = Real.log x) ∧ L.pi = Real.pi
      ∧ 0 < Vector3.Luminance (BSSRDF.new L E ⟨1, 1, 1⟩ ⟨1, 1, 1⟩ 0 (13 / 10)).sigmaTr
      ∧ (0 : ℝ) ≤ 1 / 2 ∧ (1 / 2 : ℝ) ≤ 1
      ∧ (∃ r : ℝ, 0 ≤ r
        ∧ (∫ p in {p : ℝ × ℝ | p.1 * p.1 + p.2 * p.2 ≤ r * r},
            BSSRDF.SampleDiffusionPDF L E (BSSRDF.new L E ⟨1, 1, 1⟩ ⟨1, 1, 1⟩ 0 (13 / 10))
              p.1 p.2) = 1 / 2)
      ∧ (∫ p in {p : ℝ × ℝ | p.1 * p.1 + p.2 * p.2
            ≤ (BSSRDF.new L E ⟨1, 1, 1⟩ ⟨1, 1, 1⟩ 0 (13 / 10)).Rmax
              * (BSSRDF.new L E ⟨1, 1, 1⟩ ⟨1, 1, 1⟩ 0 (13 / 10)).Rmax},
          BSSRDF.SampleDiffusionPDF L E (BSSRDF.new L E ⟨1, 1, 1⟩ ⟨1, 1, 1⟩ 0 (13 / 10))
            p.1 p.2) = 1 := by
  obtain ⟨L, E, hS, hexp, hlog, hpi⟩ := MathFns.real_library
  have hp : Vector3.Positive (⟨1, 1, 1⟩ : Vector3 ℝ) := ⟨one_pos, one_pos, one_pos⟩
  have hs := Vector3.Luminance_pos _
    (BSSRDF.new_sigmaTr_pos L E hS ⟨1, 1, 1⟩ ⟨1, 1, 1⟩ 0 (13 / 10) hp hp)
  obtain ⟨h1, h2⟩ := BSSRDF.SampleDiffusionPDF_mass L E ⟨1, 1, 1⟩ ⟨1, 1, 1⟩ 0 (13 / 10) hS
    hexp hlog hpi hs
  obtain ⟨r, hr0, -, -, hr⟩ := h1 (1 / 4) (1 / 2) (by norm_num) (by norm_num)
  exact ⟨L, E, hS, hexp, hlog, hpi, hs, by norm_num, by norm_num, ⟨r, hr0, hr⟩, h2⟩

end DiffusionMassExamples

section EmptyTreeExamples

/-- The tree of `loneScene` is the one the constructor builds from its primitive list. -/
theorem loneScene_tree : KDTree.build loneScene.primitives = .ok loneScene.kdtree := by
  show KDTree.build [dimPane] = _
  unfold KDTree.build KDTree.makeNode
  simp only [List.length_cons, List.length_nil]
  unfold KDTree.makeNodeFuel
  rfl

/-- The scene after `RemoveObject(0)` on `loneScene` has no primitive left: the empty tree
arises from a scene whose only object is removed. -/
theorem Scene.RemoveObject_last :
    ∃ after : Scene ℚ, Scene.RemoveObject loneScene 0 = .ok after ∧ after.primitives = [] :=
  ⟨{ primitives := [], lights := [], kdtree := { root := KDNode.null, nodePrimitives := [] }
     objects := [] }, rfl, rfl⟩

end EmptyTreeExamples

end RayTracer
